import Mathlib

/-!
# Eulerian fluid simulator: the grid solver of `fluid_sim.cpp`

A shallow embedding of the class `Fluid` (`src/fluid_sim.cpp`, lines 24-287) and
theorems about it.

Conventions of the embedding.

* `float` values are exact rationals (`ℚ`); the literals `0.9f`, `0.998f`,
  `0.08f`, `1.5f`, `0.25f`, `0.5f` are the rationals `9/10`, `499/500`, `2/25`,
  `3/2`, `1/4`, `1/2`.
* `int` values are unbounded integers (`Int`); grid sizes are far below `2^31`.
* A `std::vector<float>` is a `List ℚ`.  `rd f k` is the read `f[k]` and
  `wr f k x` the write `f[k] = x`.  Outside `[0, f.size())` the C++ access has
  no defined behaviour; here such a read gives `0` and such a write does nothing.
* A counted loop `for (int i = lo; i < hi; i++) body` is `forRange lo hi body`,
  a left fold of the body over `lo, lo+1, ..., hi-1`.
* The test `sqrt(dx*dx + dy*dy) < radius` (radius positive) is the equivalent
  rational test `dx*dx + dy*dy < radius*radius`.
-/

namespace FluidSim

/-! ## Constants (lines 15-22) -/

def DENSITY : ℚ := 1000
def OVER_RELAXATION : ℚ := 3 / 2

def U_FIELD : Int := 0
def V_FIELD : Int := 1
def S_FIELD : Int := 2

/-! ## Vectors and loops -/

/-- Read `f[k]`; `0` when `k` is outside the vector. -/
def rd (f : List ℚ) (k : Int) : ℚ :=
  if k < 0 then 0 else f.getD k.toNat 0

/-- Write `f[k] = x`; nothing when `k` is outside the vector. -/
def wr (f : List ℚ) (k : Int) (x : ℚ) : List ℚ :=
  if k < 0 then f else f.set k.toNat x

/-- The loop `for (int i = lo; i < hi; i++) st = body i st`. -/
def forRange {σ : Type} (lo hi : Int) (body : Int → σ → σ) (st : σ) : σ :=
  (List.range (hi - lo).toNat).foldl (fun (acc : σ) (k : Nat) => body (lo + (k : Int)) acc) st

/-! ## The grid state (lines 24-33) -/

/-- The data members of `class Fluid`. -/
structure Fluid where
  numX : Int
  numY : Int
  numCells : Int
  h : ℚ
  u : List ℚ
  v : List ℚ
  newU : List ℚ
  newV : List ℚ
  p : List ℚ
  s : List ℚ
  m : List ℚ
  newM : List ℚ
deriving DecidableEq

/-! ## Construction (lines 36-71) -/

/-- The body of the double loop of `setupCircularObstacle` for cell `(i, j)`. -/
def obstacleCell (centerX centerY radius : ℚ) (i j : Int) (F : Fluid) : Fluid :=
  let x := ((i : ℚ) + 1 / 2) * F.h
  let y := ((j : ℚ) + 1 / 2) * F.h
  let dx := x - centerX
  let dy := y - centerY
  if dx * dx + dy * dy < radius * radius then
    { F with s := wr F.s (i * F.numY + j) 0, m := wr F.m (i * F.numY + j) 0 }
  else F

/-- `Fluid::setupCircularObstacle` (lines 51-71). -/
def setupCircularObstacle (F : Fluid) : Fluid :=
  let centerX := (F.numX : ℚ) * F.h * (1 / 2)
  let centerY := (F.numY : ℚ) * F.h * (1 / 2)
  let radius : ℚ := 2 / 25
  forRange 0 F.numX (fun i F1 =>
    forRange 0 F.numY (fun j F2 => obstacleCell centerX centerY radius i j F2) F1) F

/-- The constructor `Fluid::Fluid(numX, numY, h)` (lines 36-49). -/
def Fluid.new (nx ny : Int) (h : ℚ) : Fluid :=
  let numX := nx + 2
  let numY := ny + 2
  let numCells := numX * numY
  let zeros := List.replicate numCells.toNat (0 : ℚ)
  setupCircularObstacle
    { numX := numX, numY := numY, numCells := numCells, h := h,
      u := zeros, v := zeros, newU := zeros, newV := zeros,
      p := zeros, s := List.replicate numCells.toNat (1 : ℚ),
      m := zeros, newM := zeros }

/-! ## Force integrator (lines 73-81) -/

/-- The body of the double loop of `integrate` for cell `(i, j)`. -/
def integrateCell (dt gravity : ℚ) (i j : Int) (F : Fluid) : Fluid :=
  if rd F.s (i * F.numY + j) ≠ 0 ∧ rd F.s (i * F.numY + j - 1) ≠ 0 then
    { F with v := wr F.v (i * F.numY + j) (rd F.v (i * F.numY + j) + gravity * dt) }
  else F

/-- `Fluid::integrate` (lines 73-81). -/
def integrate (dt gravity : ℚ) (F : Fluid) : Fluid :=
  forRange 1 F.numX (fun i F1 =>
    forRange 1 (F.numY - 1) (fun j F2 => integrateCell dt gravity i j F2) F1) F

/-! ## Pressure projector (lines 83-113) -/

/-- The body of the innermost loop of `solveIncompressibility`: one visit of
cell `(i, j)`. -/
def solveCell (cp : ℚ) (i j : Int) (F : Fluid) : Fluid :=
  if rd F.s (i * F.numY + j) = 0 then F
  else
    let sx0 := rd F.s ((i - 1) * F.numY + j)
    let sx1 := rd F.s ((i + 1) * F.numY + j)
    let sy0 := rd F.s (i * F.numY + j - 1)
    let sy1 := rd F.s (i * F.numY + j + 1)
    let s := sx0 + sx1 + sy0 + sy1
    if s = 0 then F
    else
      let div := rd F.u ((i + 1) * F.numY + j) - rd F.u (i * F.numY + j) +
                 rd F.v (i * F.numY + j + 1) - rd F.v (i * F.numY + j)
      let pressure := -div / s * OVER_RELAXATION
      let p1 := wr F.p (i * F.numY + j) (rd F.p (i * F.numY + j) + cp * pressure)
      let u1 := wr F.u (i * F.numY + j) (rd F.u (i * F.numY + j) - sx0 * pressure)
      let u2 := wr u1 ((i + 1) * F.numY + j) (rd u1 ((i + 1) * F.numY + j) + sx1 * pressure)
      let v1 := wr F.v (i * F.numY + j) (rd F.v (i * F.numY + j) - sy0 * pressure)
      let v2 := wr v1 (i * F.numY + j + 1) (rd v1 (i * F.numY + j + 1) + sy1 * pressure)
      { F with p := p1, u := u2, v := v2 }

/-- One pass of the `iter` loop: the row-major sweep over the interior cells. -/
def solveSweep (cp : ℚ) (F : Fluid) : Fluid :=
  forRange 1 (F.numX - 1) (fun i F1 =>
    forRange 1 (F.numY - 1) (fun j F2 => solveCell cp i j F2) F1) F

/-- `Fluid::solveIncompressibility` (lines 83-113). -/
def solveIncompressibility (numIters : Int) (dt : ℚ) (F : Fluid) : Fluid :=
  let cp := DENSITY * F.h / dt
  forRange 0 numIters (fun _ F1 => solveSweep cp F1) F

/-! ## Boundary extrapolator (lines 116-135) -/

/-- The body of the first loop of `extrapolate` (lines 118-121). -/
def extrapolateU (i : Int) (F : Fluid) : Fluid :=
  let u1 := wr F.u (i * F.numY + 0) (rd F.u (i * F.numY + 1))
  let u2 := wr u1 (i * F.numY + F.numY - 1) (rd u1 (i * F.numY + F.numY - 2))
  { F with u := u2 }

/-- The body of the second loop of `extrapolate` (lines 123-126). -/
def extrapolateV (j : Int) (F : Fluid) : Fluid :=
  let v1 := wr F.v (0 * F.numY + j) (rd F.v (1 * F.numY + j))
  let v2 := wr v1 ((F.numX - 1) * F.numY + j) (rd v1 ((F.numX - 2) * F.numY + j))
  { F with v := v2 }

/-- The body of the third (double) loop of `extrapolate` (lines 127-134). -/
def dampCell (i j : Int) (F : Fluid) : Fluid :=
  if i = 0 ∨ i = F.numX - 1 ∨ j = 0 ∨ j = F.numY - 1 then
    { F with u := wr F.u (i * F.numY + j) (rd F.u (i * F.numY + j) * (9 / 10)),
             v := wr F.v (i * F.numY + j) (rd F.v (i * F.numY + j) * (9 / 10)) }
  else F

/-- `Fluid::extrapolate` (lines 116-135). -/
def extrapolate (F : Fluid) : Fluid :=
  let F1 := forRange 0 F.numX extrapolateU F
  let F2 := forRange 0 F1.numY extrapolateV F1
  forRange 0 F2.numX (fun i G =>
    forRange 0 F2.numY (fun j G1 => dampCell i j G1) G) F2

/-! ## Field sampler (lines 138-170) -/

/-- Lines 155-169 of `sampleField`: the bilinear interpolation of the vector
`f` with sampling offset `(dx, dy)` at the clamped point `(x, y)`. -/
def interpolate (F : Fluid) (f : List ℚ) (dx dy x y : ℚ) : ℚ :=
  let h1 := 1 / F.h
  let x0 : Int := min ⌊(x - dx) * h1⌋ (F.numX - 1)
  let tx := ((x - dx) - (x0 : ℚ) * F.h) * h1
  let x1 : Int := min (x0 + 1) (F.numX - 1)
  let y0 : Int := min ⌊(y - dy) * h1⌋ (F.numY - 1)
  let ty := ((y - dy) - (y0 : ℚ) * F.h) * h1
  let y1 : Int := min (y0 + 1) (F.numY - 1)
  let sx := 1 - tx
  let sy := 1 - ty
  sx * sy * rd f (x0 * F.numY + y0) +
  tx * sy * rd f (x1 * F.numY + y0) +
  tx * ty * rd f (x1 * F.numY + y1) +
  sx * ty * rd f (x0 * F.numY + y1)

/-- `Fluid::sampleField` (lines 138-170). -/
def sampleField (F : Fluid) (x y : ℚ) (field : Int) : ℚ :=
  let h2 := 1 / 2 * F.h
  let x := max (min x ((F.numX : ℚ) * F.h)) F.h
  let y := max (min y ((F.numY : ℚ) * F.h)) F.h
  if field = U_FIELD then interpolate F F.u 0 h2 x y
  else if field = V_FIELD then interpolate F F.v h2 0 x y
  else if field = S_FIELD then interpolate F F.m h2 h2 x y
  else 0

/-! ## Advector (lines 173-243) -/

/-- `Fluid::avgU` (lines 173-176). -/
def avgU (F : Fluid) (i j : Int) : ℚ :=
  (rd F.u (i * F.numY + j - 1) + rd F.u (i * F.numY + j) +
   rd F.u ((i + 1) * F.numY + j - 1) + rd F.u ((i + 1) * F.numY + j)) * (1 / 4)

/-- `Fluid::avgV` (lines 178-181). -/
def avgV (F : Fluid) (i j : Int) : ℚ :=
  (rd F.v ((i - 1) * F.numY + j) + rd F.v (i * F.numY + j) +
   rd F.v ((i - 1) * F.numY + j + 1) + rd F.v (i * F.numY + j + 1)) * (1 / 4)

/-- The first `if` of the loop body of `advectVel` (lines 193-203). -/
def advectUCell (dt : ℚ) (i j : Int) (F : Fluid) : Fluid :=
  if rd F.s (i * F.numY + j) ≠ 0 ∧ rd F.s ((i - 1) * F.numY + j) ≠ 0 ∧ j < F.numY - 1 then
    let h2 := 1 / 2 * F.h
    let x := (i : ℚ) * F.h
    let y := (j : ℚ) * F.h + h2
    let u_comp := rd F.u (i * F.numY + j)
    let v_comp := avgV F i j
    let x := x - dt * u_comp
    let y := y - dt * v_comp
    { F with newU := wr F.newU (i * F.numY + j) (sampleField F x y U_FIELD) }
  else F

/-- The second `if` of the loop body of `advectVel` (lines 206-216). -/
def advectVCell (dt : ℚ) (i j : Int) (F : Fluid) : Fluid :=
  if rd F.s (i * F.numY + j) ≠ 0 ∧ rd F.s (i * F.numY + j - 1) ≠ 0 ∧ i < F.numX - 1 then
    let h2 := 1 / 2 * F.h
    let x := (i : ℚ) * F.h + h2
    let y := (j : ℚ) * F.h
    let u_comp := avgU F i j
    let v_comp := rd F.v (i * F.numY + j)
    let x := x - dt * u_comp
    let y := y - dt * v_comp
    { F with newV := wr F.newV (i * F.numY + j) (sampleField F x y V_FIELD) }
  else F

/-- `Fluid::advectVel` (lines 184-222). -/
def advectVel (dt : ℚ) (F : Fluid) : Fluid :=
  let F0 := { F with newU := F.u, newV := F.v }
  let F1 := forRange 1 F0.numX (fun i G =>
    forRange 1 F0.numY (fun j G1 => advectVCell dt i j (advectUCell dt i j G1)) G) F0
  { F1 with u := F1.newU, v := F1.newV }

/-- The loop body of `advectSmoke` (lines 232-239). -/
def advectSmokeCell (dt : ℚ) (i j : Int) (F : Fluid) : Fluid :=
  if rd F.s (i * F.numY + j) ≠ 0 then
    let h2 := 1 / 2 * F.h
    let u_comp := (rd F.u (i * F.numY + j) + rd F.u ((i + 1) * F.numY + j)) * (1 / 2)
    let v_comp := (rd F.v (i * F.numY + j) + rd F.v (i * F.numY + j + 1)) * (1 / 2)
    let x := (i : ℚ) * F.h + h2 - dt * u_comp
    let y := (j : ℚ) * F.h + h2 - dt * v_comp
    { F with newM := wr F.newM (i * F.numY + j) (sampleField F x y S_FIELD) }
  else F

/-- `Fluid::advectSmoke` (lines 225-243). -/
def advectSmoke (dt : ℚ) (F : Fluid) : Fluid :=
  let F0 := { F with newM := F.m }
  let F1 := forRange 1 (F0.numX - 1) (fun i G =>
    forRange 1 (F0.numY - 1) (fun j G1 => advectSmokeCell dt i j G1) G) F0
  { F1 with m := F1.newM }

/-! ## Step orchestrator and decay (lines 246-265) -/

/-- `Fluid::fadeDensity` (lines 261-265). -/
def fadeDensity (F : Fluid) : Fluid :=
  forRange 0 F.numCells (fun i G => { G with m := wr G.m i (rd G.m i * (499 / 500)) }) F

/-- `Fluid::simulate` (lines 246-258). -/
def simulate (dt gravity : ℚ) (numIters : Int) (F : Fluid) : Fluid :=
  let F1 := integrate dt gravity F
  let F2 := { F1 with p := F1.p.map (fun _ => 0) }
  let F3 := solveIncompressibility numIters dt F2
  let F4 := extrapolate F3
  let F5 := advectVel dt F4
  let F6 := advectSmoke dt F5
  fadeDensity F6

/-! ## Injection API (lines 268-279) -/

/-- `Fluid::addDensity` (lines 268-272). -/
def addDensity (x y : Int) (amount : ℚ) (F : Fluid) : Fluid :=
  if x ≥ 0 ∧ x < F.numX ∧ y ≥ 0 ∧ y < F.numY then
    { F with m := wr F.m (x * F.numY + y) (rd F.m (x * F.numY + y) + amount) }
  else F

/-- `Fluid::addVelocity` (lines 274-279). -/
def addVelocity (x y : Int) (amountX amountY : ℚ) (F : Fluid) : Fluid :=
  if x ≥ 0 ∧ x < F.numX ∧ y ≥ 0 ∧ y < F.numY then
    { F with u := wr F.u (x * F.numY + y) (rd F.u (x * F.numY + y) + amountX),
             v := wr F.v (x * F.numY + y) (rd F.v (x * F.numY + y) + amountY) }
  else F

/-- The divergence `u[i+1,j] - u[i,j] + v[i,j+1] - v[i,j]` of cell `(i, j)`,
as computed at lines 99-100. -/
def divergence (F : Fluid) (i j : Int) : ℚ :=
  rd F.u ((i + 1) * F.numY + j) - rd F.u (i * F.numY + j) +
  rd F.v (i * F.numY + j + 1) - rd F.v (i * F.numY + j)

/-! ## Predicates and quantities the statements use -/

/-- The class invariant on the vector sizes: `numCells = numX * numY` and every
vector of the state has `numCells` entries (lines 37-46). -/
def WellFormed (F : Fluid) : Prop :=
  0 ≤ F.numX ∧ 0 ≤ F.numY ∧ F.numCells = F.numX * F.numY ∧
  (F.u.length : Int) = F.numCells ∧ (F.v.length : Int) = F.numCells ∧
  (F.newU.length : Int) = F.numCells ∧ (F.newV.length : Int) = F.numCells ∧
  (F.p.length : Int) = F.numCells ∧ (F.s.length : Int) = F.numCells ∧
  (F.m.length : Int) = F.numCells ∧ (F.newM.length : Int) = F.numCells

instance (F : Fluid) : Decidable (WellFormed F) := by
  unfold WellFormed; infer_instance

/-- The centre `((i + 1/2) h, (j + 1/2) h)` of cell `(i, j)` lies at distance
strictly less than `0.08` from the domain centre `(nX h / 2, nY h / 2)`; the
distances are compared through their squares. -/
def insideObstacle (nX nY : Int) (h : ℚ) (i j : Int) : Prop :=
  (((i : ℚ) + 1 / 2) * h - (nX : ℚ) * h / 2) ^ 2 +
  (((j : ℚ) + 1 / 2) * h - (nY : ℚ) * h / 2) ^ 2 < (2 / 25 : ℚ) ^ 2

instance (nX nY : Int) (h : ℚ) (i j : Int) : Decidable (insideObstacle nX nY h i j) := by
  unfold insideObstacle; infer_instance

/-- Cell `(i, j)` lies on the outermost ring of an `nX` by `nY` grid: the test
of line 129. -/
def onRing (nX nY i j : Int) : Prop :=
  i = 0 ∨ i = nX - 1 ∨ j = 0 ∨ j = nY - 1

instance (nX nY i j : Int) : Decidable (onRing nX nY i j) := by
  unfold onRing; infer_instance

/-- The sum over the interior cells `1 <= i <= numX-2`, `1 <= j <= numY-2` of
the absolute divergence `|u[i+1,j] - u[i,j] + v[i,j+1] - v[i,j]|`. -/
def totalAbsDivergence (F : Fluid) : ℚ :=
  forRange 1 (F.numX - 1) (fun i acc =>
    forRange 1 (F.numY - 1) (fun j acc1 => acc1 + |divergence F i j|) acc) 0

/-- No two interior cells that share a face are both non-solid: every interior
neighbour of a non-solid interior cell `(i, j) = (a + 1, b + 1)` has mask `0`.
The interior cells are enumerated by `a < numX - 2`, `b < numY - 2`. -/
def Isolated (F : Fluid) : Prop :=
  ∀ a ∈ List.range (F.numX - 2).toNat, ∀ b ∈ List.range (F.numY - 2).toNat,
    rd F.s (((a : Int) + 1) * F.numY + ((b : Int) + 1)) ≠ 0 →
    (2 ≤ (a : Int) + 1 → rd F.s (((a : Int) + 1 - 1) * F.numY + ((b : Int) + 1)) = 0) ∧
    ((a : Int) + 1 ≤ F.numX - 3 →
      rd F.s (((a : Int) + 1 + 1) * F.numY + ((b : Int) + 1)) = 0) ∧
    (2 ≤ (b : Int) + 1 → rd F.s (((a : Int) + 1) * F.numY + ((b : Int) + 1) - 1) = 0) ∧
    ((b : Int) + 1 ≤ F.numY - 3 →
      rd F.s (((a : Int) + 1) * F.numY + ((b : Int) + 1) + 1) = 0)

instance (F : Fluid) : Decidable (Isolated F) := by
  unfold Isolated; infer_instance

/-! ## The projector visit by flat index -/

/-- The divergence of the cell with flat index `k`. -/
def divAt (F : Fluid) (k : Int) : ℚ :=
  rd F.u (k + F.numY) - rd F.u k + rd F.v (k + 1) - rd F.v k

/-- The neighbour-weight sum `sx0 + sx1 + sy0 + sy1` of the cell with flat
index `k` (line 95). -/
def weightSum (F : Fluid) (k : Int) : ℚ :=
  rd F.s (k - F.numY) + rd F.s (k + F.numY) + rd F.s (k - 1) + rd F.s (k + 1)

/-- The projector visit of lines 89-109 written with the flat index `k` of the
visited cell: `solveCell cp i j F = solveAt cp (i * F.numY + j) F`. -/
def solveAt (cp : ℚ) (k : Int) (F : Fluid) : Fluid :=
  if rd F.s k = 0 then F
  else
    let sx0 := rd F.s (k - F.numY)
    let sx1 := rd F.s (k + F.numY)
    let sy0 := rd F.s (k - 1)
    let sy1 := rd F.s (k + 1)
    let s := sx0 + sx1 + sy0 + sy1
    if s = 0 then F
    else
      let div := rd F.u (k + F.numY) - rd F.u k + rd F.v (k + 1) - rd F.v k
      let pressure := -div / s * OVER_RELAXATION
      let p1 := wr F.p k (rd F.p k + cp * pressure)
      let u1 := wr F.u k (rd F.u k - sx0 * pressure)
      let u2 := wr u1 (k + F.numY) (rd u1 (k + F.numY) + sx1 * pressure)
      let v1 := wr F.v k (rd F.v k - sy0 * pressure)
      let v2 := wr v1 (k + 1) (rd v1 (k + 1) + sy1 * pressure)
      { F with p := p1, u := u2, v := v2 }

/-! ## Weak coupling of interior cells -/

/-- The part of the neighbour-weight sum of cell `(i, j)` that comes from
interior neighbours: the sum of `|s|` over those of the cells `(i-1, j)`,
`(i+1, j)`, `(i, j-1)`, `(i, j+1)` that are interior cells
(`1 <= i <= numX-2`, `1 <= j <= numY-2`), for an interior cell `(i, j)`. -/
def interiorWeight (F : Fluid) (i j : Int) : ℚ :=
  (if 2 ≤ i then |rd F.s ((i - 1) * F.numY + j)| else 0) +
  (if i ≤ F.numX - 3 then |rd F.s ((i + 1) * F.numY + j)| else 0) +
  (if 2 ≤ j then |rd F.s (i * F.numY + j - 1)| else 0) +
  (if j ≤ F.numY - 3 then |rd F.s (i * F.numY + j + 1)| else 0)

/-- Interior cells are weakly coupled: for every interior cell
`(i, j) = (a + 1, b + 1)` that the projector corrects (mask other than `0`,
neighbour-weight sum `S` other than `0`), three times the weight of its
interior neighbours is at most `|S|`. With a mask of zeros and ones this says
that at most a third of the open neighbours of an open interior cell are
interior cells. -/
def WeaklyCoupled (F : Fluid) : Prop :=
  ∀ a ∈ List.range (F.numX - 2).toNat, ∀ b ∈ List.range (F.numY - 2).toNat,
    rd F.s (((a : Int) + 1) * F.numY + ((b : Int) + 1)) ≠ 0 →
    weightSum F (((a : Int) + 1) * F.numY + ((b : Int) + 1)) ≠ 0 →
    3 * interiorWeight F ((a : Int) + 1) ((b : Int) + 1)
      ≤ |weightSum F (((a : Int) + 1) * F.numY + ((b : Int) + 1))|

instance (F : Fluid) : Decidable (WeaklyCoupled F) := by
  unfold WeaklyCoupled; infer_instance

/-! ## Concrete grids -/

/-- The grid `Fluid(1, 1, 1)`: 3 x 3 cells, the centre cell `(1, 1)` solid. -/
def grid3 : Fluid := Fluid.new 1 1 1

/-- The grid `Fluid(2, 2, 1)`: 4 x 4 cells, all open. -/
def grid4 : Fluid := Fluid.new 2 2 1

/-- The grid `Fluid(10, 10, 0.1)` after `addVelocity(5, 5, 1.0, 0.0)`. -/
def scenario : Fluid := addVelocity 5 5 1 0 (Fluid.new 10 10 (1 / 10))

/-- The 3 x 3 grid after `addVelocity(0, 1, 1, 1)`: the border cell `(0, 1)`
carries the velocity `(1, 1)`, every other velocity entry is `0`. -/
def grid3Border : Fluid := addVelocity 0 1 1 1 grid3

/-- The 3 x 3 grid after `addVelocity(1, 2, 3, 4)` and `addDensity(1, 2, 7)`. -/
def grid3Dyed : Fluid := addDensity 1 2 7 (addVelocity 1 2 3 4 grid3)

/-- The 4 x 4 grid after `addVelocity(3, 2, 1, 0)`: the right face of the
interior cell `(2, 2)` carries `u = 1`. -/
def grid4Edge : Fluid := addVelocity 3 2 1 0 grid4

/-- The state `F` with its pressure vector replaced by `X`. -/
def setP (X : List ℚ) (F : Fluid) : Fluid := { F with p := X }

/-- The grid `Fluid(1, 0, 1)` (3 x 2 cells, all open) after
`addVelocity(0, 0, 1, 0)`: `u[0,0] = 1`, every other velocity entry is `0`. -/
def grid32 : Fluid := addVelocity 0 0 1 0 (Fluid.new 1 0 1)

/-- The loop invariant of `advectVel`: only the two buffers differ from the
state `F` the loop started in, and they keep their sizes. -/
def AdvInv (F st : Fluid) : Prop :=
  st = { F with newU := st.newU, newV := st.newV } ∧
  st.newU.length = F.newU.length ∧ st.newV.length = F.newV.length

/-! ## The stencil of the field sampler (lines 142-162) -/

/-- The clamped abscissa of line 142. -/
def clampX (F : Fluid) (x : ℚ) : ℚ := max (min x ((F.numX : ℚ) * F.h)) F.h

/-- The clamped ordinate of line 143. -/
def clampY (F : Fluid) (y : ℚ) : ℚ := max (min y ((F.numY : ℚ) * F.h)) F.h

/-- The offset `dx` chosen by the `switch` of lines 148-153 (for the three
field selectors). -/
def sampleDx (F : Fluid) (field : Int) : ℚ :=
  if field = U_FIELD then 0 else 1 / 2 * F.h

/-- The offset `dy` chosen by the `switch` of lines 148-153 (for the three
field selectors). -/
def sampleDy (F : Fluid) (field : Int) : ℚ :=
  if field = V_FIELD then 0 else 1 / 2 * F.h

/-- The vector chosen by the `switch` of lines 148-153 (for the three field
selectors). -/
def sampleVec (F : Fluid) (field : Int) : List ℚ :=
  if field = U_FIELD then F.u else if field = V_FIELD then F.v else F.m

/-- The stencil index `x0` of line 155. -/
def stencilX0 (F : Fluid) (x : ℚ) (field : Int) : Int :=
  min ⌊(clampX F x - sampleDx F field) * (1 / F.h)⌋ (F.numX - 1)

/-- The stencil index `x1` of line 157. -/
def stencilX1 (F : Fluid) (x : ℚ) (field : Int) : Int :=
  min (stencilX0 F x field + 1) (F.numX - 1)

/-- The interpolation weight `tx` of line 156. -/
def weightTx (F : Fluid) (x : ℚ) (field : Int) : ℚ :=
  ((clampX F x - sampleDx F field) - (stencilX0 F x field : ℚ) * F.h) * (1 / F.h)

/-- The stencil index `y0` of line 159. -/
def stencilY0 (F : Fluid) (y : ℚ) (field : Int) : Int :=
  min ⌊(clampY F y - sampleDy F field) * (1 / F.h)⌋ (F.numY - 1)

/-- The stencil index `y1` of line 161. -/
def stencilY1 (F : Fluid) (y : ℚ) (field : Int) : Int :=
  min (stencilY0 F y field + 1) (F.numY - 1)

/-- The interpolation weight `ty` of line 160. -/
def weightTy (F : Fluid) (y : ℚ) (field : Int) : ℚ :=
  ((clampY F y - sampleDy F field) - (stencilY0 F y field : ℚ) * F.h) * (1 / F.h)

/-! ## The tick with checked indexing and guarded division

The same code once more, still in exact arithmetic (rational values, unbounded
integers), with every vector access checked against the size of the vector and
every division checked against a zero divisor: a failed check yields `none`. -/

/-- Checked read `f[k]`: `none` when `k` is outside the vector. -/
def rdC (f : List ℚ) (k : Int) : Option ℚ :=
  if 0 ≤ k ∧ k < f.length then some (rd f k) else none

/-- Checked write `f[k] = x`: `none` when `k` is outside the vector. -/
def wrC (f : List ℚ) (k : Int) (x : ℚ) : Option (List ℚ) :=
  if 0 ≤ k ∧ k < f.length then some (wr f k x) else none

/-- Guarded division `a / b`: `none` when `b = 0`. -/
def divC (a b : ℚ) : Option ℚ :=
  if b = 0 then none else some (a / b)

/-- The loop `for (int i = lo; i < hi; i++)` over a body that can fail. -/
def forRangeC {σ : Type} (lo hi : Int) (body : Int → σ → Option σ) (st : σ) : Option σ :=
  forRange lo hi (fun i (acc : Option σ) => acc.bind (body i)) (some st)

/-- Checked body of the double loop of `integrate` (lines 76-78). -/
def integrateCellC (dt gravity : ℚ) (i j : Int) (F : Fluid) : Option Fluid := do
  let s0 ← rdC F.s (i * F.numY + j)
  if s0 ≠ 0 then
    let s1 ← rdC F.s (i * F.numY + j - 1)
    if s1 ≠ 0 then
      let v0 ← rdC F.v (i * F.numY + j)
      let v1 ← wrC F.v (i * F.numY + j) (v0 + gravity * dt)
      pure { F with v := v1 }
    else pure F
  else pure F

/-- Checked `Fluid::integrate` (lines 73-81). -/
def integrateC (dt gravity : ℚ) (F : Fluid) : Option Fluid :=
  forRangeC 1 F.numX (fun i F1 =>
    forRangeC 1 (F.numY - 1) (fun j F2 => integrateCellC dt gravity i j F2) F1) F

/-- Checked velocity updates of a projector visit (lines 106-109), given the
neighbour weights and the pressure correction; `p1` is the pressure vector
already updated by line 104. -/
def solveVelocityC (i j : Int) (F : Fluid) (sx0 sx1 sy0 sy1 pressure : ℚ) (p1 : List ℚ) :
    Option Fluid := do
  let u0 ← rdC F.u (i * F.numY + j)
  let u1 ← wrC F.u (i * F.numY + j) (u0 - sx0 * pressure)
  let u1a ← rdC u1 ((i + 1) * F.numY + j)
  let u2 ← wrC u1 ((i + 1) * F.numY + j) (u1a + sx1 * pressure)
  let v0 ← rdC F.v (i * F.numY + j)
  let v1 ← wrC F.v (i * F.numY + j) (v0 - sy0 * pressure)
  let v1a ← rdC v1 (i * F.numY + j + 1)
  let v2 ← wrC v1 (i * F.numY + j + 1) (v1a + sy1 * pressure)
  pure { F with p := p1, u := u2, v := v2 }

/-- Checked lines 99-109 of a projector visit: the divergence, the pressure
correction with its division by the weight sum `s`, and the updates. -/
def solveCorrectC (cp : ℚ) (i j : Int) (F : Fluid) (sx0 sx1 sy0 sy1 s : ℚ) :
    Option Fluid := do
  let ua ← rdC F.u ((i + 1) * F.numY + j)
  let ub ← rdC F.u (i * F.numY + j)
  let va ← rdC F.v (i * F.numY + j + 1)
  let vb ← rdC F.v (i * F.numY + j)
  let div := ua - ub + va - vb
  let q ← divC (-div) s
  let pressure := q * OVER_RELAXATION
  let p0 ← rdC F.p (i * F.numY + j)
  let p1 ← wrC F.p (i * F.numY + j) (p0 + cp * pressure)
  solveVelocityC i j F sx0 sx1 sy0 sy1 pressure p1

/-- Checked visit of cell `(i, j)` by the projector (lines 89-109). -/
def solveCellC (cp : ℚ) (i j : Int) (F : Fluid) : Option Fluid := do
  let sc ← rdC F.s (i * F.numY + j)
  if sc = 0 then pure F
  else do
    let sx0 ← rdC F.s ((i - 1) * F.numY + j)
    let sx1 ← rdC F.s ((i + 1) * F.numY + j)
    let sy0 ← rdC F.s (i * F.numY + j - 1)
    let sy1 ← rdC F.s (i * F.numY + j + 1)
    let s := sx0 + sx1 + sy0 + sy1
    if s = 0 then pure F
    else solveCorrectC cp i j F sx0 sx1 sy0 sy1 s

/-- Checked pass of the `iter` loop. -/
def solveSweepC (cp : ℚ) (F : Fluid) : Option Fluid :=
  forRangeC 1 (F.numX - 1) (fun i F1 =>
    forRangeC 1 (F.numY - 1) (fun j F2 => solveCellC cp i j F2) F1) F

/-- Checked `Fluid::solveIncompressibility` (lines 83-113). -/
def solveIncompressibilityC (numIters : Int) (dt : ℚ) (F : Fluid) : Option Fluid := do
  let cp ← divC (DENSITY * F.h) dt
  forRangeC 0 numIters (fun _ F1 => solveSweepC cp F1) F

/-- Checked body of the first loop of `extrapolate` (lines 118-121). -/
def extrapolateUC (i : Int) (F : Fluid) : Option Fluid := do
  let a ← rdC F.u (i * F.numY + 1)
  let u1 ← wrC F.u (i * F.numY + 0) a
  let b ← rdC u1 (i * F.numY + F.numY - 2)
  let u2 ← wrC u1 (i * F.numY + F.numY - 1) b
  pure { F with u := u2 }

/-- Checked body of the second loop of `extrapolate` (lines 123-126). -/
def extrapolateVC (j : Int) (F : Fluid) : Option Fluid := do
  let a ← rdC F.v (1 * F.numY + j)
  let v1 ← wrC F.v (0 * F.numY + j) a
  let b ← rdC v1 ((F.numX - 2) * F.numY + j)
  let v2 ← wrC v1 ((F.numX - 1) * F.numY + j) b
  pure { F with v := v2 }

/-- Checked body of the third loop of `extrapolate` (lines 127-134). -/
def dampCellC (i j : Int) (F : Fluid) : Option Fluid :=
  if i = 0 ∨ i = F.numX - 1 ∨ j = 0 ∨ j = F.numY - 1 then do
    let a ← rdC F.u (i * F.numY + j)
    let u1 ← wrC F.u (i * F.numY + j) (a * (9 / 10))
    let b ← rdC F.v (i * F.numY + j)
    let v1 ← wrC F.v (i * F.numY + j) (b * (9 / 10))
    pure { F with u := u1, v := v1 }
  else pure F

/-- Checked `Fluid::extrapolate` (lines 116-135). -/
def extrapolateC (F : Fluid) : Option Fluid := do
  let F1 ← forRangeC 0 F.numX extrapolateUC F
  let F2 ← forRangeC 0 F1.numY extrapolateVC F1
  forRangeC 0 F2.numX (fun i G =>
    forRangeC 0 F2.numY (fun j G1 => dampCellC i j G1) G) F2

/-- Checked lines 155-169 of `sampleField`, with `h1` the quotient `1 / h` of
line 139. -/
def interpolateC (F : Fluid) (h1 : ℚ) (f : List ℚ) (dx dy x y : ℚ) : Option ℚ := do
  let x0 : Int := min ⌊(x - dx) * h1⌋ (F.numX - 1)
  let tx := ((x - dx) - (x0 : ℚ) * F.h) * h1
  let x1 : Int := min (x0 + 1) (F.numX - 1)
  let y0 : Int := min ⌊(y - dy) * h1⌋ (F.numY - 1)
  let ty := ((y - dy) - (y0 : ℚ) * F.h) * h1
  let y1 : Int := min (y0 + 1) (F.numY - 1)
  let sx := 1 - tx
  let sy := 1 - ty
  let a ← rdC f (x0 * F.numY + y0)
  let b ← rdC f (x1 * F.numY + y0)
  let c ← rdC f (x1 * F.numY + y1)
  let d ← rdC f (x0 * F.numY + y1)
  pure (sx * sy * a + tx * sy * b + tx * ty * c + sx * ty * d)

/-- Checked `Fluid::sampleField` (lines 138-170). -/
def sampleFieldC (F : Fluid) (x y : ℚ) (field : Int) : Option ℚ := do
  let h1 ← divC 1 F.h
  let h2 := 1 / 2 * F.h
  let x := max (min x ((F.numX : ℚ) * F.h)) F.h
  let y := max (min y ((F.numY : ℚ) * F.h)) F.h
  if field = U_FIELD then interpolateC F h1 F.u 0 h2 x y
  else if field = V_FIELD then interpolateC F h1 F.v h2 0 x y
  else if field = S_FIELD then interpolateC F h1 F.m h2 h2 x y
  else pure 0

/-- Checked `Fluid::avgU` (lines 173-176). -/
def avgUC (F : Fluid) (i j : Int) : Option ℚ := do
  let a ← rdC F.u (i * F.numY + j - 1)
  let b ← rdC F.u (i * F.numY + j)
  let c ← rdC F.u ((i + 1) * F.numY + j - 1)
  let d ← rdC F.u ((i + 1) * F.numY + j)
  pure ((a + b + c + d) * (1 / 4))

/-- Checked `Fluid::avgV` (lines 178-181). -/
def avgVC (F : Fluid) (i j : Int) : Option ℚ := do
  let a ← rdC F.v ((i - 1) * F.numY + j)
  let b ← rdC F.v (i * F.numY + j)
  let c ← rdC F.v ((i - 1) * F.numY + j + 1)
  let d ← rdC F.v (i * F.numY + j + 1)
  pure ((a + b + c + d) * (1 / 4))

/-- Checked first `if` of the loop body of `advectVel` (lines 193-203); the
conjunction of the guard is evaluated left to right. -/
def advectUCellC (dt : ℚ) (i j : Int) (F : Fluid) : Option Fluid := do
  let s0 ← rdC F.s (i * F.numY + j)
  if s0 ≠ 0 then
    let s1 ← rdC F.s ((i - 1) * F.numY + j)
    if s1 ≠ 0 ∧ j < F.numY - 1 then
      let h2 := 1 / 2 * F.h
      let x := (i : ℚ) * F.h
      let y := (j : ℚ) * F.h + h2
      let u_comp ← rdC F.u (i * F.numY + j)
      let v_comp ← avgVC F i j
      let x := x - dt * u_comp
      let y := y - dt * v_comp
      let smp ← sampleFieldC F x y U_FIELD
      let nu ← wrC F.newU (i * F.numY + j) smp
      pure { F with newU := nu }
    else pure F
  else pure F

/-- Checked second `if` of the loop body of `advectVel` (lines 206-216). -/
def advectVCellC (dt : ℚ) (i j : Int) (F : Fluid) : Option Fluid := do
  let s0 ← rdC F.s (i * F.numY + j)
  if s0 ≠ 0 then
    let s1 ← rdC F.s (i * F.numY + j - 1)
    if s1 ≠ 0 ∧ i < F.numX - 1 then
      let h2 := 1 / 2 * F.h
      let x := (i : ℚ) * F.h + h2
      let y := (j : ℚ) * F.h
      let u_comp ← avgUC F i j
      let v_comp ← rdC F.v (i * F.numY + j)
      let x := x - dt * u_comp
      let y := y - dt * v_comp
      let smp ← sampleFieldC F x y V_FIELD
      let nv ← wrC F.newV (i * F.numY + j) smp
      pure { F with newV := nv }
    else pure F
  else pure F

/-- Checked `Fluid::advectVel` (lines 184-222). -/
def advectVelC (dt : ℚ) (F : Fluid) : Option Fluid := do
  let F0 : Fluid := { F with newU := F.u, newV := F.v }
  let F1 ← forRangeC 1 F0.numX (fun i G =>
    forRangeC 1 F0.numY (fun j G1 =>
      (advectUCellC dt i j G1).bind (advectVCellC dt i j)) G) F0
  pure { F1 with u := F1.newU, v := F1.newV }

/-- Checked loop body of `advectSmoke` (lines 232-239). -/
def advectSmokeCellC (dt : ℚ) (i j : Int) (F : Fluid) : Option Fluid := do
  let s0 ← rdC F.s (i * F.numY + j)
  if s0 ≠ 0 then
    let h2 := 1 / 2 * F.h
    let ua ← rdC F.u (i * F.numY + j)
    let ub ← rdC F.u ((i + 1) * F.numY + j)
    let u_comp := (ua + ub) * (1 / 2)
    let va ← rdC F.v (i * F.numY + j)
    let vb ← rdC F.v (i * F.numY + j + 1)
    let v_comp := (va + vb) * (1 / 2)
    let x := (i : ℚ) * F.h + h2 - dt * u_comp
    let y := (j : ℚ) * F.h + h2 - dt * v_comp
    let smp ← sampleFieldC F x y S_FIELD
    let nm ← wrC F.newM (i * F.numY + j) smp
    pure { F with newM := nm }
  else pure F

/-- Checked `Fluid::advectSmoke` (lines 225-243). -/
def advectSmokeC (dt : ℚ) (F : Fluid) : Option Fluid := do
  let F0 : Fluid := { F with newM := F.m }
  let F1 ← forRangeC 1 (F0.numX - 1) (fun i G =>
    forRangeC 1 (F0.numY - 1) (fun j G1 => advectSmokeCellC dt i j G1) G) F0
  pure { F1 with m := F1.newM }

/-- Checked `Fluid::fadeDensity` (lines 261-265). -/
def fadeDensityC (F : Fluid) : Option Fluid :=
  forRangeC 0 F.numCells (fun i G => do
    let a ← rdC G.m i
    let m1 ← wrC G.m i (a * (499 / 500))
    pure { G with m := m1 }) F

/-- Checked `Fluid::simulate` (lines 246-258). -/
def simulateC (dt gravity : ℚ) (numIters : Int) (F : Fluid) : Option Fluid := do
  let F1 ← integrateC dt gravity F
  let F2 : Fluid := { F1 with p := F1.p.map (fun _ => 0) }
  let F3 ← solveIncompressibilityC numIters dt F2
  let F4 ← extrapolateC F3
  let F5 ← advectVelC dt F4
  let F6 ← advectSmokeC dt F5
  fadeDensityC F6

/-- The second state has the dimensions, the spacing and the vector sizes of
the first. -/
def Keeps (F G : Fluid) : Prop :=
  G.numX = F.numX ∧ G.numY = F.numY ∧ G.numCells = F.numCells ∧ G.h = F.h ∧
  G.u.length = F.u.length ∧ G.v.length = F.v.length ∧
  G.newU.length = F.newU.length ∧ G.newV.length = F.newV.length ∧
  G.p.length = F.p.length ∧ G.s.length = F.s.length ∧
  G.m.length = F.m.length ∧ G.newM.length = F.newM.length

/-- The states a program can hold: the vector sizes agree with the dimensions,
there are at least two rows and two columns, and the spacing is positive. -/
def Safe (F : Fluid) : Prop :=
  WellFormed F ∧ 2 ≤ F.numX ∧ 2 ≤ F.numY ∧ 0 < F.h

/-- The grid states produced, in exact arithmetic, by `Fluid(nx, ny, h)` with
`nx, ny >= 0`, `h > 0` followed by any sequence of `addDensity`, `addVelocity`
and `simulate(dt, gravity, iterations)` calls with `dt > 0`. -/
inductive Reachable : Fluid → Prop
  | create (nx ny : Int) (h : ℚ) : 0 ≤ nx → 0 ≤ ny → 0 < h → Reachable (Fluid.new nx ny h)
  | density (x y : Int) (amount : ℚ) (F : Fluid) :
      Reachable F → Reachable (addDensity x y amount F)
  | velocity (x y : Int) (amountX amountY : ℚ) (F : Fluid) :
      Reachable F → Reachable (addVelocity x y amountX amountY F)
  | tick (dt gravity : ℚ) (numIters : Int) (F : Fluid) :
      0 < dt → Reachable F → Reachable (simulate dt gravity numIters F)

/-! ## The same code in binary32 arithmetic

The members of type `float` hold IEEE 754 binary32 values and every arithmetic
operation rounds to nearest, ties to even (one rounding per operation, no
fused multiply-add). A finite value is kept as the rational it denotes; the
two zeros are one value, which no operation below can tell apart except a
division by zero, and that is reported as a failure. -/

/-- A value of the C++ type `float`: a finite number, an infinity or a NaN. -/
inductive F32 where
  | fin (q : ℚ)
  | inf (negative : Bool)
  | nan
deriving DecidableEq

/-- The power `2 ^ e` for an integer `e`. -/
def pow2 (e : Int) : ℚ :=
  if 0 ≤ e then ((2 ^ e.toNat : Nat) : ℚ) else 1 / ((2 ^ (-e).toNat : Nat) : ℚ)

/-- The number of halvings that bring `n` below `2`, at most `fuel` of them. -/
def ilog2Aux : Nat → Nat → Nat
  | 0, _ => 0
  | fuel + 1, n => if n < 2 then 0 else ilog2Aux fuel (n / 2) + 1

/-- The integer binary logarithm: `2 ^ ilog2 n <= n < 2 ^ (ilog2 n + 1)` for
`n >= 1`. -/
def ilog2 (n : Nat) : Nat := ilog2Aux n n

/-- The exponent of the binary32 binade of `a >= 0`: the `e` with
`2 ^ e <= a < 2 ^ (e + 1)`, kept within the exponent range `[-126, 127]` of
the format (below `2 ^ (-126)` the values are subnormal, with the spacing of
the lowest binade). -/
def binade (a : ℚ) : Int :=
  let e0 : Int := (ilog2 a.num.natAbs : Int) - (ilog2 a.den : Int)
  let e : Int := if pow2 e0 ≤ a then e0 else e0 - 1
  max (-126) (min e 127)

/-- Rounding to the nearest integer, a tie to the even one. -/
def roundEven (x : ℚ) : Int :=
  let f := ⌊x⌋
  if x - (f : ℚ) < 1 / 2 then f
  else if 1 / 2 < x - (f : ℚ) then f + 1
  else if f % 2 = 0 then f else f + 1

/-- The binary32 value of a real result `q`: `q` rounded to a multiple of the
spacing `2 ^ (e - 23)` of its binade; a result of magnitude `2 ^ 128` or more
is an infinity. -/
def F32.round (q : ℚ) : F32 :=
  let ulp : ℚ := pow2 (binade |q| - 23)
  let r : ℚ := (roundEven (q / ulp) : ℚ) * ulp
  if pow2 128 ≤ |r| then F32.inf (decide (q < 0)) else F32.fin r

/-- Unary minus. -/
def F32.neg : F32 → F32
  | .fin q => .fin (-q)
  | .inf b => .inf (!b)
  | .nan => .nan

/-- The sum `a + b` in binary32. -/
def F32.add : F32 → F32 → F32
  | .nan, _ => .nan
  | _, .nan => .nan
  | .inf a, .inf b => if a = b then .inf a else .nan
  | .inf a, .fin _ => .inf a
  | .fin _, .inf b => .inf b
  | .fin a, .fin b => F32.round (a + b)

/-- The difference `a - b` in binary32. -/
def F32.sub (a b : F32) : F32 := a.add b.neg

/-- The product `a * b` in binary32. -/
def F32.mul : F32 → F32 → F32
  | .nan, _ => .nan
  | _, .nan => .nan
  | .inf a, .inf b => .inf (a != b)
  | .inf a, .fin q => if q = 0 then .nan else .inf (a != decide (q < 0))
  | .fin q, .inf b => if q = 0 then .nan else .inf (decide (q < 0) != b)
  | .fin a, .fin b => F32.round (a * b)

/-- The quotient `a / b` in binary32 for a divisor other than zero. -/
def F32.div : F32 → F32 → F32
  | .nan, _ => .nan
  | _, .nan => .nan
  | .inf _, .inf _ => .nan
  | .inf a, .fin q => .inf (a != decide (q < 0))
  | .fin _, .inf _ => .fin 0
  | .fin a, .fin b => F32.round (a / b)

/-- The test `a == 0.0f`. -/
def F32.isZero : F32 → Bool
  | .fin q => decide (q = 0)
  | _ => false

/-- The comparison `a < b` of two `float`s: false when either is a NaN. -/
def F32.lt : F32 → F32 → Bool
  | .nan, _ => false
  | _, .nan => false
  | .inf a, .inf b => a && !b
  | .inf a, .fin _ => a
  | .fin _, .inf b => !b
  | .fin a, .fin b => decide (a < b)

/-- The library function `std::min(a, b)`: `(b < a) ? b : a`. -/
def F32.min (a b : F32) : F32 := if b.lt a then b else a

/-- The library function `std::max(a, b)`: `(a < b) ? b : a`. -/
def F32.max (a b : F32) : F32 := if a.lt b then b else a

/-- The library function `std::floor` on a `float`. -/
def F32.floor : F32 → F32
  | .fin q => .fin (⌊q⌋ : Int)
  | x => x

/-- The conversion of an `int` to `float`. -/
def F32.ofInt (i : Int) : F32 := F32.round (i : ℚ)

/-- The conversion `(int) a` of a `float`, which truncates toward zero. It is
undefined, here `none`, for a NaN, an infinity and a value whose truncation
the 32-bit type `int` cannot hold. -/
def F32.toIntC : F32 → Option Int
  | .fin q =>
    let t : Int := if 0 ≤ q then ⌊q⌋ else -⌊-q⌋
    if -2147483648 ≤ t ∧ t ≤ 2147483647 then some t else none
  | _ => none

/-- Guarded division: `none` when the divisor is zero. -/
def F32.divC (a b : F32) : Option F32 :=
  if b.isZero then none else some (a.div b)

/-- The constants `DENSITY` and `OVER_RELAXATION` (lines 15-17) as `float`s. -/
def DENSITY32 : F32 := F32.round 1000

def OVER_RELAXATION32 : F32 := F32.round (3 / 2)

/-- The data members of `class Fluid`, the `float`s as binary32 values. -/
structure Fluid32 where
  numX : Int
  numY : Int
  numCells : Int
  h : F32
  u : List F32
  v : List F32
  newU : List F32
  newV : List F32
  p : List F32
  s : List F32
  m : List F32
  newM : List F32
deriving DecidableEq

/-- Read `f[k]`; `0` when `k` is outside the vector. -/
def rd32 (f : List F32) (k : Int) : F32 :=
  if k < 0 then F32.fin 0 else f.getD k.toNat (F32.fin 0)

/-- Write `f[k] = x`; nothing when `k` is outside the vector. -/
def wr32 (f : List F32) (k : Int) (x : F32) : List F32 :=
  if k < 0 then f else f.set k.toNat x

/-- Checked read `f[k]`: `none` when `k` is outside the vector. -/
def rdC32 (f : List F32) (k : Int) : Option F32 :=
  if 0 ≤ k ∧ k < f.length then some (rd32 f k) else none

/-- Checked write `f[k] = x`: `none` when `k` is outside the vector. -/
def wrC32 (f : List F32) (k : Int) (x : F32) : Option (List F32) :=
  if 0 ≤ k ∧ k < f.length then some (wr32 f k x) else none

/-- `Fluid::addDensity` (lines 268-272) in binary32. -/
def addDensity32 (x y : Int) (amount : F32) (F : Fluid32) : Fluid32 :=
  if x ≥ 0 ∧ x < F.numX ∧ y ≥ 0 ∧ y < F.numY then
    { F with m := wr32 F.m (x * F.numY + y) ((rd32 F.m (x * F.numY + y)).add amount) }
  else F

/-- `Fluid::addVelocity` (lines 274-279) in binary32. -/
def addVelocity32 (x y : Int) (amountX amountY : F32) (F : Fluid32) : Fluid32 :=
  if x ≥ 0 ∧ x < F.numX ∧ y ≥ 0 ∧ y < F.numY then
    { F with u := wr32 F.u (x * F.numY + y) ((rd32 F.u (x * F.numY + y)).add amountX),
             v := wr32 F.v (x * F.numY + y) ((rd32 F.v (x * F.numY + y)).add amountY) }
  else F

/-- The body of the double loop of `integrate` (lines 76-78) in binary32, with
checked indexing. -/
def integrateCell32 (dt gravity : F32) (i j : Int) (F : Fluid32) : Option Fluid32 := do
  let s0 ← rdC32 F.s (i * F.numY + j)
  if !s0.isZero then
    let s1 ← rdC32 F.s (i * F.numY + j - 1)
    if !s1.isZero then
      let v0 ← rdC32 F.v (i * F.numY + j)
      let v1 ← wrC32 F.v (i * F.numY + j) (v0.add (gravity.mul dt))
      pure { F with v := v1 }
    else pure F
  else pure F

/-- `Fluid::integrate` (lines 73-81) in binary32. -/
def integrate32 (dt gravity : F32) (F : Fluid32) : Option Fluid32 :=
  forRangeC 1 F.numX (fun i F1 =>
    forRangeC 1 (F.numY - 1) (fun j F2 => integrateCell32 dt gravity i j F2) F1) F

/-- The velocity updates of a projector visit (lines 106-109) in binary32. -/
def solveVelocity32 (i j : Int) (F : Fluid32) (sx0 sx1 sy0 sy1 pressure : F32)
    (p1 : List F32) : Option Fluid32 := do
  let u0 ← rdC32 F.u (i * F.numY + j)
  let u1 ← wrC32 F.u (i * F.numY + j) (u0.sub (sx0.mul pressure))
  let u1a ← rdC32 u1 ((i + 1) * F.numY + j)
  let u2 ← wrC32 u1 ((i + 1) * F.numY + j) (u1a.add (sx1.mul pressure))
  let v0 ← rdC32 F.v (i * F.numY + j)
  let v1 ← wrC32 F.v (i * F.numY + j) (v0.sub (sy0.mul pressure))
  let v1a ← rdC32 v1 (i * F.numY + j + 1)
  let v2 ← wrC32 v1 (i * F.numY + j + 1) (v1a.add (sy1.mul pressure))
  pure { F with p := p1, u := u2, v := v2 }

/-- Lines 99-109 of a projector visit in binary32. -/
def solveCorrect32 (cp : F32) (i j : Int) (F : Fluid32) (sx0 sx1 sy0 sy1 s : F32) :
    Option Fluid32 := do
  let ua ← rdC32 F.u ((i + 1) * F.numY + j)
  let ub ← rdC32 F.u (i * F.numY + j)
  let va ← rdC32 F.v (i * F.numY + j + 1)
  let vb ← rdC32 F.v (i * F.numY + j)
  let div := ((ua.sub ub).add va).sub vb
  let q ← F32.divC div.neg s
  let pressure := q.mul OVER_RELAXATION32
  let p0 ← rdC32 F.p (i * F.numY + j)
  let p1 ← wrC32 F.p (i * F.numY + j) (p0.add (cp.mul pressure))
  solveVelocity32 i j F sx0 sx1 sy0 sy1 pressure p1

/-- The visit of cell `(i, j)` by the projector (lines 89-109) in binary32. -/
def solveCell32 (cp : F32) (i j : Int) (F : Fluid32) : Option Fluid32 := do
  let sc ← rdC32 F.s (i * F.numY + j)
  if sc.isZero then pure F
  else do
    let sx0 ← rdC32 F.s ((i - 1) * F.numY + j)
    let sx1 ← rdC32 F.s ((i + 1) * F.numY + j)
    let sy0 ← rdC32 F.s (i * F.numY + j - 1)
    let sy1 ← rdC32 F.s (i * F.numY + j + 1)
    let s := ((sx0.add sx1).add sy0).add sy1
    if s.isZero then pure F
    else solveCorrect32 cp i j F sx0 sx1 sy0 sy1 s

/-- One pass of the `iter` loop in binary32. -/
def solveSweep32 (cp : F32) (F : Fluid32) : Option Fluid32 :=
  forRangeC 1 (F.numX - 1) (fun i F1 =>
    forRangeC 1 (F.numY - 1) (fun j F2 => solveCell32 cp i j F2) F1) F

/-- `Fluid::solveIncompressibility` (lines 83-113) in binary32. -/
def solveIncompressibility32 (numIters : Int) (dt : F32) (F : Fluid32) : Option Fluid32 := do
  let cp ← F32.divC (DENSITY32.mul F.h) dt
  forRangeC 0 numIters (fun _ F1 => solveSweep32 cp F1) F

/-- The body of the first loop of `extrapolate` (lines 118-121). -/
def extrapolateU32 (i : Int) (F : Fluid32) : Option Fluid32 := do
  let a ← rdC32 F.u (i * F.numY + 1)
  let u1 ← wrC32 F.u (i * F.numY + 0) a
  let b ← rdC32 u1 (i * F.numY + F.numY - 2)
  let u2 ← wrC32 u1 (i * F.numY + F.numY - 1) b
  pure { F with u := u2 }

/-- The body of the second loop of `extrapolate` (lines 123-126). -/
def extrapolateV32 (j : Int) (F : Fluid32) : Option Fluid32 := do
  let a ← rdC32 F.v (1 * F.numY + j)
  let v1 ← wrC32 F.v (0 * F.numY + j) a
  let b ← rdC32 v1 ((F.numX - 2) * F.numY + j)
  let v2 ← wrC32 v1 ((F.numX - 1) * F.numY + j) b
  pure { F with v := v2 }

/-- The body of the third loop of `extrapolate` (lines 127-134) in binary32;
`0.9f` is the binary32 value nearest to `9/10`. -/
def dampCell32 (i j : Int) (F : Fluid32) : Option Fluid32 :=
  if i = 0 ∨ i = F.numX - 1 ∨ j = 0 ∨ j = F.numY - 1 then do
    let a ← rdC32 F.u (i * F.numY + j)
    let u1 ← wrC32 F.u (i * F.numY + j) (a.mul (F32.round (9 / 10)))
    let b ← rdC32 F.v (i * F.numY + j)
    let v1 ← wrC32 F.v (i * F.numY + j) (b.mul (F32.round (9 / 10)))
    pure { F with u := u1, v := v1 }
  else pure F

/-- `Fluid::extrapolate` (lines 116-135) in binary32. -/
def extrapolate32 (F : Fluid32) : Option Fluid32 := do
  let F1 ← forRangeC 0 F.numX extrapolateU32 F
  let F2 ← forRangeC 0 F1.numY extrapolateV32 F1
  forRangeC 0 F2.numX (fun i G =>
    forRangeC 0 F2.numY (fun j G1 => dampCell32 i j G1) G) F2

/-- Lines 155-169 of `sampleField` in binary32: the two conversions to `int`,
the weights and the four reads. -/
def interpolate32 (F : Fluid32) (h1 : F32) (f : List F32) (dx dy x y : F32) :
    Option F32 := do
  let x0f ← (((x.sub dx).mul h1).floor).toIntC
  let x0 : Int := min x0f (F.numX - 1)
  let tx := ((x.sub dx).sub ((F32.ofInt x0).mul F.h)).mul h1
  let x1 : Int := min (x0 + 1) (F.numX - 1)
  let y0f ← (((y.sub dy).mul h1).floor).toIntC
  let y0 : Int := min y0f (F.numY - 1)
  let ty := ((y.sub dy).sub ((F32.ofInt y0).mul F.h)).mul h1
  let y1 : Int := min (y0 + 1) (F.numY - 1)
  let sx := (F32.fin 1).sub tx
  let sy := (F32.fin 1).sub ty
  let a ← rdC32 f (x0 * F.numY + y0)
  let b ← rdC32 f (x1 * F.numY + y0)
  let c ← rdC32 f (x1 * F.numY + y1)
  let d ← rdC32 f (x0 * F.numY + y1)
  pure (((((sx.mul sy).mul a).add ((tx.mul sy).mul b)).add ((tx.mul ty).mul c)).add
    ((sx.mul ty).mul d))

/-- `Fluid::sampleField` (lines 138-170) in binary32. -/
def sampleField32 (F : Fluid32) (x y : F32) (field : Int) : Option F32 := do
  let h1 ← F32.divC (F32.fin 1) F.h
  let h2 := (F32.fin (1 / 2)).mul F.h
  let x := F32.max (F32.min x ((F32.ofInt F.numX).mul F.h)) F.h
  let y := F32.max (F32.min y ((F32.ofInt F.numY).mul F.h)) F.h
  if field = U_FIELD then interpolate32 F h1 F.u (F32.fin 0) h2 x y
  else if field = V_FIELD then interpolate32 F h1 F.v h2 (F32.fin 0) x y
  else if field = S_FIELD then interpolate32 F h1 F.m h2 h2 x y
  else pure (F32.fin 0)

/-- `Fluid::avgU` (lines 173-176) in binary32. -/
def avgU32 (F : Fluid32) (i j : Int) : Option F32 := do
  let a ← rdC32 F.u (i * F.numY + j - 1)
  let b ← rdC32 F.u (i * F.numY + j)
  let c ← rdC32 F.u ((i + 1) * F.numY + j - 1)
  let d ← rdC32 F.u ((i + 1) * F.numY + j)
  pure ((((a.add b).add c).add d).mul (F32.fin (1 / 4)))

/-- `Fluid::avgV` (lines 178-181) in binary32. -/
def avgV32 (F : Fluid32) (i j : Int) : Option F32 := do
  let a ← rdC32 F.v ((i - 1) * F.numY + j)
  let b ← rdC32 F.v (i * F.numY + j)
  let c ← rdC32 F.v ((i - 1) * F.numY + j + 1)
  let d ← rdC32 F.v (i * F.numY + j + 1)
  pure ((((a.add b).add c).add d).mul (F32.fin (1 / 4)))

/-- The first `if` of the loop body of `advectVel` (lines 193-203) in
binary32. -/
def advectUCell32 (dt : F32) (i j : Int) (F : Fluid32) : Option Fluid32 := do
  let s0 ← rdC32 F.s (i * F.numY + j)
  if !s0.isZero then
    let s1 ← rdC32 F.s ((i - 1) * F.numY + j)
    if !s1.isZero ∧ j < F.numY - 1 then
      let h2 := (F32.fin (1 / 2)).mul F.h
      let x := (F32.ofInt i).mul F.h
      let y := ((F32.ofInt j).mul F.h).add h2
      let u_comp ← rdC32 F.u (i * F.numY + j)
      let v_comp ← avgV32 F i j
      let x := x.sub (dt.mul u_comp)
      let y := y.sub (dt.mul v_comp)
      let smp ← sampleField32 F x y U_FIELD
      let nu ← wrC32 F.newU (i * F.numY + j) smp
      pure { F with newU := nu }
    else pure F
  else pure F

/-- The second `if` of the loop body of `advectVel` (lines 206-216) in
binary32. -/
def advectVCell32 (dt : F32) (i j : Int) (F : Fluid32) : Option Fluid32 := do
  let s0 ← rdC32 F.s (i * F.numY + j)
  if !s0.isZero then
    let s1 ← rdC32 F.s (i * F.numY + j - 1)
    if !s1.isZero ∧ i < F.numX - 1 then
      let h2 := (F32.fin (1 / 2)).mul F.h
      let x := ((F32.ofInt i).mul F.h).add h2
      let y := (F32.ofInt j).mul F.h
      let u_comp ← avgU32 F i j
      let v_comp ← rdC32 F.v (i * F.numY + j)
      let x := x.sub (dt.mul u_comp)
      let y := y.sub (dt.mul v_comp)
      let smp ← sampleField32 F x y V_FIELD
      let nv ← wrC32 F.newV (i * F.numY + j) smp
      pure { F with newV := nv }
    else pure F
  else pure F

/-- `Fluid::advectVel` (lines 184-222) in binary32. -/
def advectVel32 (dt : F32) (F : Fluid32) : Option Fluid32 := do
  let F0 : Fluid32 := { F with newU := F.u, newV := F.v }
  let F1 ← forRangeC 1 F0.numX (fun i G =>
    forRangeC 1 F0.numY (fun j G1 =>
      (advectUCell32 dt i j G1).bind (advectVCell32 dt i j)) G) F0
  pure { F1 with u := F1.newU, v := F1.newV }

/-- The loop body of `advectSmoke` (lines 232-239) in binary32. -/
def advectSmokeCell32 (dt : F32) (i j : Int) (F : Fluid32) : Option Fluid32 := do
  let s0 ← rdC32 F.s (i * F.numY + j)
  if !s0.isZero then
    let h2 := (F32.fin (1 / 2)).mul F.h
    let ua ← rdC32 F.u (i * F.numY + j)
    let ub ← rdC32 F.u ((i + 1) * F.numY + j)
    let u_comp := (ua.add ub).mul (F32.fin (1 / 2))
    let va ← rdC32 F.v (i * F.numY + j)
    let vb ← rdC32 F.v (i * F.numY + j + 1)
    let v_comp := (va.add vb).mul (F32.fin (1 / 2))
    let x := (((F32.ofInt i).mul F.h).add h2).sub (dt.mul u_comp)
    let y := (((F32.ofInt j).mul F.h).add h2).sub (dt.mul v_comp)
    let smp ← sampleField32 F x y S_FIELD
    let nm ← wrC32 F.newM (i * F.numY + j) smp
    pure { F with newM := nm }
  else pure F

/-- `Fluid::advectSmoke` (lines 225-243) in binary32. -/
def advectSmoke32 (dt : F32) (F : Fluid32) : Option Fluid32 := do
  let F0 : Fluid32 := { F with newM := F.m }
  let F1 ← forRangeC 1 (F0.numX - 1) (fun i G =>
    forRangeC 1 (F0.numY - 1) (fun j G1 => advectSmokeCell32 dt i j G1) G) F0
  pure { F1 with m := F1.newM }

/-- `Fluid::fadeDensity` (lines 261-265) in binary32; `0.998f` is the binary32
value nearest to `499/500`. -/
def fadeDensity32 (F : Fluid32) : Option Fluid32 :=
  forRangeC 0 F.numCells (fun i G => do
    let a ← rdC32 G.m i
    let m1 ← wrC32 G.m i (a.mul (F32.round (499 / 500)))
    pure { G with m := m1 }) F

/-- The state in which `advectVel` starts during the tick
`simulate(dt, gravity, numIters)`: after `integrate`, the reset of `p`,
`solveIncompressibility` and `extrapolate` (lines 247-252). -/
def beforeAdvection32 (dt gravity : F32) (numIters : Int) (F : Fluid32) : Option Fluid32 := do
  let F1 ← integrate32 dt gravity F
  let F2 : Fluid32 := { F1 with p := F1.p.map (fun _ => F32.fin 0) }
  let F3 ← solveIncompressibility32 numIters dt F2
  extrapolate32 F3

/-- `Fluid::simulate` (lines 246-258) in binary32, with checked indexing,
checked conversion to `int` and guarded division. -/
def simulate32 (dt gravity : F32) (numIters : Int) (F : Fluid32) : Option Fluid32 := do
  let F4 ← beforeAdvection32 dt gravity numIters F
  let F5 ← advectVel32 dt F4
  let F6 ← advectSmoke32 dt F5
  fadeDensity32 F6

/-- The state `Fluid(2, 1, 1.0f)` builds: 4 x 3 cells of size `1`, every
vector with `12` entries, all zero except the mask, which is `1` everywhere
(no cell centre lies within `0.08` of the domain centre `(2, 1.5)`). -/
def open43 : Fluid32 :=
  { numX := 4, numY := 3, numCells := 12, h := F32.fin 1,
    u := List.replicate 12 (F32.fin 0), v := List.replicate 12 (F32.fin 0),
    newU := List.replicate 12 (F32.fin 0), newV := List.replicate 12 (F32.fin 0),
    p := List.replicate 12 (F32.fin 0), s := List.replicate 12 (F32.fin 1),
    m := List.replicate 12 (F32.fin 0), newM := List.replicate 12 (F32.fin 0) }

/-- The `float` literal `3e38f`. -/
def big32 : F32 := F32.round 300000000000000000000000000000000000000

/-- A `float` that is a number: neither an infinity nor a NaN. -/
def F32.isFinite : F32 → Bool
  | .fin _ => true
  | _ => false

/-- The state `Fluid(1, 1, 1.0f)` builds: 3 x 3 cells of size `1`; the centre
of cell `(1, 1)` is the domain centre `(1.5, 1.5)`, so that cell is solid, and
every other cell centre is at distance `1` or more from it. -/
def solid33 : Fluid32 :=
  { numX := 3, numY := 3, numCells := 9, h := F32.fin 1,
    u := List.replicate 9 (F32.fin 0), v := List.replicate 9 (F32.fin 0),
    newU := List.replicate 9 (F32.fin 0), newV := List.replicate 9 (F32.fin 0),
    p := List.replicate 9 (F32.fin 0),
    s := [F32.fin 1, F32.fin 1, F32.fin 1, F32.fin 1, F32.fin 0, F32.fin 1,
          F32.fin 1, F32.fin 1, F32.fin 1],
    m := List.replicate 9 (F32.fin 0), newM := List.replicate 9 (F32.fin 0) }

/-- The state of `open43` after `addDensity(1, 1, 16777216.0f)`. -/
def dyed43 : Fluid32 := addDensity32 1 1 (F32.fin 16777216) open43

/-- The state of `open43` after `addVelocity(1, 1, 16777216.0f, 3e38f)`. -/
def fast43 : Fluid32 := addVelocity32 1 1 (F32.fin 16777216) big32 open43

/-- The state of `open43` after `addVelocity(1, 1, -3e38f, 0)` and
`addVelocity(2, 1, 3e38f, 0)`: the left face of cell `(1, 1)` carries
`u = -3e38f` and its right face `u = 3e38f`, two finite values. -/
def opposed43 : Fluid32 :=
  addVelocity32 2 1 big32 (F32.fin 0) (addVelocity32 1 1 big32.neg (F32.fin 0) open43)

/-- The time step `1.0f / 60.0f` of line 13. -/
def DT32 : F32 := (F32.fin 1).div (F32.fin 60)

/-! ## A packed evaluator for the projector

The projector as an integer computation, for evaluating many sweeps inside a
proof. A velocity vector whose entries are multiples of `2^(-208)` of
magnitude below `2^15` is kept as one natural number: entry `k` is the
base-`2^224` digit `k`, and the digit `x` stands for the value
`(x - 2^223) / 2^208`. The mask, whose entries are `0` or `1`, is kept as the
bits of a natural number. `PackedRel` relates such a pair of numbers to a grid
state, and the visit, the sweep and the projector on packed vectors follow the
definitions of `solveCell`, `solveSweep` and `solveIncompressibility` step by
step; a step whose result would not fit the format yields `none`. -/

/-- The number of bits of a packed entry. -/
def packWidth : Nat := 224

/-- The base `2 ^ packWidth` of the packed entries. -/
def packMod : Nat := 2 ^ 224

/-- The offset of a packed entry, which makes room for negative values. -/
def packBias : Nat := 2 ^ 223

/-- The scale of a packed entry: values are multiples of `1 / packScale`. -/
def packScale : Nat := 2 ^ 208

/-- Four times the offset. -/
def packBias4 : Nat := 2 ^ 225

/-- Six times the offset. -/
def packBias6 : Nat := 6 * 2 ^ 223

/-- The rational number the packed entry `x` stands for. -/
def unpackEntry (x : Nat) : ℚ := ((x : ℚ) - (packBias : ℚ)) / (packScale : ℚ)

/-- Entry `k` of the packed vector `U`. -/
def packedGet (U k : Nat) : Nat :=
  Nat.mod (Nat.div U (Nat.pow 2 (Nat.mul packWidth k))) packMod

/-- The packed vector `U` in which the entry of weight `X = 2^(packWidth * k)`,
whose digit is `old`, is replaced by the digit `new`. -/
def packedSet (U X old new : Nat) : Nat :=
  Nat.add (Nat.sub U (Nat.mul X old)) (Nat.mul X new)

/-- Bit `k` of the packed mask `M`. -/
def maskBit (M k : Nat) : Nat := Nat.mod (Nat.div M (Nat.pow 2 k)) 2

/-- The vectors `u` and `v` of a grid state, packed. -/
structure PackedUV where
  u : Nat
  v : Nat

/-- The packed pair `st` and the packed mask `M` describe the grid state `F`
of `nX` by `nY` cells: the mask entries are the bits of `M`, and the entries of
`u` and `v` are the values of the digits of `st.u` and `st.v`. -/
def PackedRel (M nX nY : Nat) (F : Fluid) (st : PackedUV) : Prop :=
  F.numX = (nX : Int) ∧ F.numY = (nY : Int) ∧
  F.u.length = nX * nY ∧ F.v.length = nX * nY ∧
  (∀ k : Nat, k < nX * nY → rd F.s (k : Int) = (maskBit M k : ℚ)) ∧
  (∀ k : Nat, k < nX * nY → rd F.u (k : Int) = unpackEntry (packedGet st.u k)) ∧
  (∀ k : Nat, k < nX * nY → rd F.v (k : Int) = unpackEntry (packedGet st.v k))

/-- The correction of lines 99-109 on packed entries. With `a, b, c, e` the
digits of `u[k + nY]`, `u[k]`, `v[k + 1]`, `v[k]` and `S` the weight sum,
`D = a + c - b - e + 4 * packBias` is the scaled divergence plus four offsets,
`Q = 3 D / (2 S)` is minus the scaled pressure correction plus
`C = 6 * packBias / S`; both divisions have to be exact, and the four new
digits have to lie in `[0, packMod)`. -/
def fastCorrect (st : PackedUV) (X Y Z a b c e sx0 sx1 sy0 sy1 S : Nat) : Option PackedUV :=
  let D3 := Nat.mul 3 (Nat.sub (Nat.add (Nat.add a c) packBias4) (Nat.add b e))
  let S2 := Nat.mul 2 S
  let Q := Nat.div D3 S2
  let C := Nat.div packBias6 S
  let b0 := Nat.add b (Nat.mul sx0 Q)
  let a0 := Nat.add a (Nat.mul sx1 C)
  let e0 := Nat.add e (Nat.mul sy0 Q)
  let c0 := Nat.add c (Nat.mul sy1 C)
  let b1 := Nat.sub b0 (Nat.mul sx0 C)
  let a1 := Nat.sub a0 (Nat.mul sx1 Q)
  let e1 := Nat.sub e0 (Nat.mul sy0 C)
  let c1 := Nat.sub c0 (Nat.mul sy1 Q)
  cond (and (and (Nat.beq (Nat.mod D3 S2) 0) (Nat.beq (Nat.mod packBias6 S) 0))
      (and (and (and (Nat.ble (Nat.mul sx0 C) b0) (Nat.ble (Nat.succ b1) packMod))
                (and (Nat.ble (Nat.mul sx1 Q) a0) (Nat.ble (Nat.succ a1) packMod)))
           (and (and (Nat.ble (Nat.mul sy0 C) e0) (Nat.ble (Nat.succ e1) packMod))
                (and (Nat.ble (Nat.mul sy1 Q) c0) (Nat.ble (Nat.succ c1) packMod)))))
    (some ⟨packedSet (packedSet st.u X b b1) Y a a1, packedSet (packedSet st.v X e e1) Z c c1⟩)
    none

/-- One visit of the projector (lines 89-109) on packed vectors, at the cell
with flat index `k`. -/
def fastVisit (M nY k : Nat) (st : PackedUV) : Option PackedUV :=
  cond (Nat.beq (maskBit M k) 0) (some st)
    (let sx0 := maskBit M (Nat.sub k nY)
     let sx1 := maskBit M (Nat.add k nY)
     let sy0 := maskBit M (Nat.sub k 1)
     let sy1 := maskBit M (Nat.add k 1)
     let S := Nat.add (Nat.add sx0 sx1) (Nat.add sy0 sy1)
     cond (Nat.beq S 0) (some st)
       (fastCorrect st (Nat.pow 2 (Nat.mul packWidth k))
          (Nat.pow 2 (Nat.mul packWidth (Nat.add k nY)))
          (Nat.pow 2 (Nat.mul packWidth (Nat.add k 1)))
          (packedGet st.u (Nat.add k nY)) (packedGet st.u k)
          (packedGet st.v (Nat.add k 1)) (packedGet st.v k) sx0 sx1 sy0 sy1 S))

/-- The loop `for (i = lo; i < lo + n; i++)` over a body that can fail. -/
def fastLoop (body : Nat → PackedUV → Option PackedUV) (lo : Nat) :
    Nat → PackedUV → Option PackedUV
  | 0, st => some st
  | n + 1, st =>
    match fastLoop body lo n st with
    | none => none
    | some st1 => body (Nat.add lo n) st1

/-- One sweep of the projector over the interior cells, on packed vectors. -/
def fastSweep (M nX nY : Nat) (st : PackedUV) : Option PackedUV :=
  fastLoop (fun i st1 =>
    fastLoop (fun j st2 => fastVisit M nY (Nat.add (Nat.mul i nY) j) st2) 1 (nY - 2) st1)
    1 (nX - 2) st

/-- The projector with `n` sweeps on packed vectors. -/
def fastProject (M nX nY n : Nat) (st : PackedUV) : Option PackedUV :=
  fastLoop (fun _ st1 => fastSweep M nX nY st1) 0 n st

/-- The digit that stands for the value `x`, a multiple of `1 / packScale`. -/
def packEntry (x : ℚ) : Nat := (⌊x * (packScale : ℚ)⌋ + (packBias : Int)).toNat

/-- The vector `l`, packed. -/
def packVec (l : List ℚ) : Nat :=
  l.foldr (fun x acc => packEntry x + packMod * acc) 0

/-- The mask `l`, packed: bit `k` is `0` exactly when `l[k] = 0`. -/
def packMask (l : List ℚ) : Nat :=
  l.foldr (fun x acc => (if x = 0 then 0 else 1) + 2 * acc) 0

/-- The vectors `u` and `v` of the grid state `F`, packed. -/
def packState (F : Fluid) : PackedUV := ⟨packVec F.u, packVec F.v⟩

/-- The first `n` entries of the packed vector `U`, as a vector of values. -/
def unpackVec (n U : Nat) : List ℚ :=
  (List.range n).map (fun k => unpackEntry (packedGet U k))

/-- The grid state `F` with its `u` and `v` replaced by the packed pair `st`. -/
def unpackState (F : Fluid) (st : PackedUV) : Fluid :=
  { F with u := unpackVec F.u.length st.u, v := unpackVec F.v.length st.v }

instance (M nX nY : Nat) (F : Fluid) (st : PackedUV) : Decidable (PackedRel M nX nY F st) := by
  unfold PackedRel; infer_instance

/-- The value `advectVel` stores in `u[i,j]` (lines 193-203 and the swap of
lines 220-221): the sample of `u` at the traced-back position when the guard
holds, the old value otherwise. -/
def advectedU (dt : ℚ) (F : Fluid) (i j : Int) : ℚ :=
  if 1 ≤ i ∧ 1 ≤ j ∧ rd F.s (i * F.numY + j) ≠ 0 ∧
      rd F.s ((i - 1) * F.numY + j) ≠ 0 ∧ j < F.numY - 1
  then sampleField F ((i : ℚ) * F.h - dt * rd F.u (i * F.numY + j))
    ((j : ℚ) * F.h + 1 / 2 * F.h - dt * avgV F i j) U_FIELD
  else rd F.u (i * F.numY + j)

/-- The value `advectVel` stores in `v[i,j]` (lines 206-216 and the swap of
lines 220-221). -/
def advectedV (dt : ℚ) (F : Fluid) (i j : Int) : ℚ :=
  if 1 ≤ i ∧ 1 ≤ j ∧ rd F.s (i * F.numY + j) ≠ 0 ∧
      rd F.s (i * F.numY + j - 1) ≠ 0 ∧ i < F.numX - 1
  then sampleField F ((i : ℚ) * F.h + 1 / 2 * F.h - dt * avgU F i j)
    ((j : ℚ) * F.h - dt * rd F.v (i * F.numY + j)) V_FIELD
  else rd F.v (i * F.numY + j)

/-- The divergence of cell `(i, j)` after `advectVel`, from the state before
it. -/
def advectedDivergence (dt : ℚ) (F : Fluid) (i j : Int) : ℚ :=
  advectedU dt F (i + 1) j - advectedU dt F i j +
  advectedV dt F i (j + 1) - advectedV dt F i j

/-- The outcome of the tick `simulate(dt, 0, n)` for the divergence of cell
`(i, j)`, computed with the projector on packed vectors: `some true` when the
absolute divergence after the tick is at most `bound`, `some false` when it is
more, `none` when the values of the projector do not fit the packed format. -/
def tickDivergenceWithin (dt : ℚ) (n : Nat) (F : Fluid) (i j : Int) (bound : ℚ) :
    Option Bool :=
  match fastProject (packMask F.s) F.numX.toNat F.numY.toNat n (packState F) with
  | none => none
  | some st => some (decide (|advectedDivergence dt (extrapolate (unpackState F st)) i j| ≤ bound))

/-- The total absolute interior divergence after `n` sweeps of the projector,
computed on packed vectors; `none` when a step does not fit the format. -/
def projectedTotal (n : Nat) (F : Fluid) : Option ℚ :=
  match fastProject (packMask F.s) F.numX.toNat F.numY.toNat n (packState F) with
  | none => none
  | some st => some (totalAbsDivergence (unpackState F st))

/-! ## Vectors: reads after writes -/

theorem length_wr (f : List ℚ) (k : Int) (x : ℚ) : (wr f k x).length = f.length := by
  unfold wr; split <;> simp

theorem rd_wr (f : List ℚ) (k : Int) (x : ℚ) (k' : Int) :
    rd (wr f k x) k' = if k' = k ∧ 0 ≤ k ∧ k < f.length then x else rd f k' := by
  unfold rd wr
  by_cases hk' : k' < 0
  · have : ¬ (k' = k ∧ 0 ≤ k ∧ k < f.length) := by omega
    simp [hk', this]
  · by_cases hk : k < 0
    · have : ¬ (k' = k ∧ 0 ≤ k ∧ k < f.length) := by omega
      simp [hk, hk', this]
    · simp only [hk, hk', if_false]
      by_cases he : k' = k
      · subst he
        by_cases hl : k' < f.length
        · have h1 : k'.toNat < f.length := by omega
          have : (k' = k' ∧ 0 ≤ k' ∧ k' < f.length) := ⟨rfl, by omega, hl⟩
          simp [this, List.getD_eq_getElem?_getD, List.getElem?_set, h1]
        · have h1 : ¬ k'.toNat < f.length := by omega
          have : ¬ (0 ≤ k' ∧ k' < f.length) := by omega
          have h2 : f.length ≤ k'.toNat := by omega
          simp [this, List.getD_eq_getElem?_getD, List.getElem?_set, h1, List.getElem?_eq_none h2]
      · have h1 : k.toNat ≠ k'.toNat := by omega
        have : ¬ (k' = k ∧ 0 ≤ k ∧ k < f.length) := by omega
        simp [this, List.getD_eq_getElem?_getD, List.getElem?_set, h1]

theorem rd_wr_ne (f : List ℚ) {k k' : Int} (x : ℚ) (h : k' ≠ k) :
    rd (wr f k x) k' = rd f k' := by
  rw [rd_wr]; simp [h]

theorem rd_wr_self (f : List ℚ) {k : Int} (x : ℚ) (h0 : 0 ≤ k) (h1 : k < f.length) :
    rd (wr f k x) k = x := by
  rw [rd_wr]; simp [h0, h1]

theorem rd_of_lt (f : List ℚ) {k : Int} (h : k < 0) : rd f k = 0 := by
  simp [rd, h]

theorem rd_of_ge (f : List ℚ) {k : Int} (h : (f.length : Int) ≤ k) : rd f k = 0 := by
  unfold rd
  split
  · rfl
  · have : f.length ≤ k.toNat := by omega
    simp [List.getD_eq_getElem?_getD, List.getElem?_eq_none this]

/-- Writing back the value read leaves the vector as it is. -/
theorem wr_rd_same (f : List ℚ) (k : Int) (x : ℚ) (h : x = rd f k) : wr f k x = f := by
  subst h
  unfold wr rd
  by_cases hk : k < 0
  · simp [hk]
  · simp only [hk, if_false]
    apply List.ext_getElem?
    intro n
    rw [List.getElem?_set]
    split
    · rename_i h1; subst h1
      split
      · rename_i h2
        simp [List.getD_eq_getElem?_getD, List.getElem?_eq_getElem h2]
      · rename_i h2
        simp at h2
        simp [List.getElem?_eq_none h2]
    · rfl

theorem ext_rd {f g : List ℚ} (hl : f.length = g.length) (h : ∀ k : Int, rd f k = rd g k) :
    f = g := by
  apply List.ext_getElem hl
  intro n h1 h2
  have := h (n : Int)
  unfold rd at this
  simpa [List.getD_eq_getElem?_getD, List.getElem?_eq_getElem h1, List.getElem?_eq_getElem h2] using this

theorem forRange_empty {σ : Type} {lo hi : Int} (body : Int → σ → σ) (st : σ) (h : hi ≤ lo) :
    forRange lo hi body st = st := by
  unfold forRange
  have : (hi - lo).toNat = 0 := by omega
  simp [this]

theorem forRange_succ {σ : Type} {lo hi : Int} (body : Int → σ → σ) (st : σ) (h : lo ≤ hi) :
    forRange lo (hi + 1) body st = body hi (forRange lo hi body st) := by
  unfold forRange
  have : (hi + 1 - lo).toNat = (hi - lo).toNat + 1 := by omega
  rw [this, List.range_succ, List.foldl_append]
  simp only [List.foldl_cons, List.foldl_nil]
  congr 1
  omega

/-- Loop rule with an invariant indexed by the loop counter. -/
theorem forRange_ind {σ : Type} {lo hi : Int} (body : Int → σ → σ) (st : σ)
    (Inv : Int → σ → Prop) (hle : lo ≤ hi) (h0 : Inv lo st)
    (hstep : ∀ i s, lo ≤ i → i < hi → Inv i s → Inv (i + 1) (body i s)) :
    Inv hi (forRange lo hi body st) := by
  obtain ⟨n, rfl⟩ : ∃ n : Nat, hi = lo + n := ⟨(hi - lo).toNat, by omega⟩
  clear hle
  induction n with
  | zero => simpa [forRange_empty body st (le_refl lo)] using h0
  | succ n ih =>
    have e : lo + ((n + 1 : Nat) : Int) = (lo + n) + 1 := by push_cast; ring
    rw [e, forRange_succ body st (by omega)]
    apply hstep _ _ (by omega) (by omega)
    apply ih
    intro i s h1 h2 h3
    exact hstep i s h1 (by omega) h3

/-- Loop rule with an invariant that every pass of the body preserves. -/
theorem forRange_inv {σ : Type} {lo hi : Int} (body : Int → σ → σ) (st : σ)
    (P : σ → Prop) (h0 : P st)
    (hstep : ∀ i s, lo ≤ i → i < hi → P s → P (body i s)) :
    P (forRange lo hi body st) := by
  by_cases hle : lo ≤ hi
  · exact forRange_ind body st (fun _ s => P s) hle h0 hstep
  · rw [forRange_empty body st (by omega)]; exact h0

/-! ## Loops: invariants and pointwise results -/

/-- A loop whose passes all leave the state alone leaves it alone. -/
theorem forRange_id {σ : Type} {lo hi : Int} (body : Int → σ → σ) (st : σ)
    (P : σ → Prop) (h0 : P st)
    (hstep : ∀ i s, lo ≤ i → i < hi → P s → body i s = s) :
    forRange lo hi body st = st := by
  have := forRange_inv body st (fun s => s = st ∧ P s) ⟨rfl, h0⟩
    (fun i s h1 h2 h3 => by
      obtain ⟨rfl, h4⟩ := h3
      rw [hstep i s h1 h2 h4]; exact ⟨rfl, h4⟩)
  exact this.1

/-- Single loop, one writer per index: what an observable `obs st k` of the state
is after the loop, on the indices `k` of a domain `dom`, when pass `i` changes
it only at the indices with `touch i k` and makes it `newv i k` there. -/
theorem forRange_obs {σ : Type} (obs : σ → Int → ℚ) (dom : Int → Prop) (I : σ → Prop)
    (touch : Int → Int → Prop) (newv : Int → Int → ℚ)
    {lo hi : Int} (body : Int → σ → σ) (st0 : σ)
    (hI0 : I st0)
    (hI : ∀ i s, lo ≤ i → i < hi → I s → I (body i s))
    (hframe : ∀ i s k, lo ≤ i → i < hi → I s → dom k → ¬ touch i k →
      obs (body i s) k = obs s k)
    (hval : ∀ i s k, lo ≤ i → i < hi → I s → dom k → touch i k →
      (∀ k', dom k' → (∀ i', lo ≤ i' → i' < i → ¬ touch i' k') → obs s k' = obs st0 k') →
      obs (body i s) k = newv i k)
    (hdisj : ∀ i i' k, lo ≤ i → i < hi → lo ≤ i' → i' < hi → touch i k → touch i' k → i = i') :
    I (forRange lo hi body st0) ∧
    (∀ i k, lo ≤ i → i < hi → dom k → touch i k →
      obs (forRange lo hi body st0) k = newv i k) ∧
    (∀ k, dom k → (∀ i, lo ≤ i → i < hi → ¬ touch i k) →
      obs (forRange lo hi body st0) k = obs st0 k) := by
  by_cases hle : lo ≤ hi
  · have key := forRange_ind body st0
      (fun n s => n ≤ hi → (I s ∧
        (∀ i k, lo ≤ i → i < n → dom k → touch i k → obs s k = newv i k) ∧
        (∀ k, dom k → (∀ i, lo ≤ i → i < n → ¬ touch i k) → obs s k = obs st0 k)))
      hle
      (by
        intro _
        refine ⟨hI0, ?_, ?_⟩
        · intro i k h1 h2; omega
        · intro k _ _; rfl)
      (by
        intro n s hn1 hn2 ih _
        obtain ⟨ihI, ih1, ih2⟩ := ih (by omega)
        refine ⟨hI n s hn1 hn2 ihI, ?_, ?_⟩
        · intro i k h1 h2 hd ht
          by_cases hin : i = n
          · subst hin
            exact hval i s k hn1 hn2 ihI hd ht ih2
          · have hne : ¬ touch n k := fun htn =>
              hin (hdisj i n k h1 (by omega) hn1 hn2 ht htn)
            rw [hframe n s k hn1 hn2 ihI hd hne]
            exact ih1 i k h1 (by omega) hd ht
        · intro k hd hk
          rw [hframe n s k hn1 hn2 ihI hd (hk n hn1 (by omega))]
          exact ih2 k hd (fun i h1 h2 => hk i h1 (by omega)))
    exact key (le_refl hi)
  · rw [forRange_empty body st0 (by omega)]
    refine ⟨hI0, ?_, ?_⟩
    · intro i k h1 h2; omega
    · intro k _ _; rfl

/-- Double loop, one writer per index: what an observable `obs st k` of the
state is, on the indices `k` of a domain `dom`, after
`for i in [ilo, ihi) for j in [jlo, jhi) body i j`, when the pass for `(i, j)`
changes it only at the indices with `touch i j k` and makes it `newv i j k`
there.  A pass may rely on any index that no earlier pass has changed. -/
theorem forRange2_obs {σ : Type} (obs : σ → Int → ℚ) (dom : Int → Prop) (I : σ → Prop)
    (touch : Int → Int → Int → Prop) (newv : Int → Int → Int → ℚ)
    {ilo ihi jlo jhi : Int} (body : Int → Int → σ → σ) (st0 : σ)
    (hI0 : I st0)
    (hI : ∀ i j s, ilo ≤ i → i < ihi → jlo ≤ j → j < jhi → I s → I (body i j s))
    (hframe : ∀ i j s k, ilo ≤ i → i < ihi → jlo ≤ j → j < jhi → I s → dom k →
      ¬ touch i j k → obs (body i j s) k = obs s k)
    (hval : ∀ i j s k, ilo ≤ i → i < ihi → jlo ≤ j → j < jhi → I s → dom k → touch i j k →
      (∀ k', dom k' → (∀ i' j', ilo ≤ i' → i' < ihi → jlo ≤ j' → j' < jhi →
          (i' < i ∨ (i' = i ∧ j' < j)) → ¬ touch i' j' k') →
        obs s k' = obs st0 k') →
      obs (body i j s) k = newv i j k)
    (hdisj : ∀ i j i' j' k, ilo ≤ i → i < ihi → jlo ≤ j → j < jhi →
      ilo ≤ i' → i' < ihi → jlo ≤ j' → j' < jhi →
      touch i j k → touch i' j' k → i = i' ∧ j = j') :
    I (forRange ilo ihi (fun i s => forRange jlo jhi (fun j s1 => body i j s1) s) st0) ∧
    (∀ i j k, ilo ≤ i → i < ihi → jlo ≤ j → j < jhi → dom k → touch i j k →
      obs (forRange ilo ihi (fun i s => forRange jlo jhi (fun j s1 => body i j s1) s) st0) k
        = newv i j k) ∧
    (∀ k, dom k → (∀ i j, ilo ≤ i → i < ihi → jlo ≤ j → j < jhi → ¬ touch i j k) →
      obs (forRange ilo ihi (fun i s => forRange jlo jhi (fun j s1 => body i j s1) s) st0) k
        = obs st0 k) := by
  -- the outer loop is a single loop whose pass `i` is the whole row `i`
  have hrow : ∀ i s, ilo ≤ i → i < ihi → I s →
      (∀ k', dom k' → (∀ i' j', ilo ≤ i' → i' < ihi → jlo ≤ j' → j' < jhi → i' < i →
          ¬ touch i' j' k') → obs s k' = obs st0 k') →
      I (forRange jlo jhi (fun j s1 => body i j s1) s) ∧
      (∀ j k, jlo ≤ j → j < jhi → dom k → touch i j k →
        obs (forRange jlo jhi (fun j s1 => body i j s1) s) k = newv i j k) ∧
      (∀ k, dom k → (∀ j, jlo ≤ j → j < jhi → ¬ touch i j k) →
        obs (forRange jlo jhi (fun j s1 => body i j s1) s) k = obs s k) := by
    intro i s hi1 hi2 hs hprev
    exact forRange_obs obs dom I (fun j k => touch i j k) (fun j k => newv i j k)
      (fun j s1 => body i j s1) s hs
      (fun j s1 h1 h2 h3 => hI i j s1 hi1 hi2 h1 h2 h3)
      (fun j s1 k h1 h2 h3 h4 h5 => hframe i j s1 k hi1 hi2 h1 h2 h3 h4 h5)
      (fun j s1 k h1 h2 h3 h4 h5 h6 => hval i j s1 k hi1 hi2 h1 h2 h3 h4 h5
        (fun k' hd hk' => by
          rw [h6 k' hd (fun j' hj1 hj2 => hk' i j' hi1 hi2 hj1 (by omega) (Or.inr ⟨rfl, hj2⟩))]
          exact hprev k' hd (fun i' j' a b c d e => hk' i' j' a b c d (Or.inl e))))
      (fun j j' k h1 h2 h3 h4 h5 h6 => (hdisj i j i j' k hi1 hi2 h1 h2 hi1 hi2 h3 h4 h5 h6).2)
  by_cases hle : ilo ≤ ihi
  · have key := forRange_ind (fun i s => forRange jlo jhi (fun j s1 => body i j s1) s) st0
      (fun n s => n ≤ ihi → (I s ∧
        (∀ i j k, ilo ≤ i → i < n → jlo ≤ j → j < jhi → dom k → touch i j k →
          obs s k = newv i j k) ∧
        (∀ k, dom k → (∀ i j, ilo ≤ i → i < n → jlo ≤ j → j < jhi → ¬ touch i j k) →
          obs s k = obs st0 k)))
      hle
      (by
        intro _
        refine ⟨hI0, ?_, ?_⟩
        · intro i j k h1 h2; omega
        · intro k _ _; rfl)
      (by
        intro n s hn1 hn2 ih _
        obtain ⟨ihI, ih1, ih2⟩ := ih (by omega)
        obtain ⟨r1, r2, r3⟩ := hrow n s hn1 hn2 ihI
          (fun k' hd hk' => ih2 k' hd (fun i j a b c d => hk' i j a (by omega) c d b))
        refine ⟨r1, ?_, ?_⟩
        · intro i j k h1 h2 h3 h4 hd ht
          by_cases hin : i = n
          · subst hin
            exact r2 j k h3 h4 hd ht
          · rw [r3 k hd (fun j' hj1 hj2 htn =>
              hin (hdisj i j n j' k h1 (by omega) h3 h4 hn1 hn2 hj1 hj2 ht htn).1)]
            exact ih1 i j k h1 (by omega) h3 h4 hd ht
        · intro k hd hk
          rw [r3 k hd (fun j' hj1 hj2 => hk n j' hn1 (by omega) hj1 hj2)]
          exact ih2 k hd (fun i j a b c d => hk i j a (by omega) c d))
    exact key (le_refl ihi)
  · rw [forRange_empty _ st0 (by omega)]
    refine ⟨hI0, ?_, ?_⟩
    · intro i j k h1 h2; omega
    · intro k _ _; rfl

/-- Single loop, one writer per index: what a vector `get st` holds after the
loop, when pass `i` changes only the indices `k` with `touch i k` and writes
`newv i k` there. -/
theorem forRange_writes {σ : Type} (get : σ → List ℚ) (I : σ → Prop)
    (touch : Int → Int → Prop) (newv : Int → Int → ℚ)
    {lo hi : Int} (body : Int → σ → σ) (st0 : σ)
    (hI0 : I st0)
    (hI : ∀ i s, lo ≤ i → i < hi → I s → I (body i s))
    (hframe : ∀ i s k, lo ≤ i → i < hi → I s → ¬ touch i k →
      rd (get (body i s)) k = rd (get s) k)
    (hval : ∀ i s k, lo ≤ i → i < hi → I s → touch i k →
      (∀ k', (∀ i', lo ≤ i' → i' < i → ¬ touch i' k') → rd (get s) k' = rd (get st0) k') →
      rd (get (body i s)) k = newv i k)
    (hdisj : ∀ i i' k, lo ≤ i → i < hi → lo ≤ i' → i' < hi → touch i k → touch i' k → i = i') :
    I (forRange lo hi body st0) ∧
    (∀ i k, lo ≤ i → i < hi → touch i k → rd (get (forRange lo hi body st0)) k = newv i k) ∧
    (∀ k, (∀ i, lo ≤ i → i < hi → ¬ touch i k) →
      rd (get (forRange lo hi body st0)) k = rd (get st0) k) := by
  have key := forRange_obs (fun s k => rd (get s) k) (fun _ => True) I touch newv body st0 hI0 hI
    (fun i s k h1 h2 h3 _ h4 => hframe i s k h1 h2 h3 h4)
    (fun i s k h1 h2 h3 _ h4 h5 => hval i s k h1 h2 h3 h4 (fun k' hk' => h5 k' trivial hk'))
    hdisj
  exact ⟨key.1, fun i k h1 h2 h3 => key.2.1 i k h1 h2 trivial h3,
    fun k h => key.2.2 k trivial h⟩

/-- Double loop, one writer per index: what a vector `get st` holds after
`for i in [ilo, ihi) for j in [jlo, jhi) body i j`, when the pass for `(i, j)`
changes only the indices `k` with `touch i j k` and writes `newv i j k` there.
A pass may read any index that no earlier pass has written. -/
theorem forRange2_writes {σ : Type} (get : σ → List ℚ) (I : σ → Prop)
    (touch : Int → Int → Int → Prop) (newv : Int → Int → Int → ℚ)
    {ilo ihi jlo jhi : Int} (body : Int → Int → σ → σ) (st0 : σ)
    (hI0 : I st0)
    (hI : ∀ i j s, ilo ≤ i → i < ihi → jlo ≤ j → j < jhi → I s → I (body i j s))
    (hframe : ∀ i j s k, ilo ≤ i → i < ihi → jlo ≤ j → j < jhi → I s → ¬ touch i j k →
      rd (get (body i j s)) k = rd (get s) k)
    (hval : ∀ i j s k, ilo ≤ i → i < ihi → jlo ≤ j → j < jhi → I s → touch i j k →
      (∀ k', (∀ i' j', ilo ≤ i' → i' < ihi → jlo ≤ j' → j' < jhi →
          (i' < i ∨ (i' = i ∧ j' < j)) → ¬ touch i' j' k') →
        rd (get s) k' = rd (get st0) k') →
      rd (get (body i j s)) k = newv i j k)
    (hdisj : ∀ i j i' j' k, ilo ≤ i → i < ihi → jlo ≤ j → j < jhi →
      ilo ≤ i' → i' < ihi → jlo ≤ j' → j' < jhi →
      touch i j k → touch i' j' k → i = i' ∧ j = j') :
    I (forRange ilo ihi (fun i s => forRange jlo jhi (fun j s1 => body i j s1) s) st0) ∧
    (∀ i j k, ilo ≤ i → i < ihi → jlo ≤ j → j < jhi → touch i j k →
      rd (get (forRange ilo ihi (fun i s => forRange jlo jhi (fun j s1 => body i j s1) s) st0)) k
        = newv i j k) ∧
    (∀ k, (∀ i j, ilo ≤ i → i < ihi → jlo ≤ j → j < jhi → ¬ touch i j k) →
      rd (get (forRange ilo ihi (fun i s => forRange jlo jhi (fun j s1 => body i j s1) s) st0)) k
        = rd (get st0) k) := by
  have key := forRange2_obs (fun s k => rd (get s) k) (fun _ => True) I touch newv body st0
    hI0 hI
    (fun i j s k h1 h2 h3 h4 h5 _ h6 => hframe i j s k h1 h2 h3 h4 h5 h6)
    (fun i j s k h1 h2 h3 h4 h5 _ h6 h7 =>
      hval i j s k h1 h2 h3 h4 h5 h6 (fun k' hk' => h7 k' trivial hk'))
    hdisj
  exact ⟨key.1, fun i j k h1 h2 h3 h4 h5 => key.2.1 i j k h1 h2 h3 h4 trivial h5,
    fun k h => key.2.2 k trivial h⟩

/-- Row-major flat indices of two cells agree only when the cells agree. -/
theorem flat_inj {nY i j i' j' : Int} (hj0 : 0 ≤ j) (hj1 : j < nY) (hj0' : 0 ≤ j')
    (hj1' : j' < nY) (h : i * nY + j = i' * nY + j') : i = i' ∧ j = j' := by
  have h1 : (i * nY + j) / nY = i := by
    rw [Int.add_comm, Int.add_mul_ediv_right _ _ (by omega), Int.ediv_eq_zero_of_lt hj0 hj1]; simp
  have h2 : (i' * nY + j') / nY = i' := by
    rw [Int.add_comm, Int.add_mul_ediv_right _ _ (by omega), Int.ediv_eq_zero_of_lt hj0' hj1']; simp
  have hi : i = i' := by rw [← h1, ← h2, h]
  subst hi
  exact ⟨rfl, by omega⟩

/-- The flat index of an in-range cell is in range. -/
theorem flat_bounds {nX nY i j : Int} (hi0 : 0 ≤ i) (hi1 : i < nX) (hj0 : 0 ≤ j) (hj1 : j < nY) :
    0 ≤ i * nY + j ∧ i * nY + j < nX * nY := by
  constructor
  · have := Int.mul_nonneg hi0 (by omega : (0 : Int) ≤ nY); omega
  · have h1 : (i + 1) * nY ≤ nX * nY := Int.mul_le_mul_of_nonneg_right (by omega) (by omega)
    have h2 : (i + 1) * nY = i * nY + nY := by ring
    omega

/-! ## C1: the projector and solid cells -/

/-- One visit of the projector changes neither the grid description nor the
mask, and leaves `u`, `v`, `p` alone at every index whose mask entry is `0`. -/
theorem solveCell_solid (cp : ℚ) (i j : Int) (F : Fluid) (c : Int) (hs : rd F.s c = 0) :
    (solveCell cp i j F).s = F.s ∧ (solveCell cp i j F).numY = F.numY ∧
    (solveCell cp i j F).numX = F.numX ∧
    rd (solveCell cp i j F).u c = rd F.u c ∧ rd (solveCell cp i j F).v c = rd F.v c ∧
    rd (solveCell cp i j F).p c = rd F.p c := by
  unfold solveCell
  by_cases h1 : rd F.s (i * F.numY + j) = 0
  · simp [h1]
  · by_cases h2 : rd F.s ((i - 1) * F.numY + j) + rd F.s ((i + 1) * F.numY + j) +
        rd F.s (i * F.numY + j - 1) + rd F.s (i * F.numY + j + 1) = 0
    · simp [h1, h2]
    · have hc : c ≠ i * F.numY + j := fun e => h1 (e ▸ hs)
      simp only [h1, h2, if_false]
      refine ⟨trivial, trivial, trivial, ?_, ?_, ?_⟩
      · by_cases e : c = (i + 1) * F.numY + j
        · rw [rd_wr]
          split
          · rw [← e, hs, rd_wr_ne _ _ hc]; simp
          · rw [rd_wr_ne _ _ hc]
        · rw [rd_wr_ne _ _ e, rd_wr_ne _ _ hc]
      · by_cases e : c = i * F.numY + j + 1
        · rw [rd_wr]
          split
          · rw [← e, hs, rd_wr_ne _ _ hc]; simp
          · rw [rd_wr_ne _ _ hc]
        · rw [rd_wr_ne _ _ e, rd_wr_ne _ _ hc]
      · rw [rd_wr_ne _ _ hc]

/-- The whole projector leaves `u`, `v`, `p` alone at every index whose mask
entry is `0`, and changes neither the mask nor the grid dimensions. -/
theorem solveIncompressibility_solid (numIters : Int) (dt : ℚ) (F : Fluid) (c : Int)
    (hs : rd F.s c = 0) :
    (solveIncompressibility numIters dt F).s = F.s ∧
    (solveIncompressibility numIters dt F).numY = F.numY ∧
    (solveIncompressibility numIters dt F).numX = F.numX ∧
    rd (solveIncompressibility numIters dt F).u c = rd F.u c ∧
    rd (solveIncompressibility numIters dt F).v c = rd F.v c ∧
    rd (solveIncompressibility numIters dt F).p c = rd F.p c := by
  unfold solveIncompressibility
  apply forRange_inv _ F (fun G => G.s = F.s ∧ G.numY = F.numY ∧ G.numX = F.numX ∧
    rd G.u c = rd F.u c ∧ rd G.v c = rd F.v c ∧ rd G.p c = rd F.p c)
  · exact ⟨rfl, rfl, rfl, rfl, rfl, rfl⟩
  · intro _ G _ _ hG
    unfold solveSweep
    apply forRange_inv _ G (fun G => G.s = F.s ∧ G.numY = F.numY ∧ G.numX = F.numX ∧
      rd G.u c = rd F.u c ∧ rd G.v c = rd F.v c ∧ rd G.p c = rd F.p c) hG
    intro i G1 _ _ hG1
    apply forRange_inv _ G1 (fun G => G.s = F.s ∧ G.numY = F.numY ∧ G.numX = F.numX ∧
      rd G.u c = rd F.u c ∧ rd G.v c = rd F.v c ∧ rd G.p c = rd F.p c) hG1
    intro j G2 _ _ hG2
    obtain ⟨a1, a2, a3, a4, a5, a6⟩ := hG2
    obtain ⟨b1, b2, b3, b4, b5, b6⟩ := solveCell_solid (DENSITY * F.h / dt) i j G2 c (by rw [a1]; exact hs)
    exact ⟨b1.trans a1, b2.trans a2, b3.trans a3, b4.trans a4, b5.trans a5, b6.trans a6⟩

/-- C1. Obstacle impermeability of the projector: for every grid state, every
cell `(i, j)` whose mask entry is `0`, every iteration count and every `dt`,
`solveIncompressibility` leaves `u`, `v` and `p` at that cell equal to their
values before the call. -/
theorem C1_projector_leaves_solid_cells (F : Fluid) (i j : Int) (numIters : Int) (dt : ℚ)
    (hs : rd F.s (i * F.numY + j) = 0) :
    rd (solveIncompressibility numIters dt F).u (i * F.numY + j) = rd F.u (i * F.numY + j) ∧
    rd (solveIncompressibility numIters dt F).v (i * F.numY + j) = rd F.v (i * F.numY + j) ∧
    rd (solveIncompressibility numIters dt F).p (i * F.numY + j) = rd F.p (i * F.numY + j) :=
  (solveIncompressibility_solid numIters dt F (i * F.numY + j) hs).2.2.2


/-- C1, instance: the solid centre cell of the 3 x 3 grid, after a velocity
was injected into it, across 5 projector iterations. -/
theorem C1_projector_leaves_solid_cells_witness :
    rd (addVelocity 1 1 1 2 grid3).s (1 * (addVelocity 1 1 1 2 grid3).numY + 1) = 0 ∧
    (rd (solveIncompressibility 5 1 (addVelocity 1 1 1 2 grid3)).u
        (1 * (addVelocity 1 1 1 2 grid3).numY + 1)
      = rd (addVelocity 1 1 1 2 grid3).u (1 * (addVelocity 1 1 1 2 grid3).numY + 1) ∧
     rd (solveIncompressibility 5 1 (addVelocity 1 1 1 2 grid3)).v
        (1 * (addVelocity 1 1 1 2 grid3).numY + 1)
      = rd (addVelocity 1 1 1 2 grid3).v (1 * (addVelocity 1 1 1 2 grid3).numY + 1) ∧
     rd (solveIncompressibility 5 1 (addVelocity 1 1 1 2 grid3)).p
        (1 * (addVelocity 1 1 1 2 grid3).numY + 1)
      = rd (addVelocity 1 1 1 2 grid3).p (1 * (addVelocity 1 1 1 2 grid3).numY + 1)) :=
  ⟨by decide!, C1_projector_leaves_solid_cells (addVelocity 1 1 1 2 grid3) 1 1 5 1 (by decide!)⟩

/-! ## The injection API in exact arithmetic -/

/-- In exact arithmetic, `addDensity(x, y, amount)`: for an in-range cell the
dye entry `m[x*numY + y]` grows by exactly `amount`, every other dye entry and every
other member of the state (`u`, `v`, `p`, `s`, the buffers, the dimensions) is
unchanged, whatever the mask at that cell; for every other integer pair the
whole state is unchanged. -/
theorem addDensity_exact (F : Fluid) (x y : Int) (amount : ℚ)
    (hm : (F.m.length : Int) = F.numX * F.numY) :
    ((0 ≤ x ∧ x < F.numX ∧ 0 ≤ y ∧ y < F.numY) →
      rd (addDensity x y amount F).m (x * F.numY + y) = rd F.m (x * F.numY + y) + amount ∧
      (∀ k : Int, k ≠ x * F.numY + y → rd (addDensity x y amount F).m k = rd F.m k) ∧
      (addDensity x y amount F).m.length = F.m.length ∧
      (addDensity x y amount F).u = F.u ∧ (addDensity x y amount F).v = F.v ∧
      (addDensity x y amount F).p = F.p ∧ (addDensity x y amount F).s = F.s ∧
      (addDensity x y amount F).newU = F.newU ∧ (addDensity x y amount F).newV = F.newV ∧
      (addDensity x y amount F).newM = F.newM ∧
      (addDensity x y amount F).numX = F.numX ∧ (addDensity x y amount F).numY = F.numY ∧
      (addDensity x y amount F).numCells = F.numCells ∧ (addDensity x y amount F).h = F.h) ∧
    (¬ (0 ≤ x ∧ x < F.numX ∧ 0 ≤ y ∧ y < F.numY) → addDensity x y amount F = F) := by
  constructor
  · intro hin
    have hb := flat_bounds hin.1 hin.2.1 hin.2.2.1 hin.2.2.2
    have hc : x ≥ 0 ∧ x < F.numX ∧ y ≥ 0 ∧ y < F.numY := hin
    have e : addDensity x y amount F =
        { F with m := wr F.m (x * F.numY + y) (rd F.m (x * F.numY + y) + amount) } := by
      unfold addDensity; rw [if_pos hc]
    rw [e]
    refine ⟨?_, ?_, ?_, rfl, rfl, rfl, rfl, rfl, rfl, rfl, rfl, rfl, rfl, rfl⟩
    · exact rd_wr_self _ _ hb.1 (by rw [hm]; exact hb.2)
    · intro k hk
      exact rd_wr_ne _ _ hk
    · exact length_wr _ _ _
  · intro hout
    have hc : ¬ (x ≥ 0 ∧ x < F.numX ∧ y ≥ 0 ∧ y < F.numY) := hout
    unfold addDensity; rw [if_neg hc]

/-- In exact arithmetic: dye of amount 5 injected into the solid centre cell
`(1, 1)` of the 3 x 3 grid. -/
theorem addDensity_exact_instance :
    ((grid3.m.length : Int) = grid3.numX * grid3.numY) ∧
    (((0 ≤ (1 : Int) ∧ (1 : Int) < grid3.numX ∧ 0 ≤ (1 : Int) ∧ (1 : Int) < grid3.numY) →
      rd (addDensity 1 1 5 grid3).m (1 * grid3.numY + 1) = rd grid3.m (1 * grid3.numY + 1) + 5 ∧
      (∀ k : Int, k ≠ 1 * grid3.numY + 1 → rd (addDensity 1 1 5 grid3).m k = rd grid3.m k) ∧
      (addDensity 1 1 5 grid3).m.length = grid3.m.length ∧
      (addDensity 1 1 5 grid3).u = grid3.u ∧ (addDensity 1 1 5 grid3).v = grid3.v ∧
      (addDensity 1 1 5 grid3).p = grid3.p ∧ (addDensity 1 1 5 grid3).s = grid3.s ∧
      (addDensity 1 1 5 grid3).newU = grid3.newU ∧ (addDensity 1 1 5 grid3).newV = grid3.newV ∧
      (addDensity 1 1 5 grid3).newM = grid3.newM ∧
      (addDensity 1 1 5 grid3).numX = grid3.numX ∧ (addDensity 1 1 5 grid3).numY = grid3.numY ∧
      (addDensity 1 1 5 grid3).numCells = grid3.numCells ∧ (addDensity 1 1 5 grid3).h = grid3.h) ∧
    (¬ (0 ≤ (1 : Int) ∧ (1 : Int) < grid3.numX ∧ 0 ≤ (1 : Int) ∧ (1 : Int) < grid3.numY) →
      addDensity 1 1 5 grid3 = grid3)) :=
  ⟨by decide!, addDensity_exact grid3 1 1 5 (by decide!)⟩

/-- In exact arithmetic, `addVelocity(x, y, dx, dy)`: for an in-range cell
`u[x*numY + y]` grows by exactly `dx` and `v[x*numY + y]` by exactly `dy`,
every other entry of `u`
and `v` and every other member of the state (`p`, `s`, `m`, the buffers, the
dimensions) is unchanged; for every out-of-range integer pair the whole state
is unchanged. -/
theorem addVelocity_exact (F : Fluid) (x y : Int) (amountX amountY : ℚ)
    (hu : (F.u.length : Int) = F.numX * F.numY) (hv : (F.v.length : Int) = F.numX * F.numY) :
    ((0 ≤ x ∧ x < F.numX ∧ 0 ≤ y ∧ y < F.numY) →
      rd (addVelocity x y amountX amountY F).u (x * F.numY + y)
        = rd F.u (x * F.numY + y) + amountX ∧
      rd (addVelocity x y amountX amountY F).v (x * F.numY + y)
        = rd F.v (x * F.numY + y) + amountY ∧
      (∀ k : Int, k ≠ x * F.numY + y →
        rd (addVelocity x y amountX amountY F).u k = rd F.u k ∧
        rd (addVelocity x y amountX amountY F).v k = rd F.v k) ∧
      (addVelocity x y amountX amountY F).u.length = F.u.length ∧
      (addVelocity x y amountX amountY F).v.length = F.v.length ∧
      (addVelocity x y amountX amountY F).p = F.p ∧
      (addVelocity x y amountX amountY F).s = F.s ∧
      (addVelocity x y amountX amountY F).m = F.m ∧
      (addVelocity x y amountX amountY F).newU = F.newU ∧
      (addVelocity x y amountX amountY F).newV = F.newV ∧
      (addVelocity x y amountX amountY F).newM = F.newM ∧
      (addVelocity x y amountX amountY F).numX = F.numX ∧
      (addVelocity x y amountX amountY F).numY = F.numY ∧
      (addVelocity x y amountX amountY F).numCells = F.numCells ∧
      (addVelocity x y amountX amountY F).h = F.h) ∧
    (¬ (0 ≤ x ∧ x < F.numX ∧ 0 ≤ y ∧ y < F.numY) → addVelocity x y amountX amountY F = F) := by
  constructor
  · intro hin
    have hb := flat_bounds hin.1 hin.2.1 hin.2.2.1 hin.2.2.2
    have hc : x ≥ 0 ∧ x < F.numX ∧ y ≥ 0 ∧ y < F.numY := hin
    have e : addVelocity x y amountX amountY F =
        { F with u := wr F.u (x * F.numY + y) (rd F.u (x * F.numY + y) + amountX),
                 v := wr F.v (x * F.numY + y) (rd F.v (x * F.numY + y) + amountY) } := by
      unfold addVelocity; rw [if_pos hc]
    rw [e]
    refine ⟨?_, ?_, ?_, ?_, ?_, rfl, rfl, rfl, rfl, rfl, rfl, rfl, rfl, rfl, rfl⟩
    · exact rd_wr_self _ _ hb.1 (by rw [hu]; exact hb.2)
    · exact rd_wr_self _ _ hb.1 (by rw [hv]; exact hb.2)
    · intro k hk
      exact ⟨rd_wr_ne _ _ hk, rd_wr_ne _ _ hk⟩
    · exact length_wr _ _ _
    · exact length_wr _ _ _
  · intro hout
    have hc : ¬ (x ≥ 0 ∧ x < F.numX ∧ y ≥ 0 ∧ y < F.numY) := hout
    unfold addVelocity; rw [if_neg hc]

/-- In exact arithmetic: the velocity `(1, 1/2)` injected into the border cell
`(2, 3)` of the 4 x 4 grid. -/
theorem addVelocity_exact_instance :
    ((grid4.u.length : Int) = grid4.numX * grid4.numY) ∧
    ((grid4.v.length : Int) = grid4.numX * grid4.numY) ∧
    (((0 ≤ (2 : Int) ∧ (2 : Int) < grid4.numX ∧ 0 ≤ (3 : Int) ∧ (3 : Int) < grid4.numY) →
      rd (addVelocity 2 3 1 (1 / 2) grid4).u (2 * grid4.numY + 3)
        = rd grid4.u (2 * grid4.numY + 3) + 1 ∧
      rd (addVelocity 2 3 1 (1 / 2) grid4).v (2 * grid4.numY + 3)
        = rd grid4.v (2 * grid4.numY + 3) + 1 / 2 ∧
      (∀ k : Int, k ≠ 2 * grid4.numY + 3 →
        rd (addVelocity 2 3 1 (1 / 2) grid4).u k = rd grid4.u k ∧
        rd (addVelocity 2 3 1 (1 / 2) grid4).v k = rd grid4.v k) ∧
      (addVelocity 2 3 1 (1 / 2) grid4).u.length = grid4.u.length ∧
      (addVelocity 2 3 1 (1 / 2) grid4).v.length = grid4.v.length ∧
      (addVelocity 2 3 1 (1 / 2) grid4).p = grid4.p ∧
      (addVelocity 2 3 1 (1 / 2) grid4).s = grid4.s ∧
      (addVelocity 2 3 1 (1 / 2) grid4).m = grid4.m ∧
      (addVelocity 2 3 1 (1 / 2) grid4).newU = grid4.newU ∧
      (addVelocity 2 3 1 (1 / 2) grid4).newV = grid4.newV ∧
      (addVelocity 2 3 1 (1 / 2) grid4).newM = grid4.newM ∧
      (addVelocity 2 3 1 (1 / 2) grid4).numX = grid4.numX ∧
      (addVelocity 2 3 1 (1 / 2) grid4).numY = grid4.numY ∧
      (addVelocity 2 3 1 (1 / 2) grid4).numCells = grid4.numCells ∧
      (addVelocity 2 3 1 (1 / 2) grid4).h = grid4.h) ∧
    (¬ (0 ≤ (2 : Int) ∧ (2 : Int) < grid4.numX ∧ 0 ≤ (3 : Int) ∧ (3 : Int) < grid4.numY) →
      addVelocity 2 3 1 (1 / 2) grid4 = grid4)) :=
  ⟨by decide!, by decide!, addVelocity_exact grid4 2 3 1 (1 / 2) (by decide!) (by decide!)⟩

/-! ## C7: the constructor -/

theorem rd_replicate (n : Nat) (x : ℚ) (k : Int) :
    rd (List.replicate n x) k = if 0 ≤ k ∧ k < n then x else 0 := by
  unfold rd
  by_cases h0 : k < 0
  · have : ¬ (0 ≤ k ∧ k < n) := by omega
    simp [h0, this]
  · by_cases h1 : k < n
    · have h2 : k.toNat < n := by omega
      have : (0 ≤ k ∧ k < n) := by omega
      simp [h0, this, List.getD_eq_getElem?_getD, List.getElem?_replicate, h2]
    · have h2 : ¬ k.toNat < n := by omega
      have : ¬ (0 ≤ k ∧ k < n) := by omega
      simp [h0, this, List.getD_eq_getElem?_getD, List.getElem?_replicate, h2]

/-- The state that `setupCircularObstacle` is applied to by the constructor. -/
theorem Fluid.new_eq (nx ny : Int) (h : ℚ) :
    Fluid.new nx ny h = setupCircularObstacle
      { numX := nx + 2, numY := ny + 2, numCells := (nx + 2) * (ny + 2), h := h,
        u := List.replicate ((nx + 2) * (ny + 2)).toNat 0,
        v := List.replicate ((nx + 2) * (ny + 2)).toNat 0,
        newU := List.replicate ((nx + 2) * (ny + 2)).toNat 0,
        newV := List.replicate ((nx + 2) * (ny + 2)).toNat 0,
        p := List.replicate ((nx + 2) * (ny + 2)).toNat 0,
        s := List.replicate ((nx + 2) * (ny + 2)).toNat 1,
        m := List.replicate ((nx + 2) * (ny + 2)).toNat 0,
        newM := List.replicate ((nx + 2) * (ny + 2)).toNat 0 } := rfl

/-- What `setupCircularObstacle` does to a state with `numX * numY` mask
entries and no dye: the mask becomes `0` exactly at the in-range cells inside
the obstacle and stays as it was elsewhere; nothing else changes. -/
theorem setupCircularObstacle_spec (F : Fluid)
    (hs : (F.s.length : Int) = F.numX * F.numY) (hm : ∀ k, rd F.m k = 0) :
    let G := setupCircularObstacle F
    (G.numX = F.numX ∧ G.numY = F.numY ∧ G.numCells = F.numCells ∧ G.h = F.h ∧
      G.u = F.u ∧ G.v = F.v ∧ G.newU = F.newU ∧ G.newV = F.newV ∧ G.p = F.p ∧
      G.newM = F.newM ∧ G.s.length = F.s.length ∧ G.m.length = F.m.length ∧
      (∀ k, rd G.m k = 0)) ∧
    (∀ i j, 0 ≤ i → i < F.numX → 0 ≤ j → j < F.numY →
      rd G.s (i * F.numY + j) =
        if insideObstacle F.numX F.numY F.h i j then 0 else rd F.s (i * F.numY + j)) := by
  intro G
  have key := @forRange2_writes Fluid Fluid.s
    (fun st => st.numX = F.numX ∧ st.numY = F.numY ∧ st.numCells = F.numCells ∧ st.h = F.h ∧
      st.u = F.u ∧ st.v = F.v ∧ st.newU = F.newU ∧ st.newV = F.newV ∧ st.p = F.p ∧
      st.newM = F.newM ∧ st.s.length = F.s.length ∧ st.m.length = F.m.length ∧
      (∀ k, rd st.m k = 0))
    (fun i j k => insideObstacle F.numX F.numY F.h i j ∧ k = i * F.numY + j)
    (fun _ _ _ => 0)
    0 F.numX 0 F.numY
    (fun i j st => obstacleCell ((F.numX : ℚ) * F.h * (1 / 2)) ((F.numY : ℚ) * F.h * (1 / 2))
      (2 / 25) i j st) F
    ⟨rfl, rfl, rfl, rfl, rfl, rfl, rfl, rfl, rfl, rfl, rfl, rfl, hm⟩
    (by
      intro i j st _ _ _ _ hI
      obtain ⟨a1, a2, a3, a4, a5, a6, a7, a8, a9, a10, a11, a12, a13⟩ := hI
      unfold obstacleCell
      dsimp only
      split
      · refine ⟨a1, a2, a3, a4, a5, a6, a7, a8, a9, a10, ?_, ?_, ?_⟩
        · rw [length_wr]; exact a11
        · rw [length_wr]; exact a12
        · intro k
          rw [rd_wr]
          split
          · rfl
          · exact a13 k
      · exact ⟨a1, a2, a3, a4, a5, a6, a7, a8, a9, a10, a11, a12, a13⟩)
    (by
      intro i j st k _ _ _ _ hI hnt
      obtain ⟨a1, a2, a3, a4, _⟩ := hI
      unfold obstacleCell
      dsimp only
      split
      · rename_i hc
        have hk : k ≠ i * st.numY + j := by
          intro e
          apply hnt
          refine ⟨?_, by rw [e, a2]⟩
          unfold insideObstacle
          rw [a4] at hc
          have e1 : (((i : ℚ) + 1 / 2) * F.h - (F.numX : ℚ) * F.h / 2) ^ 2 +
              (((j : ℚ) + 1 / 2) * F.h - (F.numY : ℚ) * F.h / 2) ^ 2 =
              (((i : ℚ) + 1 / 2) * F.h - (F.numX : ℚ) * F.h * (1 / 2)) *
                (((i : ℚ) + 1 / 2) * F.h - (F.numX : ℚ) * F.h * (1 / 2)) +
              (((j : ℚ) + 1 / 2) * F.h - (F.numY : ℚ) * F.h * (1 / 2)) *
                (((j : ℚ) + 1 / 2) * F.h - (F.numY : ℚ) * F.h * (1 / 2)) := by ring
          have e2 : (2 / 25 : ℚ) ^ 2 = 2 / 25 * (2 / 25) := by ring
          rw [e1, e2]; exact hc
        exact rd_wr_ne _ _ hk
      · rfl)
    (by
      intro i j st k hi0 hi1 hj0 hj1 hI ht _
      obtain ⟨a1, a2, a3, a4, a5, a6, a7, a8, a9, a10, a11, a12, a13⟩ := hI
      obtain ⟨hin, rfl⟩ := ht
      have hb := flat_bounds hi0 hi1 hj0 hj1
      unfold obstacleCell
      dsimp only
      have hc : (((i : ℚ) + 1 / 2) * st.h - (F.numX : ℚ) * F.h * (1 / 2)) *
          (((i : ℚ) + 1 / 2) * st.h - (F.numX : ℚ) * F.h * (1 / 2)) +
          (((j : ℚ) + 1 / 2) * st.h - (F.numY : ℚ) * F.h * (1 / 2)) *
          (((j : ℚ) + 1 / 2) * st.h - (F.numY : ℚ) * F.h * (1 / 2)) < 2 / 25 * (2 / 25) := by
        unfold insideObstacle at hin
        rw [a4]
        have e1 : (((i : ℚ) + 1 / 2) * F.h - (F.numX : ℚ) * F.h / 2) ^ 2 +
            (((j : ℚ) + 1 / 2) * F.h - (F.numY : ℚ) * F.h / 2) ^ 2 =
            (((i : ℚ) + 1 / 2) * F.h - (F.numX : ℚ) * F.h * (1 / 2)) *
              (((i : ℚ) + 1 / 2) * F.h - (F.numX : ℚ) * F.h * (1 / 2)) +
            (((j : ℚ) + 1 / 2) * F.h - (F.numY : ℚ) * F.h * (1 / 2)) *
              (((j : ℚ) + 1 / 2) * F.h - (F.numY : ℚ) * F.h * (1 / 2)) := by ring
        have e2 : (2 / 25 : ℚ) ^ 2 = 2 / 25 * (2 / 25) := by ring
        rw [e1, e2] at hin; exact hin
      rw [if_pos hc]
      dsimp only
      rw [a2]
      apply rd_wr_self _ _ hb.1
      have : (st.s.length : Int) = F.numX * F.numY := by rw [a11]; exact hs
      rw [this]; exact hb.2)
    (by
      intro i j i' j' k _ _ hj0 hj1 _ _ hj0' hj1' h1 h2
      exact flat_inj hj0 hj1 hj0' hj1' (h1.2.symm.trans h2.2))
  obtain ⟨k1, k2, k3⟩ := key
  refine ⟨k1, ?_⟩
  intro i j hi0 hi1 hj0 hj1
  by_cases hin : insideObstacle F.numX F.numY F.h i j
  · rw [if_pos hin]
    exact k2 i j _ hi0 hi1 hj0 hj1 ⟨hin, rfl⟩
  · rw [if_neg hin]
    apply k3
    intro i' j' _ _ hj0' hj1' ht
    obtain ⟨e1, e2⟩ := flat_inj hj0 hj1 hj0' hj1' ht.2
    subst e1 e2
    exact hin ht.1

/-- C7. Initial state: for `Fluid(nx, ny, h)` with `nx, ny >= 0` the grid has
dimensions `numX = nx + 2`, `numY = ny + 2`, every vector has `numX * numY`
entries, `u`, `v`, `p` and `m` are zero everywhere, and for every cell `(i, j)`
of the grid the mask entry is `0` if and only if the cell centre lies at
distance strictly less than `0.08` from the domain centre; every other cell has
mask `1`. -/
theorem C7_initial_state (nx ny : Int) (h : ℚ) (hnx : 0 ≤ nx) (hny : 0 ≤ ny) :
    (Fluid.new nx ny h).numX = nx + 2 ∧ (Fluid.new nx ny h).numY = ny + 2 ∧
    (Fluid.new nx ny h).h = h ∧
    (Fluid.new nx ny h).numCells = (nx + 2) * (ny + 2) ∧
    ((Fluid.new nx ny h).u.length : Int) = (nx + 2) * (ny + 2) ∧
    ((Fluid.new nx ny h).v.length : Int) = (nx + 2) * (ny + 2) ∧
    ((Fluid.new nx ny h).newU.length : Int) = (nx + 2) * (ny + 2) ∧
    ((Fluid.new nx ny h).newV.length : Int) = (nx + 2) * (ny + 2) ∧
    ((Fluid.new nx ny h).p.length : Int) = (nx + 2) * (ny + 2) ∧
    ((Fluid.new nx ny h).s.length : Int) = (nx + 2) * (ny + 2) ∧
    ((Fluid.new nx ny h).m.length : Int) = (nx + 2) * (ny + 2) ∧
    ((Fluid.new nx ny h).newM.length : Int) = (nx + 2) * (ny + 2) ∧
    (∀ k : Int, rd (Fluid.new nx ny h).u k = 0 ∧ rd (Fluid.new nx ny h).v k = 0 ∧
      rd (Fluid.new nx ny h).p k = 0 ∧ rd (Fluid.new nx ny h).m k = 0) ∧
    (∀ i j : Int, 0 ≤ i → i < nx + 2 → 0 ≤ j → j < ny + 2 →
      (rd (Fluid.new nx ny h).s (i * (ny + 2) + j) = 0 ↔
        insideObstacle (nx + 2) (ny + 2) h i j) ∧
      (¬ insideObstacle (nx + 2) (ny + 2) h i j →
        rd (Fluid.new nx ny h).s (i * (ny + 2) + j) = 1)) := by
  have hN : (0 : Int) ≤ (nx + 2) * (ny + 2) := Int.mul_nonneg (by omega) (by omega)
  have hlen : ∀ x : ℚ, ((List.replicate ((nx + 2) * (ny + 2)).toNat x).length : Int)
      = (nx + 2) * (ny + 2) := by
    intro x; rw [List.length_replicate]; omega
  have hz : ∀ k : Int, rd (List.replicate ((nx + 2) * (ny + 2)).toNat (0 : ℚ)) k = 0 := by
    intro k; rw [rd_replicate]; split <;> rfl
  rw [Fluid.new_eq]
  obtain ⟨⟨a1, a2, a3, a4, a5, a6, a7, a8, a9, a10, a11, a12, a13⟩, hmask⟩ :=
    setupCircularObstacle_spec
      { numX := nx + 2, numY := ny + 2, numCells := (nx + 2) * (ny + 2), h := h,
        u := List.replicate ((nx + 2) * (ny + 2)).toNat 0,
        v := List.replicate ((nx + 2) * (ny + 2)).toNat 0,
        newU := List.replicate ((nx + 2) * (ny + 2)).toNat 0,
        newV := List.replicate ((nx + 2) * (ny + 2)).toNat 0,
        p := List.replicate ((nx + 2) * (ny + 2)).toNat 0,
        s := List.replicate ((nx + 2) * (ny + 2)).toNat 1,
        m := List.replicate ((nx + 2) * (ny + 2)).toNat 0,
        newM := List.replicate ((nx + 2) * (ny + 2)).toNat 0 }
      (hlen 1) hz
  dsimp only at a1 a2 a3 a4 a5 a6 a7 a8 a9 a10 a11 a12 a13 hmask
  refine ⟨a1, a2, a4, a3, ?_, ?_, ?_, ?_, ?_, ?_, ?_, ?_, ?_, ?_⟩
  · rw [a5]; exact hlen 0
  · rw [a6]; exact hlen 0
  · rw [a7]; exact hlen 0
  · rw [a8]; exact hlen 0
  · rw [a9]; exact hlen 0
  · rw [a11]; exact hlen 1
  · rw [a12]; exact hlen 0
  · rw [a10]; exact hlen 0
  · intro k
    refine ⟨?_, ?_, ?_, a13 k⟩
    · rw [a5]; exact hz k
    · rw [a6]; exact hz k
    · rw [a9]; exact hz k
  · intro i j hi0 hi1 hj0 hj1
    have hb := flat_bounds hi0 hi1 hj0 hj1
    have h1 : rd (List.replicate ((nx + 2) * (ny + 2)).toNat (1 : ℚ)) (i * (ny + 2) + j) = 1 := by
      rw [rd_replicate, if_pos]
      exact ⟨hb.1, by omega⟩
    have hm := hmask i j hi0 hi1 hj0 hj1
    rw [h1] at hm
    constructor
    · constructor
      · intro h0
        by_contra hne
        rw [if_neg hne] at hm
        rw [hm] at h0
        exact one_ne_zero h0
      · intro hin
        rw [hm, if_pos hin]
    · intro hne
      rw [hm, if_neg hne]

/-- C7, instance: the grid `Fluid(10, 10, 0.1)` of the end-to-end scenario. -/
theorem C7_initial_state_witness :
    (0 : Int) ≤ 10 ∧ (0 : Int) ≤ 10 ∧
    ((Fluid.new 10 10 (1 / 10)).numX = 10 + 2 ∧ (Fluid.new 10 10 (1 / 10)).numY = 10 + 2 ∧
    (Fluid.new 10 10 (1 / 10)).h = 1 / 10 ∧
    (Fluid.new 10 10 (1 / 10)).numCells = (10 + 2) * (10 + 2) ∧
    ((Fluid.new 10 10 (1 / 10)).u.length : Int) = (10 + 2) * (10 + 2) ∧
    ((Fluid.new 10 10 (1 / 10)).v.length : Int) = (10 + 2) * (10 + 2) ∧
    ((Fluid.new 10 10 (1 / 10)).newU.length : Int) = (10 + 2) * (10 + 2) ∧
    ((Fluid.new 10 10 (1 / 10)).newV.length : Int) = (10 + 2) * (10 + 2) ∧
    ((Fluid.new 10 10 (1 / 10)).p.length : Int) = (10 + 2) * (10 + 2) ∧
    ((Fluid.new 10 10 (1 / 10)).s.length : Int) = (10 + 2) * (10 + 2) ∧
    ((Fluid.new 10 10 (1 / 10)).m.length : Int) = (10 + 2) * (10 + 2) ∧
    ((Fluid.new 10 10 (1 / 10)).newM.length : Int) = (10 + 2) * (10 + 2) ∧
    (∀ k : Int, rd (Fluid.new 10 10 (1 / 10)).u k = 0 ∧ rd (Fluid.new 10 10 (1 / 10)).v k = 0 ∧
      rd (Fluid.new 10 10 (1 / 10)).p k = 0 ∧ rd (Fluid.new 10 10 (1 / 10)).m k = 0) ∧
    (∀ i j : Int, 0 ≤ i → i < 10 + 2 → 0 ≤ j → j < 10 + 2 →
      (rd (Fluid.new 10 10 (1 / 10)).s (i * (10 + 2) + j) = 0 ↔
        insideObstacle (10 + 2) (10 + 2) (1 / 10) i j) ∧
      (¬ insideObstacle (10 + 2) (10 + 2) (1 / 10) i j →
        rd (Fluid.new 10 10 (1 / 10)).s (i * (10 + 2) + j) = 1))) :=
  ⟨by decide, by decide, C7_initial_state 10 10 (1 / 10) (by decide) (by decide)⟩

/-! ## C3: the boundary extrapolator -/

/-- First loop of `extrapolate` on a grid with at least two columns: the
bottom and top entry of every row of `u` become copies of their neighbours in
the row.  With exactly two columns the second copy reads the entry the first
copy has just written, which is the pre-call `u[i,1]`. -/
theorem extrapolateU_loop (F : Fluid) (hY : 2 ≤ F.numY)
    (hu : (F.u.length : Int) = F.numX * F.numY) :
    let G := forRange 0 F.numX extrapolateU F
    G = { F with u := G.u } ∧ G.u.length = F.u.length ∧
    (∀ i j, 0 ≤ i → i < F.numX → 0 ≤ j → j < F.numY →
      rd G.u (i * F.numY + j) =
        if j = 0 then rd F.u (i * F.numY + 1)
        else if j = F.numY - 1 then rd F.u (i * F.numY + max (F.numY - 2) 1)
        else rd F.u (i * F.numY + j)) := by
  intro G
  have key := @forRange_writes Fluid Fluid.u
    (fun st => st = { F with u := st.u } ∧ st.u.length = F.u.length)
    (fun i k => k = i * F.numY + 0 ∨ k = i * F.numY + (F.numY - 1))
    (fun i k => if k = i * F.numY + 0 then rd F.u (i * F.numY + 1)
      else rd F.u (i * F.numY + max (F.numY - 2) 1))
    0 F.numX extrapolateU F ⟨rfl, rfl⟩
    (by
      intro i st _ _ hI
      obtain ⟨a1, a2⟩ := hI
      unfold extrapolateU
      dsimp only
      refine ⟨?_, ?_⟩
      · rw [a1]
      · rw [length_wr, length_wr]; exact a2)
    (by
      intro i st k _ _ hI hnt
      have a2 : st.numY = F.numY := by rw [hI.1]
      unfold extrapolateU
      dsimp only
      rw [a2]
      have h1 : k ≠ i * F.numY + 0 := fun e => hnt (Or.inl e)
      have h2 : k ≠ i * F.numY + F.numY - 1 := fun e => hnt (Or.inr (by rw [e]; ring))
      rw [rd_wr_ne _ _ h2, rd_wr_ne _ _ h1])
    (by
      intro i st k hi0 hi1 hI ht hprev
      have a2 : st.numY = F.numY := by rw [hI.1]
      have hl : (st.u.length : Int) = F.numX * F.numY := by rw [hI.2]; exact hu
      have hfresh : ∀ j, 0 ≤ j → j < F.numY →
          rd st.u (i * F.numY + j) = rd F.u (i * F.numY + j) := by
        intro j hj0 hj1
        apply hprev
        intro i' _ _ ht'
        rcases ht' with e | e
        · have := (flat_inj (by omega) (by omega) (by omega) (by omega) e).1; omega
        · have := (flat_inj (by omega) (by omega) (by omega) (by omega) e).1; omega
      have hb0 := flat_bounds hi0 hi1 (le_refl (0 : Int)) (by omega : (0 : Int) < F.numY)
      have hb1 := flat_bounds hi0 hi1 (by omega : (0 : Int) ≤ F.numY - 1)
        (by omega : F.numY - 1 < F.numY)
      unfold extrapolateU
      dsimp only
      rw [a2]
      have e1 : i * F.numY + F.numY - 1 = i * F.numY + (F.numY - 1) := by ring
      have e2 : i * F.numY + F.numY - 2 = i * F.numY + (F.numY - 2) := by ring
      have hne2 : i * F.numY + 0 ≠ i * F.numY + (F.numY - 1) := by omega
      rcases ht with rfl | rfl
      · rw [if_pos rfl, e1, rd_wr_ne _ _ hne2, rd_wr_self _ _ hb0.1 (by rw [hl]; exact hb0.2)]
        exact hfresh 1 (by omega) (by omega)
      · rw [if_neg (Ne.symm hne2), e1, e2,
          rd_wr_self _ _ hb1.1 (by rw [length_wr, hl]; exact hb1.2)]
        by_cases h2 : F.numY = 2
        · have e3 : i * F.numY + (F.numY - 2) = i * F.numY + 0 := by omega
          have e4 : max (F.numY - 2) 1 = 1 := by omega
          rw [e3, e4, rd_wr_self _ _ hb0.1 (by rw [hl]; exact hb0.2)]
          exact hfresh 1 (by omega) (by omega)
        · have hne : i * F.numY + (F.numY - 2) ≠ i * F.numY + 0 := by omega
          have e4 : max (F.numY - 2) 1 = F.numY - 2 := by omega
          rw [e4, rd_wr_ne _ _ hne]
          exact hfresh (F.numY - 2) (by omega) (by omega))
    (by
      intro i i' k _ _ _ _ h1 h2
      rcases h1 with e1 | e1 <;> rcases h2 with e2 | e2 <;>
        exact (flat_inj (by omega) (by omega) (by omega) (by omega) (e1.symm.trans e2)).1)
  dsimp only at key
  obtain ⟨⟨k0, k0'⟩, k1, k2⟩ := key
  refine ⟨k0, k0', ?_⟩
  intro i j hi0 hi1 hj0 hj1
  by_cases hj : j = 0
  · subst hj
    rw [if_pos rfl, k1 i _ hi0 hi1 (Or.inl rfl), if_pos rfl]
  · rw [if_neg hj]
    by_cases hj' : j = F.numY - 1
    · subst hj'
      rw [if_pos rfl, k1 i _ hi0 hi1 (Or.inr rfl), if_neg (by omega)]
    · rw [if_neg hj']
      apply k2
      intro i' _ _ ht
      rcases ht with e | e
      · have := (flat_inj (by omega) (by omega) (by omega) (by omega) e).2; omega
      · have := (flat_inj (by omega) (by omega) (by omega) (by omega) e).2; omega

/-- Second loop of `extrapolate` on a grid with at least two rows: the first
and last entry of every column of `v` become copies of their neighbours in the
column.  With exactly two rows the second copy reads the entry the first copy
has just written, which is the pre-call `v[1,j]`. -/
theorem extrapolateV_loop (F : Fluid) (hX : 2 ≤ F.numX)
    (hv : (F.v.length : Int) = F.numX * F.numY) :
    let G := forRange 0 F.numY extrapolateV F
    G = { F with v := G.v } ∧ G.v.length = F.v.length ∧
    (∀ i j, 0 ≤ i → i < F.numX → 0 ≤ j → j < F.numY →
      rd G.v (i * F.numY + j) =
        if i = 0 then rd F.v (1 * F.numY + j)
        else if i = F.numX - 1 then rd F.v (max (F.numX - 2) 1 * F.numY + j)
        else rd F.v (i * F.numY + j)) := by
  intro G
  have key := @forRange_writes Fluid Fluid.v
    (fun st => st = { F with v := st.v } ∧ st.v.length = F.v.length)
    (fun j k => 0 ≤ j ∧ j < F.numY ∧ (k = 0 * F.numY + j ∨ k = (F.numX - 1) * F.numY + j))
    (fun j k => if k = 0 * F.numY + j then rd F.v (1 * F.numY + j)
      else rd F.v (max (F.numX - 2) 1 * F.numY + j))
    0 F.numY extrapolateV F ⟨rfl, rfl⟩
    (by
      intro j st _ _ hI
      obtain ⟨a1, a2⟩ := hI
      unfold extrapolateV
      dsimp only
      refine ⟨?_, ?_⟩
      · rw [a1]
      · rw [length_wr, length_wr]; exact a2)
    (by
      intro j st k hj0 hj1 hI hnt
      have a1 : st.numX = F.numX := by rw [hI.1]
      have a2 : st.numY = F.numY := by rw [hI.1]
      unfold extrapolateV
      dsimp only
      rw [a1, a2]
      have h1 : k ≠ 0 * F.numY + j := fun e => hnt ⟨hj0, hj1, Or.inl e⟩
      have h2 : k ≠ (F.numX - 1) * F.numY + j := fun e => hnt ⟨hj0, hj1, Or.inr e⟩
      rw [rd_wr_ne _ _ h2, rd_wr_ne _ _ h1])
    (by
      intro j st k hj0 hj1 hI ht hprev
      have a1 : st.numX = F.numX := by rw [hI.1]
      have a2 : st.numY = F.numY := by rw [hI.1]
      have hl : (st.v.length : Int) = F.numX * F.numY := by rw [hI.2]; exact hv
      have hfresh : ∀ i, rd st.v (i * F.numY + j) = rd F.v (i * F.numY + j) := by
        intro i
        apply hprev
        intro j' _ _ ht'
        obtain ⟨hj0', hj1', e | e⟩ := ht'
        · have := (flat_inj hj0 hj1 hj0' hj1' e).2; omega
        · have := (flat_inj hj0 hj1 hj0' hj1' e).2; omega
      have hb0 := flat_bounds (le_refl (0 : Int)) (by omega : (0 : Int) < F.numX) hj0 hj1
      have hb1 := flat_bounds (by omega : (0 : Int) ≤ F.numX - 1)
        (by omega : F.numX - 1 < F.numX) hj0 hj1
      unfold extrapolateV
      dsimp only
      rw [a1, a2]
      have hne2 : 0 * F.numY + j ≠ (F.numX - 1) * F.numY + j := by
        intro e
        have := (flat_inj hj0 hj1 hj0 hj1 e).1; omega
      obtain ⟨_, _, rfl | rfl⟩ := ht
      · rw [if_pos rfl, rd_wr_ne _ _ hne2, rd_wr_self _ _ hb0.1 (by rw [hl]; exact hb0.2)]
        exact hfresh 1
      · rw [if_neg (Ne.symm hne2),
          rd_wr_self _ _ hb1.1 (by rw [length_wr, hl]; exact hb1.2)]
        by_cases h2 : F.numX = 2
        · have e3 : F.numX - 2 = 0 := by omega
          have e4 : max (F.numX - 2) 1 = 1 := by omega
          rw [e4, e3, rd_wr_self _ _ hb0.1 (by rw [hl]; exact hb0.2)]
          exact hfresh 1
        · have hne : (F.numX - 2) * F.numY + j ≠ 0 * F.numY + j := by
            intro e
            have := (flat_inj hj0 hj1 hj0 hj1 e).1; omega
          have e4 : max (F.numX - 2) 1 = F.numX - 2 := by omega
          rw [e4, rd_wr_ne _ _ hne]
          exact hfresh (F.numX - 2))
    (by
      intro j j' k _ _ _ _ h1 h2
      obtain ⟨a0, a1, e1⟩ := h1
      obtain ⟨b0, b1, e2⟩ := h2
      rcases e1 with e1 | e1 <;> rcases e2 with e2 | e2 <;>
        exact (flat_inj a0 a1 b0 b1 (e1.symm.trans e2)).2)
  dsimp only at key
  obtain ⟨⟨k0, k0'⟩, k1, k2⟩ := key
  refine ⟨k0, k0', ?_⟩
  intro i j hi0 hi1 hj0 hj1
  by_cases hi : i = 0
  · subst hi
    rw [if_pos rfl, k1 j _ hj0 hj1 ⟨hj0, hj1, Or.inl rfl⟩, if_pos rfl]
  · rw [if_neg hi]
    by_cases hi' : i = F.numX - 1
    · subst hi'
      have hne : (F.numX - 1) * F.numY + j ≠ 0 * F.numY + j := by
        intro e
        have := (flat_inj hj0 hj1 hj0 hj1 e).1; omega
      rw [if_pos rfl, k1 j _ hj0 hj1 ⟨hj0, hj1, Or.inr rfl⟩, if_neg hne]
    · rw [if_neg hi']
      apply k2
      intro j' _ _ ht
      obtain ⟨b0, b1, e | e⟩ := ht
      · have := (flat_inj hj0 hj1 b0 b1 e).1; omega
      · have := (flat_inj hj0 hj1 b0 b1 e).1; omega

/-- A damping pass leaves every index other than that of a ring cell alone. -/
theorem dampCell_frame (i j : Int) (st : Fluid) (k : Int)
    (hnt : ¬ (onRing st.numX st.numY i j ∧ k = i * st.numY + j)) :
    rd (dampCell i j st).u k = rd st.u k ∧ rd (dampCell i j st).v k = rd st.v k := by
  unfold dampCell
  split
  · rename_i hc
    exact ⟨rd_wr_ne _ _ (fun e => hnt ⟨hc, e⟩), rd_wr_ne _ _ (fun e => hnt ⟨hc, e⟩)⟩
  · exact ⟨rfl, rfl⟩

/-- A damping pass at a ring cell multiplies both its velocity entries by `0.9`. -/
theorem dampCell_val (i j : Int) (st : Fluid) (hr : onRing st.numX st.numY i j)
    (h0 : 0 ≤ i * st.numY + j) (hu : i * st.numY + j < st.u.length)
    (hv : i * st.numY + j < st.v.length) :
    rd (dampCell i j st).u (i * st.numY + j) = rd st.u (i * st.numY + j) * (9 / 10) ∧
    rd (dampCell i j st).v (i * st.numY + j) = rd st.v (i * st.numY + j) * (9 / 10) := by
  unfold dampCell
  have hc : i = 0 ∨ i = st.numX - 1 ∨ j = 0 ∨ j = st.numY - 1 := hr
  rw [if_pos hc]
  exact ⟨rd_wr_self _ _ h0 hu, rd_wr_self _ _ h0 hv⟩

/-- Third loop of `extrapolate`: both velocity components of every ring cell
are multiplied by `0.9`; nothing else changes. -/
theorem damp_loop (F : Fluid)
    (hu : (F.u.length : Int) = F.numX * F.numY) (hv : (F.v.length : Int) = F.numX * F.numY) :
    let G := forRange 0 F.numX (fun i G => forRange 0 F.numY (fun j G1 => dampCell i j G1) G) F
    G = { F with u := G.u, v := G.v } ∧ G.u.length = F.u.length ∧ G.v.length = F.v.length ∧
    (∀ i j, 0 ≤ i → i < F.numX → 0 ≤ j → j < F.numY →
      rd G.u (i * F.numY + j) =
        (if onRing F.numX F.numY i j then rd F.u (i * F.numY + j) * (9 / 10)
         else rd F.u (i * F.numY + j)) ∧
      rd G.v (i * F.numY + j) =
        (if onRing F.numX F.numY i j then rd F.v (i * F.numY + j) * (9 / 10)
         else rd F.v (i * F.numY + j))) := by
  intro G
  have hIstep : ∀ i j (st : Fluid),
      (st = { F with u := st.u, v := st.v } ∧ st.u.length = F.u.length ∧
        st.v.length = F.v.length) →
      (dampCell i j st = { F with u := (dampCell i j st).u, v := (dampCell i j st).v } ∧
        (dampCell i j st).u.length = F.u.length ∧ (dampCell i j st).v.length = F.v.length) := by
    intro i j st hI
    obtain ⟨a1, a2, a3⟩ := hI
    unfold dampCell
    split
    · dsimp only
      refine ⟨?_, ?_, ?_⟩
      · rw [a1]
      · rw [length_wr]; exact a2
      · rw [length_wr]; exact a3
    · exact ⟨a1, a2, a3⟩
  have hdisj : ∀ i j i' j' k, (0 : Int) ≤ i → i < F.numX → (0 : Int) ≤ j → j < F.numY →
      (0 : Int) ≤ i' → i' < F.numX → (0 : Int) ≤ j' → j' < F.numY →
      (onRing F.numX F.numY i j ∧ k = i * F.numY + j) →
      (onRing F.numX F.numY i' j' ∧ k = i' * F.numY + j') → i = i' ∧ j = j' := by
    intro i j i' j' k _ _ hj0 hj1 _ _ hj0' hj1' h1 h2
    exact flat_inj hj0 hj1 hj0' hj1' (h1.2.symm.trans h2.2)
  have hown : ∀ (i j : Int) (f g : List ℚ), 0 ≤ j → j < F.numY →
      (∀ k', (∀ i' j', (0 : Int) ≤ i' → i' < F.numX → (0 : Int) ≤ j' → j' < F.numY →
          (i' < i ∨ (i' = i ∧ j' < j)) → ¬ (onRing F.numX F.numY i' j' ∧ k' = i' * F.numY + j')) →
        rd f k' = rd g k') → rd f (i * F.numY + j) = rd g (i * F.numY + j) := by
    intro i j f g hj0 hj1 hprev
    apply hprev
    intro i' j' _ _ hj0' hj1' hlt ht
    have := flat_inj hj0 hj1 hj0' hj1' ht.2
    omega
  have keyU := @forRange2_writes Fluid Fluid.u
    (fun st => st = { F with u := st.u, v := st.v } ∧ st.u.length = F.u.length ∧
      st.v.length = F.v.length)
    (fun i j k => onRing F.numX F.numY i j ∧ k = i * F.numY + j)
    (fun _ _ k => rd F.u k * (9 / 10))
    0 F.numX 0 F.numY
    (fun i j st => dampCell i j st) F ⟨rfl, rfl, rfl⟩
    (fun i j st _ _ _ _ hI => hIstep i j st hI)
    (by
      intro i j st k _ _ _ _ hI hnt
      have a1 : st.numX = F.numX := by rw [hI.1]
      have a2 : st.numY = F.numY := by rw [hI.1]
      exact (dampCell_frame i j st k (by rw [a1, a2]; exact hnt)).1)
    (by
      intro i j st k hi0 hi1 hj0 hj1 hI ht hprev
      have a1 : st.numX = F.numX := by rw [hI.1]
      have a2 : st.numY = F.numY := by rw [hI.1]
      have hlu : (st.u.length : Int) = F.numX * F.numY := by rw [hI.2.1]; exact hu
      have hlv : (st.v.length : Int) = F.numX * F.numY := by rw [hI.2.2]; exact hv
      have hb := flat_bounds hi0 hi1 hj0 hj1
      obtain ⟨hr, rfl⟩ := ht
      have hval := (dampCell_val i j st (by rw [a1, a2]; exact hr) (by rw [a2]; exact hb.1)
        (by rw [a2, hlu]; exact hb.2) (by rw [a2, hlv]; exact hb.2)).1
      rw [a2] at hval
      rw [hval, hown i j st.u F.u hj0 hj1 hprev])
    hdisj
  have keyV := @forRange2_writes Fluid Fluid.v
    (fun st => st = { F with u := st.u, v := st.v } ∧ st.u.length = F.u.length ∧
      st.v.length = F.v.length)
    (fun i j k => onRing F.numX F.numY i j ∧ k = i * F.numY + j)
    (fun _ _ k => rd F.v k * (9 / 10))
    0 F.numX 0 F.numY
    (fun i j st => dampCell i j st) F ⟨rfl, rfl, rfl⟩
    (fun i j st _ _ _ _ hI => hIstep i j st hI)
    (by
      intro i j st k _ _ _ _ hI hnt
      have a1 : st.numX = F.numX := by rw [hI.1]
      have a2 : st.numY = F.numY := by rw [hI.1]
      exact (dampCell_frame i j st k (by rw [a1, a2]; exact hnt)).2)
    (by
      intro i j st k hi0 hi1 hj0 hj1 hI ht hprev
      have a1 : st.numX = F.numX := by rw [hI.1]
      have a2 : st.numY = F.numY := by rw [hI.1]
      have hlu : (st.u.length : Int) = F.numX * F.numY := by rw [hI.2.1]; exact hu
      have hlv : (st.v.length : Int) = F.numX * F.numY := by rw [hI.2.2]; exact hv
      have hb := flat_bounds hi0 hi1 hj0 hj1
      obtain ⟨hr, rfl⟩ := ht
      have hval := (dampCell_val i j st (by rw [a1, a2]; exact hr) (by rw [a2]; exact hb.1)
        (by rw [a2, hlu]; exact hb.2) (by rw [a2, hlv]; exact hb.2)).2
      rw [a2] at hval
      rw [hval, hown i j st.v F.v hj0 hj1 hprev])
    hdisj
  dsimp only at keyU keyV
  obtain ⟨⟨k0, k0', k0''⟩, u1, u2⟩ := keyU
  obtain ⟨_, v1, v2⟩ := keyV
  refine ⟨k0, k0', k0'', ?_⟩
  intro i j hi0 hi1 hj0 hj1
  have hnot : ¬ onRing F.numX F.numY i j →
      ∀ i' j', (0 : Int) ≤ i' → i' < F.numX → (0 : Int) ≤ j' → j' < F.numY →
        ¬ (onRing F.numX F.numY i' j' ∧ i * F.numY + j = i' * F.numY + j') := by
    intro hr i' j' _ _ hj0' hj1' ht
    obtain ⟨e1, e2⟩ := flat_inj hj0 hj1 hj0' hj1' ht.2
    subst e1 e2
    exact hr ht.1
  by_cases hr : onRing F.numX F.numY i j
  · rw [if_pos hr, if_pos hr]
    exact ⟨u1 i j _ hi0 hi1 hj0 hj1 ⟨hr, rfl⟩, v1 i j _ hi0 hi1 hj0 hj1 ⟨hr, rfl⟩⟩
  · rw [if_neg hr, if_neg hr]
    exact ⟨u2 _ (hnot hr), v2 _ (hnot hr)⟩

/-- The whole of `extrapolate` on a grid with at least two rows and columns:
copy, then damp the ring; only `u` and `v` change. -/
theorem extrapolate_spec (F : Fluid) (hX : 2 ≤ F.numX) (hY : 2 ≤ F.numY)
    (hu : (F.u.length : Int) = F.numX * F.numY) (hv : (F.v.length : Int) = F.numX * F.numY) :
    extrapolate F = { F with u := (extrapolate F).u, v := (extrapolate F).v } ∧
    (extrapolate F).u.length = F.u.length ∧ (extrapolate F).v.length = F.v.length ∧
    (∀ i j, 0 ≤ i → i < F.numX → 0 ≤ j → j < F.numY →
      rd (extrapolate F).u (i * F.numY + j) =
        (if onRing F.numX F.numY i j then 9 / 10 else 1) *
        (if j = 0 then rd F.u (i * F.numY + 1)
         else if j = F.numY - 1 then rd F.u (i * F.numY + max (F.numY - 2) 1)
         else rd F.u (i * F.numY + j)) ∧
      rd (extrapolate F).v (i * F.numY + j) =
        (if onRing F.numX F.numY i j then 9 / 10 else 1) *
        (if i = 0 then rd F.v (1 * F.numY + j)
         else if i = F.numX - 1 then rd F.v (max (F.numX - 2) 1 * F.numY + j)
         else rd F.v (i * F.numY + j))) := by
  obtain ⟨F1, h1⟩ : ∃ F1, F1 = forRange 0 F.numX extrapolateU F := ⟨_, rfl⟩
  obtain ⟨F2, h2⟩ : ∃ F2, F2 = forRange 0 F1.numY extrapolateV F1 := ⟨_, rfl⟩
  have hE : extrapolate F = forRange 0 F2.numX (fun i G => forRange 0 F2.numY
      (fun j G1 => dampCell i j G1) G) F2 := by
    subst h2; subst h1; rfl
  obtain ⟨a1, a2, a3⟩ := extrapolateU_loop F hY hu
  rw [← h1] at a1 a2 a3
  have b1X : F1.numX = F.numX := by rw [a1]
  have b1Y : F1.numY = F.numY := by rw [a1]
  have b1v : F1.v = F.v := by rw [a1]
  obtain ⟨c1, c2, c3⟩ := extrapolateV_loop F1 (by rw [b1X]; exact hX)
    (by rw [b1v, b1X, b1Y]; exact hv)
  rw [← h2] at c1 c2 c3
  have d1X : F2.numX = F.numX := by rw [c1]; exact b1X
  have d1Y : F2.numY = F.numY := by rw [c1]; exact b1Y
  have d1u : F2.u = F1.u := by rw [c1]
  obtain ⟨e1, e2, e3, e4⟩ := damp_loop F2
    (by rw [d1u, d1X, d1Y, a2]; exact hu) (by rw [c2, b1v, d1X, d1Y]; exact hv)
  rw [← hE] at e1 e2 e3 e4
  refine ⟨?_, ?_, ?_, ?_⟩
  · rw [e1, c1, a1]
  · rw [e2, d1u, a2]
  · rw [e3, c2, b1v]
  · intro i j hi0 hi1 hj0 hj1
    obtain ⟨f1, f2⟩ := e4 i j (by omega) (by omega) (by omega) (by omega)
    have g1 := a3 i j hi0 hi1 hj0 hj1
    have g2 := c3 i j (by omega) (by omega) (by omega) (by omega)
    rw [d1X, d1Y] at f1 f2
    rw [b1X, b1Y, b1v] at g2
    rw [f1, f2, d1u, g1, g2]
    by_cases hr : onRing F.numX F.numY i j
    · rw [if_pos hr, if_pos hr, if_pos hr]
      exact ⟨mul_comm _ _, mul_comm _ _⟩
    · rw [if_neg hr, if_neg hr, if_neg hr]
      exact ⟨(one_mul _).symm, (one_mul _).symm⟩

/-- C3, as stated, fails: on the 3 x 3 grid whose border cell `(0, 1)` carries
the velocity `(1, 1)`, the ring cell `(0, 0)` holds `u = 0` before
`extrapolate` and `u = 0.9` after it (the copy of `u[0,1]`, damped), not
`0.9 * 0`. -/
theorem C3_boundary_damping_counterexample :
    onRing grid3Border.numX grid3Border.numY 0 0 ∧
    rd grid3Border.u (0 * grid3Border.numY + 0) = 0 ∧
    rd (extrapolate grid3Border).u (0 * grid3Border.numY + 0) = 9 / 10 ∧
    ¬ (rd (extrapolate grid3Border).u (0 * grid3Border.numY + 0)
        = 9 / 10 * rd grid3Border.u (0 * grid3Border.numY + 0) ∧
       rd (extrapolate grid3Border).v (0 * grid3Border.numY + 0)
        = 9 / 10 * rd grid3Border.v (0 * grid3Border.numY + 0)) := by
  decide!

/-- C3, amended. Boundary damping: on a grid with at least two rows and
columns, after one call to `extrapolate` every cell `(i, j)` of the outermost
ring holds `0.9` times the value the copy phase gave it: for `u` the pre-call
`u[i,1]` when `j = 0`, the pre-call `u[i,max(numY-2,1)]` when `j = numY-1`, and
the pre-call `u[i,j]` on the rest of the ring; for `v` the pre-call `v[1,j]`
when `i = 0`, the pre-call `v[max(numX-2,1),j]` when `i = numX-1`, and the
pre-call `v[i,j]` on the rest of the ring. -/
theorem C3_boundary_damping (F : Fluid) (i j : Int) (hX : 2 ≤ F.numX) (hY : 2 ≤ F.numY)
    (hu : (F.u.length : Int) = F.numX * F.numY) (hv : (F.v.length : Int) = F.numX * F.numY)
    (hi0 : 0 ≤ i) (hi1 : i < F.numX) (hj0 : 0 ≤ j) (hj1 : j < F.numY)
    (hr : onRing F.numX F.numY i j) :
    rd (extrapolate F).u (i * F.numY + j) =
      9 / 10 * (if j = 0 then rd F.u (i * F.numY + 1)
                else if j = F.numY - 1 then rd F.u (i * F.numY + max (F.numY - 2) 1)
                else rd F.u (i * F.numY + j)) ∧
    rd (extrapolate F).v (i * F.numY + j) =
      9 / 10 * (if i = 0 then rd F.v (1 * F.numY + j)
                else if i = F.numX - 1 then rd F.v (max (F.numX - 2) 1 * F.numY + j)
                else rd F.v (i * F.numY + j)) := by
  obtain ⟨_, _, _, h4⟩ := extrapolate_spec F hX hY hu hv
  have := h4 i j hi0 hi1 hj0 hj1
  rw [if_pos hr] at this
  exact this

/-- C3, amended, instance: the ring cell `(0, 0)` of the 3 x 3 grid whose border
cell `(0, 1)` carries the velocity `(1, 1)`. -/
theorem C3_boundary_damping_witness :
    (2 ≤ grid3Border.numX) ∧ (2 ≤ grid3Border.numY) ∧
    ((grid3Border.u.length : Int) = grid3Border.numX * grid3Border.numY) ∧
    ((grid3Border.v.length : Int) = grid3Border.numX * grid3Border.numY) ∧
    ((0 : Int) ≤ 0) ∧ ((0 : Int) < grid3Border.numX) ∧ ((0 : Int) ≤ 0) ∧
    ((0 : Int) < grid3Border.numY) ∧ onRing grid3Border.numX grid3Border.numY 0 0 ∧
    (rd (extrapolate grid3Border).u (0 * grid3Border.numY + 0) =
      9 / 10 * (if (0 : Int) = 0 then rd grid3Border.u (0 * grid3Border.numY + 1)
                else if (0 : Int) = grid3Border.numY - 1
                  then rd grid3Border.u (0 * grid3Border.numY + max (grid3Border.numY - 2) 1)
                else rd grid3Border.u (0 * grid3Border.numY + 0)) ∧
    rd (extrapolate grid3Border).v (0 * grid3Border.numY + 0) =
      9 / 10 * (if (0 : Int) = 0 then rd grid3Border.v (1 * grid3Border.numY + 0)
                else if (0 : Int) = grid3Border.numX - 1
                  then rd grid3Border.v (max (grid3Border.numX - 2) 1 * grid3Border.numY + 0)
                else rd grid3Border.v (0 * grid3Border.numY + 0))) :=
  ⟨by decide!, by decide!, by decide!, by decide!, by decide, by decide!, by decide, by decide!,
   by decide!,
   C3_boundary_damping grid3Border 0 0 (by decide!) (by decide!) (by decide!) (by decide!)
     (by decide) (by decide!) (by decide) (by decide!) (by decide!)⟩

/-! ## C4: the field sampler at grid points -/

/-- The interpolation of lines 155-169 at a point that sits exactly on the
sample `(i, j)` of the field returns that sample. -/
theorem interpolate_exact (F : Fluid) (f : List ℚ) (dx dy x y : ℚ) (i j : Int)
    (hh : 0 < F.h) (hx : x - dx = (i : ℚ) * F.h) (hy : y - dy = (j : ℚ) * F.h)
    (hi : i ≤ F.numX - 1) (hj : j ≤ F.numY - 1) :
    interpolate F f dx dy x y = rd f (i * F.numY + j) := by
  have hne : F.h ≠ 0 := ne_of_gt hh
  have ex : (x - dx) * (1 / F.h) = (i : ℚ) := by rw [hx]; field_simp
  have ey : (y - dy) * (1 / F.h) = (j : ℚ) := by rw [hy]; field_simp
  unfold interpolate
  dsimp only
  rw [ex, ey, Int.floor_intCast, Int.floor_intCast, min_eq_left hi, min_eq_left hj, hx, hy]
  simp

/-- Sampling at a grid point `(i, j)` with `i, j >= 1` of any of the three
fields returns the stored value. -/
theorem sampleField_exact (F : Fluid) (i j : Int) (hh : 0 < F.h)
    (hi0 : 1 ≤ i) (hi1 : i < F.numX) (hj0 : 1 ≤ j) (hj1 : j < F.numY) :
    sampleField F ((i : ℚ) * F.h + 0) ((j : ℚ) * F.h + F.h / 2) U_FIELD
      = rd F.u (i * F.numY + j) ∧
    sampleField F ((i : ℚ) * F.h + F.h / 2) ((j : ℚ) * F.h + 0) V_FIELD
      = rd F.v (i * F.numY + j) ∧
    sampleField F ((i : ℚ) * F.h + F.h / 2) ((j : ℚ) * F.h + F.h / 2) S_FIELD
      = rd F.m (i * F.numY + j) := by
  have hiq : (1 : ℚ) ≤ (i : ℚ) := by exact_mod_cast hi0
  have hjq : (1 : ℚ) ≤ (j : ℚ) := by exact_mod_cast hj0
  have hiX : (i : ℚ) + 1 ≤ (F.numX : ℚ) := by exact_mod_cast (by omega : i + 1 ≤ F.numX)
  have hjY : (j : ℚ) + 1 ≤ (F.numY : ℚ) := by exact_mod_cast (by omega : j + 1 ≤ F.numY)
  -- the clamp of lines 142-143 does not move the four coordinates involved
  have cl : ∀ (n : ℚ) (k : ℚ) (d : ℚ), 1 ≤ k → k + 1 ≤ n → 0 ≤ d → d ≤ F.h / 2 →
      max (min (k * F.h + d) (n * F.h)) F.h = k * F.h + d := by
    intro n k d hk hkn hd0 hd1
    have h1 : k * F.h + d ≤ n * F.h := by nlinarith
    have h2 : F.h ≤ k * F.h + d := by nlinarith
    rw [min_eq_left h1, max_eq_left h2]
  have hhalf : (0 : ℚ) ≤ F.h / 2 := by linarith
  have cx0 := cl F.numX i 0 hiq hiX (le_refl 0) hhalf
  have cx1 := cl F.numX i (F.h / 2) hiq hiX hhalf (le_refl _)
  have cy0 := cl F.numY j 0 hjq hjY (le_refl 0) hhalf
  have cy1 := cl F.numY j (F.h / 2) hjq hjY hhalf (le_refl _)
  refine ⟨?_, ?_, ?_⟩
  · unfold sampleField
    dsimp only
    rw [if_pos rfl, cx0, cy1]
    exact interpolate_exact F F.u _ _ _ _ i j hh (by ring) (by ring) (by omega) (by omega)
  · unfold sampleField
    dsimp only
    rw [if_neg (by decide), if_pos rfl, cx1, cy0]
    exact interpolate_exact F F.v _ _ _ _ i j hh (by ring) (by ring) (by omega) (by omega)
  · unfold sampleField
    dsimp only
    rw [if_neg (by decide), if_neg (by decide), if_pos rfl, cx1, cy1]
    exact interpolate_exact F F.m _ _ _ _ i j hh (by ring) (by ring) (by omega) (by omega)

/-- C4, as stated, fails at `i = 0`: on the 3 x 3 grid with `h = 1` whose border
cell `(0, 1)` carries the velocity `(1, 1)`, sampling `u` at its grid point
`(0 * h + 0, 1 * h + h/2)` returns `0`, not the stored `u[0*numY + 1] = 1`,
because line 142 first moves the abscissa up to `h`. -/
theorem C4_sampler_exactness_counterexample :
    rd grid3Border.u (0 * grid3Border.numY + 1) = 1 ∧
    sampleField grid3Border (((0 : Int) : ℚ) * grid3Border.h + 0)
      (((1 : Int) : ℚ) * grid3Border.h + grid3Border.h / 2) U_FIELD = 0 ∧
    sampleField grid3Border (((0 : Int) : ℚ) * grid3Border.h + 0)
      (((1 : Int) : ℚ) * grid3Border.h + grid3Border.h / 2) U_FIELD
      ≠ rd grid3Border.u (0 * grid3Border.numY + 1) := by
  decide!

/-- C4, amended. Sampler exactness for `h > 0`: for every field selector and
every grid index `(i, j)` with `1 <= i < numX` and `1 <= j < numY`,
`sampleField(i*h + dx, j*h + dy, f)` returns exactly the stored value
`f[i*numY + j]`, where `(dx, dy)` is `(0, h/2)` for `u`, `(h/2, 0)` for `v`
and `(h/2, h/2)` for the dye field `m`. -/
theorem C4_sampler_exactness (F : Fluid) (i j : Int) (hh : 0 < F.h)
    (hi0 : 1 ≤ i) (hi1 : i < F.numX) (hj0 : 1 ≤ j) (hj1 : j < F.numY) :
    sampleField F ((i : ℚ) * F.h + 0) ((j : ℚ) * F.h + F.h / 2) U_FIELD
      = rd F.u (i * F.numY + j) ∧
    sampleField F ((i : ℚ) * F.h + F.h / 2) ((j : ℚ) * F.h + 0) V_FIELD
      = rd F.v (i * F.numY + j) ∧
    sampleField F ((i : ℚ) * F.h + F.h / 2) ((j : ℚ) * F.h + F.h / 2) S_FIELD
      = rd F.m (i * F.numY + j) :=
  sampleField_exact F i j hh hi0 hi1 hj0 hj1

/-- C4, amended, instance: the grid point `(1, 2)` of the 3 x 3 grid after dye
and velocity were injected there. -/
theorem C4_sampler_exactness_witness :
    (0 < grid3Dyed.h) ∧
    ((1 : Int) ≤ 1) ∧ ((1 : Int) < grid3Dyed.numX) ∧
    ((1 : Int) ≤ 2) ∧ ((2 : Int) < grid3Dyed.numY) ∧
    (sampleField grid3Dyed
        (((1 : Int) : ℚ) * grid3Dyed.h + 0)
        (((2 : Int) : ℚ) * grid3Dyed.h
          + grid3Dyed.h / 2) U_FIELD
      = rd grid3Dyed.u
          (1 * grid3Dyed.numY + 2) ∧
    sampleField grid3Dyed
        (((1 : Int) : ℚ) * grid3Dyed.h
          + grid3Dyed.h / 2)
        (((2 : Int) : ℚ) * grid3Dyed.h + 0) V_FIELD
      = rd grid3Dyed.v
          (1 * grid3Dyed.numY + 2) ∧
    sampleField grid3Dyed
        (((1 : Int) : ℚ) * grid3Dyed.h
          + grid3Dyed.h / 2)
        (((2 : Int) : ℚ) * grid3Dyed.h
          + grid3Dyed.h / 2) S_FIELD
      = rd grid3Dyed.m
          (1 * grid3Dyed.numY + 2)) :=
  ⟨by decide!, by decide, by decide!, by decide, by decide!,
   C4_sampler_exactness grid3Dyed 1 2
     (by decide!) (by decide) (by decide!) (by decide) (by decide!)⟩

/-! ## Which members each operation can change -/

/-! Which members each operation can change. -/

theorem integrateCell_frame (dt gravity : ℚ) (i j : Int) (F : Fluid) :
    integrateCell dt gravity i j F = { F with v := (integrateCell dt gravity i j F).v } := by
  unfold integrateCell; split <;> rfl

theorem integrate_frame (dt gravity : ℚ) (F : Fluid) :
    integrate dt gravity F = { F with v := (integrate dt gravity F).v } := by
  unfold integrate
  apply forRange_inv _ F (fun G => G = { F with v := G.v }) rfl
  intro i G _ _ hG
  apply forRange_inv _ G (fun G => G = { F with v := G.v }) hG
  intro j G1 _ _ hG1
  rw [integrateCell_frame, hG1]

theorem solveCell_frame (cp : ℚ) (i j : Int) (F : Fluid) :
    solveCell cp i j F = { F with u := (solveCell cp i j F).u, v := (solveCell cp i j F).v,
                                   p := (solveCell cp i j F).p } := by
  unfold solveCell; split
  · rfl
  · dsimp only; split <;> rfl

theorem solveIncompressibility_frame (numIters : Int) (dt : ℚ) (F : Fluid) :
    solveIncompressibility numIters dt F =
      { F with u := (solveIncompressibility numIters dt F).u,
               v := (solveIncompressibility numIters dt F).v,
               p := (solveIncompressibility numIters dt F).p } := by
  unfold solveIncompressibility
  apply forRange_inv _ F (fun G => G = { F with u := G.u, v := G.v, p := G.p }) rfl
  intro _ G _ _ hG
  unfold solveSweep
  apply forRange_inv _ G (fun G => G = { F with u := G.u, v := G.v, p := G.p }) hG
  intro i G1 _ _ hG1
  apply forRange_inv _ G1 (fun G => G = { F with u := G.u, v := G.v, p := G.p }) hG1
  intro j G2 _ _ hG2
  rw [solveCell_frame, hG2]

theorem dampCell_struct (i j : Int) (F : Fluid) :
    dampCell i j F = { F with u := (dampCell i j F).u, v := (dampCell i j F).v } := by
  unfold dampCell; split <;> rfl

theorem extrapolate_frame (F : Fluid) :
    extrapolate F = { F with u := (extrapolate F).u, v := (extrapolate F).v } := by
  unfold extrapolate
  dsimp only
  have h1 : forRange 0 F.numX extrapolateU F
      = { F with u := (forRange 0 F.numX extrapolateU F).u,
                 v := (forRange 0 F.numX extrapolateU F).v } := by
    apply forRange_inv _ F (fun G => G = { F with u := G.u, v := G.v }) rfl
    intro i G _ _ hG
    unfold extrapolateU
    dsimp only
    rw [hG]
  obtain ⟨F1, e1⟩ : ∃ F1, F1 = forRange 0 F.numX extrapolateU F := ⟨_, rfl⟩
  rw [← e1] at h1 ⊢
  have h2 : forRange 0 F1.numY extrapolateV F1
      = { F with u := (forRange 0 F1.numY extrapolateV F1).u,
                 v := (forRange 0 F1.numY extrapolateV F1).v } := by
    apply forRange_inv _ F1 (fun G => G = { F with u := G.u, v := G.v }) h1
    intro i G _ _ hG
    unfold extrapolateV
    dsimp only
    rw [hG]
  obtain ⟨F2, e2⟩ : ∃ F2, F2 = forRange 0 F1.numY extrapolateV F1 := ⟨_, rfl⟩
  rw [← e2] at h2 ⊢
  apply forRange_inv _ F2 (fun G => G = { F with u := G.u, v := G.v }) h2
  intro i G _ _ hG
  apply forRange_inv _ G (fun G => G = { F with u := G.u, v := G.v }) hG
  intro j G1 _ _ hG1
  rw [dampCell_struct, hG1]

theorem advectUCell_frame (dt : ℚ) (i j : Int) (F : Fluid) :
    advectUCell dt i j F = { F with newU := (advectUCell dt i j F).newU } := by
  unfold advectUCell; split <;> rfl

theorem advectVCell_frame (dt : ℚ) (i j : Int) (F : Fluid) :
    advectVCell dt i j F = { F with newV := (advectVCell dt i j F).newV } := by
  unfold advectVCell; split <;> rfl

theorem advectVel_frame (dt : ℚ) (F : Fluid) :
    advectVel dt F = { F with u := (advectVel dt F).u, v := (advectVel dt F).v,
                              newU := (advectVel dt F).newU, newV := (advectVel dt F).newV } := by
  unfold advectVel
  dsimp only
  have h1 := @forRange_inv Fluid 1 F.numX (fun i G => forRange 1 F.numY
      (fun j G1 => advectVCell dt i j (advectUCell dt i j G1)) G)
    { F with newU := F.u, newV := F.v }
    (fun G => G = { F with newU := G.newU, newV := G.newV }) rfl
    (by
      intro i G _ _ hG
      apply forRange_inv _ G (fun G => G = { F with newU := G.newU, newV := G.newV }) hG
      intro j G1 _ _ hG1
      rw [advectVCell_frame, advectUCell_frame, hG1])
  obtain ⟨F1, e1⟩ : ∃ F1, F1 = forRange 1 F.numX (fun i G => forRange 1 F.numY
      (fun j G1 => advectVCell dt i j (advectUCell dt i j G1)) G)
      { F with newU := F.u, newV := F.v } := ⟨_, rfl⟩
  rw [← e1] at h1 ⊢
  rw [h1]

theorem advectSmokeCell_frame (dt : ℚ) (i j : Int) (F : Fluid) :
    advectSmokeCell dt i j F = { F with newM := (advectSmokeCell dt i j F).newM } := by
  unfold advectSmokeCell; split <;> rfl

theorem advectSmoke_frame (dt : ℚ) (F : Fluid) :
    advectSmoke dt F = { F with m := (advectSmoke dt F).m, newM := (advectSmoke dt F).newM } := by
  unfold advectSmoke
  dsimp only
  have h1 := @forRange_inv Fluid 1 (F.numX - 1) (fun i G => forRange 1 (F.numY - 1)
      (fun j G1 => advectSmokeCell dt i j G1) G)
    { F with newM := F.m }
    (fun G => G = { F with newM := G.newM }) rfl
    (by
      intro i G _ _ hG
      apply forRange_inv _ G (fun G => G = { F with newM := G.newM }) hG
      intro j G1 _ _ hG1
      rw [advectSmokeCell_frame, hG1])
  obtain ⟨F1, e1⟩ : ∃ F1, F1 = forRange 1 (F.numX - 1) (fun i G => forRange 1 (F.numY - 1)
      (fun j G1 => advectSmokeCell dt i j G1) G) { F with newM := F.m } := ⟨_, rfl⟩
  rw [← e1] at h1 ⊢
  rw [h1]

theorem fadeDensity_frame (F : Fluid) :
    fadeDensity F = { F with m := (fadeDensity F).m } := by
  unfold fadeDensity
  apply forRange_inv _ F (fun G => G = { F with m := G.m }) rfl
  intro i G _ _ hG
  dsimp only
  rw [hG]

/-! ## C6: a dye-free grid stays dye-free -/

/-- A vector of zeros reads `0` everywhere. -/
theorem rd_zero_of_replicate (f : List ℚ) (n : Nat) (h : f = List.replicate n 0) :
    ∀ k : Int, rd f k = 0 := by
  intro k
  rw [h, rd_replicate]
  split <;> rfl

theorem interpolate_zero (F : Fluid) (f : List ℚ) (dx dy x y : ℚ) (hf : ∀ k, rd f k = 0) :
    interpolate F f dx dy x y = 0 := by
  unfold interpolate
  simp [hf]

/-- A vector that reads `0` everywhere is unchanged by writing `0` into it. -/
theorem wr_zero_of_zero (f : List ℚ) (k : Int) (x : ℚ) (hf : ∀ k, rd f k = 0) (hx : x = 0) :
    wr f k x = f :=
  wr_rd_same f k x (by rw [hx, hf k])

/-- With zero gravity the force integrator changes nothing. -/
theorem integrate_zero_gravity (dt : ℚ) (F : Fluid) : integrate dt 0 F = F := by
  unfold integrate
  apply forRange_id _ F (fun _ => True) trivial
  intro i G _ _ _
  apply forRange_id _ G (fun _ => True) trivial
  intro j G1 _ _ _
  unfold integrateCell
  split
  · rw [wr_rd_same G1.v _ _ (by ring)]
  · rfl

/-- A projector visit of a cell changes nothing when both velocity fields are
zero. -/
theorem solveCell_zero_velocity (cp : ℚ) (i j : Int) (F : Fluid)
    (hu : ∀ k, rd F.u k = 0) (hv : ∀ k, rd F.v k = 0) : solveCell cp i j F = F := by
  unfold solveCell
  split
  · rfl
  · dsimp only
    split
    · rfl
    · have e1 : wr F.u (i * F.numY + j) (rd F.u (i * F.numY + j) -
          rd F.s ((i - 1) * F.numY + j) *
            (-(rd F.u ((i + 1) * F.numY + j) - rd F.u (i * F.numY + j) +
                rd F.v (i * F.numY + j + 1) - rd F.v (i * F.numY + j)) /
              (rd F.s ((i - 1) * F.numY + j) + rd F.s ((i + 1) * F.numY + j) +
                rd F.s (i * F.numY + j - 1) + rd F.s (i * F.numY + j + 1)) *
              OVER_RELAXATION)) = F.u :=
        wr_zero_of_zero _ _ _ hu (by simp [hu, hv])
      have e2 : wr F.v (i * F.numY + j) (rd F.v (i * F.numY + j) -
          rd F.s (i * F.numY + j - 1) *
            (-(rd F.u ((i + 1) * F.numY + j) - rd F.u (i * F.numY + j) +
                rd F.v (i * F.numY + j + 1) - rd F.v (i * F.numY + j)) /
              (rd F.s ((i - 1) * F.numY + j) + rd F.s ((i + 1) * F.numY + j) +
                rd F.s (i * F.numY + j - 1) + rd F.s (i * F.numY + j + 1)) *
              OVER_RELAXATION)) = F.v :=
        wr_zero_of_zero _ _ _ hv (by simp [hu, hv])
      rw [e1, e2, wr_zero_of_zero F.u _ _ hu (by simp [hu, hv]),
        wr_zero_of_zero F.v _ _ hv (by simp [hu, hv]),
        wr_rd_same F.p _ _ (by simp [hu, hv])]

/-- The projector changes nothing when both velocity fields are zero. -/
theorem solveIncompressibility_zero_velocity (numIters : Int) (dt : ℚ) (F : Fluid)
    (hu : ∀ k, rd F.u k = 0) (hv : ∀ k, rd F.v k = 0) :
    solveIncompressibility numIters dt F = F := by
  unfold solveIncompressibility
  dsimp only
  apply forRange_id _ F (fun G => (∀ k, rd G.u k = 0) ∧ (∀ k, rd G.v k = 0)) ⟨hu, hv⟩
  intro _ G _ _ hG
  unfold solveSweep
  apply forRange_id _ G (fun G => (∀ k, rd G.u k = 0) ∧ (∀ k, rd G.v k = 0)) hG
  intro i G1 _ _ hG1
  apply forRange_id _ G1 (fun G => (∀ k, rd G.u k = 0) ∧ (∀ k, rd G.v k = 0)) hG1
  intro j G2 _ _ hG2
  exact solveCell_zero_velocity _ i j G2 hG2.1 hG2.2

/-- The boundary extrapolator changes nothing when both velocity fields are
zero. -/
theorem extrapolate_zero_velocity (F : Fluid)
    (hu : ∀ k, rd F.u k = 0) (hv : ∀ k, rd F.v k = 0) : extrapolate F = F := by
  have h1 : forRange 0 F.numX extrapolateU F = F := by
    apply forRange_id _ F (fun G => ∀ k, rd G.u k = 0) hu
    intro i G _ _ hG
    unfold extrapolateU
    dsimp only
    rw [wr_zero_of_zero G.u _ _ hG (hG _), wr_zero_of_zero G.u _ _ hG (hG _)]
  have h2 : forRange 0 F.numY extrapolateV F = F := by
    apply forRange_id _ F (fun G => ∀ k, rd G.v k = 0) hv
    intro i G _ _ hG
    unfold extrapolateV
    dsimp only
    rw [wr_zero_of_zero G.v _ _ hG (hG _), wr_zero_of_zero G.v _ _ hG (hG _)]
  unfold extrapolate
  dsimp only
  rw [h1, h2]
  apply forRange_id _ F (fun G => (∀ k, rd G.u k = 0) ∧ (∀ k, rd G.v k = 0)) ⟨hu, hv⟩
  intro i G _ _ hG
  apply forRange_id _ G (fun G => (∀ k, rd G.u k = 0) ∧ (∀ k, rd G.v k = 0)) hG
  intro j G1 _ _ hG1
  unfold dampCell
  split
  · rw [wr_zero_of_zero G1.u _ _ hG1.1 (by rw [hG1.1]; simp),
      wr_zero_of_zero G1.v _ _ hG1.2 (by rw [hG1.2]; simp)]
  · rfl

theorem sampleField_u_zero (F : Fluid) (x y : ℚ) (hu : ∀ k, rd F.u k = 0) :
    sampleField F x y U_FIELD = 0 := by
  unfold sampleField
  dsimp only
  rw [if_pos rfl]
  exact interpolate_zero F F.u _ _ _ _ hu

theorem sampleField_v_zero (F : Fluid) (x y : ℚ) (hv : ∀ k, rd F.v k = 0) :
    sampleField F x y V_FIELD = 0 := by
  unfold sampleField
  dsimp only
  rw [if_neg (by decide), if_pos rfl]
  exact interpolate_zero F F.v _ _ _ _ hv

/-- Velocity advection of a grid at rest only refreshes the two buffers. -/
theorem advectVel_zero_velocity (dt : ℚ) (F : Fluid)
    (hu : ∀ k, rd F.u k = 0) (hv : ∀ k, rd F.v k = 0) :
    advectVel dt F = { F with newU := F.u, newV := F.v } := by
  unfold advectVel
  dsimp only
  have h1 : forRange 1 F.numX (fun i G => forRange 1 F.numY
      (fun j G1 => advectVCell dt i j (advectUCell dt i j G1)) G)
      { F with newU := F.u, newV := F.v } = { F with newU := F.u, newV := F.v } := by
    apply forRange_id _ _ (fun G => (∀ k, rd G.u k = 0) ∧ (∀ k, rd G.v k = 0) ∧
      (∀ k, rd G.newU k = 0) ∧ (∀ k, rd G.newV k = 0)) ⟨hu, hv, hu, hv⟩
    intro i G _ _ hG
    apply forRange_id _ G (fun G => (∀ k, rd G.u k = 0) ∧ (∀ k, rd G.v k = 0) ∧
      (∀ k, rd G.newU k = 0) ∧ (∀ k, rd G.newV k = 0)) hG
    intro j G1 _ _ hG1
    have e1 : advectUCell dt i j G1 = G1 := by
      unfold advectUCell
      split
      · dsimp only
        rw [wr_zero_of_zero G1.newU _ _ hG1.2.2.1 (sampleField_u_zero G1 _ _ hG1.1)]
      · rfl
    rw [e1]
    unfold advectVCell
    split
    · dsimp only
      rw [wr_zero_of_zero G1.newV _ _ hG1.2.2.2 (sampleField_v_zero G1 _ _ hG1.2.1)]
    · rfl
  rw [h1]

/-- Dye advection on a grid at rest (`h > 0`) only refreshes the dye buffer:
every interior cell samples the dye field at its own centre. -/
theorem advectSmoke_zero_velocity (dt : ℚ) (F : Fluid) (hh : 0 < F.h)
    (hu : ∀ k, rd F.u k = 0) (hv : ∀ k, rd F.v k = 0) :
    advectSmoke dt F = { F with newM := F.m } := by
  unfold advectSmoke
  dsimp only
  have h1 : forRange 1 (F.numX - 1) (fun i G => forRange 1 (F.numY - 1)
      (fun j G1 => advectSmokeCell dt i j G1) G) { F with newM := F.m }
      = { F with newM := F.m } := by
    apply forRange_id _ _ (fun G => (∀ k, rd G.u k = 0) ∧ (∀ k, rd G.v k = 0) ∧
      G.newM = G.m ∧ 0 < G.h ∧ G.numX = F.numX ∧ G.numY = F.numY)
      ⟨hu, hv, rfl, hh, rfl, rfl⟩
    intro i G hi0 hi1 hG
    apply forRange_id _ G (fun G => (∀ k, rd G.u k = 0) ∧ (∀ k, rd G.v k = 0) ∧
      G.newM = G.m ∧ 0 < G.h ∧ G.numX = F.numX ∧ G.numY = F.numY) hG
    intro j G1 hj0 hj1 hG1
    obtain ⟨a1, a2, a3, a4, a5, a6⟩ := hG1
    unfold advectSmokeCell
    split
    · dsimp only
      have ex : (i : ℚ) * G1.h + 1 / 2 * G1.h -
          dt * ((rd G1.u (i * G1.numY + j) + rd G1.u ((i + 1) * G1.numY + j)) * (1 / 2))
          = (i : ℚ) * G1.h + G1.h / 2 := by rw [a1, a1]; ring
      have ey : (j : ℚ) * G1.h + 1 / 2 * G1.h -
          dt * ((rd G1.v (i * G1.numY + j) + rd G1.v (i * G1.numY + j + 1)) * (1 / 2))
          = (j : ℚ) * G1.h + G1.h / 2 := by rw [a2, a2]; ring
      rw [ex, ey, (sampleField_exact G1 i j a4 hi0 (by omega) hj0 (by omega)).2.2,
        wr_rd_same G1.newM _ _ (by rw [a3])]
    · rfl
  rw [h1]

/-- The decay step multiplies every dye entry by `0.998`, provided the dye
vector has `numCells` entries. -/
theorem fadeDensity_spec (F : Fluid) (hlen : (F.m.length : Int) = F.numCells) :
    ∀ k, rd (fadeDensity F).m k = rd F.m k * (499 / 500) := by
  have key := @forRange_writes Fluid Fluid.m (fun st => st.m.length = F.m.length)
    (fun i k => k = i) (fun _ k => rd F.m k * (499 / 500))
    0 F.numCells
    (fun i G => { G with m := wr G.m i (rd G.m i * (499 / 500)) }) F rfl
    (by
      intro i st _ _ hI
      dsimp only
      rw [length_wr]; exact hI)
    (by
      intro i st k _ _ _ hnt
      dsimp only
      exact rd_wr_ne _ _ hnt)
    (by
      intro i st k hi0 hi1 hI ht hprev
      subst ht
      rw [rd_wr_self _ _ hi0 (by rw [hI, hlen]; exact hi1)]
      rw [hprev k (fun i' _ h2 e => by omega)])
    (by
      intro i i' k _ _ _ _ h1 h2
      exact h1.symm.trans h2)
  dsimp only at key
  obtain ⟨_, k1, k2⟩ := key
  intro k
  by_cases hk : 0 ≤ k ∧ k < F.numCells
  · exact k1 k k hk.1 hk.2 rfl
  · have e : rd (fadeDensity F).m k = rd F.m k := k2 k (fun i h1 h2 e => hk (by omega))
    rw [e]
    have : rd F.m k = 0 := by
      by_cases h0 : k < 0
      · exact rd_of_lt _ h0
      · exact rd_of_ge _ (by omega)
    rw [this]; simp

/-- A tick with zero gravity of a grid at rest: only the dye decays (and the
pressure and the buffers are reset). -/
theorem simulate_at_rest (dt : ℚ) (numIters : Int) (F : Fluid) (hh : 0 < F.h)
    (hlen : (F.m.length : Int) = F.numCells)
    (hu : ∀ k, rd F.u k = 0) (hv : ∀ k, rd F.v k = 0) :
    (simulate dt 0 numIters F).u = F.u ∧ (simulate dt 0 numIters F).v = F.v ∧
    (∀ k, rd (simulate dt 0 numIters F).m k = rd F.m k * (499 / 500)) := by
  have e1 : solveIncompressibility numIters dt { F with p := F.p.map (fun _ => 0) }
      = { F with p := F.p.map (fun _ => 0) } :=
    solveIncompressibility_zero_velocity numIters dt _ hu hv
  have e2 : extrapolate { F with p := F.p.map (fun _ => 0) }
      = { F with p := F.p.map (fun _ => 0) } := extrapolate_zero_velocity _ hu hv
  have e3 : advectVel dt { F with p := F.p.map (fun _ => 0) }
      = { F with p := F.p.map (fun _ => 0), newU := F.u, newV := F.v } :=
    advectVel_zero_velocity dt _ hu hv
  have e4 : advectSmoke dt { F with p := F.p.map (fun _ => 0), newU := F.u, newV := F.v }
      = { F with p := F.p.map (fun _ => 0), newU := F.u, newV := F.v, newM := F.m } :=
    advectSmoke_zero_velocity dt _ hh hu hv
  unfold simulate
  dsimp only
  rw [integrate_zero_gravity, e1, e2, e3, e4]
  refine ⟨?_, ?_, ?_⟩
  · rw [fadeDensity_frame]
  · rw [fadeDensity_frame]
  · exact fadeDensity_spec _ hlen

/-- C5. Decay-only tick (`h > 0`): for every well-formed grid state whose `u`
and `v` are identically zero, `simulate(dt, 0, numIters)` leaves `u` and `v`
identically zero and makes every dye value equal to `0.998` times its pre-tick
value; in particular, after `addDensity` of amount `A` into a cell, that cell
holds `0.998` times its new content after one tick, which is `A * 0.998` on an
otherwise dye-free grid. -/
theorem C5_decay_only_tick (F : Fluid) (dt : ℚ) (numIters : Int) (hh : 0 < F.h)
    (hwf : WellFormed F) (hu : ∀ k : Int, rd F.u k = 0) (hv : ∀ k : Int, rd F.v k = 0) :
    ((∀ k : Int, rd (simulate dt 0 numIters F).u k = 0) ∧
     (∀ k : Int, rd (simulate dt 0 numIters F).v k = 0) ∧
     (∀ k : Int, rd (simulate dt 0 numIters F).m k = 499 / 500 * rd F.m k)) ∧
    (∀ (x y : Int) (A : ℚ), 0 ≤ x → x < F.numX → 0 ≤ y → y < F.numY →
      rd (simulate dt 0 numIters (addDensity x y A F)).m (x * F.numY + y)
        = (rd F.m (x * F.numY + y) + A) * (499 / 500) ∧
      ((∀ k : Int, rd F.m k = 0) →
        rd (simulate dt 0 numIters (addDensity x y A F)).m (x * F.numY + y)
          = A * (499 / 500))) := by
  obtain ⟨_, _, hN, _, _, _, _, _, _, hm, _⟩ := hwf
  constructor
  · obtain ⟨r1, r2, r3⟩ := simulate_at_rest dt numIters F hh hm hu hv
    refine ⟨?_, ?_, ?_⟩
    · intro k; rw [r1]; exact hu k
    · intro k; rw [r2]; exact hv k
    · intro k; rw [r3 k]; ring
  · intro x y A hx0 hx1 hy0 hy1
    have hc : x ≥ 0 ∧ x < F.numX ∧ y ≥ 0 ∧ y < F.numY := ⟨hx0, hx1, hy0, hy1⟩
    have e : addDensity x y A F =
        { F with m := wr F.m (x * F.numY + y) (rd F.m (x * F.numY + y) + A) } := by
      unfold addDensity; rw [if_pos hc]
    have hb := flat_bounds hx0 hx1 hy0 hy1
    obtain ⟨_, _, r3⟩ := simulate_at_rest dt numIters
      { F with m := wr F.m (x * F.numY + y) (rd F.m (x * F.numY + y) + A) } hh
      (by dsimp only; rw [length_wr]; exact hm) hu hv
    rw [e, r3 (x * F.numY + y)]
    dsimp only
    rw [rd_wr_self _ _ hb.1 (by rw [hm, hN]; exact hb.2)]
    refine ⟨rfl, ?_⟩
    intro hz
    rw [hz, zero_add]

/-- C5, instance: the dye-free 4 x 4 grid at rest, ticked with `dt = 1/60` and
30 iterations. -/
theorem C5_decay_only_tick_witness :
    (0 < grid4.h) ∧ WellFormed grid4 ∧
    (∀ k : Int, rd grid4.u k = 0) ∧ (∀ k : Int, rd grid4.v k = 0) ∧
    (((∀ k : Int, rd (simulate (1 / 60) 0 30 grid4).u k = 0) ∧
      (∀ k : Int, rd (simulate (1 / 60) 0 30 grid4).v k = 0) ∧
      (∀ k : Int, rd (simulate (1 / 60) 0 30 grid4).m k = 499 / 500 * rd grid4.m k)) ∧
     (∀ (x y : Int) (A : ℚ), 0 ≤ x → x < grid4.numX → 0 ≤ y → y < grid4.numY →
       rd (simulate (1 / 60) 0 30 (addDensity x y A grid4)).m (x * grid4.numY + y)
         = (rd grid4.m (x * grid4.numY + y) + A) * (499 / 500) ∧
       ((∀ k : Int, rd grid4.m k = 0) →
         rd (simulate (1 / 60) 0 30 (addDensity x y A grid4)).m (x * grid4.numY + y)
           = A * (499 / 500)))) :=
  ⟨by decide!, by decide!, rd_zero_of_replicate grid4.u 16 (by decide!),
   rd_zero_of_replicate grid4.v 16 (by decide!),
   C5_decay_only_tick grid4 (1 / 60) 30 (by decide!) (by decide!)
     (rd_zero_of_replicate grid4.u 16 (by decide!))
     (rd_zero_of_replicate grid4.v 16 (by decide!))⟩

/-! ## C2: the projector and the total divergence -/

theorem divergence_eq_divAt (F : Fluid) (i j : Int) :
    divergence F i j = divAt F (i * F.numY + j) := by
  unfold divergence divAt
  have e : (i + 1) * F.numY + j = i * F.numY + j + F.numY := by ring
  rw [e]

/-- Reading a vector after two writes at in-range indices. -/
theorem rd_wr_wr (f : List ℚ) (k k2 : Int) (a b : ℚ) (x : Int)
    (h0 : 0 ≤ k) (h1 : k < f.length) (h02 : 0 ≤ k2) (h12 : k2 < f.length) :
    rd (wr (wr f k a) k2 b) x = if x = k2 then b else if x = k then a else rd f x := by
  rw [rd_wr, length_wr]
  by_cases e2 : x = k2
  · rw [if_pos ⟨e2, h02, h12⟩, if_pos e2]
  · rw [if_neg (fun h => e2 h.1), if_neg e2, rd_wr]
    by_cases e : x = k
    · rw [if_pos ⟨e, h0, h1⟩, if_pos e]
    · rw [if_neg (fun h => e h.1), if_neg e]

theorem solveCell_eq_solveAt (cp : ℚ) (i j : Int) (F : Fluid) :
    solveCell cp i j F = solveAt cp (i * F.numY + j) F := by
  have e1 : (i - 1) * F.numY + j = i * F.numY + j - F.numY := by ring
  have e2 : (i + 1) * F.numY + j = i * F.numY + j + F.numY := by ring
  unfold solveCell solveAt
  rw [e1, e2]

/-- A visit that finds a solid cell or a zero weight sum changes nothing. -/
theorem solveAt_inactive (cp : ℚ) (k : Int) (F : Fluid)
    (h : rd F.s k = 0 ∨ weightSum F k = 0) : solveAt cp k F = F := by
  unfold solveAt
  by_cases h1 : rd F.s k = 0
  · rw [if_pos h1]
  · rw [if_neg h1]
    have h2 : weightSum F k = 0 := h.resolve_left h1
    unfold weightSum at h2
    dsimp only
    rw [if_pos h2]

/-- What a visit that corrects the cell writes. -/
theorem solveAt_active (cp : ℚ) (k : Int) (F : Fluid)
    (h1 : rd F.s k ≠ 0) (h2 : weightSum F k ≠ 0) :
    solveAt cp k F =
      { F with
        p := wr F.p k (rd F.p k + cp * (-(divAt F k) / weightSum F k * OVER_RELAXATION)),
        u := wr (wr F.u k (rd F.u k -
              rd F.s (k - F.numY) * (-(divAt F k) / weightSum F k * OVER_RELAXATION)))
            (k + F.numY)
            (rd (wr F.u k (rd F.u k -
              rd F.s (k - F.numY) * (-(divAt F k) / weightSum F k * OVER_RELAXATION)))
              (k + F.numY) +
              rd F.s (k + F.numY) * (-(divAt F k) / weightSum F k * OVER_RELAXATION)),
        v := wr (wr F.v k (rd F.v k -
              rd F.s (k - 1) * (-(divAt F k) / weightSum F k * OVER_RELAXATION)))
            (k + 1)
            (rd (wr F.v k (rd F.v k -
              rd F.s (k - 1) * (-(divAt F k) / weightSum F k * OVER_RELAXATION))) (k + 1) +
              rd F.s (k + 1) * (-(divAt F k) / weightSum F k * OVER_RELAXATION)) } := by
  unfold weightSum at h2
  unfold solveAt
  rw [if_neg h1]
  dsimp only
  rw [if_neg h2]
  rfl

/-- A visit changes neither the mask, nor the dimensions, nor the vector
lengths. -/
theorem solveAt_keeps (cp : ℚ) (k : Int) (F : Fluid) :
    (solveAt cp k F).s = F.s ∧ (solveAt cp k F).numX = F.numX ∧
    (solveAt cp k F).numY = F.numY ∧ (solveAt cp k F).u.length = F.u.length ∧
    (solveAt cp k F).v.length = F.v.length := by
  by_cases h : rd F.s k = 0 ∨ weightSum F k = 0
  · rw [solveAt_inactive cp k F h]
    exact ⟨rfl, rfl, rfl, rfl, rfl⟩
  · rw [solveAt_active cp k F (fun e => h (Or.inl e)) (fun e => h (Or.inr e))]
    refine ⟨rfl, rfl, rfl, ?_, ?_⟩
    · dsimp only; rw [length_wr, length_wr]
    · dsimp only; rw [length_wr, length_wr]

/-- A correcting visit replaces the divergence `d` of the visited cell by
`-d/2`. -/
theorem solveAt_divAt_self (cp : ℚ) (k : Int) (F : Fluid)
    (hk : 0 ≤ k) (hY : 0 < F.numY) (hu : k + F.numY < F.u.length) (hv : k + 1 < F.v.length)
    (h1 : rd F.s k ≠ 0) (h2 : weightSum F k ≠ 0) :
    divAt (solveAt cp k F) k = -(1 / 2) * divAt F k := by
  rw [solveAt_active cp k F h1 h2]
  unfold divAt
  dsimp only
  rw [rd_wr_wr _ _ _ _ _ _ hk (by omega) (by omega) hu,
    rd_wr_wr _ _ _ _ _ _ hk (by omega) (by omega) hu,
    rd_wr_wr _ _ _ _ _ _ hk (by omega) (by omega) hv,
    rd_wr_wr _ _ _ _ _ _ hk (by omega) (by omega) hv,
    rd_wr_ne _ _ (by omega : k + F.numY ≠ k), rd_wr_ne _ _ (by omega : k + 1 ≠ k),
    if_pos rfl, if_neg (by omega : ¬ k = k + F.numY), if_pos rfl, if_pos rfl,
    if_neg (by omega : ¬ k = k + 1), if_pos rfl]
  have hw : rd F.s (k - F.numY) + rd F.s (k + F.numY) + rd F.s (k - 1) + rd F.s (k + 1) ≠ 0 := h2
  unfold weightSum OVER_RELAXATION
  field_simp
  ring

/-- Two loops over the same range whose bodies preserve a relation between
their states end in related states. -/
theorem forRange_rel {σ τ : Type} {lo hi : Int} (R : σ → τ → Prop)
    (body1 : Int → σ → σ) (body2 : Int → τ → τ) (a : σ) (b : τ) (h0 : R a b)
    (hstep : ∀ i s t, lo ≤ i → i < hi → R s t → R (body1 i s) (body2 i t)) :
    R (forRange lo hi body1 a) (forRange lo hi body2 b) := by
  by_cases hle : lo ≤ hi
  · obtain ⟨n, rfl⟩ : ∃ n : Nat, hi = lo + n := ⟨(hi - lo).toNat, by omega⟩
    clear hle
    induction n with
    | zero =>
      rw [forRange_empty body1 a (by simp), forRange_empty body2 b (by simp)]
      exact h0
    | succ n ih =>
      have e : lo + ((n + 1 : Nat) : Int) = (lo + n) + 1 := by push_cast; ring
      rw [e, forRange_succ body1 a (by omega), forRange_succ body2 b (by omega)]
      apply hstep _ _ _ (by omega) (by omega)
      apply ih
      intro i s t h1 h2 h3
      exact hstep i s t h1 (by omega) h3
  · rw [forRange_empty body1 a (by omega), forRange_empty body2 b (by omega)]
    exact h0

/-- No two non-solid interior cells sharing a face is a case of weak
coupling: the interior neighbours of a corrected cell then have weight `0`. -/
theorem Isolated.weaklyCoupled {F : Fluid} (h : Isolated F) : WeaklyCoupled F := by
  intro a ha b hb hs hS
  obtain ⟨n1, n2, n3, n4⟩ := h a ha b hb hs
  have e1 : ((a : Int) + 1 - 1) * F.numY + ((b : Int) + 1)
      = (((a : Int) + 1) - 1) * F.numY + ((b : Int) + 1) := rfl
  unfold interiorWeight
  have z1 : (if 2 ≤ (a : Int) + 1 then |rd F.s (((a : Int) + 1 - 1) * F.numY + ((b : Int) + 1))|
      else 0) = 0 := by
    split
    · rename_i c; rw [n1 c, abs_zero]
    · rfl
  have z2 : (if (a : Int) + 1 ≤ F.numX - 3 then
      |rd F.s (((a : Int) + 1 + 1) * F.numY + ((b : Int) + 1))| else 0) = 0 := by
    split
    · rename_i c; rw [n2 c, abs_zero]
    · rfl
  have z3 : (if 2 ≤ (b : Int) + 1 then |rd F.s (((a : Int) + 1) * F.numY + ((b : Int) + 1) - 1)|
      else 0) = 0 := by
    split
    · rename_i c; rw [n3 c, abs_zero]
    · rfl
  have z4 : (if (b : Int) + 1 ≤ F.numY - 3 then
      |rd F.s (((a : Int) + 1) * F.numY + ((b : Int) + 1) + 1)| else 0) = 0 := by
    split
    · rename_i c; rw [n4 c, abs_zero]
    · rfl
  rw [z1, z2, z3, z4]
  simp

/-- The force integrator leaves `v` alone at every index whose mask entry is
`0`. -/
theorem integrate_solid (dt gravity : ℚ) (F : Fluid) (c : Int) (hs : rd F.s c = 0) :
    rd (integrate dt gravity F).v c = rd F.v c := by
  unfold integrate
  have key := @forRange_inv Fluid 1 F.numX (fun i F1 => forRange 1 (F.numY - 1)
      (fun j F2 => integrateCell dt gravity i j F2) F1) F
    (fun G => G.s = F.s ∧ rd G.v c = rd F.v c) ⟨rfl, rfl⟩
    (by
      intro i G _ _ hG
      apply forRange_inv _ G (fun G => G.s = F.s ∧ rd G.v c = rd F.v c) hG
      intro j G1 _ _ hG1
      unfold integrateCell
      split
      · rename_i hc
        refine ⟨hG1.1, ?_⟩
        dsimp only
        rw [rd_wr_ne _ _ (fun e => hc.1 (by rw [← e, hG1.1]; exact hs))]
        exact hG1.2
      · exact hG1)
  exact key.2

/-- The boundary extrapolator leaves `u` and `v` alone at every interior
cell. -/
theorem extrapolate_interior (F : Fluid) (i j : Int)
    (hi0 : 1 ≤ i) (hi1 : i ≤ F.numX - 2) (hj0 : 1 ≤ j) (hj1 : j ≤ F.numY - 2) :
    rd (extrapolate F).u (i * F.numY + j) = rd F.u (i * F.numY + j) ∧
    rd (extrapolate F).v (i * F.numY + j) = rd F.v (i * F.numY + j) := by
  have h1 := @forRange_inv Fluid 0 F.numX extrapolateU F
    (fun G => G.numX = F.numX ∧ G.numY = F.numY ∧
      rd G.u (i * F.numY + j) = rd F.u (i * F.numY + j) ∧
      rd G.v (i * F.numY + j) = rd F.v (i * F.numY + j)) ⟨rfl, rfl, rfl, rfl⟩
    (by
      intro i' G _ _ hG
      obtain ⟨a1, a2, a3, a4⟩ := hG
      unfold extrapolateU
      dsimp only
      refine ⟨a1, a2, ?_, a4⟩
      rw [a2]
      have e : i' * F.numY + F.numY - 1 = i' * F.numY + (F.numY - 1) := by ring
      rw [e, rd_wr_ne _ _ (fun e' => by
          have := (flat_inj (by omega) (by omega) (by omega) (by omega) e').2; omega),
        rd_wr_ne _ _ (fun e' => by
          have := (flat_inj (by omega) (by omega) (by omega) (by omega) e').2; omega)]
      exact a3)
  obtain ⟨F1, e1⟩ : ∃ F1, F1 = forRange 0 F.numX extrapolateU F := ⟨_, rfl⟩
  rw [← e1] at h1
  have h2 := @forRange_inv Fluid 0 F1.numY extrapolateV F1
    (fun G => G.numX = F.numX ∧ G.numY = F.numY ∧
      rd G.u (i * F.numY + j) = rd F.u (i * F.numY + j) ∧
      rd G.v (i * F.numY + j) = rd F.v (i * F.numY + j)) h1
    (by
      intro j' G hj0' hj1' hG
      obtain ⟨a1, a2, a3, a4⟩ := hG
      rw [h1.2.1] at hj1'
      unfold extrapolateV
      dsimp only
      refine ⟨a1, a2, a3, ?_⟩
      rw [a1, a2]
      rw [rd_wr_ne _ _ (fun e' => by
          have := (flat_inj (by omega) (by omega) (by omega) (by omega) e').1; omega),
        rd_wr_ne _ _ (fun e' => by
          have := (flat_inj (by omega) (by omega) (by omega) (by omega) e').1; omega)]
      exact a4)
  obtain ⟨F2, e2⟩ : ∃ F2, F2 = forRange 0 F1.numY extrapolateV F1 := ⟨_, rfl⟩
  rw [← e2] at h2
  have hE : extrapolate F = forRange 0 F2.numX (fun i G => forRange 0 F2.numY
      (fun j G1 => dampCell i j G1) G) F2 := by
    subst e2; subst e1; rfl
  rw [hE]
  have h3 := @forRange_inv Fluid 0 F2.numX (fun i G => forRange 0 F2.numY
      (fun j G1 => dampCell i j G1) G) F2
    (fun G => G.numX = F.numX ∧ G.numY = F.numY ∧
      rd G.u (i * F.numY + j) = rd F.u (i * F.numY + j) ∧
      rd G.v (i * F.numY + j) = rd F.v (i * F.numY + j)) h2
    (by
      intro i' G _ _ hG
      apply forRange_inv _ G (fun G => G.numX = F.numX ∧ G.numY = F.numY ∧
        rd G.u (i * F.numY + j) = rd F.u (i * F.numY + j) ∧
        rd G.v (i * F.numY + j) = rd F.v (i * F.numY + j)) hG
      intro j' G1 hj0' hj1' hG1
      obtain ⟨a1, a2, a3, a4⟩ := hG1
      rw [h2.2.1] at hj1'
      have hfr := dampCell_frame i' j' G1 (i * F.numY + j) (by
        rw [a1, a2]
        intro ⟨hr, e'⟩
        obtain ⟨e3, e4⟩ := flat_inj (by omega) (by omega) (by omega) (by omega) e'
        subst e3 e4
        unfold onRing at hr
        omega)
      have a1' : (dampCell i' j' G1).numX = F.numX := by rw [dampCell_struct]; exact a1
      have a2' : (dampCell i' j' G1).numY = F.numY := by rw [dampCell_struct]; exact a2
      exact ⟨a1', a2', hfr.1.trans a3, hfr.2.trans a4⟩)
  exact ⟨h3.2.2.1, h3.2.2.2⟩

/-- Velocity advection leaves `u` and `v` alone at every index whose mask entry
is `0`. -/
theorem advectVel_solid (dt : ℚ) (F : Fluid) (c : Int) (hs : rd F.s c = 0) :
    rd (advectVel dt F).u c = rd F.u c ∧ rd (advectVel dt F).v c = rd F.v c := by
  unfold advectVel
  dsimp only
  have key := @forRange_inv Fluid 1 F.numX (fun i G => forRange 1 F.numY
      (fun j G1 => advectVCell dt i j (advectUCell dt i j G1)) G)
    { F with newU := F.u, newV := F.v }
    (fun G => G.s = F.s ∧ rd G.newU c = rd F.u c ∧ rd G.newV c = rd F.v c) ⟨rfl, rfl, rfl⟩
    (by
      intro i G _ _ hG
      apply forRange_inv _ G
        (fun G => G.s = F.s ∧ rd G.newU c = rd F.u c ∧ rd G.newV c = rd F.v c) hG
      intro j G1 _ _ hG1
      obtain ⟨a1, a2, a3⟩ := hG1
      have hU : (advectUCell dt i j G1).s = F.s ∧ rd (advectUCell dt i j G1).newU c = rd F.u c ∧
          rd (advectUCell dt i j G1).newV c = rd F.v c := by
        unfold advectUCell
        split
        · rename_i hc
          dsimp only
          refine ⟨a1, ?_, a3⟩
          rw [rd_wr_ne _ _ (fun e => hc.1 (by rw [← e, a1]; exact hs))]
          exact a2
        · exact ⟨a1, a2, a3⟩
      obtain ⟨b1, b2, b3⟩ := hU
      unfold advectVCell
      split
      · rename_i hc
        dsimp only
        refine ⟨b1, b2, ?_⟩
        rw [rd_wr_ne _ _ (fun e => hc.1 (by rw [← e, b1]; exact hs))]
        exact b3
      · exact ⟨b1, b2, b3⟩)
  exact ⟨key.2.1, key.2.2⟩

/-- A whole tick leaves `u` and `v` alone at every solid interior cell. -/
theorem simulate_solid_interior (dt gravity : ℚ) (numIters : Int) (F : Fluid) (i j : Int)
    (hi0 : 1 ≤ i) (hi1 : i ≤ F.numX - 2) (hj0 : 1 ≤ j) (hj1 : j ≤ F.numY - 2)
    (hs : rd F.s (i * F.numY + j) = 0) :
    rd (simulate dt gravity numIters F).u (i * F.numY + j) = rd F.u (i * F.numY + j) ∧
    rd (simulate dt gravity numIters F).v (i * F.numY + j) = rd F.v (i * F.numY + j) := by
  obtain ⟨F1, e1⟩ : ∃ F1, F1 = integrate dt gravity F := ⟨_, rfl⟩
  obtain ⟨F2, e2⟩ : ∃ F2 : Fluid, F2 = { F1 with p := F1.p.map (fun _ => 0) } := ⟨_, rfl⟩
  obtain ⟨F3, e3⟩ : ∃ F3, F3 = solveIncompressibility numIters dt F2 := ⟨_, rfl⟩
  obtain ⟨F4, e4⟩ : ∃ F4, F4 = extrapolate F3 := ⟨_, rfl⟩
  obtain ⟨F5, e5⟩ : ∃ F5, F5 = advectVel dt F4 := ⟨_, rfl⟩
  have hsim : simulate dt gravity numIters F = fadeDensity (advectSmoke dt F5) := by
    subst e5; subst e4; subst e3; subst e2; subst e1; rfl
  have f1 : F1 = { F with v := F1.v } := by rw [e1]; exact integrate_frame dt gravity F
  have s1 : F1.s = F.s := by rw [f1]
  have x1 : F1.numX = F.numX := by rw [f1]
  have y1 : F1.numY = F.numY := by rw [f1]
  have u1 : F1.u = F.u := by rw [f1]
  have v1 : rd F1.v (i * F.numY + j) = rd F.v (i * F.numY + j) := by
    rw [e1]; exact integrate_solid dt gravity F _ hs
  have s2 : F2.s = F.s := by rw [e2]; exact s1
  have x2 : F2.numX = F.numX := by rw [e2]; exact x1
  have y2 : F2.numY = F.numY := by rw [e2]; exact y1
  have u2 : F2.u = F.u := by rw [e2]; exact u1
  have v2 : F2.v = F1.v := by rw [e2]
  obtain ⟨s3, y3, x3, u3, v3, _⟩ := solveIncompressibility_solid numIters dt F2
    (i * F.numY + j) (by rw [s2]; exact hs)
  rw [← e3] at s3 y3 x3 u3 v3
  have f4 : F4 = { F3 with u := F4.u, v := F4.v } := by rw [e4]; exact extrapolate_frame F3
  have s4 : F4.s = F.s := by rw [f4]; exact s3.trans s2
  have y4 : F4.numY = F.numY := by rw [f4]; exact y3.trans y2
  obtain ⟨u4, v4⟩ := extrapolate_interior F3 i j hi0 (by rw [x3, x2]; exact hi1) hj0
    (by rw [y3, y2]; exact hj1)
  rw [← e4, y3, y2] at u4 v4
  obtain ⟨u5, v5⟩ := advectVel_solid dt F4 (i * F.numY + j) (by rw [s4]; exact hs)
  rw [← e5] at u5 v5
  have hu : (fadeDensity (advectSmoke dt F5)).u = F5.u := by
    rw [fadeDensity_frame, advectSmoke_frame]
  have hv : (fadeDensity (advectSmoke dt F5)).v = F5.v := by
    rw [fadeDensity_frame, advectSmoke_frame]
  rw [hsim, hu, hv, u5, v5, u4, v4, u3, v3, u2, v2, v1]
  exact ⟨rfl, rfl⟩

/-- A tick changes neither the dimensions nor the mask. -/
theorem simulate_keeps (dt gravity : ℚ) (numIters : Int) (F : Fluid) :
    (simulate dt gravity numIters F).numX = F.numX ∧
    (simulate dt gravity numIters F).numY = F.numY ∧
    (simulate dt gravity numIters F).s = F.s := by
  obtain ⟨F1, e1⟩ : ∃ F1, F1 = integrate dt gravity F := ⟨_, rfl⟩
  obtain ⟨F2, e2⟩ : ∃ F2 : Fluid, F2 = { F1 with p := F1.p.map (fun _ => 0) } := ⟨_, rfl⟩
  obtain ⟨F3, e3⟩ : ∃ F3, F3 = solveIncompressibility numIters dt F2 := ⟨_, rfl⟩
  obtain ⟨F4, e4⟩ : ∃ F4, F4 = extrapolate F3 := ⟨_, rfl⟩
  obtain ⟨F5, e5⟩ : ∃ F5, F5 = advectVel dt F4 := ⟨_, rfl⟩
  obtain ⟨F6, e6⟩ : ∃ F6, F6 = advectSmoke dt F5 := ⟨_, rfl⟩
  have hsim : simulate dt gravity numIters F = fadeDensity F6 := by
    subst e6; subst e5; subst e4; subst e3; subst e2; subst e1; rfl
  have f1 : F1 = { F with v := F1.v } := by rw [e1]; exact integrate_frame dt gravity F
  have f3 : F3 = { F2 with u := F3.u, v := F3.v, p := F3.p } := by
    rw [e3]; exact solveIncompressibility_frame numIters dt F2
  have f4 : F4 = { F3 with u := F4.u, v := F4.v } := by rw [e4]; exact extrapolate_frame F3
  have f5 : F5 = { F4 with u := F5.u, v := F5.v, newU := F5.newU, newV := F5.newV } := by
    rw [e5]; exact advectVel_frame dt F4
  have f6 : F6 = { F5 with m := F6.m, newM := F6.newM } := by
    rw [e6]; exact advectSmoke_frame dt F5
  have f7 : fadeDensity F6 = { F6 with m := (fadeDensity F6).m } := fadeDensity_frame F6
  have x1 : F1.numX = F.numX := by rw [f1]
  have y1 : F1.numY = F.numY := by rw [f1]
  have s1 : F1.s = F.s := by rw [f1]
  have x2 : F2.numX = F.numX := by rw [e2]; exact x1
  have y2 : F2.numY = F.numY := by rw [e2]; exact y1
  have s2 : F2.s = F.s := by rw [e2]; exact s1
  have x3 : F3.numX = F.numX := by rw [f3]; exact x2
  have y3 : F3.numY = F.numY := by rw [f3]; exact y2
  have s3 : F3.s = F.s := by rw [f3]; exact s2
  have x4 : F4.numX = F.numX := by rw [f4]; exact x3
  have y4 : F4.numY = F.numY := by rw [f4]; exact y3
  have s4 : F4.s = F.s := by rw [f4]; exact s3
  have x5 : F5.numX = F.numX := by rw [f5]; exact x4
  have y5 : F5.numY = F.numY := by rw [f5]; exact y4
  have s5 : F5.s = F.s := by rw [f5]; exact s4
  have x6 : F6.numX = F.numX := by rw [f6]; exact x5
  have y6 : F6.numY = F.numY := by rw [f6]; exact y5
  have s6 : F6.s = F.s := by rw [f6]; exact s5
  rw [hsim, f7]
  exact ⟨x6, y6, s6⟩

/-- A tick leaves the divergence of a solid interior cell alone when its right
and upper neighbours are solid interior cells too. -/
theorem simulate_divergence_solid (dt gravity : ℚ) (numIters : Int) (F : Fluid) (i j : Int)
    (hi0 : 1 ≤ i) (hi1 : i ≤ F.numX - 3) (hj0 : 1 ≤ j) (hj1 : j ≤ F.numY - 3)
    (hs : rd F.s (i * F.numY + j) = 0) (hsx : rd F.s ((i + 1) * F.numY + j) = 0)
    (hsy : rd F.s (i * F.numY + (j + 1)) = 0) :
    divergence (simulate dt gravity numIters F) i j = divergence F i j := by
  obtain ⟨a1, a2⟩ := simulate_solid_interior dt gravity numIters F i j hi0 (by omega) hj0
    (by omega) hs
  obtain ⟨b1, _⟩ := simulate_solid_interior dt gravity numIters F (i + 1) j (by omega) (by omega)
    hj0 (by omega) hsx
  obtain ⟨_, c2⟩ := simulate_solid_interior dt gravity numIters F i (j + 1) hi0 (by omega)
    (by omega) (by omega) hsy
  have e : i * F.numY + j + 1 = i * F.numY + (j + 1) := by ring
  unfold divergence
  rw [(simulate_keeps dt gravity numIters F).2.1, e, a1, a2, b1, c2]

/-- The facts about the scenario grid that the end-to-end results use: the
injection cell `(5, 5)` and its neighbours `(6, 5)`, `(5, 6)`, `(6, 6)` are solid
interior cells, cell `(4, 5)` is open, and the divergence before the tick is `1`
at `(4, 5)` and `-1` at `(5, 5)`. -/
theorem scenario_facts :
    ((5 : Int) ≤ scenario.numX - 3 ∧ (5 : Int) ≤ scenario.numY - 3) ∧
    (rd scenario.s (5 * scenario.numY + 5) = 0 ∧ rd scenario.s ((5 + 1) * scenario.numY + 5) = 0 ∧
      rd scenario.s (5 * scenario.numY + (5 + 1)) = 0) ∧
    (rd scenario.s (6 * scenario.numY + 5) = 0 ∧ rd scenario.s (5 * scenario.numY + 6) = 0 ∧
      rd scenario.s (6 * scenario.numY + 6) = 0) ∧
    rd scenario.s (4 * scenario.numY + 5) = 1 ∧
    divergence scenario 4 5 = 1 ∧ divergence scenario 5 5 = -1 := by
  decide!

/-- In the scenario a tick leaves the divergence of the solid injection cell
`(5, 5)` as it is. -/
theorem scenario_divergence_kept (dt gravity : ℚ) (numIters : Int) :
    divergence (simulate dt gravity numIters scenario) 5 5 = divergence scenario 5 5 :=
  simulate_divergence_solid dt gravity numIters scenario 5 5 (by decide)
    scenario_facts.1.1 (by decide) scenario_facts.1.2
    scenario_facts.2.1.1 scenario_facts.2.1.2.1 scenario_facts.2.1.2.2

/-- C8, as stated, fails at the injection cell: on the grid `Fluid(10, 10, 0.1)`
the default obstacle makes the cells `(5, 5)`, `(6, 5)`, `(5, 6)` solid, so after
`addVelocity(5, 5, 1, 0)` and `simulate(1/60, 0, 30)` the divergence of cell
`(5, 5)` has the same absolute value `1` as before the tick, which is more than
10% of it. -/
theorem C8_end_to_end_counterexample :
    rd scenario.s (5 * scenario.numY + 5) = 0 ∧
    |divergence scenario 5 5| = 1 ∧
    |divergence (simulate (1 / 60) 0 30 scenario) 5 5| = 1 ∧
    ¬ (|divergence (simulate (1 / 60) 0 30 scenario) 5 5|
        ≤ 1 / 10 * |divergence scenario 5 5|) := by
  rw [scenario_divergence_kept, scenario_facts.2.2.2.2.2]
  refine ⟨scenario_facts.2.1.1, ?_, ?_, ?_⟩ <;> norm_num

/-! ## C12: the obstacle mask is never written -/

theorem addDensity_mask (x y : Int) (amount : ℚ) (F : Fluid) :
    (addDensity x y amount F).s = F.s := by
  unfold addDensity
  split <;> rfl

theorem addVelocity_mask (x y : Int) (amountX amountY : ℚ) (F : Fluid) :
    (addVelocity x y amountX amountY F).s = F.s := by
  unfold addVelocity
  split <;> rfl

/-- C12: the obstacle mask is immutable after construction. For every grid
state and all arguments, each of `simulate`, `integrate`,
`solveIncompressibility`, `extrapolate`, `advectVel`, `advectSmoke`,
`fadeDensity`, `addDensity` and `addVelocity` returns a state whose vector `s`
is the vector `s` of the state it was called on. -/
theorem C12_mask_immutable (F : Fluid) (dt gravity amount amountX amountY : ℚ)
    (numIters x y : Int) :
    (simulate dt gravity numIters F).s = F.s ∧
    (integrate dt gravity F).s = F.s ∧
    (solveIncompressibility numIters dt F).s = F.s ∧
    (extrapolate F).s = F.s ∧
    (advectVel dt F).s = F.s ∧
    (advectSmoke dt F).s = F.s ∧
    (fadeDensity F).s = F.s ∧
    (addDensity x y amount F).s = F.s ∧
    (addVelocity x y amountX amountY F).s = F.s := by
  refine ⟨(simulate_keeps dt gravity numIters F).2.2, ?_, ?_, ?_, ?_, ?_, ?_,
    addDensity_mask x y amount F, addVelocity_mask x y amountX amountY F⟩
  · rw [integrate_frame]
  · rw [solveIncompressibility_frame]
  · rw [extrapolate_frame]
  · rw [advectVel_frame]
  · rw [advectSmoke_frame]
  · rw [fadeDensity_frame]

/-! ## C13: a tick without projector sweeps -/

theorem forRange_comm {σ : Type} (f : σ → σ) (lo hi : Int) (body : Int → σ → σ) (st : σ)
    (h : ∀ i s, body i (f s) = f (body i s)) :
    forRange lo hi body (f st) = f (forRange lo hi body st) :=
  forRange_rel (fun s t => s = f t) body body (f st) st rfl
    (by intro i s t _ _ h1; rw [h1, h])

theorem extrapolate_setP (X : List ℚ) (F : Fluid) :
    extrapolate (setP X F) = setP X (extrapolate F) := by
  have h1 : forRange 0 F.numX extrapolateU (setP X F)
      = setP X (forRange 0 F.numX extrapolateU F) :=
    forRange_comm (setP X) 0 F.numX extrapolateU F (fun i s => rfl)
  obtain ⟨F1, e1⟩ : ∃ F1, F1 = forRange 0 F.numX extrapolateU F := ⟨_, rfl⟩
  have h2 : forRange 0 F1.numY extrapolateV (setP X F1)
      = setP X (forRange 0 F1.numY extrapolateV F1) :=
    forRange_comm (setP X) 0 F1.numY extrapolateV F1 (fun i s => rfl)
  obtain ⟨F2, e2⟩ : ∃ F2, F2 = forRange 0 F1.numY extrapolateV F1 := ⟨_, rfl⟩
  have h3 : forRange 0 F2.numX (fun i G =>
        forRange 0 F2.numY (fun j G1 => dampCell i j G1) G) (setP X F2)
      = setP X (forRange 0 F2.numX (fun i G =>
        forRange 0 F2.numY (fun j G1 => dampCell i j G1) G) F2) := by
    apply forRange_comm
    intro i s
    apply forRange_comm
    intro j s1
    unfold dampCell setP
    dsimp only
    split_ifs <;> rfl
  have n1 : ∀ G, (setP X G).numX = G.numX := fun _ => rfl
  have n2 : ∀ G, (setP X G).numY = G.numY := fun _ => rfl
  unfold extrapolate
  dsimp only
  rw [n1, h1, ← e1, n2, h2, ← e2, n1, n2]
  exact h3

theorem advectVel_setP (dt : ℚ) (X : List ℚ) (F : Fluid) :
    advectVel dt (setP X F) = setP X (advectVel dt F) := by
  have h := forRange_comm (setP X) 1 F.numX (fun i G =>
      forRange 1 F.numY (fun j G1 => advectVCell dt i j (advectUCell dt i j G1)) G)
      { F with newU := F.u, newV := F.v }
      (by
        intro i s
        apply forRange_comm
        intro j s1
        have e1 : advectUCell dt i j (setP X s1) = setP X (advectUCell dt i j s1) := by
          unfold advectUCell setP
          dsimp only
          split_ifs <;> rfl
        have e2 : ∀ t, advectVCell dt i j (setP X t) = setP X (advectVCell dt i j t) := by
          intro t
          unfold advectVCell setP
          dsimp only
          split_ifs <;> rfl
        rw [e1, e2])
  have key : advectVel dt (setP X F)
      = (fun F1 : Fluid => ({ F1 with u := F1.newU, v := F1.newV } : Fluid))
          (forRange 1 F.numX (fun i G =>
            forRange 1 F.numY (fun j G1 => advectVCell dt i j (advectUCell dt i j G1)) G)
            (setP X { F with newU := F.u, newV := F.v })) := rfl
  rw [key, h]
  rfl

theorem advectSmoke_setP (dt : ℚ) (X : List ℚ) (F : Fluid) :
    advectSmoke dt (setP X F) = setP X (advectSmoke dt F) := by
  have h := forRange_comm (setP X) 1 (F.numX - 1) (fun i G =>
      forRange 1 (F.numY - 1) (fun j G1 => advectSmokeCell dt i j G1) G)
      { F with newM := F.m }
      (by
        intro i s
        apply forRange_comm
        intro j s1
        unfold advectSmokeCell setP
        dsimp only
        split_ifs <;> rfl)
  have key : advectSmoke dt (setP X F)
      = (fun F1 : Fluid => ({ F1 with m := F1.newM } : Fluid))
          (forRange 1 (F.numX - 1) (fun i G =>
            forRange 1 (F.numY - 1) (fun j G1 => advectSmokeCell dt i j G1) G)
            (setP X { F with newM := F.m })) := rfl
  rw [key, h]
  rfl

theorem fadeDensity_setP (X : List ℚ) (F : Fluid) :
    fadeDensity (setP X F) = setP X (fadeDensity F) := by
  unfold fadeDensity
  exact forRange_comm (setP X) 0 F.numCells _ F (fun i s => rfl)

theorem solveIncompressibility_zero (dt : ℚ) (F : Fluid) :
    solveIncompressibility 0 dt F = F := by
  unfold solveIncompressibility
  exact forRange_empty _ F (by omega)

/-- C13: pressure reset and `iterations = 0`. For every grid state (whatever its
pressure vector) and every `dt` and `gravity`, after `simulate(dt, gravity, 0)`
the pressure vector consists of zeros only (and has kept its size), and the
vectors `u`, `v`, `m` are those obtained by `integrate`, then `extrapolate`,
then `advectVel`, then `advectSmoke`, then `fadeDensity` with no projector
step. -/
theorem C13_pressure_reset_no_projector (F : Fluid) (dt gravity : ℚ) :
    (simulate dt gravity 0 F).p = List.replicate F.p.length 0 ∧
    (simulate dt gravity 0 F).u =
      (fadeDensity (advectSmoke dt (advectVel dt (extrapolate (integrate dt gravity F))))).u ∧
    (simulate dt gravity 0 F).v =
      (fadeDensity (advectSmoke dt (advectVel dt (extrapolate (integrate dt gravity F))))).v ∧
    (simulate dt gravity 0 F).m =
      (fadeDensity (advectSmoke dt (advectVel dt (extrapolate (integrate dt gravity F))))).m := by
  obtain ⟨F1, e1⟩ : ∃ F1, F1 = integrate dt gravity F := ⟨_, rfl⟩
  have hp : F1.p = F.p := by rw [e1, integrate_frame]
  have h : simulate dt gravity 0 F
      = setP (F1.p.map (fun _ => 0))
          (fadeDensity (advectSmoke dt (advectVel dt (extrapolate F1)))) := by
    unfold simulate
    dsimp only
    rw [solveIncompressibility_zero, ← e1]
    show fadeDensity (advectSmoke dt (advectVel dt (extrapolate (setP _ F1)))) = _
    rw [extrapolate_setP, advectVel_setP, advectSmoke_setP, fadeDensity_setP]
  rw [h]
  subst e1
  have hu : ∀ X G, (setP X G).u = G.u := fun _ _ => rfl
  have hv : ∀ X G, (setP X G).v = G.v := fun _ _ => rfl
  have hm : ∀ X G, (setP X G).m = G.m := fun _ _ => rfl
  have hq : ∀ X G, (setP X G).p = X := fun _ _ => rfl
  refine ⟨?_, hu _ _, hv _ _, hm _ _⟩
  rw [hq, hp]
  exact List.map_const' F.p 0

/-! ## C14: the force integrator -/

theorem integrateCell_pos (dt gravity : ℚ) (i j : Int) (F : Fluid)
    (hc : rd F.s (i * F.numY + j) ≠ 0 ∧ rd F.s (i * F.numY + j - 1) ≠ 0) :
    integrateCell dt gravity i j F =
      { F with v := wr F.v (i * F.numY + j) (rd F.v (i * F.numY + j) + gravity * dt) } := by
  unfold integrateCell; rw [if_pos hc]

theorem integrateCell_neg (dt gravity : ℚ) (i j : Int) (F : Fluid)
    (hc : ¬ (rd F.s (i * F.numY + j) ≠ 0 ∧ rd F.s (i * F.numY + j - 1) ≠ 0)) :
    integrateCell dt gravity i j F = F := by
  unfold integrateCell; rw [if_neg hc]

/-- What `integrate` leaves in `v`: every cell of the columns `1 .. numX-1`
and rows `1 .. numY-2` whose guard holds gets `gravity * dt` added once; every
other entry keeps its value. -/
theorem integrate_spec (dt gravity : ℚ) (F : Fluid)
    (hv : (F.v.length : Int) = F.numX * F.numY) :
    ∀ i j, 0 ≤ i → i < F.numX → 0 ≤ j → j < F.numY →
      rd (integrate dt gravity F).v (i * F.numY + j) =
        if 1 ≤ i ∧ 1 ≤ j ∧ j ≤ F.numY - 2 ∧
            rd F.s (i * F.numY + j) ≠ 0 ∧ rd F.s (i * F.numY + j - 1) ≠ 0
        then rd F.v (i * F.numY + j) + gravity * dt
        else rd F.v (i * F.numY + j) := by
  have key := @forRange2_writes Fluid Fluid.v
    (fun st => st = { F with v := st.v } ∧ st.v.length = F.v.length)
    (fun i j k => k = i * F.numY + j ∧
      rd F.s (i * F.numY + j) ≠ 0 ∧ rd F.s (i * F.numY + j - 1) ≠ 0)
    (fun _ _ k => rd F.v k + gravity * dt)
    1 F.numX 1 (F.numY - 1)
    (fun i j st => integrateCell dt gravity i j st) F ⟨rfl, rfl⟩
    (by
      intro i j st _ _ _ _ hI
      beta_reduce at hI ⊢
      by_cases hc : rd st.s (i * st.numY + j) ≠ 0 ∧ rd st.s (i * st.numY + j - 1) ≠ 0
      · rw [integrateCell_pos dt gravity i j st hc]
        refine ⟨?_, ?_⟩
        · dsimp only
          rw [hI.1]
        · dsimp only
          rw [length_wr, hI.2]
      · rw [integrateCell_neg dt gravity i j st hc]
        exact hI)
    (by
      intro i j st k _ _ _ _ hI hnt
      beta_reduce at hI hnt ⊢
      have a2 : st.numY = F.numY := by rw [hI.1]
      have a3 : st.s = F.s := by rw [hI.1]
      by_cases hc : rd st.s (i * st.numY + j) ≠ 0 ∧ rd st.s (i * st.numY + j - 1) ≠ 0
      · rw [integrateCell_pos dt gravity i j st hc]
        rw [a2, a3] at hc
        dsimp only
        rw [a2]
        apply rd_wr_ne
        intro hk
        exact hnt ⟨hk, hc⟩
      · rw [integrateCell_neg dt gravity i j st hc])
    (by
      intro i j st k hi0 hi1 hj0 hj1 hI ht hprev
      beta_reduce at hI ht hprev ⊢
      have a2 : st.numY = F.numY := by rw [hI.1]
      have a3 : st.s = F.s := by rw [hI.1]
      obtain ⟨rfl, hc⟩ := ht
      have hb := @flat_bounds F.numX F.numY i j (by omega) hi1 (by omega) (by omega)
      have hold : rd st.v (i * F.numY + j) = rd F.v (i * F.numY + j) := by
        apply hprev
        intro i' j' _ _ hj0' hj1' hlt ht'
        have := @flat_inj F.numY i j i' j' (by omega) (by omega) (by omega) (by omega) ht'.1
        omega
      rw [integrateCell_pos dt gravity i j st (by rw [a2, a3]; exact hc)]
      dsimp only
      rw [a2, rd_wr_self _ _ hb.1 (by rw [hI.2, hv]; exact hb.2), hold])
    (by
      intro i j i' j' k _ _ hj0 hj1 _ _ hj0' hj1' h1 h2
      exact @flat_inj F.numY i j i' j' (by omega) (by omega) (by omega) (by omega)
        (h1.1.symm.trans h2.1))
  dsimp only at key
  obtain ⟨_, k1, k2⟩ := key
  intro i j hi0 hi1 hj0 hj1
  unfold integrate
  split
  · rename_i hc
    exact k1 i j _ hc.1 hi1 hc.2.1 (by omega) ⟨rfl, hc.2.2.2⟩
  · rename_i hc
    apply k2
    intro i' j' hi0' _ hj0' hj1' ht
    obtain ⟨e1, e2⟩ := @flat_inj F.numY i j i' j' hj0 hj1 (by omega) (by omega) ht.1
    subst e1 e2
    exact hc ⟨hi0', hj0', by omega, ht.2⟩

/-- C14, the claim fails. On the 3 x 3 grid `Fluid(1, 1, 1)` the cell `(2, 1)`
lies on the border ring (`i = numX - 1`), yet `integrate(1, 1)` changes its
`v` from `0` to `1`. -/
theorem C14_integrate_counterexample :
    onRing grid3.numX grid3.numY 2 1 ∧
    rd grid3.v (2 * grid3.numY + 1) = 0 ∧
    rd (integrate 1 1 grid3).v (2 * grid3.numY + 1) = 1 := by
  decide!

/-- C14, amended. The force integrator (exact arithmetic): for every grid state
whose `v` has `numX * numY` entries, `dt` and `gravity`, after
`integrate(dt, gravity)` the new `v[i,j]` equals the old `v[i,j] + gravity*dt`
for every cell with `1 <= i <= numX-1` (the last column included),
`1 <= j <= numY-2`, `s[i,j] != 0` and `s[i,j-1] != 0`; every other entry of
`v` (column `i = 0`, rows `j = 0` and `j = numY-1`, and the cells whose guard
fails) and the whole of `u` are unchanged. -/
theorem C14_integrate (dt gravity : ℚ) (F : Fluid)
    (hv : (F.v.length : Int) = F.numX * F.numY) :
    (integrate dt gravity F).u = F.u ∧
    ∀ i j, 0 ≤ i → i < F.numX → 0 ≤ j → j < F.numY →
      rd (integrate dt gravity F).v (i * F.numY + j) =
        if 1 ≤ i ∧ 1 ≤ j ∧ j ≤ F.numY - 2 ∧
            rd F.s (i * F.numY + j) ≠ 0 ∧ rd F.s (i * F.numY + j - 1) ≠ 0
        then rd F.v (i * F.numY + j) + gravity * dt
        else rd F.v (i * F.numY + j) :=
  ⟨by rw [integrate_frame], integrate_spec dt gravity F hv⟩

/-- C14, amended, instance: the 3 x 3 grid `Fluid(1, 1, 1)` with
`dt = gravity = 1`. -/
theorem C14_integrate_witness :
    ((grid3.v.length : Int) = grid3.numX * grid3.numY) ∧
    ((integrate 1 1 grid3).u = grid3.u ∧
    ∀ i j, 0 ≤ i → i < grid3.numX → 0 ≤ j → j < grid3.numY →
      rd (integrate 1 1 grid3).v (i * grid3.numY + j) =
        if 1 ≤ i ∧ 1 ≤ j ∧ j ≤ grid3.numY - 2 ∧
            rd grid3.s (i * grid3.numY + j) ≠ 0 ∧ rd grid3.s (i * grid3.numY + j - 1) ≠ 0
        then rd grid3.v (i * grid3.numY + j) + 1 * 1
        else rd grid3.v (i * grid3.numY + j)) :=
  ⟨by decide!, C14_integrate 1 1 grid3 (by decide!)⟩

/-! ## C15: the boundary extrapolator -/

/-- C15, the claim fails for `numY = 2`. On the 3 x 2 grid with `u[0,0] = 1`
and all other velocities `0`, after `extrapolate` the entry `u[0,numY-1]` is
`0`, while `0.9 * old u[0,numY-2] = 0.9`: the second copy of line 120 reads
`u[0,0]` after the first copy of line 119 has overwritten it. -/
theorem C15_extrapolate_counterexample :
    2 ≤ grid32.numX ∧ 2 ≤ grid32.numY ∧
    rd (extrapolate grid32).u (0 * grid32.numY + (grid32.numY - 1)) = 0 ∧
    9 / 10 * rd grid32.u (0 * grid32.numY + (grid32.numY - 2)) = 9 / 10 := by
  decide!

/-- C15, amended. Boundary extrapolation postcondition (exact arithmetic) on a
grid with `numX, numY >= 2` whose `u` and `v` have `numX * numY` entries: after
`extrapolate`, for every `i` in `[0, numX)`, `u[i,0] = 0.9 * old u[i,1]` and
`u[i,numY-1] = 0.9 * old u[i,max(numY-2,1)]`; for every `j` in `[0, numY)`,
`v[0,j] = 0.9 * old v[1,j]` and `v[numX-1,j] = 0.9 * old v[max(numX-2,1),j]`;
every `u` and `v` entry at a cell not on the outermost ring is unchanged, and
so are the vectors `p`, `s` and `m`. -/
theorem C15_extrapolate (F : Fluid) (hX : 2 ≤ F.numX) (hY : 2 ≤ F.numY)
    (hu : (F.u.length : Int) = F.numX * F.numY) (hv : (F.v.length : Int) = F.numX * F.numY) :
    (∀ i, 0 ≤ i → i < F.numX →
      rd (extrapolate F).u (i * F.numY + 0) = 9 / 10 * rd F.u (i * F.numY + 1) ∧
      rd (extrapolate F).u (i * F.numY + (F.numY - 1)) =
        9 / 10 * rd F.u (i * F.numY + max (F.numY - 2) 1)) ∧
    (∀ j, 0 ≤ j → j < F.numY →
      rd (extrapolate F).v (0 * F.numY + j) = 9 / 10 * rd F.v (1 * F.numY + j) ∧
      rd (extrapolate F).v ((F.numX - 1) * F.numY + j) =
        9 / 10 * rd F.v (max (F.numX - 2) 1 * F.numY + j)) ∧
    (∀ i j, 0 ≤ i → i < F.numX → 0 ≤ j → j < F.numY → ¬ onRing F.numX F.numY i j →
      rd (extrapolate F).u (i * F.numY + j) = rd F.u (i * F.numY + j) ∧
      rd (extrapolate F).v (i * F.numY + j) = rd F.v (i * F.numY + j)) ∧
    (extrapolate F).p = F.p ∧ (extrapolate F).s = F.s ∧ (extrapolate F).m = F.m := by
  obtain ⟨h1, _, _, h4⟩ := extrapolate_spec F hX hY hu hv
  refine ⟨?_, ?_, ?_, by rw [h1], by rw [h1], by rw [h1]⟩
  · intro i hi0 hi1
    constructor
    · have h := (h4 i 0 hi0 hi1 (by omega) (by omega)).1
      have r : onRing F.numX F.numY i 0 := Or.inr (Or.inr (Or.inl rfl))
      rw [if_pos r, if_pos rfl] at h
      exact h
    · have h := (h4 i (F.numY - 1) hi0 hi1 (by omega) (by omega)).1
      have r : onRing F.numX F.numY i (F.numY - 1) := Or.inr (Or.inr (Or.inr rfl))
      have n : ¬ F.numY - 1 = 0 := by omega
      rw [if_pos r, if_neg n, if_pos rfl] at h
      exact h
  · intro j hj0 hj1
    constructor
    · have h := (h4 0 j (by omega) (by omega) hj0 hj1).2
      have r : onRing F.numX F.numY 0 j := Or.inl rfl
      rw [if_pos r, if_pos rfl] at h
      exact h
    · have h := (h4 (F.numX - 1) j (by omega) (by omega) hj0 hj1).2
      have r : onRing F.numX F.numY (F.numX - 1) j := Or.inr (Or.inl rfl)
      have n : ¬ F.numX - 1 = 0 := by omega
      rw [if_pos r, if_neg n, if_pos rfl] at h
      exact h
  · intro i j hi0 hi1 hj0 hj1 hr
    have h := h4 i j hi0 hi1 hj0 hj1
    have hj : j ≠ 0 := fun e => hr (Or.inr (Or.inr (Or.inl e)))
    have hj' : j ≠ F.numY - 1 := fun e => hr (Or.inr (Or.inr (Or.inr e)))
    have hi : i ≠ 0 := fun e => hr (Or.inl e)
    have hi' : i ≠ F.numX - 1 := fun e => hr (Or.inr (Or.inl e))
    rw [if_neg hr, if_neg hj, if_neg hj', if_neg hi, if_neg hi', one_mul, one_mul] at h
    exact h

/-- C15, amended, instance: the 3 x 2 grid with `u[0,0] = 1`. -/
theorem C15_extrapolate_witness :
    2 ≤ grid32.numX ∧ 2 ≤ grid32.numY ∧
    ((grid32.u.length : Int) = grid32.numX * grid32.numY) ∧
    ((grid32.v.length : Int) = grid32.numX * grid32.numY) ∧
    ((∀ i, 0 ≤ i → i < grid32.numX →
      rd (extrapolate grid32).u (i * grid32.numY + 0) = 9 / 10 * rd grid32.u (i * grid32.numY + 1) ∧
      rd (extrapolate grid32).u (i * grid32.numY + (grid32.numY - 1)) =
        9 / 10 * rd grid32.u (i * grid32.numY + max (grid32.numY - 2) 1)) ∧
    (∀ j, 0 ≤ j → j < grid32.numY →
      rd (extrapolate grid32).v (0 * grid32.numY + j) = 9 / 10 * rd grid32.v (1 * grid32.numY + j) ∧
      rd (extrapolate grid32).v ((grid32.numX - 1) * grid32.numY + j) =
        9 / 10 * rd grid32.v (max (grid32.numX - 2) 1 * grid32.numY + j)) ∧
    (∀ i j, 0 ≤ i → i < grid32.numX → 0 ≤ j → j < grid32.numY →
      ¬ onRing grid32.numX grid32.numY i j →
      rd (extrapolate grid32).u (i * grid32.numY + j) = rd grid32.u (i * grid32.numY + j) ∧
      rd (extrapolate grid32).v (i * grid32.numY + j) = rd grid32.v (i * grid32.numY + j)) ∧
    (extrapolate grid32).p = grid32.p ∧ (extrapolate grid32).s = grid32.s ∧
    (extrapolate grid32).m = grid32.m) :=
  ⟨by decide!, by decide!, by decide!, by decide!,
   C15_extrapolate grid32 (by decide!) (by decide!) (by decide!) (by decide!)⟩

/-! ## C16: velocity advection -/

theorem sampleField_congr {F G : Fluid} (hX : G.numX = F.numX) (hY : G.numY = F.numY)
    (hh : G.h = F.h) (hu : G.u = F.u) (hv : G.v = F.v) (hm : G.m = F.m) (x y : ℚ) (f : Int) :
    sampleField G x y f = sampleField F x y f := by
  unfold sampleField interpolate
  rw [hX, hY, hh, hu, hv, hm]

theorem avgU_congr {F G : Fluid} (hY : G.numY = F.numY) (hu : G.u = F.u) (i j : Int) :
    avgU G i j = avgU F i j := by
  unfold avgU
  rw [hY, hu]

theorem avgV_congr {F G : Fluid} (hY : G.numY = F.numY) (hv : G.v = F.v) (i j : Int) :
    avgV G i j = avgV F i j := by
  unfold avgV
  rw [hY, hv]

theorem advectUCell_pos (dt : ℚ) (i j : Int) (F : Fluid)
    (hc : rd F.s (i * F.numY + j) ≠ 0 ∧ rd F.s ((i - 1) * F.numY + j) ≠ 0 ∧ j < F.numY - 1) :
    advectUCell dt i j F =
      { F with newU := (wr F.newU (i * F.numY + j)
          (sampleField F ((i : ℚ) * F.h - dt * rd F.u (i * F.numY + j))
            ((j : ℚ) * F.h + 1 / 2 * F.h - dt * avgV F i j) U_FIELD)) } := by
  unfold advectUCell; rw [if_pos hc]

theorem advectUCell_neg (dt : ℚ) (i j : Int) (F : Fluid)
    (hc : ¬ (rd F.s (i * F.numY + j) ≠ 0 ∧ rd F.s ((i - 1) * F.numY + j) ≠ 0 ∧
      j < F.numY - 1)) :
    advectUCell dt i j F = F := by
  unfold advectUCell; rw [if_neg hc]

theorem advectVCell_pos (dt : ℚ) (i j : Int) (F : Fluid)
    (hc : rd F.s (i * F.numY + j) ≠ 0 ∧ rd F.s (i * F.numY + j - 1) ≠ 0 ∧ i < F.numX - 1) :
    advectVCell dt i j F =
      { F with newV := (wr F.newV (i * F.numY + j)
          (sampleField F ((i : ℚ) * F.h + 1 / 2 * F.h - dt * avgU F i j)
            ((j : ℚ) * F.h - dt * rd F.v (i * F.numY + j)) V_FIELD)) } := by
  unfold advectVCell; rw [if_pos hc]

theorem advectVCell_neg (dt : ℚ) (i j : Int) (F : Fluid)
    (hc : ¬ (rd F.s (i * F.numY + j) ≠ 0 ∧ rd F.s (i * F.numY + j - 1) ≠ 0 ∧
      i < F.numX - 1)) :
    advectVCell dt i j F = F := by
  unfold advectVCell; rw [if_neg hc]

theorem advectUCell_inv (dt : ℚ) (i j : Int) (F st : Fluid) (hI : AdvInv F st) :
    AdvInv F (advectUCell dt i j st) := by
  by_cases hc : rd st.s (i * st.numY + j) ≠ 0 ∧ rd st.s ((i - 1) * st.numY + j) ≠ 0 ∧
      j < st.numY - 1
  · rw [advectUCell_pos dt i j st hc]
    refine ⟨?_, ?_, ?_⟩
    · dsimp only
      rw [hI.1]
    · dsimp only
      rw [length_wr, hI.2.1]
    · exact hI.2.2
  · rw [advectUCell_neg dt i j st hc]
    exact hI

theorem advectVCell_inv (dt : ℚ) (i j : Int) (F st : Fluid) (hI : AdvInv F st) :
    AdvInv F (advectVCell dt i j st) := by
  by_cases hc : rd st.s (i * st.numY + j) ≠ 0 ∧ rd st.s (i * st.numY + j - 1) ≠ 0 ∧
      i < st.numX - 1
  · rw [advectVCell_pos dt i j st hc]
    refine ⟨?_, ?_, ?_⟩
    · dsimp only
      rw [hI.1]
    · exact hI.2.1
    · dsimp only
      rw [length_wr, hI.2.2]
  · rw [advectVCell_neg dt i j st hc]
    exact hI

theorem advectVCell_newU (dt : ℚ) (i j : Int) (st : Fluid) :
    (advectVCell dt i j st).newU = st.newU := by
  rw [advectVCell_frame]

theorem advectUCell_newV (dt : ℚ) (i j : Int) (st : Fluid) :
    (advectUCell dt i j st).newV = st.newV := by
  rw [advectUCell_frame]

theorem AdvInv_facts (F st : Fluid) (hI : AdvInv { F with newU := F.u, newV := F.v } st) :
    st.numX = F.numX ∧ st.numY = F.numY ∧ st.h = F.h ∧ st.s = F.s ∧ st.u = F.u ∧
    st.v = F.v ∧ st.m = F.m ∧ st.newU.length = F.u.length ∧ st.newV.length = F.v.length := by
  obtain ⟨h1, h2, h3⟩ := hI
  exact ⟨by rw [h1], by rw [h1], by rw [h1], by rw [h1], by rw [h1], by rw [h1], by rw [h1],
    h2, h3⟩

/-- What `advectVel` leaves in `u` and `v`: every guarded cell holds the sample
taken on the pre-call fields, every other cell its old value. -/
theorem advectVel_spec (dt : ℚ) (F : Fluid)
    (hu : (F.u.length : Int) = F.numX * F.numY) (hv : (F.v.length : Int) = F.numX * F.numY) :
    ∀ i j, 0 ≤ i → i < F.numX → 0 ≤ j → j < F.numY →
      rd (advectVel dt F).u (i * F.numY + j) =
        (if 1 ≤ i ∧ 1 ≤ j ∧ rd F.s (i * F.numY + j) ≠ 0 ∧
            rd F.s ((i - 1) * F.numY + j) ≠ 0 ∧ j < F.numY - 1
         then sampleField F ((i : ℚ) * F.h - dt * rd F.u (i * F.numY + j))
            ((j : ℚ) * F.h + 1 / 2 * F.h - dt * avgV F i j) U_FIELD
         else rd F.u (i * F.numY + j)) ∧
      rd (advectVel dt F).v (i * F.numY + j) =
        (if 1 ≤ i ∧ 1 ≤ j ∧ rd F.s (i * F.numY + j) ≠ 0 ∧
            rd F.s (i * F.numY + j - 1) ≠ 0 ∧ i < F.numX - 1
         then sampleField F ((i : ℚ) * F.h + 1 / 2 * F.h - dt * avgU F i j)
            ((j : ℚ) * F.h - dt * rd F.v (i * F.numY + j)) V_FIELD
         else rd F.v (i * F.numY + j)) := by
  have hIstep : ∀ (i j : Int) (st : Fluid), AdvInv { F with newU := F.u, newV := F.v } st →
      AdvInv { F with newU := F.u, newV := F.v }
        (advectVCell dt i j (advectUCell dt i j st)) :=
    fun i j st hI => advectVCell_inv dt i j _ _ (advectUCell_inv dt i j _ _ hI)
  have keyU := @forRange2_writes Fluid Fluid.newU
    (AdvInv { F with newU := F.u, newV := F.v })
    (fun i j k => k = i * F.numY + j ∧ (rd F.s (i * F.numY + j) ≠ 0 ∧
      rd F.s ((i - 1) * F.numY + j) ≠ 0 ∧ j < F.numY - 1))
    (fun i j _ => sampleField F ((i : ℚ) * F.h - dt * rd F.u (i * F.numY + j))
            ((j : ℚ) * F.h + 1 / 2 * F.h - dt * avgV F i j) U_FIELD)
    1 F.numX 1 F.numY
    (fun i j st => advectVCell dt i j (advectUCell dt i j st))
    { F with newU := F.u, newV := F.v } ⟨rfl, rfl, rfl⟩
    (fun i j st _ _ _ _ hI => hIstep i j st hI)
    (by
      intro i j st k _ _ _ _ hI hnt
      beta_reduce at hnt ⊢
      obtain ⟨aX, aY, ah, as, au, av, am, alu, alv⟩ := AdvInv_facts F st hI
      rw [advectVCell_newU]
      by_cases hc : rd st.s (i * st.numY + j) ≠ 0 ∧ rd st.s ((i - 1) * st.numY + j) ≠ 0 ∧
          j < st.numY - 1
      · rw [advectUCell_pos dt i j st hc]
        rw [aY, as] at hc
        dsimp only
        rw [aY]
        apply rd_wr_ne
        intro hk
        exact hnt ⟨hk, hc⟩
      · rw [advectUCell_neg dt i j st hc])
    (by
      intro i j st k hi0 hi1 hj0 hj1 hI ht _
      beta_reduce at ht ⊢
      obtain ⟨aX, aY, ah, as, au, av, am, alu, alv⟩ := AdvInv_facts F st hI
      obtain ⟨rfl, hc⟩ := ht
      have hb := @flat_bounds F.numX F.numY i j (by omega) hi1 (by omega) hj1
      rw [advectVCell_newU, advectUCell_pos dt i j st (by rw [aY, as]; exact hc)]
      dsimp only
      rw [aY, rd_wr_self _ _ hb.1 (by rw [alu, hu]; exact hb.2),
        sampleField_congr aX aY ah au av am, avgV_congr aY av, ah, au])
    (by
      intro i j i' j' k _ _ hj0 hj1 _ _ hj0' hj1' h1 h2
      exact @flat_inj F.numY i j i' j' (by omega) (by omega) (by omega) (by omega)
        (h1.1.symm.trans h2.1))
  have keyV := @forRange2_writes Fluid Fluid.newV
    (AdvInv { F with newU := F.u, newV := F.v })
    (fun i j k => k = i * F.numY + j ∧ (rd F.s (i * F.numY + j) ≠ 0 ∧
      rd F.s (i * F.numY + j - 1) ≠ 0 ∧ i < F.numX - 1))
    (fun i j _ => sampleField F ((i : ℚ) * F.h + 1 / 2 * F.h - dt * avgU F i j)
            ((j : ℚ) * F.h - dt * rd F.v (i * F.numY + j)) V_FIELD)
    1 F.numX 1 F.numY
    (fun i j st => advectVCell dt i j (advectUCell dt i j st))
    { F with newU := F.u, newV := F.v } ⟨rfl, rfl, rfl⟩
    (fun i j st _ _ _ _ hI => hIstep i j st hI)
    (by
      intro i j st k _ _ _ _ hI hnt
      beta_reduce at hnt ⊢
      have hI' := advectUCell_inv dt i j _ _ hI
      obtain ⟨aX, aY, ah, as, au, av, am, alu, alv⟩ :=
        AdvInv_facts F (advectUCell dt i j st) hI'
      rw [← advectUCell_newV dt i j st]
      by_cases hc : rd (advectUCell dt i j st).s (i * (advectUCell dt i j st).numY + j) ≠ 0 ∧
          rd (advectUCell dt i j st).s (i * (advectUCell dt i j st).numY + j - 1) ≠ 0 ∧
          i < (advectUCell dt i j st).numX - 1
      · rw [advectVCell_pos dt i j _ hc]
        rw [aX, aY, as] at hc
        dsimp only
        rw [aY]
        apply rd_wr_ne
        intro hk
        exact hnt ⟨hk, hc⟩
      · rw [advectVCell_neg dt i j _ hc])
    (by
      intro i j st k hi0 hi1 hj0 hj1 hI ht _
      beta_reduce at ht ⊢
      have hI' := advectUCell_inv dt i j _ _ hI
      obtain ⟨aX, aY, ah, as, au, av, am, alu, alv⟩ :=
        AdvInv_facts F (advectUCell dt i j st) hI'
      obtain ⟨rfl, hc⟩ := ht
      have hb := @flat_bounds F.numX F.numY i j (by omega) hi1 (by omega) hj1
      rw [advectVCell_pos dt i j _ (by rw [aX, aY, as]; exact hc)]
      dsimp only
      rw [aY, rd_wr_self _ _ hb.1 (by rw [alv, hv]; exact hb.2),
        sampleField_congr aX aY ah au av am, avgU_congr aY au, ah, av])
    (by
      intro i j i' j' k _ _ hj0 hj1 _ _ hj0' hj1' h1 h2
      exact @flat_inj F.numY i j i' j' (by omega) (by omega) (by omega) (by omega)
        (h1.1.symm.trans h2.1))
  dsimp only at keyU keyV
  obtain ⟨_, u1, u2⟩ := keyU
  obtain ⟨_, v1, v2⟩ := keyV
  have eU : (advectVel dt F).u = (forRange 1 F.numX (fun i G =>
      forRange 1 F.numY (fun j G1 => advectVCell dt i j (advectUCell dt i j G1)) G)
      { F with newU := F.u, newV := F.v }).newU := rfl
  have eV : (advectVel dt F).v = (forRange 1 F.numX (fun i G =>
      forRange 1 F.numY (fun j G1 => advectVCell dt i j (advectUCell dt i j G1)) G)
      { F with newU := F.u, newV := F.v }).newV := rfl
  intro i j hi0 hi1 hj0 hj1
  rw [eU, eV]
  constructor
  · split
    · rename_i hc
      exact u1 i j _ hc.1 hi1 hc.2.1 hj1 ⟨rfl, hc.2.2⟩
    · rename_i hc
      apply u2
      intro i' j' hi0' _ hj0' hj1' ht
      obtain ⟨e1, e2⟩ := @flat_inj F.numY i j i' j' hj0 hj1 (by omega) (by omega) ht.1
      subst e1 e2
      exact hc ⟨hi0', hj0', ht.2⟩
  · split
    · rename_i hc
      exact v1 i j _ hc.1 hi1 hc.2.1 hj1 ⟨rfl, hc.2.2⟩
    · rename_i hc
      apply v2
      intro i' j' hi0' _ hj0' hj1' ht
      obtain ⟨e1, e2⟩ := @flat_inj F.numY i j i' j' hj0 hj1 (by omega) (by omega) ht.1
      subst e1 e2
      exact hc ⟨hi0', hj0', ht.2⟩

/-- C16: velocity advection guards and snapshot semantics (exact arithmetic).
For every grid state whose `u` and `v` have `numX * numY` entries and every
cell `(i, j)` of the grid, after `advectVel(dt)` the entry `u[i,j]` is
unchanged when `i = 0`, `j = 0`, `j = numY-1`, `s[i,j] = 0` or `s[i-1,j] = 0`,
and otherwise equals
`sampleField(i*h - dt*u0[i,j], j*h + h/2 - dt*avgV0(i,j), U_FIELD)`; the entry
`v[i,j]` is unchanged when `i = 0`, `j = 0`, `i = numX-1`, `s[i,j] = 0` or
`s[i,j-1] = 0`, and otherwise equals
`sampleField(i*h + h/2 - dt*avgU0(i,j), j*h - dt*v0[i,j], V_FIELD)`. Every
sample, `avgU0`, `avgV0`, `u0`, `v0` is taken on the pre-call state `F`, so no
updated value depends on a value written earlier in the same pass. -/
theorem C16_advectVel (dt : ℚ) (F : Fluid) (i j : Int)
    (hu : (F.u.length : Int) = F.numX * F.numY) (hv : (F.v.length : Int) = F.numX * F.numY)
    (hi0 : 0 ≤ i) (hi1 : i < F.numX) (hj0 : 0 ≤ j) (hj1 : j < F.numY) :
    rd (advectVel dt F).u (i * F.numY + j) =
      (if i = 0 ∨ j = 0 ∨ j = F.numY - 1 ∨ rd F.s (i * F.numY + j) = 0 ∨
          rd F.s ((i - 1) * F.numY + j) = 0
       then rd F.u (i * F.numY + j)
       else sampleField F ((i : ℚ) * F.h - dt * rd F.u (i * F.numY + j))
          ((j : ℚ) * F.h + 1 / 2 * F.h - dt * avgV F i j) U_FIELD) ∧
    rd (advectVel dt F).v (i * F.numY + j) =
      (if i = 0 ∨ j = 0 ∨ i = F.numX - 1 ∨ rd F.s (i * F.numY + j) = 0 ∨
          rd F.s (i * F.numY + j - 1) = 0
       then rd F.v (i * F.numY + j)
       else sampleField F ((i : ℚ) * F.h + 1 / 2 * F.h - dt * avgU F i j)
          ((j : ℚ) * F.h - dt * rd F.v (i * F.numY + j)) V_FIELD) := by
  obtain ⟨h1, h2⟩ := advectVel_spec dt F hu hv i j hi0 hi1 hj0 hj1
  rw [h1, h2]
  constructor
  · by_cases hc : i = 0 ∨ j = 0 ∨ j = F.numY - 1 ∨ rd F.s (i * F.numY + j) = 0 ∨
        rd F.s ((i - 1) * F.numY + j) = 0
    · rw [if_pos hc, if_neg]
      rintro ⟨a1, a2, a3, a4, a5⟩
      rcases hc with c | c | c | c | c
      · omega
      · omega
      · omega
      · exact a3 c
      · exact a4 c
    · rw [if_neg hc, if_pos]
      refine ⟨?_, ?_, ?_, ?_, ?_⟩
      · by_contra hn; exact hc (Or.inl (by omega))
      · by_contra hn; exact hc (Or.inr (Or.inl (by omega)))
      · intro hn; exact hc (Or.inr (Or.inr (Or.inr (Or.inl hn))))
      · intro hn; exact hc (Or.inr (Or.inr (Or.inr (Or.inr hn))))
      · by_contra hn; exact hc (Or.inr (Or.inr (Or.inl (by omega))))
  · by_cases hc : i = 0 ∨ j = 0 ∨ i = F.numX - 1 ∨ rd F.s (i * F.numY + j) = 0 ∨
        rd F.s (i * F.numY + j - 1) = 0
    · rw [if_pos hc, if_neg]
      rintro ⟨a1, a2, a3, a4, a5⟩
      rcases hc with c | c | c | c | c
      · omega
      · omega
      · omega
      · exact a3 c
      · exact a4 c
    · rw [if_neg hc, if_pos]
      refine ⟨?_, ?_, ?_, ?_, ?_⟩
      · by_contra hn; exact hc (Or.inl (by omega))
      · by_contra hn; exact hc (Or.inr (Or.inl (by omega)))
      · intro hn; exact hc (Or.inr (Or.inr (Or.inr (Or.inl hn))))
      · intro hn; exact hc (Or.inr (Or.inr (Or.inr (Or.inr hn))))
      · by_contra hn; exact hc (Or.inr (Or.inr (Or.inl (by omega))))

/-- C16, instance: the interior cell `(2, 2)` of the all-open 4 x 4 grid whose
face `u[3,2]` carries `1`, with `dt = 1`. -/
theorem C16_advectVel_witness :
    ((grid4Edge.u.length : Int) = grid4Edge.numX * grid4Edge.numY) ∧
    ((grid4Edge.v.length : Int) = grid4Edge.numX * grid4Edge.numY) ∧
    ((0 : Int) ≤ 2) ∧ ((2 : Int) < grid4Edge.numX) ∧ ((0 : Int) ≤ 2) ∧
    ((2 : Int) < grid4Edge.numY) ∧
    (rd (advectVel 1 grid4Edge).u (2 * grid4Edge.numY + 2) =
      (if (2 : Int) = 0 ∨ (2 : Int) = 0 ∨ (2 : Int) = grid4Edge.numY - 1 ∨
          rd grid4Edge.s (2 * grid4Edge.numY + 2) = 0 ∨
          rd grid4Edge.s ((2 - 1) * grid4Edge.numY + 2) = 0
       then rd grid4Edge.u (2 * grid4Edge.numY + 2)
       else sampleField grid4Edge
          (((2 : Int) : ℚ) * grid4Edge.h - 1 * rd grid4Edge.u (2 * grid4Edge.numY + 2))
          (((2 : Int) : ℚ) * grid4Edge.h + 1 / 2 * grid4Edge.h - 1 * avgV grid4Edge 2 2)
          U_FIELD) ∧
    rd (advectVel 1 grid4Edge).v (2 * grid4Edge.numY + 2) =
      (if (2 : Int) = 0 ∨ (2 : Int) = 0 ∨ (2 : Int) = grid4Edge.numX - 1 ∨
          rd grid4Edge.s (2 * grid4Edge.numY + 2) = 0 ∨
          rd grid4Edge.s (2 * grid4Edge.numY + 2 - 1) = 0
       then rd grid4Edge.v (2 * grid4Edge.numY + 2)
       else sampleField grid4Edge
          (((2 : Int) : ℚ) * grid4Edge.h + 1 / 2 * grid4Edge.h - 1 * avgU grid4Edge 2 2)
          (((2 : Int) : ℚ) * grid4Edge.h - 1 * rd grid4Edge.v (2 * grid4Edge.numY + 2))
          V_FIELD)) :=
  ⟨by decide!, by decide!, by decide, by decide!, by decide, by decide!,
   C16_advectVel 1 grid4Edge 2 2 (by decide!) (by decide!) (by decide) (by decide!)
     (by decide) (by decide!)⟩

/-! ## C17: the stencil of the field sampler -/

/-- The sampler written with its stencil: for each of the three selectors,
`sampleField` is the bilinear blend of the four reads at the stencil indices
with the weights `tx`, `ty`. -/
theorem sampleField_stencil (F : Fluid) (x y : ℚ) (field : Int)
    (hf : field = U_FIELD ∨ field = V_FIELD ∨ field = S_FIELD) :
    sampleField F x y field =
      (1 - weightTx F x field) * (1 - weightTy F y field) *
        rd (sampleVec F field) (stencilX0 F x field * F.numY + stencilY0 F y field) +
      weightTx F x field * (1 - weightTy F y field) *
        rd (sampleVec F field) (stencilX1 F x field * F.numY + stencilY0 F y field) +
      weightTx F x field * weightTy F y field *
        rd (sampleVec F field) (stencilX1 F x field * F.numY + stencilY1 F y field) +
      (1 - weightTx F x field) * weightTy F y field *
        rd (sampleVec F field) (stencilX0 F x field * F.numY + stencilY1 F y field) := by
  rcases hf with rfl | rfl | rfl
  · rfl
  · rfl
  · rfl

theorem clampX_ge (F : Fluid) (x : ℚ) : F.h ≤ clampX F x := le_max_right _ _

theorem clampY_ge (F : Fluid) (y : ℚ) : F.h ≤ clampY F y := le_max_right _ _

theorem clampX_le (F : Fluid) (x : ℚ) (hh : 0 < F.h) (hX : 1 ≤ F.numX) :
    clampX F x ≤ (F.numX : ℚ) * F.h := by
  have h1 : (1 : ℚ) ≤ (F.numX : ℚ) := by exact_mod_cast hX
  have h2 : F.h ≤ (F.numX : ℚ) * F.h := by nlinarith
  exact max_le (min_le_right _ _) h2

theorem clampY_le (F : Fluid) (y : ℚ) (hh : 0 < F.h) (hY : 1 ≤ F.numY) :
    clampY F y ≤ (F.numY : ℚ) * F.h := by
  have h1 : (1 : ℚ) ≤ (F.numY : ℚ) := by exact_mod_cast hY
  have h2 : F.h ≤ (F.numY : ℚ) * F.h := by nlinarith
  exact max_le (min_le_right _ _) h2

theorem sampleDx_bounds (F : Fluid) (field : Int) (hh : 0 < F.h) :
    0 ≤ sampleDx F field ∧ sampleDx F field ≤ 1 / 2 * F.h := by
  unfold sampleDx
  split
  · constructor <;> linarith
  · constructor <;> linarith

theorem sampleDy_bounds (F : Fluid) (field : Int) (hh : 0 < F.h) :
    0 ≤ sampleDy F field ∧ sampleDy F field ≤ 1 / 2 * F.h := by
  unfold sampleDy
  split
  · constructor <;> linarith
  · constructor <;> linarith

/-- One axis of the stencil: for a clamped coordinate `c` with `h <= c` and an
offset `0 <= d <= h/2`, the index `min (floor ((c - d) / h)) (n - 1)` and its
successor `min (x0 + 1) (n - 1)` satisfy `0 <= x0 <= x1 <= n - 1`. -/
theorem axis_bounds (h c d : ℚ) (n : Int) (hh : 0 < h) (hn : 1 ≤ n) (hc : h ≤ c)
    (hd : d ≤ 1 / 2 * h) :
    0 ≤ min ⌊(c - d) * (1 / h)⌋ (n - 1) ∧
    min ⌊(c - d) * (1 / h)⌋ (n - 1) ≤ min (min ⌊(c - d) * (1 / h)⌋ (n - 1) + 1) (n - 1) ∧
    min (min ⌊(c - d) * (1 / h)⌋ (n - 1) + 1) (n - 1) ≤ n - 1 := by
  have h1 : 0 ≤ (c - d) * (1 / h) := by
    apply mul_nonneg
    · linarith
    · positivity
  have h2 : 0 ≤ ⌊(c - d) * (1 / h)⌋ := Int.floor_nonneg.mpr h1
  refine ⟨le_min h2 (by omega), le_min (by omega) (min_le_right _ _), min_le_right _ _⟩

theorem stencil_bounds (F : Fluid) (x y : ℚ) (field : Int) (hh : 0 < F.h)
    (hX : 1 ≤ F.numX) (hY : 1 ≤ F.numY) :
    (0 ≤ stencilX0 F x field ∧ stencilX0 F x field ≤ stencilX1 F x field ∧
      stencilX1 F x field ≤ F.numX - 1) ∧
    (0 ≤ stencilY0 F y field ∧ stencilY0 F y field ≤ stencilY1 F y field ∧
      stencilY1 F y field ≤ F.numY - 1) :=
  ⟨axis_bounds F.h (clampX F x) (sampleDx F field) F.numX hh hX (clampX_ge F x)
      (sampleDx_bounds F field hh).2,
   axis_bounds F.h (clampY F y) (sampleDy F field) F.numY hh hY (clampY_ge F y)
      (sampleDy_bounds F field hh).2⟩

/-- C17: the sampler's stencil indices are always in range (exact arithmetic).
For every `h > 0`, every `numX, numY >= 2`, every selector among `U_FIELD`,
`V_FIELD`, `S_FIELD` (for which `sampleField` is the blend of the four reads
at the stencil) and every pair of coordinates `(x, y)`, the stencil indices
satisfy `0 <= x0 <= x1 <= numX-1` and `0 <= y0 <= y1 <= numY-1`, and the four
flat indices `x0*numY+y0`, `x1*numY+y0`, `x1*numY+y1`, `x0*numY+y1` lie in
`[0, numX*numY)`. -/
theorem C17_stencil_in_range (F : Fluid) (x y : ℚ) (field : Int) (hh : 0 < F.h)
    (hX : 2 ≤ F.numX) (hY : 2 ≤ F.numY)
    (hf : field = U_FIELD ∨ field = V_FIELD ∨ field = S_FIELD) :
    sampleField F x y field =
      (1 - weightTx F x field) * (1 - weightTy F y field) *
        rd (sampleVec F field) (stencilX0 F x field * F.numY + stencilY0 F y field) +
      weightTx F x field * (1 - weightTy F y field) *
        rd (sampleVec F field) (stencilX1 F x field * F.numY + stencilY0 F y field) +
      weightTx F x field * weightTy F y field *
        rd (sampleVec F field) (stencilX1 F x field * F.numY + stencilY1 F y field) +
      (1 - weightTx F x field) * weightTy F y field *
        rd (sampleVec F field) (stencilX0 F x field * F.numY + stencilY1 F y field) ∧
    (0 ≤ stencilX0 F x field ∧ stencilX0 F x field ≤ stencilX1 F x field ∧
      stencilX1 F x field ≤ F.numX - 1) ∧
    (0 ≤ stencilY0 F y field ∧ stencilY0 F y field ≤ stencilY1 F y field ∧
      stencilY1 F y field ≤ F.numY - 1) ∧
    (0 ≤ stencilX0 F x field * F.numY + stencilY0 F y field ∧
      stencilX0 F x field * F.numY + stencilY0 F y field < F.numX * F.numY) ∧
    (0 ≤ stencilX1 F x field * F.numY + stencilY0 F y field ∧
      stencilX1 F x field * F.numY + stencilY0 F y field < F.numX * F.numY) ∧
    (0 ≤ stencilX1 F x field * F.numY + stencilY1 F y field ∧
      stencilX1 F x field * F.numY + stencilY1 F y field < F.numX * F.numY) ∧
    (0 ≤ stencilX0 F x field * F.numY + stencilY1 F y field ∧
      stencilX0 F x field * F.numY + stencilY1 F y field < F.numX * F.numY) := by
  obtain ⟨⟨a1, a2, a3⟩, b1, b2, b3⟩ :=
    stencil_bounds F x y field hh (by omega) (by omega)
  exact ⟨sampleField_stencil F x y field hf, ⟨a1, a2, a3⟩, ⟨b1, b2, b3⟩,
    flat_bounds a1 (by omega) b1 (by omega),
    flat_bounds (by omega) (by omega) b1 (by omega),
    flat_bounds (by omega) (by omega) (by omega) (by omega),
    flat_bounds a1 (by omega) (by omega) (by omega)⟩

/-- C17, instance: the 4 x 4 grid with `h = 1`, the dye field, and the query
point `(-7, 100)` far outside the domain. -/
theorem C17_stencil_in_range_witness :
    0 < grid4.h ∧ 2 ≤ grid4.numX ∧ 2 ≤ grid4.numY ∧
    (S_FIELD = U_FIELD ∨ S_FIELD = V_FIELD ∨ S_FIELD = S_FIELD) ∧
    (sampleField grid4 (-7) 100 S_FIELD =
      (1 - weightTx grid4 (-7) S_FIELD) * (1 - weightTy grid4 100 S_FIELD) *
        rd (sampleVec grid4 S_FIELD)
          (stencilX0 grid4 (-7) S_FIELD * grid4.numY + stencilY0 grid4 100 S_FIELD) +
      weightTx grid4 (-7) S_FIELD * (1 - weightTy grid4 100 S_FIELD) *
        rd (sampleVec grid4 S_FIELD)
          (stencilX1 grid4 (-7) S_FIELD * grid4.numY + stencilY0 grid4 100 S_FIELD) +
      weightTx grid4 (-7) S_FIELD * weightTy grid4 100 S_FIELD *
        rd (sampleVec grid4 S_FIELD)
          (stencilX1 grid4 (-7) S_FIELD * grid4.numY + stencilY1 grid4 100 S_FIELD) +
      (1 - weightTx grid4 (-7) S_FIELD) * weightTy grid4 100 S_FIELD *
        rd (sampleVec grid4 S_FIELD)
          (stencilX0 grid4 (-7) S_FIELD * grid4.numY + stencilY1 grid4 100 S_FIELD) ∧
    (0 ≤ stencilX0 grid4 (-7) S_FIELD ∧
      stencilX0 grid4 (-7) S_FIELD ≤ stencilX1 grid4 (-7) S_FIELD ∧
      stencilX1 grid4 (-7) S_FIELD ≤ grid4.numX - 1) ∧
    (0 ≤ stencilY0 grid4 100 S_FIELD ∧
      stencilY0 grid4 100 S_FIELD ≤ stencilY1 grid4 100 S_FIELD ∧
      stencilY1 grid4 100 S_FIELD ≤ grid4.numY - 1) ∧
    (0 ≤ stencilX0 grid4 (-7) S_FIELD * grid4.numY + stencilY0 grid4 100 S_FIELD ∧
      stencilX0 grid4 (-7) S_FIELD * grid4.numY + stencilY0 grid4 100 S_FIELD
        < grid4.numX * grid4.numY) ∧
    (0 ≤ stencilX1 grid4 (-7) S_FIELD * grid4.numY + stencilY0 grid4 100 S_FIELD ∧
      stencilX1 grid4 (-7) S_FIELD * grid4.numY + stencilY0 grid4 100 S_FIELD
        < grid4.numX * grid4.numY) ∧
    (0 ≤ stencilX1 grid4 (-7) S_FIELD * grid4.numY + stencilY1 grid4 100 S_FIELD ∧
      stencilX1 grid4 (-7) S_FIELD * grid4.numY + stencilY1 grid4 100 S_FIELD
        < grid4.numX * grid4.numY) ∧
    (0 ≤ stencilX0 grid4 (-7) S_FIELD * grid4.numY + stencilY1 grid4 100 S_FIELD ∧
      stencilX0 grid4 (-7) S_FIELD * grid4.numY + stencilY1 grid4 100 S_FIELD
        < grid4.numX * grid4.numY)) :=
  ⟨by decide!, by decide!, by decide!, by decide,
   C17_stencil_in_range grid4 (-7) 100 S_FIELD (by decide!) (by decide!) (by decide!)
     (by decide)⟩

/-! ## C18: one visit of the projector -/

/-- C18: the local relaxation step (exact arithmetic). When the projector sweep
of `solveIncompressibility(numIters, dt)` visits an interior cell `(i, j)` of a
grid whose `u`, `v`, `p` have `numX * numY` entries, with
`S = s[i-1,j] + s[i+1,j] + s[i,j-1] + s[i,j+1]` and
`d = u[i+1,j] - u[i,j] + v[i,j+1] - v[i,j]` taken just before the visit: if
`s[i,j] != 0` and `S != 0`, the divergence of the cell right after the visit is
`-d/2` and `p[i,j]` has grown by `(1000 * h / dt) * (-1.5 * d / S)`; if
`s[i,j] = 0` or `S = 0`, the visit changes nothing. -/
theorem C18_local_relaxation (dt : ℚ) (F : Fluid) (i j : Int)
    (hi0 : 1 ≤ i) (hi1 : i ≤ F.numX - 2) (hj0 : 1 ≤ j) (hj1 : j ≤ F.numY - 2)
    (hu : (F.u.length : Int) = F.numX * F.numY) (hv : (F.v.length : Int) = F.numX * F.numY)
    (hp : (F.p.length : Int) = F.numX * F.numY) :
    (rd F.s (i * F.numY + j) ≠ 0 ∧
      rd F.s ((i - 1) * F.numY + j) + rd F.s ((i + 1) * F.numY + j) +
        rd F.s (i * F.numY + j - 1) + rd F.s (i * F.numY + j + 1) ≠ 0 →
      divergence (solveCell (DENSITY * F.h / dt) i j F) i j = -(divergence F i j) / 2 ∧
      rd (solveCell (DENSITY * F.h / dt) i j F).p (i * F.numY + j) =
        rd F.p (i * F.numY + j) +
          (1000 * F.h / dt) * (-(3 / 2) * divergence F i j /
            (rd F.s ((i - 1) * F.numY + j) + rd F.s ((i + 1) * F.numY + j) +
              rd F.s (i * F.numY + j - 1) + rd F.s (i * F.numY + j + 1)))) ∧
    (rd F.s (i * F.numY + j) = 0 ∨
      rd F.s ((i - 1) * F.numY + j) + rd F.s ((i + 1) * F.numY + j) +
        rd F.s (i * F.numY + j - 1) + rd F.s (i * F.numY + j + 1) = 0 →
      solveCell (DENSITY * F.h / dt) i j F = F) := by
  have e1 : (i - 1) * F.numY + j = i * F.numY + j - F.numY := by ring
  have e2 : (i + 1) * F.numY + j = i * F.numY + j + F.numY := by ring
  have hS : rd F.s ((i - 1) * F.numY + j) + rd F.s ((i + 1) * F.numY + j) +
        rd F.s (i * F.numY + j - 1) + rd F.s (i * F.numY + j + 1)
      = weightSum F (i * F.numY + j) := by
    unfold weightSum
    rw [e1, e2]
  have hb := @flat_bounds F.numX F.numY i j (by omega) (by omega) (by omega) (by omega)
  have hb2 := @flat_bounds F.numX F.numY (i + 1) j (by omega) (by omega) (by omega) (by omega)
  rw [e2] at hb2
  rw [hS, solveCell_eq_solveAt]
  constructor
  · rintro ⟨h1, h2⟩
    have hY : (solveAt (DENSITY * F.h / dt) (i * F.numY + j) F).numY = F.numY :=
      (solveAt_keeps _ _ F).2.2.1
    constructor
    · rw [divergence_eq_divAt, divergence_eq_divAt, hY,
        solveAt_divAt_self _ _ F hb.1 (by omega) (by omega) (by omega) h1 h2]
      ring
    · rw [solveAt_active _ _ F h1 h2]
      dsimp only
      rw [rd_wr_self _ _ hb.1 (by omega), divergence_eq_divAt]
      unfold DENSITY OVER_RELAXATION
      ring
  · intro h
    exact solveAt_inactive _ _ F h

/-- C18, instances: the open interior cell `(2, 2)` of the all-open 4 x 4 grid
whose face `u[3,2]` carries `1` (weight sum `4`, divergence `1`), with
`dt = 1`; and the solid interior cell `(1, 1)` of the 3 x 3 grid, which the
visit leaves alone. -/
theorem C18_local_relaxation_witness :
    (((1 : Int) ≤ 2) ∧ ((2 : Int) ≤ grid4Edge.numX - 2) ∧ ((1 : Int) ≤ 2) ∧
    ((2 : Int) ≤ grid4Edge.numY - 2) ∧
    ((grid4Edge.u.length : Int) = grid4Edge.numX * grid4Edge.numY) ∧
    ((grid4Edge.v.length : Int) = grid4Edge.numX * grid4Edge.numY) ∧
    ((grid4Edge.p.length : Int) = grid4Edge.numX * grid4Edge.numY) ∧
    (rd grid4Edge.s (2 * grid4Edge.numY + 2) ≠ 0 ∧
      rd grid4Edge.s ((2 - 1) * grid4Edge.numY + 2) +
        rd grid4Edge.s ((2 + 1) * grid4Edge.numY + 2) +
        rd grid4Edge.s (2 * grid4Edge.numY + 2 - 1) +
        rd grid4Edge.s (2 * grid4Edge.numY + 2 + 1) ≠ 0) ∧
    (divergence (solveCell (DENSITY * grid4Edge.h / 1) 2 2 grid4Edge) 2 2
        = -(divergence grid4Edge 2 2) / 2 ∧
      rd (solveCell (DENSITY * grid4Edge.h / 1) 2 2 grid4Edge).p (2 * grid4Edge.numY + 2) =
        rd grid4Edge.p (2 * grid4Edge.numY + 2) +
          (1000 * grid4Edge.h / 1) * (-(3 / 2) * divergence grid4Edge 2 2 /
            (rd grid4Edge.s ((2 - 1) * grid4Edge.numY + 2) +
              rd grid4Edge.s ((2 + 1) * grid4Edge.numY + 2) +
              rd grid4Edge.s (2 * grid4Edge.numY + 2 - 1) +
              rd grid4Edge.s (2 * grid4Edge.numY + 2 + 1))))) ∧
    (((1 : Int) ≤ 1) ∧ ((1 : Int) ≤ grid3.numX - 2) ∧ ((1 : Int) ≤ grid3.numY - 2) ∧
    ((grid3.u.length : Int) = grid3.numX * grid3.numY) ∧
    ((grid3.v.length : Int) = grid3.numX * grid3.numY) ∧
    ((grid3.p.length : Int) = grid3.numX * grid3.numY) ∧
    rd grid3.s (1 * grid3.numY + 1) = 0 ∧
    solveCell (DENSITY * grid3.h / 1) 1 1 grid3 = grid3) :=
  ⟨⟨by decide, by decide!, by decide, by decide!, by decide!, by decide!, by decide!,
    by decide!,
    (C18_local_relaxation 1 grid4Edge 2 2 (by decide) (by decide!) (by decide) (by decide!)
      (by decide!) (by decide!) (by decide!)).1 (by decide!)⟩,
   ⟨by decide, by decide!, by decide!, by decide!, by decide!, by decide!, by decide!,
    (C18_local_relaxation 1 grid3 1 1 (by decide) (by decide!) (by decide) (by decide!)
      (by decide!) (by decide!) (by decide!)).2 (Or.inl (by decide!))⟩⟩

/-! ## C20: solid and border cells during a tick -/

/-- A tick is `fadeDensity` after `advectSmoke` on a state that has the
dimensions, spacing, mask and dye of the state the tick started in. -/
theorem simulate_tail (dt gravity : ℚ) (numIters : Int) (F : Fluid) :
    ∃ G, simulate dt gravity numIters F = fadeDensity (advectSmoke dt G) ∧
      G.numX = F.numX ∧ G.numY = F.numY ∧ G.numCells = F.numCells ∧ G.h = F.h ∧
      G.s = F.s ∧ G.m = F.m := by
  obtain ⟨F1, e1⟩ : ∃ F1, F1 = integrate dt gravity F := ⟨_, rfl⟩
  obtain ⟨F2, e2⟩ : ∃ F2 : Fluid, F2 = { F1 with p := F1.p.map (fun _ => 0) } := ⟨_, rfl⟩
  obtain ⟨F3, e3⟩ : ∃ F3, F3 = solveIncompressibility numIters dt F2 := ⟨_, rfl⟩
  obtain ⟨F4, e4⟩ : ∃ F4, F4 = extrapolate F3 := ⟨_, rfl⟩
  obtain ⟨F5, e5⟩ : ∃ F5, F5 = advectVel dt F4 := ⟨_, rfl⟩
  have hsim : simulate dt gravity numIters F = fadeDensity (advectSmoke dt F5) := by
    subst e5; subst e4; subst e3; subst e2; subst e1; rfl
  have f1 : F1 = { F with v := F1.v } := by rw [e1]; exact integrate_frame dt gravity F
  have f2 : F2 = { F with v := F2.v, p := F2.p } := by rw [e2, f1]
  have f3 : F3 = { F2 with u := F3.u, v := F3.v, p := F3.p } := by
    rw [e3]; exact solveIncompressibility_frame numIters dt F2
  have f4 : F4 = { F3 with u := F4.u, v := F4.v } := by rw [e4]; exact extrapolate_frame F3
  have f5 : F5 = { F4 with u := F5.u, v := F5.v, newU := F5.newU, newV := F5.newV } := by
    rw [e5]; exact advectVel_frame dt F4
  have g3 : F3 = { F with u := F3.u, v := F3.v, p := F3.p } := by rw [f3, f2]
  have g4 : F4 = { F with u := F4.u, v := F4.v, p := F4.p } := by rw [f4, g3]
  have g5 : F5 = { F with u := F5.u, v := F5.v, p := F5.p, newU := F5.newU, newV := F5.newV } := by
    rw [f5, g4]
  exact ⟨F5, hsim, by rw [g5], by rw [g5], by rw [g5], by rw [g5], by rw [g5], by rw [g5]⟩

theorem advectSmokeCell_pos (dt : ℚ) (i j : Int) (F : Fluid)
    (hc : rd F.s (i * F.numY + j) ≠ 0) :
    advectSmokeCell dt i j F =
      { F with newM := (wr F.newM (i * F.numY + j)
          (sampleField F
            ((i : ℚ) * F.h + 1 / 2 * F.h -
              dt * ((rd F.u (i * F.numY + j) + rd F.u ((i + 1) * F.numY + j)) * (1 / 2)))
            ((j : ℚ) * F.h + 1 / 2 * F.h -
              dt * ((rd F.v (i * F.numY + j) + rd F.v (i * F.numY + j + 1)) * (1 / 2)))
            S_FIELD)) } := by
  unfold advectSmokeCell; rw [if_pos hc]

theorem advectSmokeCell_neg (dt : ℚ) (i j : Int) (F : Fluid)
    (hc : ¬ rd F.s (i * F.numY + j) ≠ 0) :
    advectSmokeCell dt i j F = F := by
  unfold advectSmokeCell; rw [if_neg hc]

/-- Invariants of the dye vector under `advectSmoke`: a property of the dye
vector that survives every write of a sample of the pre-call state at an open
interior cell holds for the dye vector after the call. -/
theorem advectSmoke_inv (dt : ℚ) (G : Fluid) (P : List ℚ → Prop) (h0 : P G.m)
    (hstep : ∀ (l : List ℚ) (i j : Int) (x y : ℚ), 1 ≤ i → i < G.numX - 1 → 1 ≤ j →
      j < G.numY - 1 → rd G.s (i * G.numY + j) ≠ 0 → P l →
      P (wr l (i * G.numY + j) (sampleField G x y S_FIELD))) :
    P (advectSmoke dt G).m := by
  have key := @forRange_inv Fluid 1 (G.numX - 1) (fun i st => forRange 1 (G.numY - 1)
      (fun j st1 => advectSmokeCell dt i j st1) st)
    { G with newM := G.m }
    (fun st => st = { G with newM := st.newM } ∧ P st.newM) ⟨rfl, h0⟩
    (by
      intro i st hi0 hi1 hI
      apply forRange_inv _ st (fun st => st = { G with newM := st.newM } ∧ P st.newM) hI
      intro j st1 hj0 hj1 hI1
      have aX : st1.numX = G.numX := by rw [hI1.1]
      have aY : st1.numY = G.numY := by rw [hI1.1]
      have ah : st1.h = G.h := by rw [hI1.1]
      have as : st1.s = G.s := by rw [hI1.1]
      have au : st1.u = G.u := by rw [hI1.1]
      have av : st1.v = G.v := by rw [hI1.1]
      have am : st1.m = G.m := by rw [hI1.1]
      by_cases hc : rd st1.s (i * st1.numY + j) ≠ 0
      · rw [advectSmokeCell_pos dt i j st1 hc]
        refine ⟨?_, ?_⟩
        · dsimp only
          rw [hI1.1]
        · dsimp only
          rw [sampleField_congr aX aY ah au av am, aY]
          rw [as, aY] at hc
          exact hstep st1.newM i j _ _ hi0 hi1 hj0 hj1 hc hI1.2
      · rw [advectSmokeCell_neg dt i j st1 hc]
        exact hI1)
  exact key.2

theorem advectSmoke_length (dt : ℚ) (G : Fluid) :
    (advectSmoke dt G).m.length = G.m.length :=
  advectSmoke_inv dt G (fun l => l.length = G.m.length) rfl
    (fun l i j x y _ _ _ _ _ hl => by beta_reduce at hl ⊢; rw [length_wr]; exact hl)

/-- `advectSmoke` writes only at open interior cells. -/
theorem advectSmoke_untouched (dt : ℚ) (G : Fluid) (k : Int)
    (hk : ∀ i j, 1 ≤ i → i < G.numX - 1 → 1 ≤ j → j < G.numY - 1 →
      rd G.s (i * G.numY + j) ≠ 0 → k ≠ i * G.numY + j) :
    rd (advectSmoke dt G).m k = rd G.m k :=
  advectSmoke_inv dt G (fun l => rd l k = rd G.m k) rfl
    (fun l i j x y h1 h2 h3 h4 h5 hl => by
      beta_reduce at hl ⊢
      rw [rd_wr_ne _ _ (hk i j h1 h2 h3 h4 h5)]; exact hl)

/-- The dye of a solid cell or of a cell of the border ring after a tick. -/
theorem simulate_dye_inert (dt gravity : ℚ) (numIters : Int) (F : Fluid)
    (hm : (F.m.length : Int) = F.numCells) (i j : Int) (hj0 : 0 ≤ j) (hj1 : j < F.numY)
    (hc : rd F.s (i * F.numY + j) = 0 ∨ onRing F.numX F.numY i j) :
    rd (simulate dt gravity numIters F).m (i * F.numY + j) =
      499 / 500 * rd F.m (i * F.numY + j) := by
  obtain ⟨G, hsim, gX, gY, gC, gh, gs, gm⟩ := simulate_tail dt gravity numIters F
  have fC : (advectSmoke dt G).numCells = F.numCells := by rw [advectSmoke_frame]; exact gC
  rw [hsim, fadeDensity_spec _ (by rw [advectSmoke_length, fC, gm]; exact hm),
    advectSmoke_untouched, gm, mul_comm]
  intro i' j' h1 h2 h3 h4 h5 he
  rw [gX] at h2
  rw [gY] at h4 he
  rw [gs, gY] at h5
  obtain ⟨e1, e2⟩ := @flat_inj F.numY i j i' j' hj0 hj1 (by omega) (by omega) he
  subst e1 e2
  rcases hc with c | c
  · exact h5 c
  · unfold onRing at c
    omega

/-- C20: solid and border cells are inert during a tick (exact arithmetic). For
every well-formed grid state and all `dt`, `gravity`, `iterations`, after
`simulate(dt, gravity, iterations)` (a) the dye of every cell of the grid that
is solid (`s = 0`) or lies on the border ring is `0.998` times its pre-tick
value, and (b) at every interior solid cell `u` and `v` have their pre-tick
values. -/
theorem C20_solid_and_border_inert (dt gravity : ℚ) (numIters : Int) (F : Fluid)
    (hW : WellFormed F) :
    (∀ i j, 0 ≤ i → i < F.numX → 0 ≤ j → j < F.numY →
      (rd F.s (i * F.numY + j) = 0 ∨ onRing F.numX F.numY i j) →
      rd (simulate dt gravity numIters F).m (i * F.numY + j) =
        499 / 500 * rd F.m (i * F.numY + j)) ∧
    (∀ i j, 1 ≤ i → i ≤ F.numX - 2 → 1 ≤ j → j ≤ F.numY - 2 →
      rd F.s (i * F.numY + j) = 0 →
      rd (simulate dt gravity numIters F).u (i * F.numY + j) = rd F.u (i * F.numY + j) ∧
      rd (simulate dt gravity numIters F).v (i * F.numY + j) = rd F.v (i * F.numY + j)) := by
  obtain ⟨_, _, _, _, _, _, _, _, _, hm, _⟩ := hW
  exact ⟨fun i j _ _ h3 h4 h5 =>
      simulate_dye_inert dt gravity numIters F hm i j h3 h4 h5,
    fun i j h1 h2 h3 h4 h5 => simulate_solid_interior dt gravity numIters F i j h1 h2 h3 h4 h5⟩

/-- C20, instance: the 3 x 3 grid (centre cell solid) carrying velocity and dye
at the border cell `(1, 2)`, with `dt = 1`, `gravity = 1` and two projector
iterations. -/
theorem C20_solid_and_border_inert_witness :
    WellFormed grid3Dyed ∧
    ((∀ i j, 0 ≤ i → i < grid3Dyed.numX → 0 ≤ j → j < grid3Dyed.numY →
      (rd grid3Dyed.s (i * grid3Dyed.numY + j) = 0 ∨
        onRing grid3Dyed.numX grid3Dyed.numY i j) →
      rd (simulate 1 1 2 grid3Dyed).m (i * grid3Dyed.numY + j) =
        499 / 500 * rd grid3Dyed.m (i * grid3Dyed.numY + j)) ∧
    (∀ i j, 1 ≤ i → i ≤ grid3Dyed.numX - 2 → 1 ≤ j → j ≤ grid3Dyed.numY - 2 →
      rd grid3Dyed.s (i * grid3Dyed.numY + j) = 0 →
      rd (simulate 1 1 2 grid3Dyed).u (i * grid3Dyed.numY + j)
        = rd grid3Dyed.u (i * grid3Dyed.numY + j) ∧
      rd (simulate 1 1 2 grid3Dyed).v (i * grid3Dyed.numY + j)
        = rd grid3Dyed.v (i * grid3Dyed.numY + j))) :=
  ⟨by decide!, C20_solid_and_border_inert 1 1 2 grid3Dyed (by decide!)⟩

/-! ## C19: dye bounds -/

/-- One axis of the interpolation: for a clamped coordinate `h <= c <= n*h` and
an offset `0 <= d <= h/2`, the weight
`((c - d) - x0*h) / h` with `x0 = min (floor ((c - d) / h)) (n - 1)` lies in
`[0, 1]`. -/
theorem axis_weight (h c d : ℚ) (n : Int) (hh : 0 < h) (hc2 : c ≤ (n : ℚ) * h)
    (hd0 : 0 ≤ d) :
    0 ≤ ((c - d) - ((min ⌊(c - d) * (1 / h)⌋ (n - 1) : Int) : ℚ) * h) * (1 / h) ∧
    ((c - d) - ((min ⌊(c - d) * (1 / h)⌋ (n - 1) : Int) : ℚ) * h) * (1 / h) ≤ 1 := by
  have hne : h ≠ 0 := ne_of_gt hh
  have e : ∀ z : ℚ, ((c - d) - z * h) * (1 / h) = (c - d) * (1 / h) - z := by
    intro z
    field_simp
    ring
  rw [e]
  have hq : (c - d) * (1 / h) ≤ (n : ℚ) := by
    rw [mul_one_div, div_le_iff₀ hh]
    linarith
  have hfl : ((⌊(c - d) * (1 / h)⌋ : Int) : ℚ) ≤ (c - d) * (1 / h) := Int.floor_le _
  have hlt : (c - d) * (1 / h) < ((⌊(c - d) * (1 / h)⌋ : Int) : ℚ) + 1 := Int.lt_floor_add_one _
  constructor
  · have h1 : ((min ⌊(c - d) * (1 / h)⌋ (n - 1) : Int) : ℚ) ≤ ((⌊(c - d) * (1 / h)⌋ : Int) : ℚ) := by
      exact_mod_cast min_le_left _ _
    linarith
  · by_cases hcase : ⌊(c - d) * (1 / h)⌋ ≤ n - 1
    · rw [min_eq_left hcase]
      linarith
    · rw [min_eq_right (by omega)]
      push_cast
      linarith

/-- The interpolation weights of the sampler lie in `[0, 1]`. -/
theorem weight_bounds (F : Fluid) (x y : ℚ) (field : Int) (hh : 0 < F.h)
    (hX : 1 ≤ F.numX) (hY : 1 ≤ F.numY) :
    (0 ≤ weightTx F x field ∧ weightTx F x field ≤ 1) ∧
    (0 ≤ weightTy F y field ∧ weightTy F y field ≤ 1) :=
  ⟨axis_weight F.h (clampX F x) (sampleDx F field) F.numX hh (clampX_le F x hh hX)
      (sampleDx_bounds F field hh).1,
   axis_weight F.h (clampY F y) (sampleDy F field) F.numY hh (clampY_le F y hh hY)
      (sampleDy_bounds F field hh).1⟩

/-- A bilinear blend with weights in `[0, 1]` of four values of `[0, M]` lies
in `[0, M]`. -/
theorem blend_bounds (tx ty a b c d M : ℚ) (hx0 : 0 ≤ tx) (hx1 : tx ≤ 1) (hy0 : 0 ≤ ty)
    (hy1 : ty ≤ 1) (ha : 0 ≤ a ∧ a ≤ M) (hb : 0 ≤ b ∧ b ≤ M) (hc : 0 ≤ c ∧ c ≤ M)
    (hd : 0 ≤ d ∧ d ≤ M) :
    0 ≤ (1 - tx) * (1 - ty) * a + tx * (1 - ty) * b + tx * ty * c + (1 - tx) * ty * d ∧
    (1 - tx) * (1 - ty) * a + tx * (1 - ty) * b + tx * ty * c + (1 - tx) * ty * d ≤ M := by
  have w1 : 0 ≤ (1 - tx) * (1 - ty) := mul_nonneg (by linarith) (by linarith)
  have w2 : 0 ≤ tx * (1 - ty) := mul_nonneg hx0 (by linarith)
  have w3 : 0 ≤ tx * ty := mul_nonneg hx0 hy0
  have w4 : 0 ≤ (1 - tx) * ty := mul_nonneg (by linarith) hy0
  constructor
  · have := mul_nonneg w1 ha.1
    have := mul_nonneg w2 hb.1
    have := mul_nonneg w3 hc.1
    have := mul_nonneg w4 hd.1
    linarith
  · have := mul_le_mul_of_nonneg_left ha.2 w1
    have := mul_le_mul_of_nonneg_left hb.2 w2
    have := mul_le_mul_of_nonneg_left hc.2 w3
    have := mul_le_mul_of_nonneg_left hd.2 w4
    have e : (1 - tx) * (1 - ty) * M + tx * (1 - ty) * M + tx * ty * M + (1 - tx) * ty * M
        = M := by ring
    linarith

/-- A dye sample is a convex combination of four dye values. -/
theorem sampleField_dye_bounds (F : Fluid) (x y M : ℚ) (hh : 0 < F.h)
    (hX : 1 ≤ F.numX) (hY : 1 ≤ F.numY) (hM : ∀ k, 0 ≤ rd F.m k ∧ rd F.m k ≤ M) :
    0 ≤ sampleField F x y S_FIELD ∧ sampleField F x y S_FIELD ≤ M := by
  rw [sampleField_stencil F x y S_FIELD (Or.inr (Or.inr rfl))]
  obtain ⟨⟨a1, a2⟩, b1, b2⟩ := weight_bounds F x y S_FIELD hh hX hY
  have e : sampleVec F S_FIELD = F.m := rfl
  rw [e]
  exact blend_bounds _ _ _ _ _ _ M a1 a2 b1 b2 (hM _) (hM _) (hM _) (hM _)

theorem rd_bounds_of_mem (l : List ℚ) (M : ℚ) (hM0 : 0 ≤ M)
    (h : ∀ a ∈ l, 0 ≤ a ∧ a ≤ M) : ∀ k, 0 ≤ rd l k ∧ rd l k ≤ M := by
  intro k
  by_cases hk : k < 0
  · rw [rd_of_lt l hk]; exact ⟨le_refl 0, hM0⟩
  · by_cases hk2 : (l.length : Int) ≤ k
    · rw [rd_of_ge l hk2]; exact ⟨le_refl 0, hM0⟩
    · have hlt : k.toNat < l.length := by omega
      have e : rd l k = l[k.toNat] := by
        unfold rd
        rw [if_neg hk, List.getD_eq_getElem l 0 hlt]
      rw [e]
      exact h _ (List.getElem_mem hlt)

theorem mem_bounds_of_rd (l : List ℚ) (P : ℚ → Prop) (h : ∀ k, P (rd l k)) :
    ∀ a ∈ l, P a := by
  intro a ha
  obtain ⟨n, hn, rfl⟩ := List.getElem_of_mem ha
  have e : rd l (n : Int) = l[n] := by
    unfold rd
    rw [if_neg (by omega)]
    simp [List.getD_eq_getElem?_getD, List.getElem?_eq_getElem hn]
  rw [← e]
  exact h _

theorem wr_bounds (l : List ℚ) (k : Int) (x M : ℚ) (hx : 0 ≤ x ∧ x ≤ M)
    (h : ∀ k', 0 ≤ rd l k' ∧ rd l k' ≤ M) : ∀ k', 0 ≤ rd (wr l k x) k' ∧ rd (wr l k x) k' ≤ M := by
  intro k'
  rw [rd_wr]
  split
  · exact hx
  · exact h k'

theorem advectSmoke_bounds (dt : ℚ) (G : Fluid) (M : ℚ) (hh : 0 < G.h)
    (hM : ∀ k, 0 ≤ rd G.m k ∧ rd G.m k ≤ M) :
    ∀ k, 0 ≤ rd (advectSmoke dt G).m k ∧ rd (advectSmoke dt G).m k ≤ M :=
  advectSmoke_inv dt G (fun l => ∀ k, 0 ≤ rd l k ∧ rd l k ≤ M) hM
    (fun l i j x y h1 h2 h3 h4 _ hl =>
      wr_bounds l _ _ M (sampleField_dye_bounds G x y M hh (by omega) (by omega) hM) hl)

theorem fadeDensity_bounds (G : Fluid) (M : ℚ)
    (hM : ∀ k, 0 ≤ rd G.m k ∧ rd G.m k ≤ M) :
    ∀ k, 0 ≤ rd (fadeDensity G).m k ∧ rd (fadeDensity G).m k ≤ M := by
  unfold fadeDensity
  apply forRange_inv _ G (fun st => ∀ k, 0 ≤ rd st.m k ∧ rd st.m k ≤ M) hM
  intro i st _ _ hst
  apply wr_bounds _ _ _ M _ hst
  have := hst i
  constructor
  · nlinarith [this.1]
  · nlinarith [this.1, this.2]

/-- C19: dye bounds are preserved by a tick (exact arithmetic, `h > 0`). On a
grid with at least one row and one column the interpolation weights `tx`, `ty`
computed by `sampleField` lie in `[0, 1]` for every query point and selector,
and a dye sample lies between `0` and any bound `M` of the dye values. For
every bound `M >= 0` and every grid state in which every dye value satisfies
`0 <= m[c] <= M`, after `simulate(dt, gravity, iterations)`, with any
velocity field and any arguments, every dye value again satisfies
`0 <= m[c] <= M`. -/
theorem C19_dye_bounds (dt gravity : ℚ) (numIters : Int) (F : Fluid) (M : ℚ)
    (hh : 0 < F.h) (hM0 : 0 ≤ M) (hM : ∀ a ∈ F.m, 0 ≤ a ∧ a ≤ M) :
    (1 ≤ F.numX → 1 ≤ F.numY → ∀ (x y : ℚ),
      (∀ field : Int, (0 ≤ weightTx F x field ∧ weightTx F x field ≤ 1) ∧
        (0 ≤ weightTy F y field ∧ weightTy F y field ≤ 1)) ∧
      0 ≤ sampleField F x y S_FIELD ∧ sampleField F x y S_FIELD ≤ M) ∧
    (∀ a ∈ (simulate dt gravity numIters F).m, 0 ≤ a ∧ a ≤ M) := by
  have hrd := rd_bounds_of_mem F.m M hM0 hM
  constructor
  · intro hX hY x y
    exact ⟨fun field => weight_bounds F x y field hh hX hY,
      sampleField_dye_bounds F x y M hh hX hY hrd⟩
  · obtain ⟨G, hsim, gX, gY, gC, gh, gs, gm⟩ := simulate_tail dt gravity numIters F
    rw [hsim]
    apply mem_bounds_of_rd _ (fun a => 0 ≤ a ∧ a ≤ M)
    apply fadeDensity_bounds
    apply advectSmoke_bounds dt G M (by rw [gh]; exact hh)
    rw [gm]
    exact hrd

/-- C19, instance: the 3 x 3 grid with `h = 1` carrying dye `7` at cell
`(1, 2)` and a non-zero velocity, bound `M = 7`, `dt = 1`, `gravity = 1`, two
projector iterations. -/
theorem C19_dye_bounds_witness :
    0 < grid3Dyed.h ∧ (0 : ℚ) ≤ 7 ∧ (∀ a ∈ grid3Dyed.m, 0 ≤ a ∧ a ≤ 7) ∧
    1 ≤ grid3Dyed.numX ∧ 1 ≤ grid3Dyed.numY ∧
    (∀ (x y : ℚ),
      (∀ field : Int, (0 ≤ weightTx grid3Dyed x field ∧ weightTx grid3Dyed x field ≤ 1) ∧
        (0 ≤ weightTy grid3Dyed y field ∧ weightTy grid3Dyed y field ≤ 1)) ∧
      0 ≤ sampleField grid3Dyed x y S_FIELD ∧ sampleField grid3Dyed x y S_FIELD ≤ 7) ∧
    (∀ a ∈ (simulate 1 1 2 grid3Dyed).m, 0 ≤ a ∧ a ≤ 7) :=
  ⟨by decide!, by decide!, by decide!, by decide!, by decide!,
   (C19_dye_bounds 1 1 2 grid3Dyed 7 (by decide!) (by decide!) (by decide!)).1
     (by decide!) (by decide!),
   (C19_dye_bounds 1 1 2 grid3Dyed 7 (by decide!) (by decide!) (by decide!)).2⟩

/-! ## The tick with checked indexing, in exact arithmetic -/

theorem rdC_some (f : List ℚ) (k : Int) (h0 : 0 ≤ k) (h1 : k < f.length) :
    rdC f k = some (rd f k) := by
  unfold rdC; rw [if_pos ⟨h0, h1⟩]

theorem wrC_some (f : List ℚ) (k : Int) (x : ℚ) (h0 : 0 ≤ k) (h1 : k < f.length) :
    wrC f k x = some (wr f k x) := by
  unfold wrC; rw [if_pos ⟨h0, h1⟩]

theorem divC_some (a b : ℚ) (h : b ≠ 0) : divC a b = some (a / b) := by
  unfold divC; rw [if_neg h]

/-- A loop whose checked body succeeds and agrees with the unchecked body on
every state satisfying an invariant succeeds and agrees with the unchecked
loop. -/
theorem forRangeC_ok {σ : Type} (lo hi : Int) (bodyC : Int → σ → Option σ)
    (body : Int → σ → σ) (Inv : σ → Prop) (st : σ) (h0 : Inv st)
    (hstep : ∀ i s, lo ≤ i → i < hi → Inv s → bodyC i s = some (body i s) ∧ Inv (body i s)) :
    forRangeC lo hi bodyC st = some (forRange lo hi body st) ∧
    Inv (forRange lo hi body st) := by
  unfold forRangeC
  exact forRange_rel (fun (a : Option σ) (b : σ) => a = some b ∧ Inv b)
    (fun i (acc : Option σ) => acc.bind (bodyC i)) body (some st) st ⟨rfl, h0⟩
    (by
      intro i s t hi0 hi1 hR
      obtain ⟨rfl, hI⟩ := hR
      exact hstep i t hi0 hi1 hI)

/-- The same for a double loop. -/
theorem forRangeC2_ok {σ : Type} (ilo ihi jlo jhi : Int) (bodyC : Int → Int → σ → Option σ)
    (body : Int → Int → σ → σ) (Inv : σ → Prop) (st : σ) (h0 : Inv st)
    (hstep : ∀ i j s, ilo ≤ i → i < ihi → jlo ≤ j → j < jhi → Inv s →
      bodyC i j s = some (body i j s) ∧ Inv (body i j s)) :
    forRangeC ilo ihi (fun i s => forRangeC jlo jhi (fun j s1 => bodyC i j s1) s) st =
      some (forRange ilo ihi (fun i s => forRange jlo jhi (fun j s1 => body i j s1) s) st) ∧
    Inv (forRange ilo ihi (fun i s => forRange jlo jhi (fun j s1 => body i j s1) s) st) :=
  forRangeC_ok ilo ihi _ _ Inv st h0
    (fun i s hi0 hi1 hI =>
      forRangeC_ok jlo jhi _ _ Inv s hI (fun j s1 hj0 hj1 hI1 => hstep i j s1 hi0 hi1 hj0 hj1 hI1))

theorem Keeps.refl (F : Fluid) : Keeps F F :=
  ⟨rfl, rfl, rfl, rfl, rfl, rfl, rfl, rfl, rfl, rfl, rfl, rfl⟩

theorem Keeps.trans {F G H : Fluid} (h1 : Keeps F G) (h2 : Keeps G H) : Keeps F H := by
  obtain ⟨a1, a2, a3, a4, a5, a6, a7, a8, a9, a10, a11, a12⟩ := h1
  obtain ⟨b1, b2, b3, b4, b5, b6, b7, b8, b9, b10, b11, b12⟩ := h2
  exact ⟨b1.trans a1, b2.trans a2, b3.trans a3, b4.trans a4, b5.trans a5, b6.trans a6,
    b7.trans a7, b8.trans a8, b9.trans a9, b10.trans a10, b11.trans a11, b12.trans a12⟩

theorem Safe.keeps {F G : Fluid} (hS : Safe F) (hK : Keeps F G) : Safe G := by
  obtain ⟨⟨w1, w2, w3, w4, w5, w6, w7, w8, w9, w10, w11⟩, hX, hY, hh⟩ := hS
  obtain ⟨a1, a2, a3, a4, a5, a6, a7, a8, a9, a10, a11, a12⟩ := hK
  refine ⟨⟨?_, ?_, ?_, ?_, ?_, ?_, ?_, ?_, ?_, ?_, ?_⟩, ?_, ?_, ?_⟩
  · rw [a1]; exact w1
  · rw [a2]; exact w2
  · rw [a3, a1, a2]; exact w3
  · rw [a5, a3]; exact w4
  · rw [a6, a3]; exact w5
  · rw [a7, a3]; exact w6
  · rw [a8, a3]; exact w7
  · rw [a9, a3]; exact w8
  · rw [a10, a3]; exact w9
  · rw [a11, a3]; exact w10
  · rw [a12, a3]; exact w11
  · rw [a1]; exact hX
  · rw [a2]; exact hY
  · rw [a4]; exact hh

/-- The vector sizes of a safe state, in terms of its dimensions. -/
theorem Safe.sizes {F : Fluid} (hS : Safe F) :
    (F.u.length : Int) = F.numX * F.numY ∧ (F.v.length : Int) = F.numX * F.numY ∧
    (F.newU.length : Int) = F.numX * F.numY ∧ (F.newV.length : Int) = F.numX * F.numY ∧
    (F.p.length : Int) = F.numX * F.numY ∧ (F.s.length : Int) = F.numX * F.numY ∧
    (F.m.length : Int) = F.numX * F.numY ∧ (F.newM.length : Int) = F.numX * F.numY := by
  obtain ⟨⟨_, _, w3, w4, w5, w6, w7, w8, w9, w10, w11⟩, _⟩ := hS
  rw [w3] at w4 w5 w6 w7 w8 w9 w10 w11
  exact ⟨w4, w5, w6, w7, w8, w9, w10, w11⟩

theorem integrateCellC_ok (dt gravity : ℚ) (i j : Int) (F : Fluid) (hS : Safe F)
    (hi0 : 1 ≤ i) (hi1 : i < F.numX) (hj0 : 1 ≤ j) (hj1 : j < F.numY - 1) :
    integrateCellC dt gravity i j F = some (integrateCell dt gravity i j F) ∧
    Keeps F (integrateCell dt gravity i j F) := by
  obtain ⟨lu, lv, lnu, lnv, lp, ls, lm, lnm⟩ := hS.sizes
  have b1 := @flat_bounds F.numX F.numY i j (by omega) hi1 (by omega) (by omega)
  have b2 := @flat_bounds F.numX F.numY i (j - 1) (by omega) hi1 (by omega) (by omega)
  have e2 : i * F.numY + (j - 1) = i * F.numY + j - 1 := by ring
  rw [e2] at b2
  constructor
  · unfold integrateCellC integrateCell
    simp only [rdC, wrC, ls, lv, b1.1, b1.2, b2.1, b2.2, and_self, if_true,
      Option.bind_eq_bind, Option.some_bind, Option.pure_def]
    by_cases h1 : rd F.s (i * F.numY + j) = 0
    · simp [h1]
    · by_cases h2 : rd F.s (i * F.numY + j - 1) = 0
      · simp [h1, h2]
      · simp [h1, h2]
  · unfold integrateCell
    split
    · exact ⟨rfl, rfl, rfl, rfl, rfl, length_wr _ _ _, rfl, rfl, rfl, rfl, rfl, rfl⟩
    · exact Keeps.refl F

theorem integrateC_ok (dt gravity : ℚ) (F : Fluid) (hS : Safe F) :
    integrateC dt gravity F = some (integrate dt gravity F) ∧
    Keeps F (integrate dt gravity F) := by
  unfold integrateC integrate
  apply forRangeC2_ok 1 F.numX 1 (F.numY - 1) (fun i j st => integrateCellC dt gravity i j st)
    (fun i j st => integrateCell dt gravity i j st) (Keeps F) F (Keeps.refl F)
  intro i j st hi0 hi1 hj0 hj1 hK
  have hS' := hS.keeps hK
  obtain ⟨h1, h2⟩ := integrateCellC_ok dt gravity i j st hS' hi0 (by rw [hK.1]; exact hi1) hj0
    (by rw [hK.2.1]; exact hj1)
  exact ⟨h1, hK.trans h2⟩

/-- The flat indices of an interior cell and of its four neighbours are in
range. -/
theorem interior_bounds {nX nY i j : Int} (hi0 : 1 ≤ i) (hi1 : i < nX - 1) (hj0 : 1 ≤ j)
    (hj1 : j < nY - 1) :
    (0 ≤ i * nY + j ∧ i * nY + j < nX * nY) ∧
    (0 ≤ (i - 1) * nY + j ∧ (i - 1) * nY + j < nX * nY) ∧
    (0 ≤ (i + 1) * nY + j ∧ (i + 1) * nY + j < nX * nY) ∧
    (0 ≤ i * nY + j - 1 ∧ i * nY + j - 1 < nX * nY) ∧
    (0 ≤ i * nY + j + 1 ∧ i * nY + j + 1 < nX * nY) := by
  have b1 := @flat_bounds nX nY i j (by omega) (by omega) (by omega) (by omega)
  have b2 := @flat_bounds nX nY (i - 1) j (by omega) (by omega) (by omega) (by omega)
  have b3 := @flat_bounds nX nY (i + 1) j (by omega) (by omega) (by omega) (by omega)
  have b4 := @flat_bounds nX nY i (j - 1) (by omega) (by omega) (by omega) (by omega)
  have b5 := @flat_bounds nX nY i (j + 1) (by omega) (by omega) (by omega) (by omega)
  have e4 : i * nY + (j - 1) = i * nY + j - 1 := by ring
  have e5 : i * nY + (j + 1) = i * nY + j + 1 := by ring
  rw [e4] at b4
  rw [e5] at b5
  exact ⟨b1, b2, b3, b4, b5⟩

theorem solveCell_keeps (cp : ℚ) (i j : Int) (F : Fluid) : Keeps F (solveCell cp i j F) := by
  unfold solveCell
  split
  · exact Keeps.refl F
  · dsimp only
    split
    · exact Keeps.refl F
    · refine ⟨rfl, rfl, rfl, rfl, ?_, ?_, rfl, rfl, ?_, rfl, rfl, rfl⟩
      · dsimp only; rw [length_wr, length_wr]
      · dsimp only; rw [length_wr, length_wr]
      · dsimp only; rw [length_wr]

theorem solveCellC_ok (cp : ℚ) (i j : Int) (F : Fluid) (hS : Safe F)
    (hi0 : 1 ≤ i) (hi1 : i < F.numX - 1) (hj0 : 1 ≤ j) (hj1 : j < F.numY - 1) :
    solveCellC cp i j F = some (solveCell cp i j F) := by
  obtain ⟨lu, lv, lnu, lnv, lp, ls, lm, lnm⟩ := hS.sizes
  obtain ⟨⟨a0, a1⟩, ⟨b0, b1⟩, ⟨c0, c1⟩, ⟨d0, d1⟩, ⟨e0, e1⟩⟩ :=
    @interior_bounds F.numX F.numY i j hi0 hi1 hj0 hj1
  unfold solveCellC solveCell
  simp only [rdC, ls, a0, a1, b0, b1, c0, c1, d0, d1, e0, e1,
    and_self, if_true, Option.bind_eq_bind, Option.some_bind, Option.pure_def]
  by_cases h1 : rd F.s (i * F.numY + j) = 0
  · simp only [h1, if_true]
  · simp only [h1, if_false]
    by_cases h2 : rd F.s ((i - 1) * F.numY + j) + rd F.s ((i + 1) * F.numY + j) +
        rd F.s (i * F.numY + j - 1) + rd F.s (i * F.numY + j + 1) = 0
    · simp only [h2, if_true]
    · simp only [h2, if_false]
      unfold solveCorrectC solveVelocityC
      simp only [rdC, wrC, divC, length_wr, lu, lv, lp, a0, a1, c0, c1, e0, e1, h2,
        and_self, if_true, if_false, Option.bind_eq_bind, Option.some_bind, Option.pure_def]

theorem solveSweepC_ok (cp : ℚ) (F : Fluid) (hS : Safe F) :
    solveSweepC cp F = some (solveSweep cp F) ∧ Keeps F (solveSweep cp F) := by
  unfold solveSweepC solveSweep
  apply forRangeC2_ok 1 (F.numX - 1) 1 (F.numY - 1) (fun i j st => solveCellC cp i j st)
    (fun i j st => solveCell cp i j st) (Keeps F) F (Keeps.refl F)
  intro i j st hi0 hi1 hj0 hj1 hK
  exact ⟨solveCellC_ok cp i j st (hS.keeps hK) hi0 (by rw [hK.1]; exact hi1) hj0
    (by rw [hK.2.1]; exact hj1), hK.trans (solveCell_keeps cp i j st)⟩

theorem solveIncompressibilityC_ok (numIters : Int) (dt : ℚ) (F : Fluid) (hS : Safe F)
    (hdt : dt ≠ 0) :
    solveIncompressibilityC numIters dt F = some (solveIncompressibility numIters dt F) ∧
    Keeps F (solveIncompressibility numIters dt F) := by
  unfold solveIncompressibilityC solveIncompressibility
  rw [divC_some _ _ hdt]
  simp only [Option.bind_eq_bind, Option.some_bind]
  apply forRangeC_ok 0 numIters (fun _ F1 => solveSweepC (DENSITY * F.h / dt) F1)
    (fun _ F1 => solveSweep (DENSITY * F.h / dt) F1) (Keeps F) F (Keeps.refl F)
  intro i st _ _ hK
  obtain ⟨h1, h2⟩ := solveSweepC_ok (DENSITY * F.h / dt) st (hS.keeps hK)
  exact ⟨h1, hK.trans h2⟩

theorem extrapolateUC_ok (i : Int) (F : Fluid) (hS : Safe F) (hi0 : 0 ≤ i) (hi1 : i < F.numX) :
    extrapolateUC i F = some (extrapolateU i F) ∧ Keeps F (extrapolateU i F) := by
  obtain ⟨lu, lv, lnu, lnv, lp, ls, lm, lnm⟩ := hS.sizes
  have hY : 2 ≤ F.numY := hS.2.2.1
  have b0 := @flat_bounds F.numX F.numY i 0 hi0 hi1 (by omega) (by omega)
  have b1 := @flat_bounds F.numX F.numY i 1 hi0 hi1 (by omega) (by omega)
  have b2 := @flat_bounds F.numX F.numY i (F.numY - 2) hi0 hi1 (by omega) (by omega)
  have b3 := @flat_bounds F.numX F.numY i (F.numY - 1) hi0 hi1 (by omega) (by omega)
  have c2 : 0 ≤ i * F.numY + F.numY - 2 ∧ i * F.numY + F.numY - 2 < F.numX * F.numY := by
    omega
  have c3 : 0 ≤ i * F.numY + F.numY - 1 ∧ i * F.numY + F.numY - 1 < F.numX * F.numY := by
    omega
  constructor
  · unfold extrapolateUC extrapolateU
    simp only [rdC, wrC, length_wr, lu, b0.1, b0.2, b1.1, b1.2, c2.1, c2.2, c3.1, c3.2,
      and_self, if_true, Option.bind_eq_bind, Option.some_bind, Option.pure_def]
  · unfold extrapolateU
    refine ⟨rfl, rfl, rfl, rfl, ?_, rfl, rfl, rfl, rfl, rfl, rfl, rfl⟩
    dsimp only
    rw [length_wr, length_wr]

theorem extrapolateVC_ok (j : Int) (F : Fluid) (hS : Safe F) (hj0 : 0 ≤ j) (hj1 : j < F.numY) :
    extrapolateVC j F = some (extrapolateV j F) ∧ Keeps F (extrapolateV j F) := by
  obtain ⟨lu, lv, lnu, lnv, lp, ls, lm, lnm⟩ := hS.sizes
  have hX : 2 ≤ F.numX := hS.2.1
  have b0 := @flat_bounds F.numX F.numY 0 j (by omega) (by omega) hj0 hj1
  have b1 := @flat_bounds F.numX F.numY 1 j (by omega) (by omega) hj0 hj1
  have b2 := @flat_bounds F.numX F.numY (F.numX - 2) j (by omega) (by omega) hj0 hj1
  have b3 := @flat_bounds F.numX F.numY (F.numX - 1) j (by omega) (by omega) hj0 hj1
  constructor
  · unfold extrapolateVC extrapolateV
    simp only [rdC, wrC, length_wr, lv, b0.1, b0.2, b1.1, b1.2, b2.1, b2.2, b3.1, b3.2,
      and_self, if_true, Option.bind_eq_bind, Option.some_bind, Option.pure_def]
  · unfold extrapolateV
    refine ⟨rfl, rfl, rfl, rfl, rfl, ?_, rfl, rfl, rfl, rfl, rfl, rfl⟩
    dsimp only
    rw [length_wr, length_wr]

theorem dampCellC_ok (i j : Int) (F : Fluid) (hS : Safe F) (hi0 : 0 ≤ i) (hi1 : i < F.numX)
    (hj0 : 0 ≤ j) (hj1 : j < F.numY) :
    dampCellC i j F = some (dampCell i j F) ∧ Keeps F (dampCell i j F) := by
  obtain ⟨lu, lv, lnu, lnv, lp, ls, lm, lnm⟩ := hS.sizes
  have b0 := @flat_bounds F.numX F.numY i j hi0 hi1 hj0 hj1
  constructor
  · unfold dampCellC dampCell
    by_cases hc : i = 0 ∨ i = F.numX - 1 ∨ j = 0 ∨ j = F.numY - 1
    · simp only [hc, rdC, wrC, length_wr, lu, lv, b0.1, b0.2,
        and_self, if_true, Option.bind_eq_bind, Option.some_bind, Option.pure_def]
    · simp only [hc, if_false, Option.pure_def]
  · unfold dampCell
    split
    · exact ⟨rfl, rfl, rfl, rfl, length_wr _ _ _, length_wr _ _ _, rfl, rfl, rfl, rfl, rfl, rfl⟩
    · exact Keeps.refl F

theorem extrapolateC_ok (F : Fluid) (hS : Safe F) :
    extrapolateC F = some (extrapolate F) ∧ Keeps F (extrapolate F) := by
  obtain ⟨h1, k1⟩ := forRangeC_ok 0 F.numX extrapolateUC extrapolateU (Keeps F) F
    (Keeps.refl F) (fun i st hi0 hi1 hK => by
      obtain ⟨a, b⟩ := extrapolateUC_ok i st (hS.keeps hK) hi0 (by rw [hK.1]; exact hi1)
      exact ⟨a, hK.trans b⟩)
  obtain ⟨h2, k2⟩ := forRangeC_ok 0 (forRange 0 F.numX extrapolateU F).numY
    extrapolateVC extrapolateV (Keeps F) (forRange 0 F.numX extrapolateU F) k1
    (fun j st hj0 hj1 hK => by
      obtain ⟨a, b⟩ := extrapolateVC_ok j st (hS.keeps hK) hj0
        (by rw [hK.2.1, ← k1.2.1]; exact hj1)
      exact ⟨a, hK.trans b⟩)
  obtain ⟨h3, k3⟩ := forRangeC2_ok
    0 (forRange 0 (forRange 0 F.numX extrapolateU F).numY extrapolateV
      (forRange 0 F.numX extrapolateU F)).numX
    0 (forRange 0 (forRange 0 F.numX extrapolateU F).numY extrapolateV
      (forRange 0 F.numX extrapolateU F)).numY
    (fun i j st => dampCellC i j st) (fun i j st => dampCell i j st) (Keeps F)
    (forRange 0 (forRange 0 F.numX extrapolateU F).numY extrapolateV
      (forRange 0 F.numX extrapolateU F)) k2
    (fun i j st hi0 hi1 hj0 hj1 hK => by
      obtain ⟨a, b⟩ := dampCellC_ok i j st (hS.keeps hK) hi0
        (by rw [hK.1, ← k2.1]; exact hi1) hj0 (by rw [hK.2.1, ← k2.2.1]; exact hj1)
      exact ⟨a, hK.trans b⟩)
  constructor
  · unfold extrapolateC extrapolate
    simp only [h1, h2, Option.bind_eq_bind, Option.some_bind]
    exact h3
  · unfold extrapolate
    exact k3

theorem interpolateC_ok (F : Fluid) (f : List ℚ) (dx dy x y : ℚ) (hh : 0 < F.h)
    (hX : 1 ≤ F.numX) (hY : 1 ≤ F.numY) (hf : (f.length : Int) = F.numX * F.numY)
    (hx : F.h ≤ x) (hy : F.h ≤ y) (hdx : dx ≤ 1 / 2 * F.h) (hdy : dy ≤ 1 / 2 * F.h) :
    interpolateC F (1 / F.h) f dx dy x y = some (interpolate F f dx dy x y) := by
  obtain ⟨a1, a2, a3⟩ := axis_bounds F.h x dx F.numX hh hX hx hdx
  obtain ⟨b1, b2, b3⟩ := axis_bounds F.h y dy F.numY hh hY hy hdy
  have c00 := @flat_bounds F.numX F.numY _ _ a1 (by omega) b1 (by omega)
  have c10 := @flat_bounds F.numX F.numY _ _ (a1.trans a2) (by omega) b1 (by omega)
  have c11 := @flat_bounds F.numX F.numY _ _ (a1.trans a2) (by omega) (b1.trans b2) (by omega)
  have c01 := @flat_bounds F.numX F.numY _ _ a1 (by omega) (b1.trans b2) (by omega)
  unfold interpolateC interpolate
  simp only [rdC, hf, c00.1, c00.2, c10.1, c10.2, c11.1, c11.2, c01.1, c01.2,
    and_self, if_true, Option.bind_eq_bind, Option.some_bind, Option.pure_def]

theorem sampleFieldC_ok (F : Fluid) (x y : ℚ) (field : Int) (hS : Safe F) :
    sampleFieldC F x y field = some (sampleField F x y field) := by
  obtain ⟨lu, lv, lnu, lnv, lp, ls, lm, lnm⟩ := hS.sizes
  obtain ⟨_, hX, hY, hh⟩ := hS
  have hne : F.h ≠ 0 := ne_of_gt hh
  have h2 : (1 / 2 : ℚ) * F.h ≤ 1 / 2 * F.h := le_refl _
  have h0 : (0 : ℚ) ≤ 1 / 2 * F.h := by linarith
  unfold sampleFieldC sampleField
  rw [divC_some _ _ hne]
  simp only [Option.bind_eq_bind, Option.some_bind, Option.pure_def]
  by_cases f1 : field = U_FIELD
  · simp only [f1, if_true]
    exact interpolateC_ok F F.u _ _ _ _ hh (by omega) (by omega) lu (le_max_right _ _)
      (le_max_right _ _) h0 h2
  · by_cases f2 : field = V_FIELD
    · simp only [f1, f2, if_true, if_false]
      exact interpolateC_ok F F.v _ _ _ _ hh (by omega) (by omega) lv (le_max_right _ _)
        (le_max_right _ _) h2 h0
    · by_cases f3 : field = S_FIELD
      · simp only [f1, f2, f3, if_true, if_false]
        exact interpolateC_ok F F.m _ _ _ _ hh (by omega) (by omega) lm (le_max_right _ _)
          (le_max_right _ _) h2 h2
      · simp only [f1, f2, f3, if_false]

theorem avgUC_ok (F : Fluid) (i j : Int) (hS : Safe F) (hi0 : 0 ≤ i) (hi1 : i < F.numX - 1)
    (hj0 : 1 ≤ j) (hj1 : j < F.numY) : avgUC F i j = some (avgU F i j) := by
  obtain ⟨lu, lv, lnu, lnv, lp, ls, lm, lnm⟩ := hS.sizes
  have b1 := @flat_bounds F.numX F.numY i (j - 1) hi0 (by omega) (by omega) (by omega)
  have b2 := @flat_bounds F.numX F.numY i j hi0 (by omega) (by omega) hj1
  have b3 := @flat_bounds F.numX F.numY (i + 1) (j - 1) (by omega) (by omega) (by omega)
    (by omega)
  have b4 := @flat_bounds F.numX F.numY (i + 1) j (by omega) (by omega) (by omega) hj1
  have e1 : i * F.numY + (j - 1) = i * F.numY + j - 1 := by ring
  have e3 : (i + 1) * F.numY + (j - 1) = (i + 1) * F.numY + j - 1 := by ring
  rw [e1] at b1
  rw [e3] at b3
  unfold avgUC avgU
  simp only [rdC, lu, b1.1, b1.2, b2.1, b2.2, b3.1, b3.2, b4.1, b4.2,
    and_self, if_true, Option.bind_eq_bind, Option.some_bind, Option.pure_def]

theorem avgVC_ok (F : Fluid) (i j : Int) (hS : Safe F) (hi0 : 1 ≤ i) (hi1 : i < F.numX)
    (hj0 : 0 ≤ j) (hj1 : j < F.numY - 1) : avgVC F i j = some (avgV F i j) := by
  obtain ⟨lu, lv, lnu, lnv, lp, ls, lm, lnm⟩ := hS.sizes
  have b1 := @flat_bounds F.numX F.numY (i - 1) j (by omega) (by omega) hj0 (by omega)
  have b2 := @flat_bounds F.numX F.numY i j (by omega) hi1 hj0 (by omega)
  have b3 := @flat_bounds F.numX F.numY (i - 1) (j + 1) (by omega) (by omega) (by omega)
    (by omega)
  have b4 := @flat_bounds F.numX F.numY i (j + 1) (by omega) hi1 (by omega) (by omega)
  have e3 : (i - 1) * F.numY + (j + 1) = (i - 1) * F.numY + j + 1 := by ring
  have e4 : i * F.numY + (j + 1) = i * F.numY + j + 1 := by ring
  rw [e3] at b3
  rw [e4] at b4
  unfold avgVC avgV
  simp only [rdC, lv, b1.1, b1.2, b2.1, b2.2, b3.1, b3.2, b4.1, b4.2,
    and_self, if_true, Option.bind_eq_bind, Option.some_bind, Option.pure_def]

theorem advectUCell_keeps (dt : ℚ) (i j : Int) (F : Fluid) :
    Keeps F (advectUCell dt i j F) := by
  unfold advectUCell
  split
  · exact ⟨rfl, rfl, rfl, rfl, rfl, rfl, length_wr _ _ _, rfl, rfl, rfl, rfl, rfl⟩
  · exact Keeps.refl F

theorem advectVCell_keeps (dt : ℚ) (i j : Int) (F : Fluid) :
    Keeps F (advectVCell dt i j F) := by
  unfold advectVCell
  split
  · exact ⟨rfl, rfl, rfl, rfl, rfl, rfl, rfl, length_wr _ _ _, rfl, rfl, rfl, rfl⟩
  · exact Keeps.refl F

theorem advectSmokeCell_keeps (dt : ℚ) (i j : Int) (F : Fluid) :
    Keeps F (advectSmokeCell dt i j F) := by
  unfold advectSmokeCell
  split
  · exact ⟨rfl, rfl, rfl, rfl, rfl, rfl, rfl, rfl, rfl, rfl, rfl, length_wr _ _ _⟩
  · exact Keeps.refl F

theorem advectUCellC_ok (dt : ℚ) (i j : Int) (F : Fluid) (hS : Safe F)
    (hi0 : 1 ≤ i) (hi1 : i < F.numX) (hj0 : 1 ≤ j) (hj1 : j < F.numY) :
    advectUCellC dt i j F = some (advectUCell dt i j F) := by
  obtain ⟨lu, lv, lnu, lnv, lp, ls, lm, lnm⟩ := hS.sizes
  have b1 := @flat_bounds F.numX F.numY i j (by omega) hi1 (by omega) hj1
  have b2 := @flat_bounds F.numX F.numY (i - 1) j (by omega) (by omega) (by omega) hj1
  unfold advectUCellC advectUCell
  simp only [rdC, wrC, ls, lu, lnu, b1.1, b1.2, b2.1, b2.2,
    and_self, if_true, Option.bind_eq_bind, Option.some_bind, Option.pure_def]
  by_cases h1 : rd F.s (i * F.numY + j) = 0
  · simp [h1]
  · by_cases h2 : rd F.s ((i - 1) * F.numY + j) = 0
    · simp [h1, h2]
    · by_cases h3 : j < F.numY - 1
      · simp only [avgVC_ok F i j hS hi0 hi1 (by omega) h3, sampleFieldC_ok _ _ _ _ hS,
          Option.some_bind]
        simp [h1, h2, h3]
      · simp [h1, h2, h3]

theorem advectVCellC_ok (dt : ℚ) (i j : Int) (F : Fluid) (hS : Safe F)
    (hi0 : 1 ≤ i) (hi1 : i < F.numX) (hj0 : 1 ≤ j) (hj1 : j < F.numY) :
    advectVCellC dt i j F = some (advectVCell dt i j F) := by
  obtain ⟨lu, lv, lnu, lnv, lp, ls, lm, lnm⟩ := hS.sizes
  have b1 := @flat_bounds F.numX F.numY i j (by omega) hi1 (by omega) hj1
  have b2 := @flat_bounds F.numX F.numY i (j - 1) (by omega) hi1 (by omega) (by omega)
  have e2 : i * F.numY + (j - 1) = i * F.numY + j - 1 := by ring
  rw [e2] at b2
  unfold advectVCellC advectVCell
  simp only [rdC, wrC, ls, lv, lnv, b1.1, b1.2, b2.1, b2.2,
    and_self, if_true, Option.bind_eq_bind, Option.some_bind, Option.pure_def]
  by_cases h1 : rd F.s (i * F.numY + j) = 0
  · simp [h1]
  · by_cases h2 : rd F.s (i * F.numY + j - 1) = 0
    · simp [h1, h2]
    · by_cases h3 : i < F.numX - 1
      · simp only [avgUC_ok F i j hS (by omega) h3 hj0 hj1, sampleFieldC_ok _ _ _ _ hS,
          Option.some_bind]
        simp [h1, h2, h3]
      · simp [h1, h2, h3]

theorem advectSmokeCellC_ok (dt : ℚ) (i j : Int) (F : Fluid) (hS : Safe F)
    (hi0 : 1 ≤ i) (hi1 : i < F.numX - 1) (hj0 : 1 ≤ j) (hj1 : j < F.numY - 1) :
    advectSmokeCellC dt i j F = some (advectSmokeCell dt i j F) := by
  obtain ⟨lu, lv, lnu, lnv, lp, ls, lm, lnm⟩ := hS.sizes
  obtain ⟨⟨a0, a1⟩, ⟨b0, b1⟩, ⟨c0, c1⟩, ⟨d0, d1⟩, ⟨e0, e1⟩⟩ :=
    @interior_bounds F.numX F.numY i j hi0 hi1 hj0 hj1
  unfold advectSmokeCellC advectSmokeCell
  simp only [rdC, wrC, ls, lu, lv, lnm, a0, a1, c0, c1, e0, e1, sampleFieldC_ok _ _ _ _ hS,
    and_self, if_true, Option.bind_eq_bind, Option.some_bind, Option.pure_def]
  by_cases h1 : rd F.s (i * F.numY + j) = 0
  · simp [h1]
  · simp [h1]

theorem advectVelC_ok (dt : ℚ) (F : Fluid) (hS : Safe F) :
    advectVelC dt F = some (advectVel dt F) ∧ Keeps F (advectVel dt F) := by
  obtain ⟨lu, lv, lnu, lnv, lp, ls, lm, lnm⟩ := hS.sizes
  have hK0 : Keeps F { F with newU := F.u, newV := F.v } :=
    ⟨rfl, rfl, rfl, rfl, rfl, rfl, by
      show F.u.length = F.newU.length
      omega, by
      show F.v.length = F.newV.length
      omega, rfl, rfl, rfl, rfl⟩
  obtain ⟨h1, k1⟩ := forRangeC2_ok 1 F.numX 1 F.numY
    (fun i j st => (advectUCellC dt i j st).bind (advectVCellC dt i j))
    (fun i j st => advectVCell dt i j (advectUCell dt i j st))
    (Keeps F) { F with newU := F.u, newV := F.v } hK0
    (fun i j st hi0 hi1 hj0 hj1 hK => by
      have hS1 := hS.keeps hK
      have hKu := advectUCell_keeps dt i j st
      have hS2 := hS1.keeps hKu
      have e1 := advectUCellC_ok dt i j st hS1 hi0 (by rw [hK.1]; exact hi1) hj0
        (by rw [hK.2.1]; exact hj1)
      have e2 := advectVCellC_ok dt i j (advectUCell dt i j st) hS2 hi0
        (by rw [hKu.1, hK.1]; exact hi1) hj0 (by rw [hKu.2.1, hK.2.1]; exact hj1)
      beta_reduce
      rw [e1, Option.some_bind, e2]
      exact ⟨rfl, (hK.trans hKu).trans (advectVCell_keeps dt i j _)⟩)
  constructor
  · unfold advectVelC advectVel
    simp only [h1, Option.bind_eq_bind, Option.some_bind, Option.pure_def]
  · obtain ⟨a1, a2, a3, a4, a5, a6, a7, a8, a9, a10, a11, a12⟩ := k1
    have e : advectVel dt F
        = (fun F1 : Fluid => ({ F1 with u := F1.newU, v := F1.newV } : Fluid))
          (forRange 1 F.numX (fun i st => forRange 1 F.numY
            (fun j st1 => advectVCell dt i j (advectUCell dt i j st1)) st)
            { F with newU := F.u, newV := F.v }) := rfl
    rw [e]
    exact ⟨a1, a2, a3, a4, a7.trans (by omega), a8.trans (by omega), a7, a8, a9, a10, a11,
      a12⟩

theorem advectSmokeC_ok (dt : ℚ) (F : Fluid) (hS : Safe F) :
    advectSmokeC dt F = some (advectSmoke dt F) ∧ Keeps F (advectSmoke dt F) := by
  obtain ⟨lu, lv, lnu, lnv, lp, ls, lm, lnm⟩ := hS.sizes
  have hK0 : Keeps F { F with newM := F.m } :=
    ⟨rfl, rfl, rfl, rfl, rfl, rfl, rfl, rfl, rfl, rfl, rfl, by
      show F.m.length = F.newM.length
      omega⟩
  obtain ⟨h1, k1⟩ := forRangeC2_ok 1 (F.numX - 1) 1 (F.numY - 1)
    (fun i j st => advectSmokeCellC dt i j st)
    (fun i j st => advectSmokeCell dt i j st)
    (Keeps F) { F with newM := F.m } hK0
    (fun i j st hi0 hi1 hj0 hj1 hK => by
      exact ⟨advectSmokeCellC_ok dt i j st (hS.keeps hK) hi0 (by rw [hK.1]; exact hi1) hj0
        (by rw [hK.2.1]; exact hj1), hK.trans (advectSmokeCell_keeps dt i j st)⟩)
  constructor
  · unfold advectSmokeC advectSmoke
    simp only [h1, Option.bind_eq_bind, Option.some_bind, Option.pure_def]
  · obtain ⟨a1, a2, a3, a4, a5, a6, a7, a8, a9, a10, a11, a12⟩ := k1
    have e : advectSmoke dt F = (fun F1 : Fluid => ({ F1 with m := F1.newM } : Fluid))
        (forRange 1 (F.numX - 1) (fun i st => forRange 1 (F.numY - 1)
          (fun j st1 => advectSmokeCell dt i j st1) st) { F with newM := F.m }) := rfl
    rw [e]
    exact ⟨a1, a2, a3, a4, a5, a6, a7, a8, a9, a10, a12.trans (by omega), a12⟩

theorem fadeDensityC_ok (F : Fluid) (hS : Safe F) :
    fadeDensityC F = some (fadeDensity F) ∧ Keeps F (fadeDensity F) := by
  unfold fadeDensityC fadeDensity
  apply forRangeC_ok 0 F.numCells _ _ (Keeps F) F (Keeps.refl F)
  intro i st hi0 hi1 hK
  have hm : (st.m.length : Int) = F.numCells := by
    rw [hK.2.2.2.2.2.2.2.2.2.2.1]
    exact hS.1.2.2.2.2.2.2.2.2.2.1
  constructor
  · simp only [rdC, wrC, hm, hi0, hi1, and_self, if_true, Option.bind_eq_bind,
      Option.some_bind, Option.pure_def]
  · exact hK.trans ⟨rfl, rfl, rfl, rfl, rfl, rfl, rfl, rfl, rfl, rfl, length_wr _ _ _, rfl⟩

/-- The checked tick succeeds on every safe state, returns the state the
unchecked tick returns, and that state is safe again. -/
theorem simulateC_ok (dt gravity : ℚ) (numIters : Int) (F : Fluid) (hS : Safe F)
    (hdt : dt ≠ 0) :
    simulateC dt gravity numIters F = some (simulate dt gravity numIters F) ∧
    Keeps F (simulate dt gravity numIters F) := by
  obtain ⟨F1, e1⟩ : ∃ F1, F1 = integrate dt gravity F := ⟨_, rfl⟩
  obtain ⟨F2, e2⟩ : ∃ F2 : Fluid, F2 = { F1 with p := F1.p.map (fun _ => 0) } := ⟨_, rfl⟩
  obtain ⟨F3, e3⟩ : ∃ F3, F3 = solveIncompressibility numIters dt F2 := ⟨_, rfl⟩
  obtain ⟨F4, e4⟩ : ∃ F4, F4 = extrapolate F3 := ⟨_, rfl⟩
  obtain ⟨F5, e5⟩ : ∃ F5, F5 = advectVel dt F4 := ⟨_, rfl⟩
  obtain ⟨F6, e6⟩ : ∃ F6, F6 = advectSmoke dt F5 := ⟨_, rfl⟩
  have hsim : simulate dt gravity numIters F = fadeDensity F6 := by
    subst e6; subst e5; subst e4; subst e3; subst e2; subst e1; rfl
  obtain ⟨c1, k1⟩ := integrateC_ok dt gravity F hS
  rw [← e1] at c1 k1
  have k12 : Keeps F1 F2 := by
    rw [e2]
    exact ⟨rfl, rfl, rfl, rfl, rfl, rfl, rfl, rfl, List.length_map _ _, rfl, rfl, rfl⟩
  have k2 : Keeps F F2 := k1.trans k12
  obtain ⟨c3, k23⟩ := solveIncompressibilityC_ok numIters dt F2 (hS.keeps k2) hdt
  rw [← e3] at c3 k23
  have k3 : Keeps F F3 := k2.trans k23
  obtain ⟨c4, k34⟩ := extrapolateC_ok F3 (hS.keeps k3)
  rw [← e4] at c4 k34
  have k4 : Keeps F F4 := k3.trans k34
  obtain ⟨c5, k45⟩ := advectVelC_ok dt F4 (hS.keeps k4)
  rw [← e5] at c5 k45
  have k5 : Keeps F F5 := k4.trans k45
  obtain ⟨c6, k56⟩ := advectSmokeC_ok dt F5 (hS.keeps k5)
  rw [← e6] at c6 k56
  have k6 : Keeps F F6 := k5.trans k56
  obtain ⟨c7, k67⟩ := fadeDensityC_ok F6 (hS.keeps k6)
  constructor
  · unfold simulateC
    simp only [c1, Option.bind_eq_bind, Option.some_bind, ← e2, c3, c4, c5, c6, c7, hsim]
  · rw [hsim]
    exact k6.trans k67

theorem addDensity_keeps (x y : Int) (amount : ℚ) (F : Fluid) :
    Keeps F (addDensity x y amount F) := by
  unfold addDensity
  split
  · exact ⟨rfl, rfl, rfl, rfl, rfl, rfl, rfl, rfl, rfl, rfl, length_wr _ _ _, rfl⟩
  · exact Keeps.refl F

theorem addVelocity_keeps (x y : Int) (amountX amountY : ℚ) (F : Fluid) :
    Keeps F (addVelocity x y amountX amountY F) := by
  unfold addVelocity
  split
  · exact ⟨rfl, rfl, rfl, rfl, length_wr _ _ _, length_wr _ _ _, rfl, rfl, rfl, rfl, rfl, rfl⟩
  · exact Keeps.refl F

/-- The constructor builds a safe state. -/
theorem Fluid.new_safe (nx ny : Int) (h : ℚ) (hx : 0 ≤ nx) (hy : 0 ≤ ny) (hh : 0 < h) :
    Safe (Fluid.new nx ny h) := by
  have hpos : 0 ≤ (nx + 2) * (ny + 2) := Int.mul_nonneg (by omega) (by omega)
  have hlen : ∀ a : ℚ, ((List.replicate ((nx + 2) * (ny + 2)).toNat a).length : Int)
      = (nx + 2) * (ny + 2) := by
    intro a
    rw [List.length_replicate]
    omega
  rw [Fluid.new_eq]
  obtain ⟨⟨g1, g2, g3, g4, g5, g6, g7, g8, g9, g10, g11, g12, _⟩, _⟩ :=
    setupCircularObstacle_spec
      { numX := nx + 2, numY := ny + 2, numCells := (nx + 2) * (ny + 2), h := h,
        u := List.replicate ((nx + 2) * (ny + 2)).toNat 0,
        v := List.replicate ((nx + 2) * (ny + 2)).toNat 0,
        newU := List.replicate ((nx + 2) * (ny + 2)).toNat 0,
        newV := List.replicate ((nx + 2) * (ny + 2)).toNat 0,
        p := List.replicate ((nx + 2) * (ny + 2)).toNat 0,
        s := List.replicate ((nx + 2) * (ny + 2)).toNat 1,
        m := List.replicate ((nx + 2) * (ny + 2)).toNat 0,
        newM := List.replicate ((nx + 2) * (ny + 2)).toNat 0 }
      (hlen 1) (fun k => by
        show rd (List.replicate ((nx + 2) * (ny + 2)).toNat 0) k = 0
        rw [rd_replicate]
        simp)
  dsimp only at g1 g2 g3 g4 g5 g6 g7 g8 g9 g10 g11 g12
  refine ⟨⟨?_, ?_, ?_, ?_, ?_, ?_, ?_, ?_, ?_, ?_, ?_⟩, ?_, ?_, ?_⟩
  · rw [g1]; omega
  · rw [g2]; omega
  · rw [g3, g1, g2]
  · rw [g5, g3]; exact hlen 0
  · rw [g6, g3]; exact hlen 0
  · rw [g7, g3]; exact hlen 0
  · rw [g8, g3]; exact hlen 0
  · rw [g9, g3]; exact hlen 0
  · rw [g11, g3]; exact hlen 1
  · rw [g12, g3]; exact hlen 0
  · rw [g10, g3]; exact hlen 0
  · rw [g1]; omega
  · rw [g2]; omega
  · rw [g4]; exact hh

/-- Every reachable state is safe. -/
theorem Reachable.safe {F : Fluid} (hR : Reachable F) : Safe F := by
  induction hR with
  | create nx ny h hx hy hh => exact Fluid.new_safe nx ny h hx hy hh
  | density x y amount F _ ih => exact ih.keeps (addDensity_keeps x y amount F)
  | velocity x y amountX amountY F _ ih => exact ih.keeps (addVelocity_keeps x y amountX amountY F)
  | tick dt gravity numIters F hdt _ ih =>
    exact ih.keeps (simulateC_ok dt gravity numIters F ih (ne_of_gt hdt)).2

/-- In exact arithmetic (rational values, unbounded integers) a tick is always
well-defined. For every grid state produced by
`Fluid(nx, ny, h)` with `nx, ny >= 0` and `h > 0` followed by any sequence of
`addDensity`, `addVelocity` and `simulate` calls, and every `dt > 0`, `gravity`
and `iterations`: all vectors of the state have `numX * numY` entries, and the
tick with checked indexing and guarded division (every read and write of
`integrate`, `solveIncompressibility`, `extrapolate`, `avgU`, `avgV`,
`advectVel`, `advectSmoke`, `sampleField`, `fadeDensity` checked against the
vector size, every division against a zero divisor) never takes the error
branch: it returns the state that `simulate(dt, gravity, iterations)`
returns. -/
theorem tick_well_defined_exact (F : Fluid) (dt gravity : ℚ) (numIters : Int)
    (hR : Reachable F) (hdt : 0 < dt) :
    Safe F ∧ simulateC dt gravity numIters F = some (simulate dt gravity numIters F) :=
  ⟨hR.safe, (simulateC_ok dt gravity numIters F hR.safe (ne_of_gt hdt)).1⟩

/-- In exact arithmetic: the 3 x 3 grid built by `Fluid(1, 1, 1)`, then
`addVelocity(1, 2, 3, 4)` and `addDensity(1, 2, 7)`, ticked with `dt = 1`,
`gravity = 1` and two projector iterations. -/
theorem tick_well_defined_exact_instance :
    Reachable grid3Dyed ∧ (0 : ℚ) < 1 ∧
    (Safe grid3Dyed ∧ simulateC 1 1 2 grid3Dyed = some (simulate 1 1 2 grid3Dyed)) :=
  ⟨Reachable.density 1 2 7 _ (Reachable.velocity 1 2 3 4 _
      (Reachable.create 1 1 1 (by decide) (by decide) one_pos)),
   one_pos,
   tick_well_defined_exact grid3Dyed 1 1 2
     (Reachable.density 1 2 7 _ (Reachable.velocity 1 2 3 4 _
       (Reachable.create 1 1 1 (by decide) (by decide) one_pos)))
     one_pos⟩

/-! ## Binary32 vectors: reads after writes -/

theorem length_wr32 (f : List F32) (k : Int) (x : F32) : (wr32 f k x).length = f.length := by
  unfold wr32; split <;> simp

theorem rd32_wr32 (f : List F32) (k : Int) (x : F32) (k' : Int) :
    rd32 (wr32 f k x) k' = if k' = k ∧ 0 ≤ k ∧ k < f.length then x else rd32 f k' := by
  unfold rd32 wr32
  by_cases hk' : k' < 0
  · have : ¬ (k' = k ∧ 0 ≤ k ∧ k < f.length) := by omega
    simp [hk', this]
  · by_cases hk : k < 0
    · have : ¬ (k' = k ∧ 0 ≤ k ∧ k < f.length) := by omega
      simp [hk, hk', this]
    · simp only [hk, hk', if_false]
      by_cases he : k' = k
      · subst he
        by_cases hl : k' < f.length
        · have h1 : k'.toNat < f.length := by omega
          have : (k' = k' ∧ 0 ≤ k' ∧ k' < f.length) := ⟨rfl, by omega, hl⟩
          simp [this, List.getD_eq_getElem?_getD, List.getElem?_set, h1]
        · have h1 : ¬ k'.toNat < f.length := by omega
          have : ¬ (0 ≤ k' ∧ k' < f.length) := by omega
          have h2 : f.length ≤ k'.toNat := by omega
          simp [this, List.getD_eq_getElem?_getD, List.getElem?_set, h1, List.getElem?_eq_none h2]
      · have h1 : k.toNat ≠ k'.toNat := by omega
        have : ¬ (k' = k ∧ 0 ≤ k ∧ k < f.length) := by omega
        simp [this, List.getD_eq_getElem?_getD, List.getElem?_set, h1]

theorem rd32_wr32_ne (f : List F32) {k k' : Int} (x : F32) (h : k' ≠ k) :
    rd32 (wr32 f k x) k' = rd32 f k' := by
  rw [rd32_wr32]; simp [h]

theorem rd32_wr32_self (f : List F32) {k : Int} (x : F32) (h0 : 0 ≤ k) (h1 : k < f.length) :
    rd32 (wr32 f k x) k = x := by
  rw [rd32_wr32]; simp [h0, h1]

/-! ## C9: `addDensity` in binary32 -/

/-- The binary32 sum of two finite values whose exact sum is a binary32 value
is that exact sum. -/
theorem F32.add_exact (a b : ℚ) (h : F32.round (a + b) = F32.fin (a + b)) :
    (F32.fin a).add (F32.fin b) = F32.fin (a + b) := h

/-- C9, the claim fails in the arithmetic of the code. The dye entry of cell
`(1, 1)` of the 4 x 3 grid holds `16777216 = 2^24` after
`addDensity(1, 1, 16777216.0f)`; `addDensity(1, 1, 1.0f)` then leaves it at
`16777216`, because the sum `16777217` is not a binary32 value and rounds back
(tie to even): the entry has not grown by `1`. -/
theorem C9_addDensity_counterexample :
    (0 ≤ (1 : Int) ∧ (1 : Int) < dyed43.numX ∧ 0 ≤ (1 : Int) ∧ (1 : Int) < dyed43.numY) ∧
    rd32 dyed43.m (1 * dyed43.numY + 1) = F32.fin 16777216 ∧
    rd32 (addDensity32 1 1 (F32.fin 1) dyed43).m (1 * dyed43.numY + 1) = F32.fin 16777216 ∧
    rd32 (addDensity32 1 1 (F32.fin 1) dyed43).m (1 * dyed43.numY + 1)
      ≠ F32.fin (16777216 + 1) := by
  decide!

/-- C9, amended. `addDensity(x, y, amount)` in binary32 arithmetic: for an
in-range cell the dye entry `m[x*numY + y]` becomes the binary32 sum of its old
value and `amount` (the exact sum rounded to nearest, ties to even; an
infinity on overflow, a NaN from a NaN or from opposite infinities), which is
the old value plus exactly `amount` whenever that exact sum is a binary32
value; every other dye entry and every other member of the state (`u`, `v`,
`p`, `s`, the buffers, the dimensions) is unchanged, whatever the mask at that
cell; for every other integer pair the whole state is unchanged. -/
theorem C9_addDensity_binary32 (F : Fluid32) (x y : Int) (amount : F32)
    (hm : (F.m.length : Int) = F.numX * F.numY) :
    ((0 ≤ x ∧ x < F.numX ∧ 0 ≤ y ∧ y < F.numY) →
      rd32 (addDensity32 x y amount F).m (x * F.numY + y)
        = (rd32 F.m (x * F.numY + y)).add amount ∧
      (∀ a b : ℚ, rd32 F.m (x * F.numY + y) = F32.fin a → amount = F32.fin b →
        F32.round (a + b) = F32.fin (a + b) →
        rd32 (addDensity32 x y amount F).m (x * F.numY + y) = F32.fin (a + b)) ∧
      (∀ k : Int, k ≠ x * F.numY + y → rd32 (addDensity32 x y amount F).m k = rd32 F.m k) ∧
      (addDensity32 x y amount F).m.length = F.m.length ∧
      (addDensity32 x y amount F).u = F.u ∧ (addDensity32 x y amount F).v = F.v ∧
      (addDensity32 x y amount F).p = F.p ∧ (addDensity32 x y amount F).s = F.s ∧
      (addDensity32 x y amount F).newU = F.newU ∧ (addDensity32 x y amount F).newV = F.newV ∧
      (addDensity32 x y amount F).newM = F.newM ∧
      (addDensity32 x y amount F).numX = F.numX ∧ (addDensity32 x y amount F).numY = F.numY ∧
      (addDensity32 x y amount F).numCells = F.numCells ∧
      (addDensity32 x y amount F).h = F.h) ∧
    (¬ (0 ≤ x ∧ x < F.numX ∧ 0 ≤ y ∧ y < F.numY) → addDensity32 x y amount F = F) := by
  constructor
  · intro hin
    have hb := flat_bounds hin.1 hin.2.1 hin.2.2.1 hin.2.2.2
    have hc : x ≥ 0 ∧ x < F.numX ∧ y ≥ 0 ∧ y < F.numY := hin
    have e : addDensity32 x y amount F =
        { F with m := wr32 F.m (x * F.numY + y) ((rd32 F.m (x * F.numY + y)).add amount) } := by
      unfold addDensity32; rw [if_pos hc]
    rw [e]
    have hval : rd32 (wr32 F.m (x * F.numY + y) ((rd32 F.m (x * F.numY + y)).add amount))
        (x * F.numY + y) = (rd32 F.m (x * F.numY + y)).add amount :=
      rd32_wr32_self _ _ hb.1 (by rw [hm]; exact hb.2)
    refine ⟨hval, ?_, ?_, ?_, rfl, rfl, rfl, rfl, rfl, rfl, rfl, rfl, rfl, rfl, rfl⟩
    · intro a b ha hb' hr
      show rd32 (wr32 F.m (x * F.numY + y) ((rd32 F.m (x * F.numY + y)).add amount))
        (x * F.numY + y) = F32.fin (a + b)
      rw [hval, ha, hb']
      exact F32.add_exact a b hr
    · intro k hk
      exact rd32_wr32_ne _ _ hk
    · exact length_wr32 _ _ _
  · intro hout
    have hc : ¬ (x ≥ 0 ∧ x < F.numX ∧ y ≥ 0 ∧ y < F.numY) := hout
    unfold addDensity32; rw [if_neg hc]

/-- C9, amended, instance: dye of amount 5 injected into the solid centre cell
`(1, 1)` of the 3 x 3 grid. -/
theorem C9_addDensity_binary32_witness :
    ((solid33.m.length : Int) = solid33.numX * solid33.numY) ∧
    (((0 ≤ (1 : Int) ∧ (1 : Int) < solid33.numX ∧ 0 ≤ (1 : Int) ∧ (1 : Int) < solid33.numY) →
      rd32 (addDensity32 1 1 (F32.fin 5) solid33).m (1 * solid33.numY + 1)
        = (rd32 solid33.m (1 * solid33.numY + 1)).add (F32.fin 5) ∧
      (∀ a b : ℚ, rd32 solid33.m (1 * solid33.numY + 1) = F32.fin a → F32.fin 5 = F32.fin b →
        F32.round (a + b) = F32.fin (a + b) →
        rd32 (addDensity32 1 1 (F32.fin 5) solid33).m (1 * solid33.numY + 1)
          = F32.fin (a + b)) ∧
      (∀ k : Int, k ≠ 1 * solid33.numY + 1 →
        rd32 (addDensity32 1 1 (F32.fin 5) solid33).m k = rd32 solid33.m k) ∧
      (addDensity32 1 1 (F32.fin 5) solid33).m.length = solid33.m.length ∧
      (addDensity32 1 1 (F32.fin 5) solid33).u = solid33.u ∧
      (addDensity32 1 1 (F32.fin 5) solid33).v = solid33.v ∧
      (addDensity32 1 1 (F32.fin 5) solid33).p = solid33.p ∧
      (addDensity32 1 1 (F32.fin 5) solid33).s = solid33.s ∧
      (addDensity32 1 1 (F32.fin 5) solid33).newU = solid33.newU ∧
      (addDensity32 1 1 (F32.fin 5) solid33).newV = solid33.newV ∧
      (addDensity32 1 1 (F32.fin 5) solid33).newM = solid33.newM ∧
      (addDensity32 1 1 (F32.fin 5) solid33).numX = solid33.numX ∧
      (addDensity32 1 1 (F32.fin 5) solid33).numY = solid33.numY ∧
      (addDensity32 1 1 (F32.fin 5) solid33).numCells = solid33.numCells ∧
      (addDensity32 1 1 (F32.fin 5) solid33).h = solid33.h) ∧
    (¬ (0 ≤ (1 : Int) ∧ (1 : Int) < solid33.numX ∧ 0 ≤ (1 : Int) ∧ (1 : Int) < solid33.numY) →
      addDensity32 1 1 (F32.fin 5) solid33 = solid33)) :=
  ⟨by decide!, C9_addDensity_binary32 solid33 1 1 (F32.fin 5) (by decide!)⟩

/-! ## C10: `addVelocity` in binary32 -/

/-- C10, the claim fails in the arithmetic of the code. Cell `(1, 1)` of the
4 x 3 grid holds `u = 16777216 = 2^24` and `v = 3e38f` after
`addVelocity(1, 1, 16777216.0f, 3e38f)`; `addVelocity(1, 1, 1.0f, 3e38f)` then
leaves `u` at `16777216` (the sum `16777217` is not a binary32 value and
rounds back) and makes `v` an infinity (the sum exceeds the largest binary32
value): neither entry has grown by the amount added. -/
theorem C10_addVelocity_counterexample :
    (0 ≤ (1 : Int) ∧ (1 : Int) < fast43.numX ∧ 0 ≤ (1 : Int) ∧ (1 : Int) < fast43.numY) ∧
    rd32 fast43.u (1 * fast43.numY + 1) = F32.fin 16777216 ∧
    rd32 fast43.v (1 * fast43.numY + 1)
      = F32.fin 300000000549775575777803994281145270272 ∧
    rd32 (addVelocity32 1 1 (F32.fin 1) big32 fast43).u (1 * fast43.numY + 1)
      = F32.fin 16777216 ∧
    rd32 (addVelocity32 1 1 (F32.fin 1) big32 fast43).u (1 * fast43.numY + 1)
      ≠ F32.fin (16777216 + 1) ∧
    rd32 (addVelocity32 1 1 (F32.fin 1) big32 fast43).v (1 * fast43.numY + 1)
      = F32.inf false := by
  decide!

/-- C10, amended. `addVelocity(x, y, dx, dy)` in binary32 arithmetic: for an
in-range cell `u[x*numY + y]` becomes the binary32 sum of its old value and
`dx`, and `v[x*numY + y]` the binary32 sum of its old value and `dy` (the
exact sum rounded to nearest, ties to even; an infinity on overflow, a NaN
from a NaN or from opposite infinities), each of which is the old value plus
exactly the amount whenever that exact sum is a binary32 value; every other
entry of `u` and `v` and every other member of the state (`p`, `s`, `m`, the
buffers, the dimensions) is unchanged; for every out-of-range integer pair the
whole state is unchanged. -/
theorem C10_addVelocity_binary32 (F : Fluid32) (x y : Int) (amountX amountY : F32)
    (hu : (F.u.length : Int) = F.numX * F.numY) (hv : (F.v.length : Int) = F.numX * F.numY) :
    ((0 ≤ x ∧ x < F.numX ∧ 0 ≤ y ∧ y < F.numY) →
      rd32 (addVelocity32 x y amountX amountY F).u (x * F.numY + y)
        = (rd32 F.u (x * F.numY + y)).add amountX ∧
      rd32 (addVelocity32 x y amountX amountY F).v (x * F.numY + y)
        = (rd32 F.v (x * F.numY + y)).add amountY ∧
      (∀ a b : ℚ, rd32 F.u (x * F.numY + y) = F32.fin a → amountX = F32.fin b →
        F32.round (a + b) = F32.fin (a + b) →
        rd32 (addVelocity32 x y amountX amountY F).u (x * F.numY + y) = F32.fin (a + b)) ∧
      (∀ a b : ℚ, rd32 F.v (x * F.numY + y) = F32.fin a → amountY = F32.fin b →
        F32.round (a + b) = F32.fin (a + b) →
        rd32 (addVelocity32 x y amountX amountY F).v (x * F.numY + y) = F32.fin (a + b)) ∧
      (∀ k : Int, k ≠ x * F.numY + y →
        rd32 (addVelocity32 x y amountX amountY F).u k = rd32 F.u k ∧
        rd32 (addVelocity32 x y amountX amountY F).v k = rd32 F.v k) ∧
      (addVelocity32 x y amountX amountY F).u.length = F.u.length ∧
      (addVelocity32 x y amountX amountY F).v.length = F.v.length ∧
      (addVelocity32 x y amountX amountY F).p = F.p ∧
      (addVelocity32 x y amountX amountY F).s = F.s ∧
      (addVelocity32 x y amountX amountY F).m = F.m ∧
      (addVelocity32 x y amountX amountY F).newU = F.newU ∧
      (addVelocity32 x y amountX amountY F).newV = F.newV ∧
      (addVelocity32 x y amountX amountY F).newM = F.newM ∧
      (addVelocity32 x y amountX amountY F).numX = F.numX ∧
      (addVelocity32 x y amountX amountY F).numY = F.numY ∧
      (addVelocity32 x y amountX amountY F).numCells = F.numCells ∧
      (addVelocity32 x y amountX amountY F).h = F.h) ∧
    (¬ (0 ≤ x ∧ x < F.numX ∧ 0 ≤ y ∧ y < F.numY) →
      addVelocity32 x y amountX amountY F = F) := by
  constructor
  · intro hin
    have hb := flat_bounds hin.1 hin.2.1 hin.2.2.1 hin.2.2.2
    have hc : x ≥ 0 ∧ x < F.numX ∧ y ≥ 0 ∧ y < F.numY := hin
    have e : addVelocity32 x y amountX amountY F =
        { F with u := wr32 F.u (x * F.numY + y) ((rd32 F.u (x * F.numY + y)).add amountX),
                 v := wr32 F.v (x * F.numY + y) ((rd32 F.v (x * F.numY + y)).add amountY) } := by
      unfold addVelocity32; rw [if_pos hc]
    rw [e]
    have hvalu : rd32 (wr32 F.u (x * F.numY + y) ((rd32 F.u (x * F.numY + y)).add amountX))
        (x * F.numY + y) = (rd32 F.u (x * F.numY + y)).add amountX :=
      rd32_wr32_self _ _ hb.1 (by rw [hu]; exact hb.2)
    have hvalv : rd32 (wr32 F.v (x * F.numY + y) ((rd32 F.v (x * F.numY + y)).add amountY))
        (x * F.numY + y) = (rd32 F.v (x * F.numY + y)).add amountY :=
      rd32_wr32_self _ _ hb.1 (by rw [hv]; exact hb.2)
    refine ⟨hvalu, hvalv, ?_, ?_, ?_, ?_, ?_, rfl, rfl, rfl, rfl, rfl, rfl, rfl, rfl, rfl, rfl⟩
    · intro a b ha hb' hr
      show rd32 (wr32 F.u (x * F.numY + y) ((rd32 F.u (x * F.numY + y)).add amountX))
        (x * F.numY + y) = F32.fin (a + b)
      rw [hvalu, ha, hb']
      exact F32.add_exact a b hr
    · intro a b ha hb' hr
      show rd32 (wr32 F.v (x * F.numY + y) ((rd32 F.v (x * F.numY + y)).add amountY))
        (x * F.numY + y) = F32.fin (a + b)
      rw [hvalv, ha, hb']
      exact F32.add_exact a b hr
    · intro k hk
      exact ⟨rd32_wr32_ne _ _ hk, rd32_wr32_ne _ _ hk⟩
    · exact length_wr32 _ _ _
    · exact length_wr32 _ _ _
  · intro hout
    have hc : ¬ (x ≥ 0 ∧ x < F.numX ∧ y ≥ 0 ∧ y < F.numY) := hout
    unfold addVelocity32; rw [if_neg hc]

/-- C10, amended, instance: the velocity `(1, 1/2)` injected into the border
cell `(2, 2)` of the 4 x 3 grid that already holds velocity in cell `(1, 1)`. -/
theorem C10_addVelocity_binary32_witness :
    ((fast43.u.length : Int) = fast43.numX * fast43.numY) ∧
    ((fast43.v.length : Int) = fast43.numX * fast43.numY) ∧
    (((0 ≤ (2 : Int) ∧ (2 : Int) < fast43.numX ∧ 0 ≤ (2 : Int) ∧ (2 : Int) < fast43.numY) →
      rd32 (addVelocity32 2 2 (F32.fin 1) (F32.fin (1 / 2)) fast43).u (2 * fast43.numY + 2)
        = (rd32 fast43.u (2 * fast43.numY + 2)).add (F32.fin 1) ∧
      rd32 (addVelocity32 2 2 (F32.fin 1) (F32.fin (1 / 2)) fast43).v (2 * fast43.numY + 2)
        = (rd32 fast43.v (2 * fast43.numY + 2)).add (F32.fin (1 / 2)) ∧
      (∀ a b : ℚ, rd32 fast43.u (2 * fast43.numY + 2) = F32.fin a → F32.fin 1 = F32.fin b →
        F32.round (a + b) = F32.fin (a + b) →
        rd32 (addVelocity32 2 2 (F32.fin 1) (F32.fin (1 / 2)) fast43).u (2 * fast43.numY + 2)
          = F32.fin (a + b)) ∧
      (∀ a b : ℚ, rd32 fast43.v (2 * fast43.numY + 2) = F32.fin a →
        F32.fin (1 / 2) = F32.fin b → F32.round (a + b) = F32.fin (a + b) →
        rd32 (addVelocity32 2 2 (F32.fin 1) (F32.fin (1 / 2)) fast43).v (2 * fast43.numY + 2)
          = F32.fin (a + b)) ∧
      (∀ k : Int, k ≠ 2 * fast43.numY + 2 →
        rd32 (addVelocity32 2 2 (F32.fin 1) (F32.fin (1 / 2)) fast43).u k = rd32 fast43.u k ∧
        rd32 (addVelocity32 2 2 (F32.fin 1) (F32.fin (1 / 2)) fast43).v k = rd32 fast43.v k) ∧
      (addVelocity32 2 2 (F32.fin 1) (F32.fin (1 / 2)) fast43).u.length = fast43.u.length ∧
      (addVelocity32 2 2 (F32.fin 1) (F32.fin (1 / 2)) fast43).v.length = fast43.v.length ∧
      (addVelocity32 2 2 (F32.fin 1) (F32.fin (1 / 2)) fast43).p = fast43.p ∧
      (addVelocity32 2 2 (F32.fin 1) (F32.fin (1 / 2)) fast43).s = fast43.s ∧
      (addVelocity32 2 2 (F32.fin 1) (F32.fin (1 / 2)) fast43).m = fast43.m ∧
      (addVelocity32 2 2 (F32.fin 1) (F32.fin (1 / 2)) fast43).newU = fast43.newU ∧
      (addVelocity32 2 2 (F32.fin 1) (F32.fin (1 / 2)) fast43).newV = fast43.newV ∧
      (addVelocity32 2 2 (F32.fin 1) (F32.fin (1 / 2)) fast43).newM = fast43.newM ∧
      (addVelocity32 2 2 (F32.fin 1) (F32.fin (1 / 2)) fast43).numX = fast43.numX ∧
      (addVelocity32 2 2 (F32.fin 1) (F32.fin (1 / 2)) fast43).numY = fast43.numY ∧
      (addVelocity32 2 2 (F32.fin 1) (F32.fin (1 / 2)) fast43).numCells = fast43.numCells ∧
      (addVelocity32 2 2 (F32.fin 1) (F32.fin (1 / 2)) fast43).h = fast43.h) ∧
    (¬ (0 ≤ (2 : Int) ∧ (2 : Int) < fast43.numX ∧ 0 ≤ (2 : Int) ∧ (2 : Int) < fast43.numY) →
      addVelocity32 2 2 (F32.fin 1) (F32.fin (1 / 2)) fast43 = fast43)) :=
  ⟨by decide!, by decide!,
   C10_addVelocity_binary32 fast43 2 2 (F32.fin 1) (F32.fin (1 / 2)) (by decide!) (by decide!)⟩

/-! ## C11: the tick in binary32 -/

/-- C11, evaluated at a failing input. On the state `Fluid(2, 1, 1.0f)` builds,
`addVelocity(1, 1, -3e38f, 0)` and `addVelocity(2, 1, 3e38f, 0)` leave two
finite face velocities. In `simulate(1.0f / 60.0f, 0, 1)` the divergence of
cell `(1, 1)` at line 99 is `3e38f + 3e38f`, an infinity, and the corrections
of lines 106-109 turn `u[1,1]`, `v[1,1]` into `+inf`, `v[1,2]` into `-inf` and
`u[2,1]` into a NaN. The state reaches `advectVel` with every index in range;
there, at cell `(1, 1)`, `avgV` adds `+inf` and `-inf`, so the traced position
is `(-inf, NaN)`; `std::min` and `std::max` at line 143 return the NaN, and
the conversion `(int) std::floor(NaN)` of line 159 has no defined value, hence
no index in `[0, numX*numY)`: the checked tick fails, while the same tick of
the untouched grid succeeds. -/
theorem C11_tick_fails_on_overflow :
    (opposed43.u.all F32.isFinite = true ∧ opposed43.v.all F32.isFinite = true) ∧
    rd32 opposed43.u (1 * opposed43.numY + 1)
      = F32.fin (-300000000549775575777803994281145270272) ∧
    rd32 opposed43.u (2 * opposed43.numY + 1)
      = F32.fin 300000000549775575777803994281145270272 ∧
    (beforeAdvection32 DT32 (F32.fin 0) 1 opposed43).isSome = true ∧
    (beforeAdvection32 DT32 (F32.fin 0) 1 opposed43).bind (fun E => rdC32 E.u (1 * E.numY + 1))
      = some (F32.inf false) ∧
    (beforeAdvection32 DT32 (F32.fin 0) 1 opposed43).bind (fun E => avgV32 E 1 1)
      = some F32.nan ∧
    (F32.fin 1).sub (DT32.mul (F32.inf false)) = F32.inf true ∧
    ((F32.fin 1).add (F32.fin (1 / 2))).sub (DT32.mul F32.nan) = F32.nan ∧
    F32.max (F32.min F32.nan ((F32.ofInt 3).mul (F32.fin 1))) (F32.fin 1) = F32.nan ∧
    F32.toIntC (((F32.nan.sub (F32.fin (1 / 2))).mul (F32.fin 1)).floor) = none ∧
    (beforeAdvection32 DT32 (F32.fin 0) 1 opposed43).bind
      (fun E => sampleField32 E (F32.inf true) F32.nan U_FIELD) = none ∧
    simulate32 DT32 (F32.fin 0) 1 opposed43 = none ∧
    (simulate32 DT32 (F32.fin 0) 1 open43).isSome = true := by
  decide!

/-! ## C8: the open cell next to the injected face -/

theorem packedGet_eq (U k : Nat) :
    packedGet U k = (U / 2 ^ (packWidth * k)) % 2 ^ packWidth := rfl

theorem packedSet_eq (U X old new : Nat) : packedSet U X old new = U - X * old + X * new := rfl

/-- Replacing one base-`2^w` digit of a number changes that digit and no other. -/
theorem digit_replace (w U k y k2 : Nat) (hy : y < 2 ^ w) :
    ((U - 2 ^ (w * k) * ((U / 2 ^ (w * k)) % 2 ^ w) + 2 ^ (w * k) * y) / 2 ^ (w * k2)) % 2 ^ w
      = if k2 = k then y else (U / 2 ^ (w * k2)) % 2 ^ w := by
  have hXpos : 0 < 2 ^ (w * k) := Nat.pow_pos (by norm_num)
  have hMpos : 0 < 2 ^ w := Nat.pow_pos (by norm_num)
  obtain ⟨X, hX⟩ : ∃ X, X = 2 ^ (w * k) := ⟨_, rfl⟩
  obtain ⟨Mw, hM⟩ : ∃ Mw, Mw = 2 ^ w := ⟨_, rfl⟩
  obtain ⟨hi, hhi⟩ : ∃ hi, hi = U / X / Mw := ⟨_, rfl⟩
  obtain ⟨f, hf⟩ : ∃ f, f = (U / X) % Mw := ⟨_, rfl⟩
  obtain ⟨lo, hlo⟩ : ∃ lo, lo = U % X := ⟨_, rfl⟩
  have hloX : lo < X := by rw [hlo]; exact Nat.mod_lt _ (by rw [hX]; exact hXpos)
  have hfM : f < Mw := by rw [hf]; exact Nat.mod_lt _ (by rw [hM]; exact hMpos)
  have hq : U / X = Mw * hi + f := by rw [hhi, hf]; exact (Nat.div_add_mod _ _).symm
  have hU : U = X * (Mw * hi + f) + lo := by rw [← hq, hlo]; exact (Nat.div_add_mod _ _).symm
  have hU2 : U - X * f + X * y = X * (Mw * hi + y) + lo := by
    have : U = X * (Mw * hi) + lo + X * f := by rw [hU]; ring
    rw [this, Nat.add_sub_cancel]; ring
  rw [← hX, ← hM, ← hf, hU2]
  have hdivX : ∀ z, (X * (Mw * hi + z) + lo) / X = Mw * hi + z := by
    intro z
    rw [Nat.mul_add_div (by rw [hX]; exact hXpos), Nat.div_eq_of_lt hloX, Nat.add_zero]
  rcases Nat.lt_trichotomy k2 k with hlt | heq | hgt
  · rw [if_neg (by omega)]
    obtain ⟨T, hT⟩ : ∃ T, T = 2 ^ (w * (k - k2 - 1)) := ⟨_, rfl⟩
    obtain ⟨X2, hX2⟩ : ∃ X2, X2 = 2 ^ (w * k2) := ⟨_, rfl⟩
    have hX2pos : 0 < X2 := by rw [hX2]; exact Nat.pow_pos (by norm_num)
    have e : X = X2 * (Mw * T) := by
      rw [hX, hX2, hM, hT, ← Nat.pow_add, ← Nat.pow_add]
      congr 1
      have : k = k2 + 1 + (k - k2 - 1) := by omega
      calc w * k = w * (k2 + 1 + (k - k2 - 1)) := by rw [← this]
        _ = w * k2 + (w + w * (k - k2 - 1)) := by ring
    have key : ∀ z, ((X * (Mw * hi + z) + lo) / X2) % Mw = (lo / X2) % Mw := by
      intro z
      have : X * (Mw * hi + z) + lo = X2 * (Mw * (T * (Mw * hi + z))) + lo := by rw [e]; ring
      rw [this, Nat.mul_add_div hX2pos, Nat.mul_add_mod]
    rw [← hX2, key y, hU, key f]
  · rw [if_pos heq, heq, ← hX, hdivX y, Nat.mul_add_mod, Nat.mod_eq_of_lt (by rw [hM]; exact hy)]
  · rw [if_neg (by omega)]
    obtain ⟨T, hT⟩ : ∃ T, T = 2 ^ (w * (k2 - k - 1)) := ⟨_, rfl⟩
    have e : 2 ^ (w * k2) = X * (Mw * T) := by
      rw [hX, hM, hT, ← Nat.pow_add, ← Nat.pow_add]
      congr 1
      have : k2 = k + 1 + (k2 - k - 1) := by omega
      calc w * k2 = w * (k + 1 + (k2 - k - 1)) := by rw [← this]
        _ = w * k + (w + w * (k2 - k - 1)) := by ring
    have key : ∀ z, z < Mw → (X * (Mw * hi + z) + lo) / (X * (Mw * T)) = hi / T := by
      intro z hz
      rw [← Nat.div_div_eq_div_mul, hdivX z, ← Nat.div_div_eq_div_mul,
        Nat.mul_add_div (by rw [hM]; exact hMpos), Nat.div_eq_of_lt hz, Nat.add_zero]
    rw [e, key y (by rw [hM]; exact hy), hU, key f hfM]

/-- Reading a packed vector after one entry was replaced. -/
theorem packedGet_set (U k y k2 : Nat) (hy : y < packMod) :
    packedGet (packedSet U (2 ^ (packWidth * k)) (packedGet U k) y) k2
      = if k2 = k then y else packedGet U k2 := by
  rw [packedGet_eq, packedGet_eq, packedSet_eq, packedGet_eq]
  exact digit_replace packWidth U k y k2 hy

/-- Reading a packed vector after two entries were replaced. -/
theorem packedGet_set_set (U k1 k2 y1 y2 k : Nat) (hne : k2 ≠ k1)
    (hy1 : y1 < packMod) (hy2 : y2 < packMod) :
    packedGet (packedSet (packedSet U (2 ^ (packWidth * k1)) (packedGet U k1) y1)
        (2 ^ (packWidth * k2)) (packedGet U k2) y2) k
      = if k = k2 then y2 else if k = k1 then y1 else packedGet U k := by
  have h2 : packedGet U k2
      = packedGet (packedSet U (2 ^ (packWidth * k1)) (packedGet U k1) y1) k2 := by
    rw [packedGet_set U k1 y1 k2 hy1, if_neg hne]
  rw [h2, packedGet_set _ k2 y2 k hy2, packedGet_set U k1 y1 k hy1]

theorem packMod_pos : 0 < packMod := by unfold packMod; exact Nat.pow_pos (by norm_num)

theorem packedGet_lt (U k : Nat) : packedGet U k < packMod :=
  Nat.mod_lt _ packMod_pos

theorem packScale_ne : (packScale : ℚ) ≠ 0 := by
  unfold packScale; norm_num

/-- The value of a digit that differs from another digit by `z` scale units. -/
theorem unpackEntry_shift (x y : Nat) (z : ℚ) (h : (x : ℚ) = (y : ℚ) + z * (packScale : ℚ)) :
    unpackEntry x = unpackEntry y + z := by
  unfold unpackEntry
  rw [h]
  field_simp [packScale_ne]
  ring

/-- What a successful correction on packed entries has checked and returns. -/
theorem fastCorrect_some (st st1 : PackedUV) (X Y Z a b c e sx0 sx1 sy0 sy1 S : Nat)
    (h : fastCorrect st X Y Z a b c e sx0 sx1 sy0 sy1 S = some st1) :
    ∃ Q C b1 a1 e1 c1 : Nat,
      3 * (a + c + packBias4 - (b + e)) = 2 * S * Q ∧ packBias6 = S * C ∧
      b1 + sx0 * C = b + sx0 * Q ∧ b1 < packMod ∧ a1 + sx1 * Q = a + sx1 * C ∧ a1 < packMod ∧
      e1 + sy0 * C = e + sy0 * Q ∧ e1 < packMod ∧ c1 + sy1 * Q = c + sy1 * C ∧ c1 < packMod ∧
      st1 = ⟨packedSet (packedSet st.u X b b1) Y a a1,
             packedSet (packedSet st.v X e e1) Z c c1⟩ := by
  unfold fastCorrect at h
  dsimp only at h
  generalize hD3 : Nat.mul 3 (Nat.sub (Nat.add (Nat.add a c) packBias4) (Nat.add b e)) = D3 at h
  generalize hS2 : Nat.mul 2 S = S2 at h
  generalize hQ : Nat.div D3 S2 = Q at h
  generalize hC : Nat.div packBias6 S = C at h
  generalize hb1 : Nat.sub (Nat.add b (Nat.mul sx0 Q)) (Nat.mul sx0 C) = b1 at h
  generalize ha1 : Nat.sub (Nat.add a (Nat.mul sx1 C)) (Nat.mul sx1 Q) = a1 at h
  generalize he1 : Nat.sub (Nat.add e (Nat.mul sy0 Q)) (Nat.mul sy0 C) = e1 at h
  generalize hc1 : Nat.sub (Nat.add c (Nat.mul sy1 C)) (Nat.mul sy1 Q) = c1 at h
  generalize hcond : (and (and (Nat.beq (Nat.mod D3 S2) 0) (Nat.beq (Nat.mod packBias6 S) 0))
      (and (and (and (Nat.ble (Nat.mul sx0 C) (Nat.add b (Nat.mul sx0 Q)))
                     (Nat.ble (Nat.succ b1) packMod))
                (and (Nat.ble (Nat.mul sx1 Q) (Nat.add a (Nat.mul sx1 C)))
                     (Nat.ble (Nat.succ a1) packMod)))
           (and (and (Nat.ble (Nat.mul sy0 C) (Nat.add e (Nat.mul sy0 Q)))
                     (Nat.ble (Nat.succ e1) packMod))
                (and (Nat.ble (Nat.mul sy1 Q) (Nat.add c (Nat.mul sy1 C)))
                     (Nat.ble (Nat.succ c1) packMod))))) = t at h
  cases t with
  | false => exact absurd h (by simp)
  | true =>
    simp only [Bool.and_eq_true] at hcond
    obtain ⟨⟨m1, m2⟩, ⟨⟨q1, q2⟩, ⟨q3, q4⟩⟩, ⟨⟨q5, q6⟩, ⟨q7, q8⟩⟩⟩ := hcond
    have m1' : D3 % S2 = 0 := Nat.eq_of_beq_eq_true m1
    have m2' : packBias6 % S = 0 := Nat.eq_of_beq_eq_true m2
    have r1 : sx0 * C ≤ b + sx0 * Q := Nat.le_of_ble_eq_true q1
    have r2 : b1 + 1 ≤ packMod := Nat.le_of_ble_eq_true q2
    have r3 : sx1 * Q ≤ a + sx1 * C := Nat.le_of_ble_eq_true q3
    have r4 : a1 + 1 ≤ packMod := Nat.le_of_ble_eq_true q4
    have r5 : sy0 * C ≤ e + sy0 * Q := Nat.le_of_ble_eq_true q5
    have r6 : e1 + 1 ≤ packMod := Nat.le_of_ble_eq_true q6
    have r7 : sy1 * Q ≤ c + sy1 * C := Nat.le_of_ble_eq_true q7
    have r8 : c1 + 1 ≤ packMod := Nat.le_of_ble_eq_true q8
    have hD3' : 3 * (a + c + packBias4 - (b + e)) = D3 := hD3
    have hS2' : 2 * S = S2 := hS2
    have hQ' : D3 / S2 = Q := hQ
    have hC' : packBias6 / S = C := hC
    have hb1' : b + sx0 * Q - sx0 * C = b1 := hb1
    have ha1' : a + sx1 * C - sx1 * Q = a1 := ha1
    have he1' : e + sy0 * Q - sy0 * C = e1 := he1
    have hc1' : c + sy1 * C - sy1 * Q = c1 := hc1
    refine ⟨Q, C, b1, a1, e1, c1, ?_, ?_, ?_, by omega, ?_, by omega, ?_, by omega, ?_,
      by omega, ?_⟩
    · rw [hD3', hS2', ← hQ']
      exact (Nat.mul_div_cancel' (Nat.dvd_of_mod_eq_zero m1')).symm
    · rw [← hC']
      exact (Nat.mul_div_cancel' (Nat.dvd_of_mod_eq_zero m2')).symm
    · rw [← hb1']; exact Nat.sub_add_cancel r1
    · rw [← ha1']; exact Nat.sub_add_cancel r3
    · rw [← he1']; exact Nat.sub_add_cancel r5
    · rw [← hc1']; exact Nat.sub_add_cancel r7
    · simp only [cond_true] at h
      exact (Option.some.inj h).symm

/-- What a correcting visit writes, entry by entry: with `P` the pressure
correction of line 102, `u[k + numY]` gains `sx1 * P`, `u[k]` loses `sx0 * P`,
`v[k + 1]` gains `sy1 * P`, `v[k]` loses `sy0 * P`. -/
theorem solveAt_rd (cp : ℚ) (k : Int) (F : Fluid)
    (hk : 0 ≤ k) (hY : 0 < F.numY) (hu : k + F.numY < F.u.length) (hv : k + 1 < F.v.length)
    (h1 : rd F.s k ≠ 0) (h2 : weightSum F k ≠ 0) :
    (∀ x : Int, rd (solveAt cp k F).u x = rd F.u x +
        (if x = k + F.numY then
          rd F.s (k + F.numY) * (-(divAt F k) / weightSum F k * OVER_RELAXATION) else 0) -
        (if x = k then
          rd F.s (k - F.numY) * (-(divAt F k) / weightSum F k * OVER_RELAXATION) else 0)) ∧
    (∀ x : Int, rd (solveAt cp k F).v x = rd F.v x +
        (if x = k + 1 then
          rd F.s (k + 1) * (-(divAt F k) / weightSum F k * OVER_RELAXATION) else 0) -
        (if x = k then
          rd F.s (k - 1) * (-(divAt F k) / weightSum F k * OVER_RELAXATION) else 0)) := by
  rw [solveAt_active cp k F h1 h2]
  generalize -(divAt F k) / weightSum F k * OVER_RELAXATION = P
  constructor
  · intro x
    dsimp only
    rw [rd_wr_wr _ _ _ _ _ _ hk (by omega) (by omega) hu,
      rd_wr_ne _ _ (by omega : k + F.numY ≠ k)]
    by_cases c1 : x = k + F.numY
    · have c2 : ¬ x = k := by omega
      rw [if_pos c1, if_pos c1, if_neg c2, c1]; ring
    · by_cases c2 : x = k
      · rw [if_neg c1, if_pos c2, if_neg c1, if_pos c2, c2]; ring
      · rw [if_neg c1, if_neg c2, if_neg c1, if_neg c2]; ring
  · intro x
    dsimp only
    rw [rd_wr_wr _ _ _ _ _ _ hk (by omega) (by omega) hv,
      rd_wr_ne _ _ (by omega : k + 1 ≠ k)]
    by_cases c1 : x = k + 1
    · have c2 : ¬ x = k := by omega
      rw [if_pos c1, if_pos c1, if_neg c2, c1]; ring
    · by_cases c2 : x = k
      · rw [if_neg c1, if_pos c2, if_neg c1, if_pos c2, c2]; ring
      · rw [if_neg c1, if_neg c2, if_neg c1, if_neg c2]; ring

/-- The arithmetic of the packed correction: `Q - C` is minus the pressure
correction in scale units. -/
theorem fastCorrect_arith (a b c e S Q C B s : ℚ) (hS : S ≠ 0) (hs : s ≠ 0)
    (hD : 3 * (a + c + 4 * B - b - e) = 2 * S * Q) (hC : 6 * B = S * C) :
    Q - C = -(-((a - B) / s - (b - B) / s + (c - B) / s - (e - B) / s) / S * (3 / 2)) * s := by
  field_simp
  linear_combination (-s) * hD + (2 * s) * hC

theorem packBias4_eq : (packBias4 : ℚ) = 4 * (packBias : ℚ) := by
  unfold packBias4 packBias; norm_num

theorem packBias6_eq : (packBias6 : ℚ) = 6 * (packBias : ℚ) := by
  unfold packBias6 packBias; norm_num

theorem packMod_le_bias4 : 2 * packMod ≤ packBias4 := by
  unfold packMod packBias4; norm_num

/-- A visit on packed vectors that succeeds computes what `solveCell` computes:
the relation between the grid state and the packed pair is kept. -/
theorem fastVisit_sound (cp : ℚ) (M nX nY : Nat) (F : Fluid) (st st1 : PackedUV) (i j : Nat)
    (hi0 : 1 ≤ i) (hi1 : i + 2 ≤ nX) (hj0 : 1 ≤ j) (hj1 : j + 2 ≤ nY)
    (hR : PackedRel M nX nY F st)
    (h : fastVisit M nY (i * nY + j) st = some st1) :
    PackedRel M nX nY (solveCell cp (i : Int) (j : Int) F) st1 := by
  obtain ⟨hX, hY, hlu, hlv, hs, hu, hv⟩ := hR
  obtain ⟨k, hk⟩ : ∃ k, k = i * nY + j := ⟨_, rfl⟩
  have b1 : nY ≤ k := by
    have : 1 * nY ≤ i * nY := Nat.mul_le_mul_right nY hi0
    omega
  have b2 : k + nY + 1 < nX * nY := by
    have h1 : (i + 2) * nY ≤ nX * nY := Nat.mul_le_mul_right nY hi1
    have h2 : (i + 2) * nY = i * nY + 2 * nY := by ring
    omega
  have ek : ((i : Int) * F.numY + (j : Int)) = ((k : Nat) : Int) := by
    rw [hY, hk]; push_cast; ring
  have eL : ((k : Nat) : Int) - F.numY = ((k - nY : Nat) : Int) := by rw [hY]; omega
  have eR : ((k : Nat) : Int) + F.numY = ((k + nY : Nat) : Int) := by rw [hY]; omega
  have eD : ((k : Nat) : Int) - 1 = ((k - 1 : Nat) : Int) := by omega
  have eU : ((k : Nat) : Int) + 1 = ((k + 1 : Nat) : Int) := by omega
  have hw : weightSum F (k : Int) = ((maskBit M (k - nY) + maskBit M (k + nY) +
      (maskBit M (k - 1) + maskBit M (k + 1)) : Nat) : ℚ) := by
    unfold weightSum
    rw [eL, eR, eD, eU, hs _ (by omega), hs _ (by omega), hs _ (by omega), hs _ (by omega)]
    push_cast; ring
  rw [solveCell_eq_solveAt, ek]
  rw [← hk] at h
  unfold fastVisit at h
  dsimp only at h
  cases hb : Nat.beq (maskBit M k) 0 with
  | true =>
    rw [hb, cond_true] at h
    have m0 : maskBit M k = 0 := Nat.eq_of_beq_eq_true hb
    have e1 : st1 = st := (Option.some.inj h).symm
    rw [solveAt_inactive cp _ F (Or.inl (by rw [hs k (by omega), m0]; simp)), e1]
    exact ⟨hX, hY, hlu, hlv, hs, hu, hv⟩
  | false =>
    rw [hb, cond_false] at h
    have m0 : maskBit M k ≠ 0 := fun e => by rw [e] at hb; exact absurd hb (by decide)
    have hS : Nat.add (Nat.add (maskBit M (Nat.sub k nY)) (maskBit M (Nat.add k nY)))
        (Nat.add (maskBit M (Nat.sub k 1)) (maskBit M (Nat.add k 1)))
        = maskBit M (k - nY) + maskBit M (k + nY) + (maskBit M (k - 1) + maskBit M (k + 1)) := rfl
    rw [hS] at h
    generalize hSdef : maskBit M (k - nY) + maskBit M (k + nY) +
      (maskBit M (k - 1) + maskBit M (k + 1)) = S at h hw
    cases hb2 : Nat.beq S 0 with
    | true =>
      rw [hb2, cond_true] at h
      have s0 : S = 0 := Nat.eq_of_beq_eq_true hb2
      have e1 : st1 = st := (Option.some.inj h).symm
      rw [solveAt_inactive cp _ F (Or.inr (by rw [hw, s0]; simp)), e1]
      exact ⟨hX, hY, hlu, hlv, hs, hu, hv⟩
    | false =>
      rw [hb2, cond_false] at h
      have s0 : S ≠ 0 := fun e => by rw [e] at hb2; exact absurd hb2 (by decide)
      have h1 : rd F.s (k : Int) ≠ 0 := by
        rw [hs k (by omega)]; exact_mod_cast m0
      have h2 : weightSum F (k : Int) ≠ 0 := by
        rw [hw]; exact_mod_cast s0
      have h' : fastCorrect st (2 ^ (packWidth * k)) (2 ^ (packWidth * (k + nY)))
          (2 ^ (packWidth * (k + 1))) (packedGet st.u (k + nY)) (packedGet st.u k)
          (packedGet st.v (k + 1)) (packedGet st.v k) (maskBit M (k - nY)) (maskBit M (k + nY))
          (maskBit M (k - 1)) (maskBit M (k + 1)) S = some st1 := h
      obtain ⟨Q, C, nb, na, ne, nc, f1, f2, f3, f4, f5, f6, f7, f8, f9, f10, f11⟩ :=
        fastCorrect_some _ _ _ _ _ _ _ _ _ _ _ _ _ _ h'
      obtain ⟨k1, k2, k3, k4, k5⟩ := solveAt_keeps cp (k : Int) F
      obtain ⟨ru, rv⟩ := solveAt_rd cp (k : Int) F (by omega) (by rw [hY]; omega)
        (by rw [hY, hlu]; push_cast; omega) (by rw [hlv]; push_cast; omega) h1 h2
      generalize ha : packedGet st.u (k + nY) = a at f1 f5 f11
      generalize hb' : packedGet st.u k = b at f1 f3 f11
      generalize hc : packedGet st.v (k + 1) = c at f1 f9 f11
      generalize he : packedGet st.v k = e at f1 f7 f11
      have la : a < packMod := by rw [← ha]; exact packedGet_lt _ _
      have lb : b < packMod := by rw [← hb']; exact packedGet_lt _ _
      have lc : c < packMod := by rw [← hc]; exact packedGet_lt _ _
      have le : e < packMod := by rw [← he]; exact packedGet_lt _ _
      have dv : divAt F (k : Int)
          = unpackEntry a - unpackEntry b + unpackEntry c - unpackEntry e := by
        unfold divAt
        rw [eR, eU, hu _ (by omega), hu _ (by omega), hv _ (by omega), hv _ (by omega),
          ha, hb', hc, he]
      have hsub : b + e ≤ a + c + packBias4 := by
        have := packMod_le_bias4
        omega
      have g1 : 3 * ((a : ℚ) + c + 4 * (packBias : ℚ) - b - e) = 2 * (S : ℚ) * Q := by
        have t := congrArg (fun n : Nat => (n : ℚ)) f1
        simp only [Nat.cast_mul, Nat.cast_sub hsub, Nat.cast_add, packBias4_eq,
          Nat.cast_ofNat] at t
        linarith
      have g2 : 6 * (packBias : ℚ) = (S : ℚ) * C := by
        have t := congrArg (fun n : Nat => (n : ℚ)) f2
        simp only [Nat.cast_mul, packBias6_eq] at t
        exact t
      have key : (Q : ℚ) - C
          = -(-(divAt F (k : Int)) / weightSum F (k : Int) * OVER_RELAXATION) * packScale := by
        rw [dv, hw]
        unfold OVER_RELAXATION unpackEntry
        exact fastCorrect_arith a b c e S Q C packBias packScale (by exact_mod_cast s0)
          packScale_ne g1 g2
      generalize -(divAt F (k : Int)) / weightSum F (k : Int) * OVER_RELAXATION = P at ru rv key
      have nY0 : k + nY ≠ k := by omega
      refine ⟨k2.trans hX, k3.trans hY, k4.trans hlu, k5.trans hlv, ?_, ?_, ?_⟩
      · intro x hx
        rw [k1]; exact hs x hx
      · intro x hx
        have g : packedGet st1.u x = if x = k + nY then na else if x = k then nb
            else packedGet st.u x := by
          rw [f11, ← ha, ← hb']
          exact packedGet_set_set st.u k (k + nY) nb na x nY0 f4 f6
        rw [ru, g, eR, eL, hs _ (by omega), hs _ (by omega), hu x hx]
        by_cases c1 : x = k + nY
        · have c2 : ¬ x = k := by omega
          have c1' : ((x : Nat) : Int) = ((k + nY : Nat) : Int) := by rw [c1]
          have c2' : ¬ ((x : Nat) : Int) = ((k : Nat) : Int) := by omega
          rw [if_pos c1, if_pos c1', if_neg c2', c1, ha]
          have := congrArg (fun n : Nat => (n : ℚ)) f5
          simp only [Nat.cast_mul, Nat.cast_add] at this
          have sh : (na : ℚ) = (a : ℚ) + ((maskBit M (k + nY) : ℚ) * P) * (packScale : ℚ) := by
            linear_combination this - (maskBit M (k + nY) : ℚ) * key
          rw [unpackEntry_shift na a ((maskBit M (k + nY) : ℚ) * P) sh]
          ring
        · have c1' : ¬ ((x : Nat) : Int) = ((k + nY : Nat) : Int) := by omega
          by_cases c2 : x = k
          · have c2' : ((x : Nat) : Int) = ((k : Nat) : Int) := by rw [c2]
            rw [if_neg c1, if_pos c2, if_neg c1', if_pos c2', c2, hb']
            have := congrArg (fun n : Nat => (n : ℚ)) f3
            simp only [Nat.cast_mul, Nat.cast_add] at this
            have sh : (nb : ℚ) = (b : ℚ) + (-((maskBit M (k - nY) : ℚ) * P)) * (packScale : ℚ) := by
              linear_combination this + (maskBit M (k - nY) : ℚ) * key
            rw [unpackEntry_shift nb b (-((maskBit M (k - nY) : ℚ) * P)) sh]
            ring
          · have c2' : ¬ ((x : Nat) : Int) = ((k : Nat) : Int) := by omega
            rw [if_neg c1, if_neg c2, if_neg c1', if_neg c2']
            ring
      · intro x hx
        have g : packedGet st1.v x = if x = k + 1 then nc else if x = k then ne
            else packedGet st.v x := by
          rw [f11, ← hc, ← he]
          exact packedGet_set_set st.v k (k + 1) ne nc x (by omega) f8 f10
        rw [rv, g, eU, eD, hs _ (by omega), hs _ (by omega), hv x hx]
        by_cases c1 : x = k + 1
        · have c2 : ¬ x = k := by omega
          have c1' : ((x : Nat) : Int) = ((k + 1 : Nat) : Int) := by rw [c1]
          have c2' : ¬ ((x : Nat) : Int) = ((k : Nat) : Int) := by omega
          rw [if_pos c1, if_pos c1', if_neg c2', c1, hc]
          have := congrArg (fun n : Nat => (n : ℚ)) f9
          simp only [Nat.cast_mul, Nat.cast_add] at this
          have sh : (nc : ℚ) = (c : ℚ) + ((maskBit M (k + 1) : ℚ) * P) * (packScale : ℚ) := by
            linear_combination this - (maskBit M (k + 1) : ℚ) * key
          rw [unpackEntry_shift nc c ((maskBit M (k + 1) : ℚ) * P) sh]
          ring
        · have c1' : ¬ ((x : Nat) : Int) = ((k + 1 : Nat) : Int) := by omega
          by_cases c2 : x = k
          · have c2' : ((x : Nat) : Int) = ((k : Nat) : Int) := by rw [c2]
            rw [if_neg c1, if_pos c2, if_neg c1', if_pos c2', c2, he]
            have := congrArg (fun n : Nat => (n : ℚ)) f7
            simp only [Nat.cast_mul, Nat.cast_add] at this
            have sh : (ne : ℚ) = (e : ℚ) + (-((maskBit M (k - 1) : ℚ) * P)) * (packScale : ℚ) := by
              linear_combination this + (maskBit M (k - 1) : ℚ) * key
            rw [unpackEntry_shift ne e (-((maskBit M (k - 1) : ℚ) * P)) sh]
            ring
          · have c2' : ¬ ((x : Nat) : Int) = ((k : Nat) : Int) := by omega
            rw [if_neg c1, if_neg c2, if_neg c1', if_neg c2']
            ring

/-- A loop on packed vectors that succeeds computes what the loop on grid
states computes, when each step does. -/
theorem fastLoop_sound (R : Fluid → PackedUV → Prop) (bodyM : Int → Fluid → Fluid)
    (body : Nat → PackedUV → Option PackedUV) (lo n : Nat)
    (hstep : ∀ (i : Nat) (F : Fluid) (st st1 : PackedUV), lo ≤ i → i < lo + n → R F st →
      body i st = some st1 → R (bodyM (i : Int) F) st1)
    (F : Fluid) (st st1 : PackedUV) (hR : R F st) (h : fastLoop body lo n st = some st1) :
    R (forRange (lo : Int) ((lo + n : Nat) : Int) bodyM F) st1 := by
  induction n generalizing st1 with
  | zero =>
    have e : st1 = st := (Option.some.inj h).symm
    rw [forRange_empty _ _ (by simp), e]
    exact hR
  | succ n ih =>
    have hdef : fastLoop body lo (n + 1) st =
        match fastLoop body lo n st with
        | none => none
        | some s => body (Nat.add lo n) s := rfl
    rw [hdef] at h
    cases hprev : fastLoop body lo n st with
    | none => rw [hprev] at h; exact absurd h (by simp)
    | some s =>
      rw [hprev] at h
      have h' : body (lo + n) s = some st1 := h
      have r1 := ih (fun i F st st1 a b c d => hstep i F st st1 a (by omega) c d) s hprev
      have e : ((lo + (n + 1) : Nat) : Int) = ((lo + n : Nat) : Int) + 1 := by push_cast; ring
      rw [e, forRange_succ _ _ (by omega)]
      exact hstep (lo + n) _ s st1 (by omega) (by omega) r1 h'

/-- A sweep on packed vectors that succeeds computes what `solveSweep`
computes. -/
theorem fastSweep_sound (cp : ℚ) (M nX nY : Nat) (hX : 2 ≤ nX) (hY : 2 ≤ nY)
    (F : Fluid) (st st1 : PackedUV) (hR : PackedRel M nX nY F st)
    (h : fastSweep M nX nY st = some st1) :
    PackedRel M nX nY (solveSweep cp F) st1 := by
  have eX : F.numX - 1 = ((1 + (nX - 2) : Nat) : Int) := by rw [hR.1]; omega
  have eY : F.numY - 1 = ((1 + (nY - 2) : Nat) : Int) := by rw [hR.2.1]; omega
  have e1 : (1 : Int) = ((1 : Nat) : Int) := rfl
  unfold solveSweep
  rw [eX, eY, e1]
  unfold fastSweep at h
  apply fastLoop_sound (PackedRel M nX nY) _ _ 1 (nX - 2) _ F st st1 hR h
  intro i G s s1 hi0 hi1 hG hs
  apply fastLoop_sound (PackedRel M nX nY) _ _ 1 (nY - 2) _ G s s1 hG hs
  intro j G1 t t1 hj0 hj1 hG1 ht
  exact fastVisit_sound cp M nX nY G1 t t1 i j hi0 (by omega) hj0 (by omega) hG1 ht

/-- The projector on packed vectors, when it succeeds, computes what
`solveIncompressibility` computes. -/
theorem fastProject_sound (dt : ℚ) (M nX nY n : Nat) (hX : 2 ≤ nX) (hY : 2 ≤ nY)
    (F : Fluid) (st st1 : PackedUV) (hR : PackedRel M nX nY F st)
    (h : fastProject M nX nY n st = some st1) :
    PackedRel M nX nY (solveIncompressibility (n : Int) dt F) st1 := by
  unfold solveIncompressibility
  dsimp only
  unfold fastProject at h
  have e0 : (0 : Int) = ((0 : Nat) : Int) := rfl
  have en : (n : Int) = ((0 + n : Nat) : Int) := by simp
  rw [e0, en]
  apply fastLoop_sound (PackedRel M nX nY) _ _ 0 n _ F st st1 hR h
  intro i G s s1 _ _ hG hs
  exact fastSweep_sound _ M nX nY hX hY G s s1 hG hs

theorem length_unpackVec (n U : Nat) : (unpackVec n U).length = n := by
  unfold unpackVec; simp

theorem rd_unpackVec (n U k : Nat) (h : k < n) :
    rd (unpackVec n U) (k : Int) = unpackEntry (packedGet U k) := by
  unfold rd unpackVec
  have h0 : ¬ ((k : Int) < 0) := by omega
  rw [if_neg h0]
  simp [List.getD_eq_getElem?_getD, List.getElem?_map, List.getElem?_range h]

/-- A grid state that a packed pair describes has the vectors `u` and `v` that
unpacking the pair gives. -/
theorem PackedRel.unpack {M nX nY : Nat} {F : Fluid} {st : PackedUV}
    (hR : PackedRel M nX nY F st) :
    F.u = unpackVec (nX * nY) st.u ∧ F.v = unpackVec (nX * nY) st.v := by
  obtain ⟨_, _, hlu, hlv, _, hu, hv⟩ := hR
  constructor
  · apply ext_rd (by rw [length_unpackVec, hlu])
    intro k
    by_cases h0 : k < 0
    · rw [rd_of_lt _ h0, rd_of_lt _ h0]
    · by_cases h1 : k < ((nX * nY : Nat) : Int)
      · obtain ⟨m, rfl⟩ : ∃ m : Nat, k = (m : Int) := ⟨k.toNat, by omega⟩
        have hm : m < nX * nY := by omega
        rw [hu m hm, rd_unpackVec _ _ _ hm]
      · rw [rd_of_ge _ (by rw [hlu]; omega), rd_of_ge _ (by rw [length_unpackVec]; omega)]
  · apply ext_rd (by rw [length_unpackVec, hlv])
    intro k
    by_cases h0 : k < 0
    · rw [rd_of_lt _ h0, rd_of_lt _ h0]
    · by_cases h1 : k < ((nX * nY : Nat) : Int)
      · obtain ⟨m, rfl⟩ : ∃ m : Nat, k = (m : Int) := ⟨k.toNat, by omega⟩
        have hm : m < nX * nY := by omega
        rw [hv m hm, rd_unpackVec _ _ _ hm]
      · rw [rd_of_ge _ (by rw [hlv]; omega), rd_of_ge _ (by rw [length_unpackVec]; omega)]

/-- The entries of `u` and `v` after `advectVel`. -/
theorem advectVel_advected (dt : ℚ) (F : Fluid)
    (hu : (F.u.length : Int) = F.numX * F.numY) (hv : (F.v.length : Int) = F.numX * F.numY)
    (i j : Int) (hi0 : 0 ≤ i) (hi1 : i < F.numX) (hj0 : 0 ≤ j) (hj1 : j < F.numY) :
    rd (advectVel dt F).u (i * F.numY + j) = advectedU dt F i j ∧
    rd (advectVel dt F).v (i * F.numY + j) = advectedV dt F i j :=
  advectVel_spec dt F hu hv i j hi0 hi1 hj0 hj1

/-- The divergence after a tick without gravity, from the result of the
projector on packed vectors. -/
theorem simulate_divergence_packed (dt : ℚ) (n : Nat) (F : Fluid) (M nX nY : Nat)
    (st : PackedUV) (hX : 2 ≤ nX) (hY : 2 ≤ nY)
    (hR : PackedRel M nX nY F (packState F))
    (hrun : fastProject M nX nY n (packState F) = some st)
    (i j : Int) (hi0 : 0 ≤ i) (hi1 : i + 1 < nX) (hj0 : 0 ≤ j) (hj1 : j + 1 < nY) :
    divergence (simulate dt 0 n F) i j
      = advectedDivergence dt (extrapolate (unpackState F st)) i j := by
  obtain ⟨F2, e2⟩ : ∃ F2 : Fluid, F2 = setP (F.p.map (fun _ => 0)) F := ⟨_, rfl⟩
  obtain ⟨F3, e3⟩ : ∃ F3, F3 = solveIncompressibility (n : Int) dt F2 := ⟨_, rfl⟩
  obtain ⟨G, eG⟩ : ∃ G, G = unpackState F st := ⟨_, rfl⟩
  have hsim : simulate dt 0 n F
      = fadeDensity (advectSmoke dt (advectVel dt (extrapolate F3))) := by
    have : simulate dt 0 n F = fadeDensity (advectSmoke dt (advectVel dt (extrapolate
        (solveIncompressibility n dt { (integrate dt 0 F) with
          p := (integrate dt 0 F).p.map (fun _ => 0) })))) := rfl
    rw [this, integrate_zero_gravity, e3, e2]
    rfl
  have hR2 : PackedRel M nX nY F2 (packState F) := by rw [e2]; exact hR
  have hR3 : PackedRel M nX nY F3 st := by
    rw [e3]; exact fastProject_sound dt M nX nY n hX hY F2 _ st hR2 hrun
  obtain ⟨u3, v3⟩ := hR3.unpack
  have hF3 : F3 = setP F3.p G := by
    have f3 := solveIncompressibility_frame (n : Int) dt F2
    rw [← e3] at f3
    rw [f3, eG, e2]
    unfold unpackState setP
    rw [hR.2.2.1, hR.2.2.2.1]
    dsimp only
    rw [← u3, ← v3]
  obtain ⟨E0, eE⟩ : ∃ E0, E0 = extrapolate G := ⟨_, rfl⟩
  obtain ⟨A0, eA⟩ : ∃ A0, A0 = advectVel dt E0 := ⟨_, rfl⟩
  have hE : extrapolate F3 = setP F3.p E0 := by
    have t := extrapolate_setP F3.p G
    rw [← hF3, ← eE] at t
    exact t
  have hA : advectVel dt (extrapolate F3) = setP F3.p A0 := by
    rw [hE, advectVel_setP, ← eA]
  have tu : (simulate dt 0 n F).u = A0.u := by
    rw [hsim, hA]
    have a1 : ∀ X : Fluid, (fadeDensity X).u = X.u := fun X => by rw [fadeDensity_frame]
    have a2 : ∀ X : Fluid, (advectSmoke dt X).u = X.u := fun X => by rw [advectSmoke_frame]
    rw [a1, a2]
    rfl
  have tv : (simulate dt 0 n F).v = A0.v := by
    rw [hsim, hA]
    have a1 : ∀ X : Fluid, (fadeDensity X).v = X.v := fun X => by rw [fadeDensity_frame]
    have a2 : ∀ X : Fluid, (advectSmoke dt X).v = X.v := fun X => by rw [advectSmoke_frame]
    rw [a1, a2]
    rfl
  have tY : (simulate dt 0 n F).numY = F.numY := (simulate_keeps dt 0 n F).2.1
  have gX : G.numX = F.numX := by rw [eG]; rfl
  have gY : G.numY = F.numY := by rw [eG]; rfl
  have glu : G.u.length = nX * nY := by
    rw [eG]; unfold unpackState
    dsimp only
    rw [length_unpackVec]; exact hR.2.2.1
  have glv : G.v.length = nX * nY := by
    rw [eG]; unfold unpackState
    dsimp only
    rw [length_unpackVec]; exact hR.2.2.2.1
  have fX : F.numX = (nX : Int) := hR.1
  have fY : F.numY = (nY : Int) := hR.2.1
  obtain ⟨s1, s2, s3, _⟩ := extrapolate_spec G (by rw [gX, fX]; omega) (by rw [gY, fY]; omega)
    (by rw [glu, gX, gY, fX, fY]; push_cast; ring) (by rw [glv, gX, gY, fX, fY]; push_cast; ring)
  rw [← eE] at s1 s2 s3
  have eX : E0.numX = F.numX := by rw [s1]; exact gX
  have eY : E0.numY = F.numY := by rw [s1]; exact gY
  have elu : (E0.u.length : Int) = E0.numX * E0.numY := by
    rw [s2, glu, eX, eY, fX, fY]; push_cast; ring
  have elv : (E0.v.length : Int) = E0.numX * E0.numY := by
    rw [s3, glv, eX, eY, fX, fY]; push_cast; ring
  have q1 := advectVel_advected dt E0 elu elv (i + 1) j (by omega) (by rw [eX, fX]; omega) hj0
    (by rw [eY, fY]; omega)
  have q2 := advectVel_advected dt E0 elu elv i j hi0 (by rw [eX, fX]; omega) hj0
    (by rw [eY, fY]; omega)
  have q3 := advectVel_advected dt E0 elu elv i (j + 1) hi0 (by rw [eX, fX]; omega) (by omega)
    (by rw [eY, fY]; omega)
  rw [← eA] at q1 q2 q3
  unfold divergence advectedDivergence
  rw [tu, tv, tY, ← eY, q1.1, q2.1, q2.2]
  have e4 : i * E0.numY + j + 1 = i * E0.numY + (j + 1) := by ring
  rw [e4, q3.2, eE, eG]

/-- The packed check of a tick is sound: when it answers `some true`, the
absolute divergence of the cell after `simulate(dt, 0, n)` is at most the
bound. -/
theorem tickDivergenceWithin_sound (dt : ℚ) (n : Nat) (F : Fluid) (i j : Int) (bound : ℚ)
    (nX nY : Nat) (hX : 2 ≤ nX) (hY : 2 ≤ nY)
    (hR : PackedRel (packMask F.s) nX nY F (packState F))
    (hi0 : 0 ≤ i) (hi1 : i + 1 < nX) (hj0 : 0 ≤ j) (hj1 : j + 1 < nY)
    (h : tickDivergenceWithin dt n F i j bound = some true) :
    |divergence (simulate dt 0 n F) i j| ≤ bound := by
  unfold tickDivergenceWithin at h
  have eX : F.numX.toNat = nX := by rw [hR.1]; simp
  have eY : F.numY.toNat = nY := by rw [hR.2.1]; simp
  rw [eX, eY] at h
  cases hrun : fastProject (packMask F.s) nX nY n (packState F) with
  | none => rw [hrun] at h; exact absurd h (by simp)
  | some st =>
    rw [hrun] at h
    have hd : decide (|advectedDivergence dt (extrapolate (unpackState F st)) i j| ≤ bound)
        = true := Option.some.inj h
    rw [simulate_divergence_packed dt n F _ nX nY st hX hY hR hrun i j hi0 hi1 hj0 hj1]
    exact of_decide_eq_true hd

set_option maxRecDepth 1000000 in
/-- The scenario grid is described by its own packing on 12 × 12 cells: the
dimensions, the lengths, the mask bits and every entry of `u` and `v`. -/
theorem scenario_packed :
    PackedRel (packMask scenario.s) 12 12 scenario (packState scenario) := by
  decide!

set_option maxRecDepth 1000000 in
/-- The packed check of the scenario tick at the open cell `(4, 5)`: the 30
sweeps run on packed vectors without a failed check, and the divergence computed
from their result is within 10% of the divergence before the tick. -/
theorem scenario_within :
    tickDivergenceWithin (1 / 60) 30 scenario 4 5 (1 / 10 * |divergence scenario 4 5|)
      = some true := by
  decide!

/-- In the scenario the tick `simulate(1/60, 0, 30)` brings the absolute
divergence of the open cell `(4, 5)` to at most 10% of its value before the
tick. -/
theorem scenario_divergence_reduced :
    |divergence (simulate (1 / 60) 0 30 scenario) 4 5| ≤ 1 / 10 * |divergence scenario 4 5| := by
  have h := tickDivergenceWithin_sound (1 / 60) 30 scenario 4 5
    (1 / 10 * |divergence scenario 4 5|) 12 12 (by decide) (by decide) scenario_packed
    (by decide) (by decide) (by decide) (by decide) scenario_within
  exact h

/-- C8, amended. End-to-end scenario: on the grid built by `Fluid(10, 10, 0.1)`
the default obstacle makes the injection cell `(5, 5)` and the cells `(6, 5)`,
`(5, 6)`, `(6, 6)` solid; after `addVelocity(5, 5, 1.0, 0.0)` the two cells that
share the injected face have divergence `1` (the open cell `(4, 5)`) and `-1`
(the injection cell `(5, 5)`); after the tick `simulate(1/60, 0, 30)` the
absolute divergence of the open cell `(4, 5)` is at most 10% of its value before
the tick; and a tick `simulate(dt, gravity, numIters)` with any arguments, in
particular `(1/60, 0, 30)`, leaves the divergence of the solid injection cell
`(5, 5)` exactly `-1`, that is at 100% of its absolute value before the tick. -/
theorem C8_end_to_end :
    (rd scenario.s (5 * scenario.numY + 5) = 0 ∧ rd scenario.s (6 * scenario.numY + 5) = 0 ∧
      rd scenario.s (5 * scenario.numY + 6) = 0 ∧ rd scenario.s (6 * scenario.numY + 6) = 0) ∧
    rd scenario.s (4 * scenario.numY + 5) = 1 ∧
    divergence scenario 4 5 = 1 ∧ divergence scenario 5 5 = -1 ∧
    |divergence (simulate (1 / 60) 0 30 scenario) 4 5| ≤ 1 / 10 * |divergence scenario 4 5| ∧
    (∀ (dt gravity : ℚ) (numIters : Int),
      divergence (simulate dt gravity numIters scenario) 5 5 = -1) ∧
    |divergence (simulate (1 / 60) 0 30 scenario) 5 5| = |divergence scenario 5 5| := by
  obtain ⟨_, ⟨s55, _, _⟩, ⟨s65, s56, s66⟩, s45, d45, d55⟩ := scenario_facts
  refine ⟨⟨s55, s65, s56, s66⟩, s45, d45, d55, scenario_divergence_reduced, ?_, ?_⟩
  · intro dt gravity numIters
    rw [scenario_divergence_kept, d55]
  · rw [scenario_divergence_kept]

/-! ## The total divergence on the scenario grid -/

/-- The total computed on packed vectors is the total absolute interior
divergence after `solveIncompressibility(n, dt)`. -/
theorem projectedTotal_sound (dt : ℚ) (n : Nat) (F : Fluid) (nX nY : Nat) (t : ℚ)
    (hX : 2 ≤ nX) (hY : 2 ≤ nY)
    (hR : PackedRel (packMask F.s) nX nY F (packState F))
    (h : projectedTotal n F = some t) :
    totalAbsDivergence (solveIncompressibility (n : Int) dt F) = t := by
  unfold projectedTotal at h
  have eX : F.numX.toNat = nX := by rw [hR.1]; simp
  have eY : F.numY.toNat = nY := by rw [hR.2.1]; simp
  rw [eX, eY] at h
  cases hrun : fastProject (packMask F.s) nX nY n (packState F) with
  | none => rw [hrun] at h; exact absurd h (by simp)
  | some st =>
    rw [hrun] at h
    have ht : totalAbsDivergence (unpackState F st) = t := Option.some.inj h
    obtain ⟨F3, e3⟩ : ∃ F3, F3 = solveIncompressibility (n : Int) dt F := ⟨_, rfl⟩
    have hR3 : PackedRel (packMask F.s) nX nY F3 st := by
      rw [e3]; exact fastProject_sound dt _ nX nY n hX hY F _ st hR hrun
    obtain ⟨u3, v3⟩ := hR3.unpack
    have hF3 : F3 = setP F3.p (unpackState F st) := by
      have f3 := solveIncompressibility_frame (n : Int) dt F
      rw [← e3] at f3
      rw [f3]
      unfold unpackState setP
      rw [hR.2.2.1, hR.2.2.2.1]
      dsimp only
      rw [← u3, ← v3]
    rw [← e3, hF3, ← ht]
    rfl

set_option maxRecDepth 1000000 in
/-- On the grid of the end-to-end scenario (`Fluid(10, 10, 0.1)` after
`addVelocity(5, 5, 1, 0)`), which is not weakly coupled, the total absolute
interior divergence grows in the first iteration: it is `2` after 0 iterations
and `391510775 / 134217728`, about `2.917`, after 1 iteration. -/
theorem scenario_total_grows :
    ¬ WeaklyCoupled scenario ∧
    totalAbsDivergence (solveIncompressibility 0 (1 / 60) scenario) = 2 ∧
    totalAbsDivergence (solveIncompressibility 1 (1 / 60) scenario) = 391510775 / 134217728 ∧
    ¬ (totalAbsDivergence (solveIncompressibility 1 (1 / 60) scenario)
        ≤ totalAbsDivergence (solveIncompressibility 0 (1 / 60) scenario)) := by
  have h0 : totalAbsDivergence (solveIncompressibility 0 (1 / 60) scenario) = 2 := by decide!
  have h1 : totalAbsDivergence (solveIncompressibility 1 (1 / 60) scenario)
      = 391510775 / 134217728 :=
    projectedTotal_sound (1 / 60) 1 scenario 12 12 _ (by decide) (by decide) scenario_packed
      (by decide!)
  refine ⟨by decide!, h0, h1, ?_⟩
  rw [h0, h1]
  norm_num

end FluidSim
